import Mathlib

/-!
# Descriptor slot resolution and pipeline cache codec of `mantle_shader_pipeline.c`

A shallow embedding of the descriptor-slot resolver (`getDescriptorSlotsFromMapping`,
`compareDescriptorSlots`, `mergeDescriptorSlots`, `setupDescriptorSetIndices`,
`getDescriptorSlotMappings`), of the pipeline layout request (`getVkPipelineLayout`), of
the pipeline cache codec (`grStorePipeline`, `grLoadPipeline`) and of graphics pipeline
creation (`handleDynamicDescriptorSlots`, `grCreateGraphicsPipeline`), followed by the
properties established about them.

Conventions of the embedding:

* C arrays are lists; an array element write is `List.set`.
* `unsigned` / `uint32_t` values are natural numbers below `2 ^ 32`; where the C code
  can wrap, the modulus is written out.
* `assert(false)` is a fatal outcome (`Fault.assertion`); loops that are not structurally
  bounded carry a fuel argument and report `Fault.outOfFuel` when it runs out; an array
  read outside the array is `Fault.outOfBounds`.
* Constants, structure layouts and library routines that live outside the three source
  files (`mantle_internal.h`, the C library) are parameters of the definitions.
-/

namespace Grvk

/-! ## Data model -/

/-- Limits from `mantle_internal.h`, which is not among the sources: kept as parameters. -/
structure Limits where
  MAX_PATH_DEPTH : Nat
  MAX_STRIDES : Nat
  DESCRIPTORS_PER_SLOT : Nat
deriving DecidableEq, Repr

/-- How a run of the embedded code can end without a value. -/
inductive Fault where
  | assertion
  | outOfFuel
  | outOfBounds
deriving DecidableEq, Repr

deriving instance DecidableEq for Except

/-- The C structure `PipelineDescriptorSlot`: `path` has `MAX_PATH_DEPTH` entries,
`strideOffsets` and `strideSlotIndexes` have `MAX_STRIDES` entries. -/
structure PipelineDescriptorSlot where
  pathDepth : Nat
  path : List Nat
  strideCount : Nat
  strideOffsets : List Nat
  strideSlotIndexes : List Nat
deriving DecidableEq, Repr

instance : Inhabited PipelineDescriptorSlot := ⟨⟨0, [], 0, [], []⟩⟩

/-- The four bytes of a 32-bit `unsigned`, lowest address first (little endian). -/
def bytesOfUnsigned (x : Nat) : List Nat :=
  [x % 256, x / 256 % 256, x / 65536 % 256, x / 16777216 % 256]

/-- Byte-wise comparison as done by `memcmp`: the sign of the first difference. -/
def memcmpBytes : List Nat → List Nat → Int
  | a :: as, b :: bs => if a < b then -1 else if b < a then 1 else memcmpBytes as bs
  | _, _ => 0

/-- The call `memcmp(a, b, n * sizeof(unsigned))` on two arrays of `unsigned`. -/
def memcmp (a b : List Nat) (n : Nat) : Int :=
  memcmpBytes ((a.take n).flatMap bytesOfUnsigned) ((b.take n).flatMap bytesOfUnsigned)

/-- Source: `compareDescriptorSlots`. Only the depth of the first argument is used. -/
def compareDescriptorSlots (slotA slotB : PipelineDescriptorSlot) : Int :=
  memcmp slotA.path slotB.path slotA.pathDepth

/-- The C library routine `qsort` is outside the sources; the embedding takes it as a
parameter of this type (comparison function, then the array). -/
abbrev Qsort := (PipelineDescriptorSlot → PipelineDescriptorSlot → Int) →
  List PipelineDescriptorSlot → List PipelineDescriptorSlot

/-- One admissible `qsort`: a stable insertion sort driven by the comparison function. -/
def stableQsort : Qsort :=
  fun cmp l => List.insertionSort (fun a b => decide (cmp a b ≤ 0) = true) l

/-! ## `mergeDescriptorSlots` -/

/-- The inner loop `for (j = mergedIdx + 1; j <= i; j++)` of `mergeDescriptorSlots`,
as `n` iterations starting at index `j`, threading the slot at `mergedIdx`. -/
def mergeStrides (L : Limits) (descriptorSlots : List PipelineDescriptorSlot) :
    Nat → Nat → PipelineDescriptorSlot → Except Fault PipelineDescriptorSlot
  | _, 0, mergedSlot => .ok mergedSlot
  | j, n + 1, mergedSlot =>
    let slotToMerge := descriptorSlots.getD j default
    if slotToMerge.strideCount = 1 then
      if mergedSlot.strideCount ≥ L.MAX_STRIDES then
        .error Fault.assertion
      else
        mergeStrides L descriptorSlots (j + 1) n
          { mergedSlot with
            strideCount := mergedSlot.strideCount + 1
            strideOffsets :=
              mergedSlot.strideOffsets.set mergedSlot.strideCount
                (slotToMerge.strideOffsets.getD 0 0)
            strideSlotIndexes :=
              mergedSlot.strideSlotIndexes.set mergedSlot.strideCount
                (slotToMerge.strideSlotIndexes.getD 0 0) }
    else
      mergeStrides L descriptorSlots (j + 1) n mergedSlot

/-- The variables of the outer loop of `mergeDescriptorSlots`. The array always has
`*descriptorSlotCount` elements (it is reallocated to that count after every collapse),
so the count is the length of `descriptorSlots`. -/
structure MergeState where
  descriptorSlots : List PipelineDescriptorSlot
  i : Nat
  mergingDescriptorCount : Nat
deriving DecidableEq, Repr

/-- One pass through the body of the outer `for` loop of `mergeDescriptorSlots`,
including the `i++` that follows it. -/
def mergeIter (L : Limits) (st : MergeState) : Except Fault MergeState :=
  let count := st.descriptorSlots.length
  let i := st.i
  let isLastSlot := decide (i + 1 = count)
  let slot := st.descriptorSlots.getD i default
  let nextSlot := st.descriptorSlots.getD (i + 1) default
  let mergingDescriptorCount := st.mergingDescriptorCount + 1
  if !isLastSlot && decide (slot.pathDepth = nextSlot.pathDepth) &&
      decide (memcmp slot.path nextSlot.path slot.pathDepth = 0) then
    -- can't merge yet
    .ok { st with i := i + 1, mergingDescriptorCount := mergingDescriptorCount }
  else
    -- `i - mergingDescriptorCount + 1` in `unsigned` arithmetic
    let mergedIdx := i + 1 - mergingDescriptorCount
    match mergeStrides L st.descriptorSlots (mergedIdx + 1) (i - mergedIdx)
        (st.descriptorSlots.getD mergedIdx default) with
    | .error e => .error e
    | .ok mergedSlot =>
      -- `memmove` of the tail behind the merged slot, then the count shrinks
      .ok { descriptorSlots :=
              st.descriptorSlots.take mergedIdx ++ mergedSlot :: st.descriptorSlots.drop (i + 1)
            i := mergedIdx + 1
            mergingDescriptorCount := 0 }

/-- The outer loop `for (i = 0; i < *descriptorSlotCount; i++)`. -/
def mergeLoop (L : Limits) : Nat → MergeState → Except Fault (List PipelineDescriptorSlot)
  | 0, st => if st.i < st.descriptorSlots.length then .error Fault.outOfFuel
             else .ok st.descriptorSlots
  | fuel + 1, st =>
    if st.i < st.descriptorSlots.length then
      match mergeIter L st with
      | .error e => .error e
      | .ok st1 => mergeLoop L fuel st1
    else .ok st.descriptorSlots

/-- Source: `mergeDescriptorSlots`. The loop body runs once per element of the sorted
array, so the element count is enough fuel. -/
def mergeDescriptorSlots (L : Limits) (qsort : Qsort)
    (descriptorSlots : List PipelineDescriptorSlot) :
    Except Fault (List PipelineDescriptorSlot) :=
  let sorted := qsort compareDescriptorSlots descriptorSlots
  mergeLoop L sorted.length { descriptorSlots := sorted, i := 0, mergingDescriptorCount := 0 }

/-- The PathKey of a slot: its depth and the first `pathDepth` entries of its path. -/
def pathKey (s : PipelineDescriptorSlot) : Nat × List Nat :=
  (s.pathDepth, s.path.take s.pathDepth)

/-! ## Shader bindings and descriptor set mappings -/

/-- The kind of a reflected binding (`IlcBindingType` of `amdilc.h`). -/
inductive IlcBindingType where
  | ILC_BINDING_SAMPLER
  | ILC_BINDING_RESOURCE
deriving DecidableEq, Repr

/-- The fields of `IlcBinding` that the pipeline code reads. -/
structure IlcBinding where
  id : Nat
  type : IlcBindingType
  ilIndex : Nat
  descriptorType : Nat
  strideIndex : Int
  offsetSpecId : Nat
  descriptorSetIndexSpecId : Nat
deriving DecidableEq, Repr

/-- The structure `IlcBindingPatchEntry`. -/
structure IlcBindingPatchEntry where
  id : Nat
  bindingIndex : Nat
  descriptorSetIndex : Nat
deriving DecidableEq, Repr

instance : Inhabited IlcBindingPatchEntry := ⟨⟨0, 0, 0⟩⟩

/-- The slot object types of the API (`GR_DESCRIPTOR_SET_SLOT_TYPE`). -/
inductive GR_DESCRIPTOR_SET_SLOT_TYPE where
  | GR_SLOT_UNUSED
  | GR_SLOT_SHADER_RESOURCE
  | GR_SLOT_SHADER_UAV
  | GR_SLOT_SHADER_SAMPLER
  | GR_SLOT_NEXT_DESCRIPTOR_SET
deriving DecidableEq, Repr

open GR_DESCRIPTOR_SET_SLOT_TYPE IlcBindingType

/-- The structure `GR_DESCRIPTOR_SLOT_INFO`; a `GR_DESCRIPTOR_SET_MAPPING` is the list of
its slot infos (`descriptorCount` is the length). The C union of `shaderEntityIndex` and
`pNextLevelSet` is kept as two fields, of which the slot type selects one. -/
inductive GR_DESCRIPTOR_SLOT_INFO where
  | mk (slotObjectType : GR_DESCRIPTOR_SET_SLOT_TYPE) (shaderEntityIndex : Nat)
      (pNextLevelSet : List GR_DESCRIPTOR_SLOT_INFO)

/-- A descriptor set mapping node: `pDescriptorInfo[0 .. descriptorCount - 1]`. -/
abbrev GR_DESCRIPTOR_SET_MAPPING := List GR_DESCRIPTOR_SLOT_INFO

/-- Field `slotObjectType`. -/
def GR_DESCRIPTOR_SLOT_INFO.slotObjectType : GR_DESCRIPTOR_SLOT_INFO →
    GR_DESCRIPTOR_SET_SLOT_TYPE
  | .mk t _ _ => t

/-- Field `shaderEntityIndex`. -/
def GR_DESCRIPTOR_SLOT_INFO.shaderEntityIndex : GR_DESCRIPTOR_SLOT_INFO → Nat
  | .mk _ e _ => e

/-- Field `pNextLevelSet`. -/
def GR_DESCRIPTOR_SLOT_INFO.pNextLevelSet : GR_DESCRIPTOR_SLOT_INFO →
    GR_DESCRIPTOR_SET_MAPPING
  | .mk _ _ n => n

/-- The condition of the "find matching binding" loops, for one binding. -/
def bindingMatches (slotInfo : GR_DESCRIPTOR_SLOT_INFO) (binding : IlcBinding) : Bool :=
  decide (binding.ilIndex = slotInfo.shaderEntityIndex) &&
    ((decide (binding.type = ILC_BINDING_SAMPLER) &&
        decide (slotInfo.slotObjectType = GR_SLOT_SHADER_SAMPLER)) ||
      (decide (binding.type = ILC_BINDING_RESOURCE) &&
        (decide (slotInfo.slotObjectType = GR_SLOT_SHADER_RESOURCE) ||
          decide (slotInfo.slotObjectType = GR_SLOT_SHADER_UAV))))

/-- The "find matching binding" loop: the first index `j` whose binding matches. -/
def findBinding (bindings : List IlcBinding) (slotInfo : GR_DESCRIPTOR_SLOT_INFO) :
    Option Nat :=
  bindings.findIdx? (bindingMatches slotInfo)

/-! ## `getDescriptorSlotsFromMapping` -/

/-- What `getDescriptorSlotsFromMapping` updates: the growing slot array (its count is the
length), the per-binding offsets and the path buffer. -/
structure ExtractState where
  descriptorSlots : List PipelineDescriptorSlot
  offsets : List Nat
  path : List Nat
deriving DecidableEq, Repr

/-- The slot appended by `getDescriptorSlotsFromMapping` for a matched binding: the first
`pathDepth` entries of the path buffer are copied into a zeroed path array, and one stride
pair is recorded when the binding has a stride index. -/
def extractedSlot (L : Limits) (pathDepth : Nat) (path : List Nat) (i : Nat)
    (binding : IlcBinding) : PipelineDescriptorSlot :=
  let slotPath := path.take pathDepth ++ List.replicate (L.MAX_PATH_DEPTH - pathDepth) 0
  let zeroStrides := List.replicate L.MAX_STRIDES 0
  if 0 ≤ binding.strideIndex then
    { pathDepth := pathDepth
      path := slotPath
      strideCount := 1
      strideOffsets := zeroStrides.set 0 ((binding.strideIndex * 4).toNat % 2 ^ 32)
      strideSlotIndexes := zeroStrides.set 0 i }
  else
    { pathDepth := pathDepth
      path := slotPath
      strideCount := 0
      strideOffsets := zeroStrides
      strideSlotIndexes := zeroStrides }

mutual
/-- The body of the slot loop of `getDescriptorSlotsFromMapping` for slot `i`. -/
def extractSlot (L : Limits) (getDescriptorOffset : Nat → Nat) (bindings : List IlcBinding)
    (pathDepth : Nat) (i : Nat) :
    GR_DESCRIPTOR_SLOT_INFO → ExtractState → Except Fault ExtractState
  | .mk slotObjectType shaderEntityIndex pNextLevelSet, st =>
    if slotObjectType = GR_SLOT_UNUSED then
      .ok st
    else if slotObjectType = GR_SLOT_NEXT_DESCRIPTOR_SET then
      if pathDepth ≥ L.MAX_PATH_DEPTH then
        .error Fault.assertion
      else
        extractSlots L getDescriptorOffset bindings (pathDepth + 1) 0 pNextLevelSet
          { st with path := st.path.set pathDepth i }
    else
      match findBinding bindings (.mk slotObjectType shaderEntityIndex pNextLevelSet) with
      | none => .ok st
      | some j =>
        let binding := bindings.getD j ⟨0, ILC_BINDING_SAMPLER, 0, 0, 0, 0, 0⟩
        let descriptorTypeOffset := getDescriptorOffset binding.descriptorType
        .ok { st with
              descriptorSlots :=
                st.descriptorSlots ++ [extractedSlot L pathDepth st.path i binding]
              offsets := st.offsets.set j
                ((i * L.DESCRIPTORS_PER_SLOT + descriptorTypeOffset) % 2 ^ 32) }
/-- The loop `for (i = ...; i < mapping->descriptorCount; i++)` of
`getDescriptorSlotsFromMapping` over the slots not yet visited. -/
def extractSlots (L : Limits) (getDescriptorOffset : Nat → Nat) (bindings : List IlcBinding)
    (pathDepth : Nat) (i : Nat) :
    List GR_DESCRIPTOR_SLOT_INFO → ExtractState → Except Fault ExtractState
  | [], st => .ok st
  | slotInfo :: rest, st =>
    match extractSlot L getDescriptorOffset bindings pathDepth i slotInfo st with
    | .error e => .error e
    | .ok st1 => extractSlots L getDescriptorOffset bindings pathDepth (i + 1) rest st1
end

/-- Source: `getDescriptorSlotsFromMapping`. -/
def getDescriptorSlotsFromMapping (L : Limits) (getDescriptorOffset : Nat → Nat)
    (bindings : List IlcBinding) (mapping : GR_DESCRIPTOR_SET_MAPPING) (pathDepth : Nat)
    (st : ExtractState) : Except Fault ExtractState :=
  extractSlots L getDescriptorOffset bindings pathDepth 0 mapping st

/-! ## `setupDescriptorSetIndices` -/

/-- What `setupDescriptorSetIndices` updates. -/
structure SetupState where
  patchEntries : List IlcBindingPatchEntry
  descriptorSetIndices : List Nat
  path : List Nat
deriving DecidableEq, Repr

/-- The first loop of `setupDescriptorSetIndices`: the index of the first slot with the
given depth whose path agrees with the buffer on that depth, else `0xFFFFFFFF`. -/
def lookupDescriptorSetIndex (descriptorSlots : List PipelineDescriptorSlot)
    (pathDepth : Nat) (path : List Nat) : Nat :=
  match descriptorSlots.findIdx?
      (fun slot => decide (slot.pathDepth = pathDepth) &&
        decide (memcmp slot.path path pathDepth = 0)) with
  | some i => i
  | none => 0xFFFFFFFF

mutual
/-- The body of the second loop of `setupDescriptorSetIndices` for slot `i`;
`descriptorSetIndex` is the value found by the first loop of the same call. -/
def setupSlot (L : Limits) (descriptorSlots : List PipelineDescriptorSlot)
    (bindings : List IlcBinding) (descriptorSetIndexOffset : Nat)
    (descriptorSetIndex : Nat) (pathDepth : Nat) (i : Nat) :
    GR_DESCRIPTOR_SLOT_INFO → SetupState → Except Fault SetupState
  | .mk slotObjectType shaderEntityIndex pNextLevelSet, st =>
    if slotObjectType = GR_SLOT_UNUSED then
      .ok st
    else if slotObjectType = GR_SLOT_NEXT_DESCRIPTOR_SET then
      if pathDepth ≥ L.MAX_PATH_DEPTH then
        .error Fault.assertion
      else
        setupSlots L descriptorSlots bindings descriptorSetIndexOffset
          (lookupDescriptorSetIndex descriptorSlots (pathDepth + 1) (st.path.set pathDepth i))
          (pathDepth + 1) 0 pNextLevelSet { st with path := st.path.set pathDepth i }
    else
      match findBinding bindings (.mk slotObjectType shaderEntityIndex pNextLevelSet) with
      | none => .ok st
      | some j =>
        let binding := bindings.getD j ⟨0, ILC_BINDING_SAMPLER, 0, 0, 0, 0, 0⟩
        let computedDescriptorSetIndex :=
          (descriptorSetIndexOffset + descriptorSetIndex) % 2 ^ 32
        .ok { st with
              descriptorSetIndices := st.descriptorSetIndices.set j computedDescriptorSetIndex
              patchEntries := st.patchEntries.set j
                { id := binding.id, bindingIndex := 0,
                  descriptorSetIndex := computedDescriptorSetIndex } }
/-- The second loop of `setupDescriptorSetIndices` over the slots not yet visited. -/
def setupSlots (L : Limits) (descriptorSlots : List PipelineDescriptorSlot)
    (bindings : List IlcBinding) (descriptorSetIndexOffset : Nat)
    (descriptorSetIndex : Nat) (pathDepth : Nat) (i : Nat) :
    List GR_DESCRIPTOR_SLOT_INFO → SetupState → Except Fault SetupState
  | [], st => .ok st
  | slotInfo :: rest, st =>
    match setupSlot L descriptorSlots bindings descriptorSetIndexOffset descriptorSetIndex
        pathDepth i slotInfo st with
    | .error e => .error e
    | .ok st1 =>
      setupSlots L descriptorSlots bindings descriptorSetIndexOffset descriptorSetIndex
        pathDepth (i + 1) rest st1
end

/-- Source: `setupDescriptorSetIndices`: the lookup of the merged slot for the current
path, then the slot loop. -/
def setupDescriptorSetIndices (L : Limits) (descriptorSlots : List PipelineDescriptorSlot)
    (bindings : List IlcBinding) (descriptorSetIndexOffset : Nat)
    (mapping : GR_DESCRIPTOR_SET_MAPPING) (pathDepth : Nat) (st : SetupState) :
    Except Fault SetupState :=
  setupSlots L descriptorSlots bindings descriptorSetIndexOffset
    (lookupDescriptorSetIndex descriptorSlots pathDepth st.path) pathDepth 0 mapping st

/-! ## `getDescriptorSlotMappings` -/

/-- The fields of `GrShader` used by pipeline creation (`bindingCount` is the length of
`bindings`, `codeSize` the length of `code`, `inputCount` the length of `inputs`,
`outputCount` the length of `outputLocations`). -/
structure GrShader where
  bindings : List IlcBinding
  code : List Nat
  inputs : List Nat := []
  outputLocations : List Nat := []
deriving DecidableEq, Repr

/-- The structure `GR_DYNAMIC_MEMORY_VIEW_SLOT_INFO`. -/
structure GR_DYNAMIC_MEMORY_VIEW_SLOT_INFO where
  slotObjectType : GR_DESCRIPTOR_SET_SLOT_TYPE
  shaderEntityIndex : Nat
deriving DecidableEq, Repr

/-- The fields of `GR_PIPELINE_SHADER` used by pipeline creation: the shader handle
(`none` is `GR_NULL_HANDLE`), `descriptorSetMapping[GR_MAX_DESCRIPTOR_SETS]` and
`dynamicMemoryViewMapping`. -/
structure GR_PIPELINE_SHADER where
  shader : Option GrShader
  descriptorSetMapping : List GR_DESCRIPTOR_SET_MAPPING
  dynamicMemoryViewMapping : GR_DYNAMIC_MEMORY_VIEW_SLOT_INFO := ⟨GR_SLOT_UNUSED, 0⟩

/-- The structure `Stage` of the source file. -/
structure Stage where
  shader : GR_PIPELINE_SHADER
  flags : Nat

/-- The per-stage arrays handed to `getDescriptorSlotMappings`: `patchEntries[i]`,
`specOffsets[i]` and `specDescriptorIndices[i]`. -/
structure StageBuffers where
  patchEntries : List IlcBindingPatchEntry
  specOffsets : List Nat
  specDescriptorIndices : List Nat
deriving DecidableEq, Repr

instance : Inhabited StageBuffers := ⟨⟨[], [], []⟩⟩

/-- The local `unsigned path[MAX_PATH_DEPTH]`, which C leaves uninitialised: its initial
entries are whatever `uninit` says. -/
def localPath (L : Limits) (uninit : Nat → Nat) : List Nat :=
  (List.range L.MAX_PATH_DEPTH).map uninit

/-- The first stage loop of `getDescriptorSlotMappings` (extraction), from stage `i` on. -/
def extractStages (L : Limits) (getDescriptorOffset : Nat → Nat) (uninit : Nat → Nat)
    (mappingIndex : Nat) :
    Nat → List Stage → List PipelineDescriptorSlot × List StageBuffers →
      Except Fault (List PipelineDescriptorSlot × List StageBuffers)
  | _, [], acc => .ok acc
  | i, stage :: rest, (descriptorSlots, buffers) =>
    match stage.shader.shader with
    | none => extractStages L getDescriptorOffset uninit mappingIndex (i + 1) rest
        (descriptorSlots, buffers)
    | some grShader =>
      let b := buffers.getD i default
      match getDescriptorSlotsFromMapping L getDescriptorOffset grShader.bindings
          (stage.shader.descriptorSetMapping.getD mappingIndex []) 0
          { descriptorSlots := descriptorSlots, offsets := b.specOffsets,
            path := localPath L uninit } with
      | .error e => .error e
      | .ok st =>
        extractStages L getDescriptorOffset uninit mappingIndex (i + 1) rest
          (st.descriptorSlots, buffers.set i { b with specOffsets := st.offsets })

/-- The second stage loop of `getDescriptorSlotMappings` (index assignment), from stage
`i` on. -/
def setupStages (L : Limits) (uninit : Nat → Nat) (mappingIndex : Nat)
    (descriptorSlots : List PipelineDescriptorSlot) (descriptorSetIndexOffset : Nat) :
    Nat → List Stage → List StageBuffers → Except Fault (List StageBuffers)
  | _, [], buffers => .ok buffers
  | i, stage :: rest, buffers =>
    match stage.shader.shader with
    | none => setupStages L uninit mappingIndex descriptorSlots descriptorSetIndexOffset
        (i + 1) rest buffers
    | some grShader =>
      let b := buffers.getD i default
      match setupDescriptorSetIndices L descriptorSlots grShader.bindings
          descriptorSetIndexOffset
          (stage.shader.descriptorSetMapping.getD mappingIndex []) 0
          { patchEntries := b.patchEntries, descriptorSetIndices := b.specDescriptorIndices,
            path := localPath L uninit } with
      | .error e => .error e
      | .ok st =>
        setupStages L uninit mappingIndex descriptorSlots descriptorSetIndexOffset
          (i + 1) rest
          (buffers.set i { b with patchEntries := st.patchEntries,
                                  specDescriptorIndices := st.descriptorSetIndices })

/-- Source: `getDescriptorSlotMappings`: extraction over all stages, the merge, then index
assignment over all stages. Returns the merged slot array and the per-stage arrays. -/
def getDescriptorSlotMappings (L : Limits) (getDescriptorOffset : Nat → Nat) (qsort : Qsort)
    (uninit : Nat → Nat) (descriptorSlots : List PipelineDescriptorSlot)
    (stages : List Stage) (buffers : List StageBuffers) (mappingIndex : Nat)
    (descriptorSetIndexOffset : Nat) :
    Except Fault (List PipelineDescriptorSlot × List StageBuffers) :=
  match extractStages L getDescriptorOffset uninit mappingIndex 0 stages
      (descriptorSlots, buffers) with
  | .error e => .error e
  | .ok (extracted, buffers1) =>
    match mergeDescriptorSlots L qsort extracted with
    | .error e => .error e
    | .ok merged =>
      match setupStages L uninit mappingIndex merged descriptorSetIndexOffset 0 stages
          buffers1 with
      | .error e => .error e
      | .ok buffers2 => .ok (merged, buffers2)

/-! ## Specification-side notions for index assignment -/

mutual
/-- The matches found below one mapping slot: for every bound slot that matches a binding,
the route to it (the slot indices of the redirections taken from the root) and the index
of the matched binding, in the order of the walk. -/
def matchedInSlot (bindings : List IlcBinding) (route : List Nat) (i : Nat) :
    GR_DESCRIPTOR_SLOT_INFO → List (List Nat × Nat)
  | .mk slotObjectType shaderEntityIndex pNextLevelSet =>
    if slotObjectType = GR_SLOT_UNUSED then []
    else if slotObjectType = GR_SLOT_NEXT_DESCRIPTOR_SET then
      matchedInMapping bindings (route ++ [i]) 0 pNextLevelSet
    else
      match findBinding bindings (.mk slotObjectType shaderEntityIndex pNextLevelSet) with
      | none => []
      | some j => [(route, j)]
/-- The matches found in the slots `i, i + 1, ...` of a mapping node reached by `route`. -/
def matchedInMapping (bindings : List IlcBinding) (route : List Nat) (i : Nat) :
    List GR_DESCRIPTOR_SLOT_INFO → List (List Nat × Nat)
  | [] => []
  | slotInfo :: rest =>
    matchedInSlot bindings route i slotInfo ++ matchedInMapping bindings route (i + 1) rest
end

/-- The descriptor set index that index assignment gives to a route: the base offset plus
the position of the first merged slot with that PathKey (`0xFFFFFFFF` if there is none),
in 32-bit arithmetic. -/
def setIndexOfRoute (descriptorSlots : List PipelineDescriptorSlot)
    (descriptorSetIndexOffset : Nat) (route : List Nat) : Nat :=
  (descriptorSetIndexOffset + lookupDescriptorSetIndex descriptorSlots route.length route) %
    2 ^ 32

/-- The two array writes that index assignment performs for one match. -/
def setupWrite (slots : List PipelineDescriptorSlot) (bindings : List IlcBinding) (off : Nat)
    (acc : List IlcBindingPatchEntry × List Nat) (w : List Nat × Nat) :
    List IlcBindingPatchEntry × List Nat :=
  (acc.1.set w.2 { id := (bindings.getD w.2 ⟨0, ILC_BINDING_SAMPLER, 0, 0, 0, 0, 0⟩).id,
                   bindingIndex := 0, descriptorSetIndex := setIndexOfRoute slots off w.1 },
   acc.2.set w.2 (setIndexOfRoute slots off w.1))

/-- What the index-assignment walk below one mapping slot is shown to do. -/
def SetupSlotSpec (L : Limits) (slots : List PipelineDescriptorSlot)
    (bindings : List IlcBinding) (off : Nat) (s : GR_DESCRIPTOR_SLOT_INFO) : Prop :=
  ∀ (d i : Nat) (st st1 : SetupState),
    st.path.length = L.MAX_PATH_DEPTH → d ≤ L.MAX_PATH_DEPTH →
    setupSlot L slots bindings off (lookupDescriptorSetIndex slots d st.path) d i s st = .ok st1 →
    st1.path.length = L.MAX_PATH_DEPTH ∧ st1.path.take d = st.path.take d ∧
    (st1.patchEntries, st1.descriptorSetIndices) =
      (matchedInSlot bindings (st.path.take d) i s).foldl (setupWrite slots bindings off)
        (st.patchEntries, st.descriptorSetIndices)

/-- What the index-assignment walk over the rest of a mapping node is shown to do. -/
def SetupSlotsSpec (L : Limits) (slots : List PipelineDescriptorSlot)
    (bindings : List IlcBinding) (off : Nat) (m : List GR_DESCRIPTOR_SLOT_INFO) : Prop :=
  ∀ (d i : Nat) (st st1 : SetupState),
    st.path.length = L.MAX_PATH_DEPTH → d ≤ L.MAX_PATH_DEPTH →
    setupSlots L slots bindings off (lookupDescriptorSetIndex slots d st.path) d i m st = .ok st1 →
    st1.path.length = L.MAX_PATH_DEPTH ∧ st1.path.take d = st.path.take d ∧
    (st1.patchEntries, st1.descriptorSetIndices) =
      (matchedInMapping bindings (st.path.take d) i m).foldl (setupWrite slots bindings off)
        (st.patchEntries, st.descriptorSetIndices)

/-! ## Example inputs -/

/-- The limits used in the examples. -/
def exampleLimits : Limits :=
  { MAX_PATH_DEPTH := 8, MAX_STRIDES := 8, DESCRIPTORS_PER_SLOT := 8 }

/-- A resource binding without stride constant. -/
def exampleBinding (id ilIndex : Nat) : IlcBinding :=
  { id := id, type := ILC_BINDING_RESOURCE, ilIndex := ilIndex, descriptorType := 0,
    strideIndex := -1, offsetSpecId := 0, descriptorSetIndexSpecId := 0 }

/-- A mapping whose root slot 0 redirects to a nested set holding resource 0, and whose
root slot 1 holds resource 1. -/
def exampleMappingA : GR_DESCRIPTOR_SET_MAPPING :=
  [.mk GR_SLOT_NEXT_DESCRIPTOR_SET 0 [.mk GR_SLOT_SHADER_RESOURCE 0 []],
   .mk GR_SLOT_SHADER_RESOURCE 1 []]

/-- A mapping whose root slot 0 redirects to a nested set holding resource 0. -/
def exampleMappingB : GR_DESCRIPTOR_SET_MAPPING :=
  [.mk GR_SLOT_NEXT_DESCRIPTOR_SET 0 [.mk GR_SLOT_SHADER_RESOURCE 0 []]]

/-- A vertex stage using resources 0 and 1 through `exampleMappingA`. -/
def exampleStageA : Stage :=
  { shader :=
      { shader := some { bindings := [exampleBinding 10 0, exampleBinding 11 1], code := [] }
        descriptorSetMapping := [exampleMappingA] }
    flags := 1 }

/-- A fragment stage using resource 0 through `exampleMappingB`. -/
def exampleStageB : Stage :=
  { shader :=
      { shader := some { bindings := [exampleBinding 20 0], code := [] }
        descriptorSetMapping := [exampleMappingB] }
    flags := 16 }

/-- The per-stage arrays for the two example stages. -/
def exampleBuffers : List StageBuffers :=
  [{ patchEntries := [default, default], specOffsets := [0, 0],
     specDescriptorIndices := [0, 0] },
   { patchEntries := [default], specOffsets := [0], specDescriptorIndices := [0] }]

/-- A slot as extracted at the given depth under root slot 0, without stride. -/
def exampleSlot (pathDepth : Nat) : PipelineDescriptorSlot :=
  { pathDepth := pathDepth, path := [0, 0, 0, 0, 0, 0, 0, 0], strideCount := 0,
    strideOffsets := [0, 0, 0, 0, 0, 0, 0, 0], strideSlotIndexes := [0, 0, 0, 0, 0, 0, 0, 0] }

/-- The slots extracted from the two example stages, in extraction order. -/
def exampleExtracted : List PipelineDescriptorSlot :=
  [exampleSlot 1, exampleSlot 0, exampleSlot 1]

/-- The result codes of the API that the embedded functions return or pass on. -/
inductive GR_RESULT where
  | GR_SUCCESS
  | GR_UNSUPPORTED
  | GR_ERROR_INVALID_POINTER
  | GR_ERROR_INVALID_MEMORY_SIZE
  | GR_ERROR_BAD_PIPELINE_DATA
  | GR_ERROR_OUT_OF_MEMORY
  | GR_NOT_READY
  | GR_TIMEOUT
  | GR_EVENT_SET
  | GR_EVENT_RESET
  | GR_ERROR_OUT_OF_GPU_MEMORY
  | GR_ERROR_DEVICE_LOST
  | GR_ERROR_MEMORY_MAP_FAILED
  | GR_ERROR_UNKNOWN
deriving DecidableEq, Repr

open GR_RESULT

/-- Sizes and limits of the codec that come from headers outside the sources: the width
in bits of `GR_SIZE` (`size_t`), the array bounds, the `sizeof` of every structure that
the codec measures, and the two counts that size the push constant range. -/
structure BlobLayout where
  sizeBits : Nat
  MAX_STAGE_COUNT : Nat
  GR_MAX_DESCRIPTOR_SETS : Nat
  sizeofGrStoredPipelineBlob : Nat
  sizeofGrBaseBlobChunk : Nat
  sizeofGrSpirvBlobChunk : Nat
  sizeofGrSpecInfoDataBlobChunk : Nat
  sizeofGrSpecInfoMapEntryBlobChunk : Nat
  sizeofGrPipelineDescriptorChunk : Nat
  sizeofGrGraphicsPipelineInfoChunk : Nat
  sizeofGrPipelineInfoChunk : Nat
  sizeofPipelineDescriptorSlot : Nat
  sizeofVkSpecializationMapEntry : Nat
  DESCRIPTOR_OFFSET_COUNT : Nat
  ILC_MAX_STRIDE_CONSTANTS : Nat
deriving DecidableEq, Repr

/-- The macro `align(size, GR_CHUNK_ALIGNMENT)` applied to a `size_t` value:
`(size + 4 - 1) & ~(4 - 1)` in arithmetic modulo `2 ^ sizeBits`. -/
def alignSize (Y : BlobLayout) (size : Nat) : Nat :=
  (size + 3) % 2 ^ Y.sizeBits / 4 * 4

/-- The same macro applied to the `uint32_t` field `chunk->size`: 32-bit arithmetic. -/
def alignU32 (size : Nat) : Nat :=
  (size + 3) % 2 ^ 32 / 4 * 4

/-- The value `VK_SHADER_STAGE_COMPUTE_BIT`. -/
def VK_SHADER_STAGE_COMPUTE_BIT : Nat := 0x20

/-- The value `VK_SHADER_STAGE_TESSELLATION_CONTROL_BIT`. -/
def VK_SHADER_STAGE_TESSELLATION_CONTROL_BIT : Nat := 0x2

/-- The value `VK_SHADER_STAGE_TESSELLATION_EVALUATION_BIT`. -/
def VK_SHADER_STAGE_TESSELLATION_EVALUATION_BIT : Nat := 0x4

/-- The value `VK_SHADER_STAGE_ALL_GRAPHICS`. -/
def VK_SHADER_STAGE_ALL_GRAPHICS : Nat := 0x1F

/-- The value `VK_PIPELINE_CREATE_DESCRIPTOR_BUFFER_BIT_EXT`. -/
def VK_PIPELINE_CREATE_DESCRIPTOR_BUFFER_BIT_EXT : Nat := 0x20000000

/-- The values of `VkPipelineBindPoint` used by the file. -/
inductive VkPipelineBindPoint where
  | VK_PIPELINE_BIND_POINT_GRAPHICS
  | VK_PIPELINE_BIND_POINT_COMPUTE
deriving DecidableEq, Repr

open VkPipelineBindPoint

/-- The structure `VkSpecializationMapEntry`. -/
structure VkSpecializationMapEntry where
  constantID : Nat
  offset : Nat
  size : Nat
deriving DecidableEq, Repr

instance : Inhabited VkSpecializationMapEntry := ⟨⟨0, 0, 0⟩⟩

/-- The counts of `VkSpecializationInfo`; its two pointers always point at the pipeline's
`mapEntries[i]` and `specData[i]` arrays, which the pipeline model holds directly. -/
structure VkSpecializationInfo where
  mapEntryCount : Nat
  dataSize : Nat
deriving DecidableEq, Repr

instance : Inhabited VkSpecializationInfo := ⟨⟨0, 0⟩⟩

/-- The fields of `VkPipelineShaderStageCreateInfo` that vary: the stage bit and the shader
module (`none` is `VK_NULL_HANDLE`). -/
structure VkPipelineShaderStageCreateInfo where
  stage : Nat
  module : Option Nat
deriving DecidableEq, Repr

instance : Inhabited VkPipelineShaderStageCreateInfo := ⟨⟨0, none⟩⟩

/-- The structure `PipelineCreateInfo`. -/
structure PipelineCreateInfo where
  stageCreateInfos : List VkPipelineShaderStageCreateInfo
  topology : Nat
  patchControlPoints : Nat
  depthClipEnable : Nat
  alphaToCoverageEnable : Nat
  logicOpEnable : Nat
  logicOp : Nat
  colorFormats : List Nat
  colorWriteMasks : List Nat
  depthFormat : Nat
  stencilFormat : Nat
deriving DecidableEq, Repr

/-- The fields of `GrPipeline`. Pointers are options (`none` is `NULL`), handles are
options (`none` is `VK_NULL_HANDLE`), arrays are lists. -/
structure GrPipeline where
  shaderModules : List (Option Nat)
  shaderCode : List (Option (List Nat))
  shaderCodeSizes : List Nat
  createFlags : Nat
  createInfo : Option PipelineCreateInfo
  hasTessellation : Bool
  pipeline : Option Nat
  pipelineLayout : Option Nat
  stageCount : Nat
  dynamicMappingUsed : Nat
  dynamicDescriptorSlot : PipelineDescriptorSlot
  descriptorSetCounts : List Nat
  descriptorSlots : List (Option (List PipelineDescriptorSlot))
  specInfos : List VkSpecializationInfo
  specData : List (Option (List Nat))
  mapEntries : List (Option (List VkSpecializationMapEntry))
deriving DecidableEq, Repr

/-- The chunk types of the blob; `other` stands for any value that is none of the six
enumerators (the `switch` statements have no default case). -/
inductive GrBlobChunkType where
  | PIPELINE_INFO
  | GRAPHICS_PIPELINE_INFO
  | DESCRIPTOR_SLOTS
  | SPIRV
  | SPEC_INFO
  | SPEC_INFO_ENTRIES
  | other (raw : Nat)
deriving DecidableEq, Repr

open GrBlobChunkType

/-- The structure `GrSpirvBlobChunk`. -/
structure GrSpirvBlobChunk where
  stageIndex : Nat
  stageFlags : Nat
  codeSize : Nat
  code : List Nat
deriving DecidableEq, Repr

/-- The structure `GrSpecInfoDataBlobChunk`. -/
structure GrSpecInfoDataBlobChunk where
  stageIndex : Nat
  dataSize : Nat
  data : List Nat
deriving DecidableEq, Repr

/-- The structure `GrSpecInfoMapEntryBlobChunk`. -/
structure GrSpecInfoMapEntryBlobChunk where
  stageIndex : Nat
  mapEntryCount : Nat
  data : List VkSpecializationMapEntry
deriving DecidableEq, Repr

/-- The structure `GrPipelineDescriptorChunk`. -/
structure GrPipelineDescriptorChunk where
  descriptorSetCounts : List Nat
  data : List PipelineDescriptorSlot
deriving DecidableEq, Repr

/-- The structure `GrGraphicsPipelineInfoChunk`. -/
structure GrGraphicsPipelineInfoChunk where
  topology : Nat
  patchControlPoints : Nat
  depthClipEnable : Nat
  alphaToCoverageEnable : Nat
  logicOpEnable : Nat
  logicOp : Nat
  colorFormats : List Nat
  colorWriteMasks : List Nat
  depthFormat : Nat
  stencilFormat : Nat
deriving DecidableEq, Repr

/-- The structure `GrPipelineInfoChunk`. -/
structure GrPipelineInfoChunk where
  createFlags : Nat
  stageCount : Nat
  dynamicMappingUsed : Nat
  dynamicDescriptorSlot : PipelineDescriptorSlot
deriving DecidableEq, Repr

/-- What the code sees through a `GrBaseBlobChunk*`: the header fields `type` and `size`,
and, for each payload structure, what `CAST_CHUNK_DATA` of that structure reads at
`chunk->data`. The code reads only the view selected by `type`. -/
structure GrBaseBlobChunk where
  type : GrBlobChunkType
  size : Nat
  spirv : GrSpirvBlobChunk
  specInfo : GrSpecInfoDataBlobChunk
  specInfoEntries : GrSpecInfoMapEntryBlobChunk
  descriptorSlots : GrPipelineDescriptorChunk
  graphicsPipelineInfo : GrGraphicsPipelineInfoChunk
  pipelineInfo : GrPipelineInfoChunk
deriving DecidableEq, Repr

/-- A chunk whose every field is zero. -/
def zeroChunk : GrBaseBlobChunk :=
  { type := other 0, size := 0
    spirv := ⟨0, 0, 0, []⟩, specInfo := ⟨0, 0, []⟩, specInfoEntries := ⟨0, 0, []⟩
    descriptorSlots := ⟨[], []⟩
    graphicsPipelineInfo := ⟨0, 0, 0, 0, 0, 0, [], [], 0, 0⟩
    pipelineInfo := ⟨0, 0, 0, default⟩ }

instance : Inhabited GrBaseBlobChunk := ⟨zeroChunk⟩

/-- The memory behind `pData`: the header's `version` and, for every byte offset, the
chunk that a `GrBaseBlobChunk*` placed at that offset reads. -/
structure GrStoredPipelineBlob where
  version : Nat
  chunkAt : Nat → GrBaseBlobChunk

/-- The value of the `uint32_t` field `chunk->size`. -/
def GrBaseBlobChunk.size32 (chunk : GrBaseBlobChunk) : Nat :=
  chunk.size % 2 ^ 32

/-- The call `memcpy(dst, src, n * sizeof *src)` into a fresh buffer: the first `n`
elements of the source (what lies behind a shorter source reads as `d`). -/
def memcpyRead {α : Type} (src : List α) (start n : Nat) (d : α) : List α :=
  (List.range n).map (fun k => src.getD (start + k) d)

/-- The fields of `GrDevice` that the pipeline layout depends on. -/
structure GrDevice where
  descriptorBufferSupported : Bool
  defaultDescriptorSetLayout : Nat
  dynamicMemorySetLayout : Nat
  descriptorPushSetLayout : Nat
  atomicCounterSetLayout : Nat
deriving DecidableEq, Repr

/-- The structure `VkPushConstantRange`. -/
structure VkPushConstantRange where
  stageFlags : Nat
  offset : Nat
  size : Nat
deriving DecidableEq, Repr

/-- The fields of `VkPipelineLayoutCreateInfo` that vary. -/
structure VkPipelineLayoutCreateInfo where
  setLayoutCount : Nat
  pSetLayouts : List Nat
  pPushConstantRanges : List VkPushConstantRange
deriving DecidableEq, Repr

/-- The creation entry points of the native API that the codec calls. Each returns the
new handle, or `none` when the native call fails. -/
structure NativeApi where
  vkCreateShaderModule : List Nat → Option Nat
  vkCreatePipelineLayout : VkPipelineLayoutCreateInfo → Option Nat
  vkCreateComputePipelines : Nat → VkPipelineShaderStageCreateInfo → Nat → Option Nat

/-- Source: `getVkPipelineLayout`. -/
def getVkPipelineLayout (Y : BlobLayout) (native : NativeApi) (grDevice : GrDevice)
    (descriptorSetCount : Nat) (vkBindPoint : VkPipelineBindPoint) :
    Except Fault (Option Nat) :=
  let setLayouts : List Nat :=
    [if grDevice.descriptorBufferSupported then grDevice.defaultDescriptorSetLayout
       else grDevice.dynamicMemorySetLayout,
     if grDevice.descriptorBufferSupported then grDevice.descriptorPushSetLayout
       else grDevice.atomicCounterSetLayout] ++ List.replicate 30 0
  if ¬ ((descriptorSetCount + 2) % 2 ^ 32 ≤ 32) then
    .error Fault.assertion
  else
    let setLayouts :=
      (List.range descriptorSetCount).foldl
        (fun acc i => acc.set (i + 2) grDevice.defaultDescriptorSetLayout) setLayouts
    let pushConstantRanges : List VkPushConstantRange :=
      [{ stageFlags :=
           if vkBindPoint = VK_PIPELINE_BIND_POINT_GRAPHICS then VK_SHADER_STAGE_ALL_GRAPHICS
           else VK_SHADER_STAGE_COMPUTE_BIT
         offset := 0
         size := Y.DESCRIPTOR_OFFSET_COUNT * 4 + Y.ILC_MAX_STRIDE_CONSTANTS * 4 }]
    .ok (native.vkCreatePipelineLayout
      { setLayoutCount := (descriptorSetCount + 2) % 2 ^ 32
        pSetLayouts := setLayouts
        pPushConstantRanges := pushConstantRanges })

/-! ## `grLoadPipeline` -/

/-- The checks that the first `while` loop of `grLoadPipeline` makes on the chunk at
running offset `sz`: `some r` when the function returns `r`, `none` when the loop goes on.
The sums are `size_t` sums; the slot total is an `unsigned` sum. -/
def validateChunk (Y : BlobLayout) (dataSize sz : Nat) (chunk : GrBaseBlobChunk) :
    Option GR_RESULT :=
  if (sz + chunk.size32 + Y.sizeofGrBaseBlobChunk) % 2 ^ Y.sizeBits > dataSize then
    some GR_ERROR_INVALID_MEMORY_SIZE
  else
    match chunk.type with
    | SPIRV =>
      if (chunk.spirv.codeSize + Y.sizeofGrSpirvBlobChunk) % 2 ^ Y.sizeBits > chunk.size32 then
        some GR_ERROR_INVALID_MEMORY_SIZE
      else none
    | SPEC_INFO =>
      if (chunk.specInfo.dataSize + Y.sizeofGrSpecInfoDataBlobChunk) % 2 ^ Y.sizeBits >
          chunk.size32 then
        some GR_ERROR_INVALID_MEMORY_SIZE
      else none
    | SPEC_INFO_ENTRIES =>
      if (Y.sizeofGrSpecInfoMapEntryBlobChunk +
            chunk.specInfoEntries.mapEntryCount * Y.sizeofVkSpecializationMapEntry) %
          2 ^ Y.sizeBits > chunk.size32 then
        some GR_ERROR_INVALID_MEMORY_SIZE
      else none
    | DESCRIPTOR_SLOTS =>
      let descriptorSetCount :=
        (List.range Y.GR_MAX_DESCRIPTOR_SETS).foldl
          (fun acc i => (acc + chunk.descriptorSlots.descriptorSetCounts.getD i 0) % 2 ^ 32) 0
      if (Y.sizeofGrPipelineDescriptorChunk +
            descriptorSetCount * Y.sizeofPipelineDescriptorSlot) % 2 ^ Y.sizeBits >
          chunk.size32 then
        some GR_ERROR_INVALID_MEMORY_SIZE
      else none
    | GRAPHICS_PIPELINE_INFO =>
      if chunk.size32 ≠ Y.sizeofGrGraphicsPipelineInfoChunk then
        some GR_ERROR_INVALID_MEMORY_SIZE
      else none
    | PIPELINE_INFO =>
      if chunk.size32 ≠ Y.sizeofGrPipelineInfoChunk then
        some GR_ERROR_INVALID_MEMORY_SIZE
      else none
    | other _ => none

/-- The statement `sz += align(sizeof(GrBaseBlobChunk) + chunk->size, GR_CHUNK_ALIGNMENT)`. -/
def nextSz (Y : BlobLayout) (sz : Nat) (chunk : GrBaseBlobChunk) : Nat :=
  (sz + alignSize Y ((Y.sizeofGrBaseBlobChunk + chunk.size32) % 2 ^ Y.sizeBits)) %
    2 ^ Y.sizeBits

/-- The statement `chunk = &chunk->data[align(chunk->size, GR_CHUNK_ALIGNMENT)]`, on the
byte offset of the chunk pointer. -/
def nextChunk (Y : BlobLayout) (p : Nat) (chunk : GrBaseBlobChunk) : Nat :=
  p + Y.sizeofGrBaseBlobChunk + alignU32 chunk.size32

/-- The first `while (sz < dataSize)` loop of `grLoadPipeline` (chunk validation), from
running offset `sz` with the chunk pointer at byte offset `p`. -/
def validateLoop (Y : BlobLayout) (dataSize : Nat) (blob : GrStoredPipelineBlob) :
    Nat → Nat → Nat → Except Fault (Option GR_RESULT)
  | 0, sz, _ => if sz < dataSize then .error Fault.outOfFuel else .ok none
  | fuel + 1, sz, p =>
    if sz < dataSize then
      match validateChunk Y dataSize sz (blob.chunkAt p) with
      | some r => .ok (some r)
      | none =>
        validateLoop Y dataSize blob fuel (nextSz Y sz (blob.chunkAt p))
          (nextChunk Y p (blob.chunkAt p))
    else .ok none

/-- The local variables that the second pass of `grLoadPipeline` fills, and a count of the
heap allocations and native objects made so far. -/
structure LoadState where
  shaderModules : List (Option Nat)
  shaderCode : List (Option (List Nat))
  shaderCodeSizes : List Nat
  stageFlags : List Nat
  descriptorSetCounts : List Nat
  descriptorSlots : List (Option (List PipelineDescriptorSlot))
  specInfos : List VkSpecializationInfo
  specData : List (Option (List Nat))
  mapEntries : List (Option (List VkSpecializationMapEntry))
  createInfo : Option PipelineCreateInfo
  stageCount : Nat
  dynamicMappingUsed : Nat
  dynamicDescriptorSlot : PipelineDescriptorSlot
  pipelineCreateFlags : Nat
  hasTessellation : Bool
  computeStageInfo : VkPipelineShaderStageCreateInfo
  allocations : Nat
deriving DecidableEq, Repr

/-- The initial values of the locals of `grLoadPipeline`. -/
def initialLoadState (Y : BlobLayout) : LoadState :=
  { shaderModules := List.replicate Y.MAX_STAGE_COUNT none
    shaderCode := List.replicate Y.MAX_STAGE_COUNT none
    shaderCodeSizes := List.replicate Y.MAX_STAGE_COUNT 0
    stageFlags := List.replicate Y.MAX_STAGE_COUNT 0
    descriptorSetCounts := List.replicate Y.GR_MAX_DESCRIPTOR_SETS 0
    descriptorSlots := List.replicate Y.GR_MAX_DESCRIPTOR_SETS none
    specInfos := List.replicate Y.MAX_STAGE_COUNT default
    specData := List.replicate Y.MAX_STAGE_COUNT none
    mapEntries := List.replicate Y.MAX_STAGE_COUNT none
    createInfo := none
    stageCount := 0
    dynamicMappingUsed := 0
    dynamicDescriptorSlot := ⟨0, [], 0, [], []⟩
    pipelineCreateFlags := 0
    hasTessellation := false
    computeStageInfo := default
    allocations := 0 }

/-- How a step of the second pass ends: it goes on, or it jumps to `bail`. -/
inductive Flow where
  | next (st : LoadState)
  | bail (st : LoadState)
deriving DecidableEq, Repr

/-- The loop of the `DESCRIPTOR_SLOTS` case of the second pass, over the mapping indices
in `is`, with `descriptorSetIndex` the running index into the chunk's slot array. -/
def loadDescriptorSlots (dataChunk : GrPipelineDescriptorChunk) :
    List Nat → Nat → LoadState → LoadState
  | [], _, st => st
  | i :: is, descriptorSetIndex, st =>
    let count := dataChunk.descriptorSetCounts.getD i 0
    let st1 :=
      if count > 0 then
        { st with
          descriptorSlots := st.descriptorSlots.set i
            (some (memcpyRead dataChunk.data descriptorSetIndex count default))
          descriptorSetCounts := st.descriptorSetCounts.set i count
          allocations := st.allocations + 1 }
      else st
    loadDescriptorSlots dataChunk is ((descriptorSetIndex + count) % 2 ^ 32) st1

/-- The `switch` of the second `while` loop of `grLoadPipeline` on one chunk. -/
def loadChunk (Y : BlobLayout) (chunk : GrBaseBlobChunk) (st : LoadState) : Flow :=
  match chunk.type with
  | SPIRV =>
    let shaderChunk := chunk.spirv
    if shaderChunk.stageIndex ≥ Y.MAX_STAGE_COUNT ∨
        st.stageFlags.getD shaderChunk.stageIndex 0 ≠ 0 then
      .bail st
    else
      .next { st with
        stageFlags := st.stageFlags.set shaderChunk.stageIndex shaderChunk.stageFlags
        shaderCodeSizes :=
          st.shaderCodeSizes.set shaderChunk.stageIndex (shaderChunk.codeSize % 2 ^ 32)
        shaderCode := st.shaderCode.set shaderChunk.stageIndex
          (some (memcpyRead shaderChunk.code 0 (shaderChunk.codeSize % 2 ^ 32) 0))
        allocations := st.allocations + 1 }
  | SPEC_INFO =>
    let dataChunk := chunk.specInfo
    if dataChunk.stageIndex ≥ Y.MAX_STAGE_COUNT then
      .bail st
    else
      let index := dataChunk.stageIndex
      .next { st with
        specData := st.specData.set index (some (memcpyRead dataChunk.data 0 dataChunk.dataSize 0))
        specInfos := st.specInfos.set index
          { (st.specInfos.getD index default) with dataSize := dataChunk.dataSize }
        allocations := st.allocations + 1 }
  | SPEC_INFO_ENTRIES =>
    let dataChunk := chunk.specInfoEntries
    if dataChunk.stageIndex ≥ Y.MAX_STAGE_COUNT then
      .bail st
    else
      let index := dataChunk.stageIndex
      .next { st with
        mapEntries := st.mapEntries.set index
          (some (memcpyRead dataChunk.data 0 dataChunk.mapEntryCount default))
        specInfos := st.specInfos.set index
          { (st.specInfos.getD index default) with mapEntryCount := dataChunk.mapEntryCount }
        allocations := st.allocations + 1 }
  | DESCRIPTOR_SLOTS =>
    .next (loadDescriptorSlots chunk.descriptorSlots (List.range Y.GR_MAX_DESCRIPTOR_SETS) 0 st)
  | GRAPHICS_PIPELINE_INFO =>
    match st.createInfo with
    | some _ => .bail st
    | none =>
      let graphicsPipelineChunk := chunk.graphicsPipelineInfo
      .next { st with
        createInfo := some
          { stageCreateInfos := List.replicate Y.MAX_STAGE_COUNT default
            topology := graphicsPipelineChunk.topology
            patchControlPoints := graphicsPipelineChunk.patchControlPoints
            depthClipEnable := graphicsPipelineChunk.depthClipEnable
            alphaToCoverageEnable := graphicsPipelineChunk.alphaToCoverageEnable
            logicOpEnable := graphicsPipelineChunk.logicOpEnable
            logicOp := graphicsPipelineChunk.logicOp
            colorFormats := graphicsPipelineChunk.colorFormats
            colorWriteMasks := graphicsPipelineChunk.colorWriteMasks
            depthFormat := graphicsPipelineChunk.depthFormat
            stencilFormat := graphicsPipelineChunk.stencilFormat }
        allocations := st.allocations + 1 }
  | PIPELINE_INFO =>
    let pipelineInfoChunk := chunk.pipelineInfo
    .next { st with
      stageCount := pipelineInfoChunk.stageCount
      dynamicMappingUsed := pipelineInfoChunk.dynamicMappingUsed
      pipelineCreateFlags := pipelineInfoChunk.createFlags
      dynamicDescriptorSlot := pipelineInfoChunk.dynamicDescriptorSlot }
  | other _ => .next st

/-- The second `while (sz < dataSize)` loop of `grLoadPipeline` (chunk loading). -/
def loadLoop (Y : BlobLayout) (dataSize : Nat) (blob : GrStoredPipelineBlob) :
    Nat → Nat → Nat → LoadState → Except Fault Flow
  | 0, sz, _, st => if sz < dataSize then .error Fault.outOfFuel else .ok (.next st)
  | fuel + 1, sz, p, st =>
    if sz < dataSize then
      match loadChunk Y (blob.chunkAt p) st with
      | .bail st1 => .ok (.bail st1)
      | .next st1 =>
        loadLoop Y dataSize blob fuel (nextSz Y sz (blob.chunkAt p))
          (nextChunk Y p (blob.chunkAt p)) st1
    else .ok (.next st)

/-- The loop `for (int i = 0; i < stageCount; i++)` that checks the stages of a graphics
blob, for the `n` stages from `i` on. Reading a per-stage array at an index that is not
below `MAX_STAGE_COUNT` is outside the array. -/
def checkGraphicsStages (Y : BlobLayout) (st : LoadState) : Nat → Nat → Except Fault Bool
  | _, 0 => .ok true
  | i, n + 1 =>
    if i ≥ Y.MAX_STAGE_COUNT then .error Fault.outOfBounds
    else if st.shaderCode.getD i none = none ∨ st.stageFlags.getD i 0 = 0 then .ok false
    else if decide ((st.specInfos.getD i default).mapEntryCount > 0) ≠
        decide ((st.specInfos.getD i default).dataSize > 0) then .ok false
    else checkGraphicsStages Y st (i + 1) n

/-- The loop `for (int i = 0; i < stageCount; i++)` that creates the shader modules, for
the `n` stages from `i` on. -/
def createStageModules (Y : BlobLayout) (native : NativeApi) :
    Nat → Nat → LoadState → Except Fault Flow
  | _, 0, st => .ok (.next st)
  | i, n + 1, st =>
    if i ≥ Y.MAX_STAGE_COUNT then .error Fault.outOfBounds
    else
      match st.shaderCode.getD i none with
      | none => .ok (.bail st)
      | some code =>
        if st.stageFlags.getD i 0 = 0 then .ok (.bail st)
        else
          match native.vkCreateShaderModule code with
          | none => .ok (.bail st)
          | some shaderModule =>
            let info : VkPipelineShaderStageCreateInfo :=
              { stage := st.stageFlags.getD i 0, module := some shaderModule }
            let st1 := { st with
              shaderModules := st.shaderModules.set i (some shaderModule)
              allocations := st.allocations + 1 }
            let st2 :=
              match st1.createInfo with
              | some createInfo =>
                { st1 with
                  createInfo := some
                    { createInfo with
                      stageCreateInfos := createInfo.stageCreateInfos.set i info }
                  hasTessellation :=
                    if st.stageFlags.getD i 0 = VK_SHADER_STAGE_TESSELLATION_CONTROL_BIT ∨
                        st.stageFlags.getD i 0 = VK_SHADER_STAGE_TESSELLATION_EVALUATION_BIT
                    then true else st1.hasTessellation }
              | none => { st1 with computeStageInfo := info }
            createStageModules Y native (i + 1) n st2

/-- What `grLoadPipeline` hands back: the result code, the pipeline written to
`*pPipeline` (on success only), and the number of heap allocations and native objects
that were made before it returned. -/
structure LoadResult where
  result : GR_RESULT
  pipeline : Option GrPipeline
  allocations : Nat
deriving DecidableEq, Repr

/-- The part of `grLoadPipeline` after the second loop. -/
def finishLoad (Y : BlobLayout) (native : NativeApi) (grDevice : GrDevice)
    (st : LoadState) : Except Fault LoadResult :=
  let bail (res : GR_RESULT) (s : LoadState) : Except Fault LoadResult :=
    .ok { result := res, pipeline := none, allocations := s.allocations }
  let checked : Except Fault Bool :=
    match st.createInfo with
    | some _ => checkGraphicsStages Y st 0 st.stageCount
    | none =>
      .ok (decide (¬ (st.stageCount ≠ 1 ∨ st.stageFlags.getD 0 0 ≠ VK_SHADER_STAGE_COMPUTE_BIT)))
  match checked with
  | .error e => .error e
  | .ok false => bail GR_ERROR_BAD_PIPELINE_DATA st
  | .ok true =>
    match createStageModules Y native 0 st.stageCount st with
    | .error e => .error e
    | .ok (.bail st1) => bail GR_ERROR_BAD_PIPELINE_DATA st1
    | .ok (.next st1) =>
      let descriptorSetCount :=
        (List.range Y.GR_MAX_DESCRIPTOR_SETS).foldl
          (fun acc i => (acc + st1.descriptorSetCounts.getD i 0) % 2 ^ 32) 0
      match getVkPipelineLayout Y native grDevice descriptorSetCount
          VK_PIPELINE_BIND_POINT_COMPUTE with
      | .error e => .error e
      | .ok none => bail GR_ERROR_OUT_OF_MEMORY st1
      | .ok (some pipelineLayout) =>
        let vkPipeline : Except LoadState (Option Nat) :=
          match st1.createInfo with
          | some _ => .ok none
          | none =>
            match native.vkCreateComputePipelines
                (st1.pipelineCreateFlags |||
                  (if grDevice.descriptorBufferSupported then
                    VK_PIPELINE_CREATE_DESCRIPTOR_BUFFER_BIT_EXT else 0))
                st1.computeStageInfo pipelineLayout with
            | none => .error st1
            | some h => .ok (some h)
        match vkPipeline with
        | .error s => bail GR_ERROR_BAD_PIPELINE_DATA { s with allocations := s.allocations + 1 }
        | .ok pipeline =>
          .ok { result := GR_SUCCESS
                pipeline := some
                  { shaderModules := st1.shaderModules
                    shaderCode := st1.shaderCode
                    shaderCodeSizes := st1.shaderCodeSizes
                    createFlags := st1.pipelineCreateFlags
                    createInfo := st1.createInfo
                    hasTessellation := st1.hasTessellation
                    pipeline := pipeline
                    pipelineLayout := some pipelineLayout
                    stageCount := st1.stageCount
                    dynamicMappingUsed := st1.dynamicMappingUsed
                    dynamicDescriptorSlot := st1.dynamicDescriptorSlot
                    descriptorSetCounts := st1.descriptorSetCounts
                    descriptorSlots := st1.descriptorSlots
                    specInfos := st1.specInfos
                    specData := st1.specData
                    mapEntries := st1.mapEntries }
                allocations := st1.allocations + 2 + (if pipeline.isSome then 1 else 0) }

/-- Source: `grLoadPipeline`. `pData` is `none` for a null pointer. Both loops advance
`sz` by at least four bytes per chunk when the `size_t` sums do not wrap, so `dataSize`
passes suffice. -/
def grLoadPipeline (Y : BlobLayout) (native : NativeApi) (grDevice : GrDevice)
    (dataSize : Nat) (pData : Option GrStoredPipelineBlob) : Except Fault LoadResult :=
  if dataSize ≤ Y.sizeofGrStoredPipelineBlob + Y.sizeofGrBaseBlobChunk then
    .ok { result := GR_ERROR_INVALID_MEMORY_SIZE, pipeline := none, allocations := 0 }
  else
    match pData with
    | none => .ok { result := GR_ERROR_INVALID_POINTER, pipeline := none, allocations := 0 }
    | some blob =>
      match validateLoop Y dataSize blob dataSize Y.sizeofGrStoredPipelineBlob
          Y.sizeofGrStoredPipelineBlob with
      | .error e => .error e
      | .ok (some r) => .ok { result := r, pipeline := none, allocations := 0 }
      | .ok none =>
        match loadLoop Y dataSize blob dataSize Y.sizeofGrStoredPipelineBlob
            Y.sizeofGrStoredPipelineBlob (initialLoadState Y) with
        | .error e => .error e
        | .ok (.bail st) =>
          .ok { result := GR_ERROR_BAD_PIPELINE_DATA, pipeline := none,
                allocations := st.allocations }
        | .ok (.next st) => finishLoad Y native grDevice st

/-! ## `grStorePipeline` -/

/-- What one block of the fill pass of `grStorePipeline` writes through the chunk pointer:
the chunk type (the constructor) and the fields of the payload structure; for an array
payload, the elements that `memcpy` copies into it. -/
inductive StoredChunk where
  | pipelineInfo (info : GrPipelineInfoChunk)
  | graphicsPipelineInfo (info : GrGraphicsPipelineInfoChunk)
  | descriptorSlots (descriptorSetCount : Nat) (counts : List Nat)
      (slots : List PipelineDescriptorSlot)
  | spirv (stageIndex stageFlags codeSize : Nat) (code : List Nat)
  | specInfo (stageIndex dataSize : Nat) (data : List Nat)
  | specInfoEntries (stageIndex mapEntryCount : Nat) (entries : List VkSpecializationMapEntry)
deriving DecidableEq, Repr

/-- An array in memory after `memcpy` has put `copied` at its start. -/
def memcpyInto {α : Type} (dst copied : List α) : List α :=
  copied ++ dst.drop copied.length

/-- The chunk found at the chunk pointer after a block of the fill pass has written
there, `old` being what the caller's buffer held. `chunk->size` is a `uint32_t`. -/
def StoredChunk.write (Y : BlobLayout) (x : StoredChunk) (old : GrBaseBlobChunk) :
    GrBaseBlobChunk :=
  match x with
  | .pipelineInfo info =>
    { old with
      type := PIPELINE_INFO
      size := Y.sizeofGrPipelineInfoChunk % 2 ^ 32
      pipelineInfo := info }
  | .graphicsPipelineInfo info =>
    { old with
      type := GRAPHICS_PIPELINE_INFO
      size := Y.sizeofGrGraphicsPipelineInfoChunk % 2 ^ 32
      graphicsPipelineInfo := info }
  | .descriptorSlots descriptorSetCount counts slots =>
    { old with
      type := DESCRIPTOR_SLOTS
      size := (Y.sizeofGrPipelineDescriptorChunk +
        descriptorSetCount * Y.sizeofPipelineDescriptorSlot) % 2 ^ 32
      descriptorSlots :=
        { descriptorSetCounts := memcpyInto old.descriptorSlots.descriptorSetCounts counts
          data := memcpyInto old.descriptorSlots.data slots } }
  | .spirv stageIndex stageFlags codeSize code =>
    { old with
      type := SPIRV
      size := (Y.sizeofGrSpirvBlobChunk + codeSize) % 2 ^ 32
      spirv :=
        { stageIndex := stageIndex, stageFlags := stageFlags, codeSize := codeSize
          code := memcpyInto old.spirv.code code } }
  | .specInfo stageIndex dataSize data =>
    { old with
      type := SPEC_INFO
      size := (Y.sizeofGrSpecInfoDataBlobChunk + dataSize) % 2 ^ 32
      specInfo :=
        { stageIndex := stageIndex, dataSize := dataSize
          data := memcpyInto old.specInfo.data data } }
  | .specInfoEntries stageIndex mapEntryCount entries =>
    { old with
      type := SPEC_INFO_ENTRIES
      size := (Y.sizeofGrSpecInfoMapEntryBlobChunk +
        mapEntryCount * Y.sizeofVkSpecializationMapEntry) % 2 ^ 32
      specInfoEntries :=
        { stageIndex := stageIndex, mapEntryCount := mapEntryCount
          data := memcpyInto old.specInfoEntries.data entries } }

/-- The state of the fill pass: the memory behind `pData` and the byte offset of the chunk
pointer. -/
abbrev FillState := GrStoredPipelineBlob × Nat

/-- One block of the fill pass: the writes through the chunk pointer, then
`chunk = &chunk->data[align(chunk->size, GR_CHUNK_ALIGNMENT)]`. -/
def emitChunk (Y : BlobLayout) (x : StoredChunk) (st : FillState) : FillState :=
  ({ st.1 with chunkAt := Function.update st.1.chunkAt st.2 (x.write Y (st.1.chunkAt st.2)) },
   nextChunk Y st.2 (x.write Y (st.1.chunkAt st.2)))

/-- The statement `sz += align(x, GR_CHUNK_ALIGNMENT)` of the sizing pass, in `size_t`
arithmetic. -/
def addAligned (Y : BlobLayout) (sz x : Nat) : Nat :=
  (sz + alignSize Y (x % 2 ^ Y.sizeBits)) % 2 ^ Y.sizeBits

/-- The body of the stage loop of the sizing pass of `grStorePipeline`. -/
def sizeStage (Y : BlobLayout) (grPipeline : GrPipeline) (sz : Nat) (i : Nat) : Nat :=
  let sz1 :=
    if (grPipeline.shaderCode.getD i none).isSome then
      addAligned Y sz (Y.sizeofGrBaseBlobChunk + Y.sizeofGrSpirvBlobChunk +
        grPipeline.shaderCodeSizes.getD i 0)
    else sz
  let sz2 :=
    if (grPipeline.specInfos.getD i default).mapEntryCount > 0 then
      addAligned Y sz1 (Y.sizeofGrBaseBlobChunk + Y.sizeofGrSpecInfoMapEntryBlobChunk +
        (grPipeline.specInfos.getD i default).mapEntryCount * Y.sizeofVkSpecializationMapEntry)
    else sz1
  if (grPipeline.specInfos.getD i default).dataSize > 0 then
    addAligned Y sz2 (Y.sizeofGrBaseBlobChunk + Y.sizeofGrSpecInfoDataBlobChunk +
      (grPipeline.specInfos.getD i default).dataSize)
  else sz2

/-- The `unsigned` total of `descriptorSetCounts` computed by `grStorePipeline`. -/
def totalDescriptorSets (Y : BlobLayout) (descriptorSetCounts : List Nat) : Nat :=
  (List.range Y.GR_MAX_DESCRIPTOR_SETS).foldl
    (fun acc i => (acc + descriptorSetCounts.getD i 0) % 2 ^ 32) 0

/-- The sizing pass of `grStorePipeline`: the value of `sz` before the buffer test. -/
def storeSize (Y : BlobLayout) (grPipeline : GrPipeline) : Nat :=
  let sz := (List.range Y.MAX_STAGE_COUNT).foldl (sizeStage Y grPipeline)
    Y.sizeofGrStoredPipelineBlob
  let descriptorSetCount := totalDescriptorSets Y grPipeline.descriptorSetCounts
  let sz :=
    if descriptorSetCount > 0 then
      addAligned Y sz (Y.sizeofGrBaseBlobChunk + Y.sizeofGrPipelineDescriptorChunk +
        descriptorSetCount * Y.sizeofPipelineDescriptorSlot)
    else sz
  let sz :=
    if grPipeline.createInfo.isSome then
      addAligned Y sz (Y.sizeofGrBaseBlobChunk + Y.sizeofGrGraphicsPipelineInfoChunk)
    else sz
  addAligned Y sz (Y.sizeofGrBaseBlobChunk + Y.sizeofGrPipelineInfoChunk)

/-- The `PIPELINE_INFO` block of the fill pass. The mask is
`~VK_PIPELINE_CREATE_DESCRIPTOR_BUFFER_BIT_EXT` on 32 bits. -/
def storedPipelineInfo (grPipeline : GrPipeline) : StoredChunk :=
  .pipelineInfo
    { createFlags := grPipeline.createFlags &&& 0xDFFFFFFF
      stageCount := grPipeline.stageCount
      dynamicMappingUsed := grPipeline.dynamicMappingUsed
      dynamicDescriptorSlot := grPipeline.dynamicDescriptorSlot }

/-- The `GRAPHICS_PIPELINE_INFO` block of the fill pass. -/
def storedGraphicsInfo (createInfo : PipelineCreateInfo) : StoredChunk :=
  .graphicsPipelineInfo
    { topology := createInfo.topology
      patchControlPoints := createInfo.patchControlPoints
      depthClipEnable := createInfo.depthClipEnable
      alphaToCoverageEnable := createInfo.alphaToCoverageEnable
      logicOpEnable := createInfo.logicOpEnable
      logicOp := createInfo.logicOp
      colorFormats := createInfo.colorFormats
      colorWriteMasks := createInfo.colorWriteMasks
      depthFormat := createInfo.depthFormat
      stencilFormat := createInfo.stencilFormat }

/-- The slot array that the `DESCRIPTOR_SLOTS` block of the fill pass copies together:
for every mapping index in `is`, the first `descriptorSetCounts[i]` slots of
`descriptorSlots[i]` (the running index `descriptorIndex`, an `unsigned`, is the length
copied so far as long as that stays below `2 ^ 32`). -/
def storedSlots (grPipeline : GrPipeline) (is : List Nat) : List PipelineDescriptorSlot :=
  is.flatMap (fun i =>
    memcpyRead ((grPipeline.descriptorSlots.getD i none).getD []) 0
      (grPipeline.descriptorSetCounts.getD i 0) default)

/-- The `DESCRIPTOR_SLOTS` block of the fill pass. -/
def storedDescriptorSlots (Y : BlobLayout) (grPipeline : GrPipeline) : StoredChunk :=
  .descriptorSlots (totalDescriptorSets Y grPipeline.descriptorSetCounts)
    (memcpyRead grPipeline.descriptorSetCounts 0 Y.GR_MAX_DESCRIPTOR_SETS 0)
    (storedSlots grPipeline (List.range Y.GR_MAX_DESCRIPTOR_SETS))

/-- The body of the stage loop of the fill pass of `grStorePipeline`. -/
def fillStage (Y : BlobLayout) (grPipeline : GrPipeline) (st : FillState) (i : Nat) :
    FillState :=
  let st1 :=
    match grPipeline.shaderCode.getD i none with
    | some code =>
      emitChunk Y
        (.spirv i
          (match grPipeline.createInfo with
            | none => VK_SHADER_STAGE_COMPUTE_BIT
            | some createInfo => (createInfo.stageCreateInfos.getD i default).stage)
          (grPipeline.shaderCodeSizes.getD i 0)
          (memcpyRead code 0 (grPipeline.shaderCodeSizes.getD i 0) 0)) st
    | none => st
  let st2 :=
    if (grPipeline.specInfos.getD i default).dataSize > 0 then
      emitChunk Y
        (.specInfo i (grPipeline.specInfos.getD i default).dataSize
          (memcpyRead ((grPipeline.specData.getD i none).getD []) 0
            (grPipeline.specInfos.getD i default).dataSize 0)) st1
    else st1
  if (grPipeline.specInfos.getD i default).mapEntryCount > 0 then
    emitChunk Y
      (.specInfoEntries i (grPipeline.specInfos.getD i default).mapEntryCount
        (memcpyRead ((grPipeline.mapEntries.getD i none).getD []) 0
          (grPipeline.specInfos.getD i default).mapEntryCount default)) st2
  else st2

/-- The fill pass of `grStorePipeline` on the memory behind `pData`. -/
def fillBlob (Y : BlobLayout) (grPipeline : GrPipeline) (blob : GrStoredPipelineBlob) :
    FillState :=
  let st : FillState := ({ blob with version := 0 }, Y.sizeofGrStoredPipelineBlob)
  let st := emitChunk Y (storedPipelineInfo grPipeline) st
  let st :=
    match grPipeline.createInfo with
    | some createInfo => emitChunk Y (storedGraphicsInfo createInfo) st
    | none => st
  let st :=
    if totalDescriptorSets Y grPipeline.descriptorSetCounts > 0 then
      emitChunk Y (storedDescriptorSlots Y grPipeline) st
    else st
  (List.range Y.MAX_STAGE_COUNT).foldl (fillStage Y grPipeline) st

/-- What `grStorePipeline` hands back: the result code, the value of `*pDataSize` and the
memory behind `pData` afterwards. -/
structure StoreResult where
  result : GR_RESULT
  dataSize : Option Nat
  data : Option GrStoredPipelineBlob

/-- Source: `grStorePipeline`; `none` stands for a null `pDataSize` or `pData`. -/
def grStorePipeline (Y : BlobLayout) (grPipeline : GrPipeline) (pDataSize : Option Nat)
    (pData : Option GrStoredPipelineBlob) : StoreResult :=
  match pDataSize with
  | none => { result := GR_ERROR_INVALID_POINTER, dataSize := none, data := pData }
  | some dataSize =>
    let sz := storeSize Y grPipeline
    match pData with
    | some blob =>
      if dataSize < sz then
        { result := GR_ERROR_INVALID_MEMORY_SIZE, dataSize := some dataSize, data := some blob }
      else
        { result := GR_SUCCESS, dataSize := some dataSize
          data := some (fillBlob Y grPipeline blob).1 }
    | none => { result := GR_SUCCESS, dataSize := some sz, data := none }

/-! ## Specification-side notions for the chunk walk -/

/-- The running offset `sz` and the byte offset of the chunk pointer after `k` advances of
a chunk loop of `grLoadPipeline` (both loops advance in the same way). -/
def chunkPosition (Y : BlobLayout) (blob : GrStoredPipelineBlob) : Nat → Nat × Nat
  | 0 => (Y.sizeofGrStoredPipelineBlob, Y.sizeofGrStoredPipelineBlob)
  | k + 1 =>
    (nextSz Y (chunkPosition Y blob k).1 (blob.chunkAt (chunkPosition Y blob k).2),
     nextChunk Y (chunkPosition Y blob k).2 (blob.chunkAt (chunkPosition Y blob k).2))

/-- The `k`-th chunk of the walk (counting from 0). -/
def chunkNumber (Y : BlobLayout) (blob : GrStoredPipelineBlob) (k : Nat) : GrBaseBlobChunk :=
  blob.chunkAt (chunkPosition Y blob k).2

/-- The walk reaches its `k`-th chunk: the chunks before it lie below `dataSize` and so
does the `k`-th. -/
def ChunkReached (Y : BlobLayout) (dataSize : Nat) (blob : GrStoredPipelineBlob) (k : Nat) :
    Prop :=
  ∀ j, j ≤ k → (chunkPosition Y blob j).1 < dataSize

/-- The chunks before the `k`-th pass the checks of the first loop. -/
def ValidBefore (Y : BlobLayout) (dataSize : Nat) (blob : GrStoredPipelineBlob) (k : Nat) :
    Prop :=
  ∀ j, j < k →
    validateChunk Y dataSize (chunkPosition Y blob j).1 (chunkNumber Y blob j) = none

/-- The `size_t` sums of the chunk walk do not wrap for a buffer of `dataSize` bytes (on a
64-bit `size_t` this holds for every `dataSize` below `2 ^ 63`), and a chunk header is not
empty. -/
def NoWrap (Y : BlobLayout) (dataSize : Nat) : Prop :=
  0 < Y.sizeofGrBaseBlobChunk ∧
    dataSize + Y.sizeofGrBaseBlobChunk + 2 ^ 32 + 3 ≤ 2 ^ Y.sizeBits

/-- The flow of the second pass of `grLoadPipeline` after its first `k` chunks. -/
def loadedAfter (Y : BlobLayout) (blob : GrStoredPipelineBlob) : Nat → Flow
  | 0 => .next (initialLoadState Y)
  | k + 1 =>
    match loadedAfter Y blob k with
    | .bail s => .bail s
    | .next s => loadChunk Y (chunkNumber Y blob k) s

/-! ## Example blobs -/

/-- A layout with a 64-bit `size_t`, five stages and two mapping indices. -/
def exampleLayout : BlobLayout :=
  { sizeBits := 64, MAX_STAGE_COUNT := 5, GR_MAX_DESCRIPTOR_SETS := 2
    sizeofGrStoredPipelineBlob := 4, sizeofGrBaseBlobChunk := 8
    sizeofGrSpirvBlobChunk := 12, sizeofGrSpecInfoDataBlobChunk := 8
    sizeofGrSpecInfoMapEntryBlobChunk := 8, sizeofGrPipelineDescriptorChunk := 8
    sizeofGrGraphicsPipelineInfoChunk := 96, sizeofGrPipelineInfoChunk := 116
    sizeofPipelineDescriptorSlot := 104, sizeofVkSpecializationMapEntry := 16
    DESCRIPTOR_OFFSET_COUNT := 32, ILC_MAX_STRIDE_CONSTANTS := 8 }

/-- A native API whose every creation call succeeds. -/
def exampleNative : NativeApi :=
  { vkCreateShaderModule := fun _ => some 1
    vkCreatePipelineLayout := fun _ => some 2
    vkCreateComputePipelines := fun _ _ _ => some 3 }

/-- A device without descriptor buffer support. -/
def exampleDevice : GrDevice :=
  { descriptorBufferSupported := false, defaultDescriptorSetLayout := 10
    dynamicMemorySetLayout := 11, descriptorPushSetLayout := 12
    atomicCounterSetLayout := 13 }

/-- A `PIPELINE_INFO` chunk of the right size that declares `stageCount` stages. -/
def examplePipelineInfoChunk (stageCount : Nat) : GrBaseBlobChunk :=
  { zeroChunk with
    type := PIPELINE_INFO, size := 116
    pipelineInfo := { createFlags := 0, stageCount := stageCount, dynamicMappingUsed := 0
                      dynamicDescriptorSlot := exampleSlot 0 } }

/-- A `GRAPHICS_PIPELINE_INFO` chunk of the right size. -/
def exampleGraphicsInfoChunk : GrBaseBlobChunk :=
  { zeroChunk with type := GRAPHICS_PIPELINE_INFO, size := 96 }

/-- A `SPIRV` chunk for stage 0 with the compute stage bit, declaring `codeSize` bytes of
code in a chunk of 16 bytes. -/
def exampleSpirvChunk (codeSize : Nat) : GrBaseBlobChunk :=
  { zeroChunk with
    type := SPIRV, size := 16
    spirv := { stageIndex := 0, stageFlags := VK_SHADER_STAGE_COMPUTE_BIT
               codeSize := codeSize, code := [1, 2, 3, 4] } }

/-- A blob of 276 bytes that holds two `PIPELINE_INFO` chunks (at offsets 4 and 128, the
first declaring 7 stages, the second 1) and one compute `SPIRV` chunk (at offset 252). -/
def exampleTwoInfoBlob : GrStoredPipelineBlob :=
  { version := 0
    chunkAt := fun o =>
      if o = 4 then examplePipelineInfoChunk 7
      else if o = 128 then examplePipelineInfoChunk 1
      else if o = 252 then exampleSpirvChunk 4
      else zeroChunk }

/-- The pipeline that `grLoadPipeline` builds from `exampleTwoInfoBlob`. -/
def exampleLoadedPipeline : GrPipeline :=
  { shaderModules := [some 1, none, none, none, none]
    shaderCode := [some [1, 2, 3, 4], none, none, none, none]
    shaderCodeSizes := [4, 0, 0, 0, 0]
    createFlags := 0
    createInfo := none
    hasTessellation := false
    pipeline := some 3
    pipelineLayout := some 2
    stageCount := 1
    dynamicMappingUsed := 0
    dynamicDescriptorSlot := exampleSlot 0
    descriptorSetCounts := [0, 0]
    descriptorSlots := [none, none]
    specInfos := [⟨0, 0⟩, ⟨0, 0⟩, ⟨0, 0⟩, ⟨0, 0⟩, ⟨0, 0⟩]
    specData := [none, none, none, none, none]
    mapEntries := [none, none, none, none, none] }

/-- A blob of 148 bytes: one `PIPELINE_INFO` chunk at offset 4 and, at offset 128, a
`SPIRV` chunk of declared size 12 whose `codeSize` is 4 (12 + 4 exceeds 12). -/
def exampleBadSpirvBlob : GrStoredPipelineBlob :=
  { version := 0
    chunkAt := fun o =>
      if o = 4 then examplePipelineInfoChunk 1
      else if o = 128 then { exampleSpirvChunk 4 with size := 12 }
      else zeroChunk }

/-- A blob of 200 bytes: one `PIPELINE_INFO` chunk at offset 4 and, at offset 128, a
`SPIRV` chunk of declared size 100 (128 + 8 + 100 exceeds 200). -/
def exampleOverrunBlob : GrStoredPipelineBlob :=
  { version := 0
    chunkAt := fun o =>
      if o = 4 then examplePipelineInfoChunk 1
      else if o = 128 then { exampleSpirvChunk 4 with size := 100 }
      else zeroChunk }

/-- A blob of 336 bytes: a `PIPELINE_INFO` chunk at offset 4 and two
`GRAPHICS_PIPELINE_INFO` chunks at offsets 128 and 232. -/
def exampleTwoGraphicsBlob : GrStoredPipelineBlob :=
  { version := 0
    chunkAt := fun o =>
      if o = 4 then examplePipelineInfoChunk 0
      else if o = 128 then exampleGraphicsInfoChunk
      else if o = 232 then exampleGraphicsInfoChunk
      else zeroChunk }

/-! ## Specification-side notions for the stored form -/

/-- The value assigned to `chunk->size` by a block of the fill pass, before it is cut to
32 bits. -/
def StoredChunk.payloadSize (Y : BlobLayout) : StoredChunk → Nat
  | .pipelineInfo _ => Y.sizeofGrPipelineInfoChunk
  | .graphicsPipelineInfo _ => Y.sizeofGrGraphicsPipelineInfoChunk
  | .descriptorSlots descriptorSetCount _ _ =>
    Y.sizeofGrPipelineDescriptorChunk + descriptorSetCount * Y.sizeofPipelineDescriptorSlot
  | .spirv _ _ codeSize _ => Y.sizeofGrSpirvBlobChunk + codeSize
  | .specInfo _ dataSize _ => Y.sizeofGrSpecInfoDataBlobChunk + dataSize
  | .specInfoEntries _ mapEntryCount _ =>
    Y.sizeofGrSpecInfoMapEntryBlobChunk + mapEntryCount * Y.sizeofVkSpecializationMapEntry

/-- The stage bit that the fill pass stores for stage `i`. -/
def storedStageFlags (grPipeline : GrPipeline) (i : Nat) : Nat :=
  match grPipeline.createInfo with
  | none => VK_SHADER_STAGE_COMPUTE_BIT
  | some createInfo => (createInfo.stageCreateInfos.getD i default).stage

/-- The chunks that the fill pass writes for stage `i`, in the order of writing. -/
def stageChunks (grPipeline : GrPipeline) (i : Nat) : List StoredChunk :=
  (match grPipeline.shaderCode.getD i none with
    | some code =>
      [.spirv i (storedStageFlags grPipeline i) (grPipeline.shaderCodeSizes.getD i 0)
        (memcpyRead code 0 (grPipeline.shaderCodeSizes.getD i 0) 0)]
    | none => []) ++
  (if (grPipeline.specInfos.getD i default).dataSize > 0 then
    [.specInfo i (grPipeline.specInfos.getD i default).dataSize
      (memcpyRead ((grPipeline.specData.getD i none).getD []) 0
        (grPipeline.specInfos.getD i default).dataSize 0)]
   else []) ++
  (if (grPipeline.specInfos.getD i default).mapEntryCount > 0 then
    [.specInfoEntries i (grPipeline.specInfos.getD i default).mapEntryCount
      (memcpyRead ((grPipeline.mapEntries.getD i none).getD []) 0
        (grPipeline.specInfos.getD i default).mapEntryCount default)]
   else [])

/-- The chunks of the stored form of a pipeline, in the order in which the fill pass
writes them. -/
def storedChunks (Y : BlobLayout) (grPipeline : GrPipeline) : List StoredChunk :=
  [storedPipelineInfo grPipeline] ++
  (match grPipeline.createInfo with
    | some createInfo => [storedGraphicsInfo createInfo]
    | none => []) ++
  (if totalDescriptorSets Y grPipeline.descriptorSetCounts > 0 then
    [storedDescriptorSlots Y grPipeline]
   else []) ++
  (List.range Y.MAX_STAGE_COUNT).flatMap (stageChunks grPipeline)

/-- The blocks of a list run one after the other from a fill state. -/
def emitAll (Y : BlobLayout) (cs : List StoredChunk) (st : FillState) : FillState :=
  cs.foldl (fun st x => emitChunk Y x st) st

/-- The bytes that a chunk takes when no sum wraps: its header and payload, rounded up to
a multiple of 4. -/
def chunkSpan (Y : BlobLayout) (x : StoredChunk) : Nat :=
  (Y.sizeofGrBaseBlobChunk + x.payloadSize Y + 3) / 4 * 4

/-- The size of a blob made of the given chunks when no sum wraps: the header, then the
span of every chunk. -/
def idealSize (Y : BlobLayout) (cs : List StoredChunk) : Nat :=
  Y.sizeofGrStoredPipelineBlob + (cs.map (chunkSpan Y)).sum

/-- The second pass of `grLoadPipeline` over a list of chunk values. -/
def loadAll (Y : BlobLayout) : List GrBaseBlobChunk → Flow → Flow
  | [], f => f
  | c :: cs, .next s => loadAll Y cs (loadChunk Y c s)
  | _ :: _, .bail s => .bail s

/-- A block of the fill pass copies as many elements as it declares, for a stage index
below `MAX_STAGE_COUNT`; a `DESCRIPTOR_SLOTS` block copies `GR_MAX_DESCRIPTOR_SETS` counts,
declares their `unsigned` total and copies as many slots as the counts add up to. -/
def StoredChunk.Sound (Y : BlobLayout) : StoredChunk → Prop
  | .pipelineInfo _ => True
  | .graphicsPipelineInfo _ => True
  | .descriptorSlots descriptorSetCount counts slots =>
    counts.length = Y.GR_MAX_DESCRIPTOR_SETS ∧
      descriptorSetCount = totalDescriptorSets Y counts ∧
      ((List.range Y.GR_MAX_DESCRIPTOR_SETS).map (fun i => counts.getD i 0)).sum =
        slots.length ∧
      slots.length < 2 ^ 32
  | .spirv stageIndex _ codeSize code => code.length = codeSize ∧ stageIndex < Y.MAX_STAGE_COUNT
  | .specInfo stageIndex dataSize data =>
    data.length = dataSize ∧ stageIndex < Y.MAX_STAGE_COUNT
  | .specInfoEntries stageIndex mapEntryCount entries =>
    entries.length = mapEntryCount ∧ stageIndex < Y.MAX_STAGE_COUNT

/-- The locals of the second pass hold the code of stage `i` of the pipeline: the same
bytes, size and stage bit when the pipeline has code for the stage, no code otherwise. -/
def CodeLoaded (grPipeline : GrPipeline) (st : LoadState) (i : Nat) : Prop :=
  match grPipeline.shaderCode.getD i none with
  | some code =>
    ∃ code1, st.shaderCode.getD i none = some code1 ∧
      memcpyRead code1 0 (grPipeline.shaderCodeSizes.getD i 0) 0 =
        memcpyRead code 0 (grPipeline.shaderCodeSizes.getD i 0) 0 ∧
      st.shaderCodeSizes.getD i 0 = grPipeline.shaderCodeSizes.getD i 0 ∧
      st.stageFlags.getD i 0 = storedStageFlags grPipeline i
  | none => st.shaderCode.getD i none = none

/-- The locals of the second pass hold the specialization data of stage `i`. -/
def DataLoaded (grPipeline : GrPipeline) (st : LoadState) (i : Nat) : Prop :=
  (st.specInfos.getD i default).dataSize = (grPipeline.specInfos.getD i default).dataSize ∧
    memcpyRead ((st.specData.getD i none).getD []) 0
        (grPipeline.specInfos.getD i default).dataSize 0 =
      memcpyRead ((grPipeline.specData.getD i none).getD []) 0
        (grPipeline.specInfos.getD i default).dataSize 0

/-- The locals of the second pass hold the specialization map entries of stage `i`. -/
def EntriesLoaded (grPipeline : GrPipeline) (st : LoadState) (i : Nat) : Prop :=
  (st.specInfos.getD i default).mapEntryCount =
      (grPipeline.specInfos.getD i default).mapEntryCount ∧
    memcpyRead ((st.mapEntries.getD i none).getD []) 0
        (grPipeline.specInfos.getD i default).mapEntryCount default =
      memcpyRead ((grPipeline.mapEntries.getD i none).getD []) 0
        (grPipeline.specInfos.getD i default).mapEntryCount default

/-- The second pass has loaded the code of the stages below `kc`, the specialization data
of the stages below `kd` and the map entries of the stages below `ke`, and has not
touched the other stages. -/
def StagesLoaded (Y : BlobLayout) (grPipeline : GrPipeline) (kc kd ke : Nat)
    (st : LoadState) : Prop :=
  st.stageFlags.length = Y.MAX_STAGE_COUNT ∧
  st.shaderCode.length = Y.MAX_STAGE_COUNT ∧
  st.shaderCodeSizes.length = Y.MAX_STAGE_COUNT ∧
  st.specInfos.length = Y.MAX_STAGE_COUNT ∧
  st.specData.length = Y.MAX_STAGE_COUNT ∧
  st.mapEntries.length = Y.MAX_STAGE_COUNT ∧
  ∀ i,
    (i < kc → CodeLoaded grPipeline st i) ∧
    (kc ≤ i → st.stageFlags.getD i 0 = 0 ∧ st.shaderCode.getD i none = none) ∧
    (i < kd → DataLoaded grPipeline st i) ∧
    (kd ≤ i → (st.specInfos.getD i default).dataSize = 0) ∧
    (i < ke → EntriesLoaded grPipeline st i) ∧
    (ke ≤ i → (st.specInfos.getD i default).mapEntryCount = 0)

/-- Two states of the second pass agree on the locals that are not per-stage arrays. -/
def SameHead (a b : LoadState) : Prop :=
  a.createInfo = b.createInfo ∧ a.stageCount = b.stageCount ∧
  a.dynamicMappingUsed = b.dynamicMappingUsed ∧
  a.dynamicDescriptorSlot = b.dynamicDescriptorSlot ∧
  a.pipelineCreateFlags = b.pipelineCreateFlags ∧
  a.descriptorSetCounts = b.descriptorSetCounts ∧
  a.descriptorSlots = b.descriptorSlots

/-- The locals of the second pass hold the slot arrays of the pipeline. -/
def SlotsLoaded (Y : BlobLayout) (grPipeline : GrPipeline) (st : LoadState) : Prop :=
  ∀ i, i < Y.GR_MAX_DESCRIPTOR_SETS →
    st.descriptorSetCounts.getD i 0 = grPipeline.descriptorSetCounts.getD i 0 ∧
    memcpyRead ((st.descriptorSlots.getD i none).getD []) 0
        (grPipeline.descriptorSetCounts.getD i 0) default =
      memcpyRead ((grPipeline.descriptorSlots.getD i none).getD []) 0
        (grPipeline.descriptorSetCounts.getD i 0) default

/-- The locals of the second pass hold the graphics state of the pipeline, if it has any. -/
def GraphicsLoaded (Y : BlobLayout) (grPipeline : GrPipeline) (st : LoadState) : Prop :=
  match grPipeline.createInfo with
  | none => st.createInfo = none
  | some createInfo =>
    ∃ createInfo1, st.createInfo = some createInfo1 ∧
      storedGraphicsInfo createInfo1 = storedGraphicsInfo createInfo ∧
      createInfo1.stageCreateInfos.length = Y.MAX_STAGE_COUNT

/-- The locals of the second pass hold everything that the stored form of the pipeline
says, apart from the per-stage arrays. -/
def HeadLoaded (Y : BlobLayout) (grPipeline : GrPipeline) (st : LoadState) : Prop :=
  st.stageCount = grPipeline.stageCount ∧
  st.dynamicMappingUsed = grPipeline.dynamicMappingUsed ∧
  st.dynamicDescriptorSlot = grPipeline.dynamicDescriptorSlot ∧
  st.pipelineCreateFlags = grPipeline.createFlags &&& 0xDFFFFFFF ∧
  GraphicsLoaded Y grPipeline st ∧ SlotsLoaded Y grPipeline st

/-- What `grCreateGraphicsPipeline` and `grCreateComputePipeline` establish about the
pipeline that they return, as far as the codec reads it:
* the stages are packed at the indices below `stageCount` (`shaderCode[stageCount] = code`
  before `stageCount++`; a compute pipeline has `shaderCode = { code }`, `stageCount = 1`),
  and `stageCount` is at most `MAX_STAGE_COUNT`;
* a stage has map entries exactly when it has specialization data (`mapEntryCount` is
  `bindingCount * 2` and `dataSize` is `sizeof(uint32_t) * bindingCount * 2`);
* the stage bit of every stage of a graphics pipeline is one of the five bits of the
  `stages` table, none of which is zero;
* the resolved sets fit the layout (`getVkPipelineLayout` asserts
  `descriptorSetCount + 2 <= 32` on the total of `descriptorSetCounts`). -/
def CreatedPipeline (Y : BlobLayout) (grPipeline : GrPipeline) : Prop :=
  grPipeline.stageCount ≤ Y.MAX_STAGE_COUNT ∧
  (∀ i, i < Y.MAX_STAGE_COUNT →
    ((grPipeline.shaderCode.getD i none).isSome = true ↔ i < grPipeline.stageCount)) ∧
  (∀ i, i < Y.MAX_STAGE_COUNT →
    ((grPipeline.specInfos.getD i default).mapEntryCount > 0 ↔
      (grPipeline.specInfos.getD i default).dataSize > 0)) ∧
  (match grPipeline.createInfo with
    | some createInfo =>
      ∀ i, i < grPipeline.stageCount → (createInfo.stageCreateInfos.getD i default).stage ≠ 0
    | none => grPipeline.stageCount = 1) ∧
  ((List.range Y.GR_MAX_DESCRIPTOR_SETS).map
    (fun i => grPipeline.descriptorSetCounts.getD i 0)).sum + 2 ≤ 32

/-- Every creation call of the native API succeeds. -/
def NativeSucceeds (native : NativeApi) : Prop :=
  (∀ code, (native.vkCreateShaderModule code).isSome = true) ∧
  (∀ info, (native.vkCreatePipelineLayout info).isSome = true) ∧
  (∀ flags stage layout, (native.vkCreateComputePipelines flags stage layout).isSome = true)

/-- A graphics pipeline as `grCreateGraphicsPipeline` leaves it on a device with descriptor
buffers: a vertex stage with one binding (two map entries, eight bytes of specialization
data) and a fragment stage without bindings, and one resolved slot for mapping index 0. -/
def exampleCreatedPipeline : GrPipeline :=
  { shaderModules := [some 1, some 1, none, none, none]
    shaderCode := [some [3, 2, 35, 7, 0, 0, 1, 0], some [3, 2, 35, 7], none, none, none]
    shaderCodeSizes := [8, 4, 0, 0, 0]
    createFlags := 0x20000001
    createInfo := some
      { stageCreateInfos := [⟨0x1, some 1⟩, ⟨0x10, some 1⟩, ⟨0, none⟩, ⟨0, none⟩, ⟨0, none⟩]
        topology := 3, patchControlPoints := 0, depthClipEnable := 1
        alphaToCoverageEnable := 0, logicOpEnable := 0, logicOp := 3
        colorFormats := [37, 0, 0, 0, 0, 0, 0, 0]
        colorWriteMasks := [15, 0, 0, 0, 0, 0, 0, 0]
        depthFormat := 126, stencilFormat := 0 }
    hasTessellation := false
    pipeline := none
    pipelineLayout := some 2
    stageCount := 2
    dynamicMappingUsed := 0
    dynamicDescriptorSlot := exampleSlot 0
    descriptorSetCounts := [1, 0]
    descriptorSlots := [some [exampleSlot 1], none]
    specInfos := [⟨2, 8⟩, ⟨0, 0⟩, ⟨0, 0⟩, ⟨0, 0⟩, ⟨0, 0⟩]
    specData := [some [0, 0, 0, 0, 2, 0, 0, 0], none, none, none, none]
    mapEntries := [some [⟨0, 0, 4⟩, ⟨1, 4, 4⟩], none, none, none, none] }

/-! ## Specification-side notions for the tree walks -/

mutual
/-- Below this mapping slot, met at depth `d`, the walk reaches a redirection to a nested
set at a depth that is not below `MAX_PATH_DEPTH`. -/
def redirectsTooDeep (L : Limits) (d : Nat) : GR_DESCRIPTOR_SLOT_INFO → Bool
  | .mk slotObjectType _ pNextLevelSet =>
    if slotObjectType = GR_SLOT_UNUSED then false
    else if slotObjectType = GR_SLOT_NEXT_DESCRIPTOR_SET then
      decide (d ≥ L.MAX_PATH_DEPTH) || redirectsTooDeepIn L (d + 1) pNextLevelSet
    else false
/-- Some slot of this mapping node, met at depth `d`, redirects too deep. -/
def redirectsTooDeepIn (L : Limits) (d : Nat) : List GR_DESCRIPTOR_SLOT_INFO → Bool
  | [] => false
  | slotInfo :: rest => redirectsTooDeep L d slotInfo || redirectsTooDeepIn L d rest
end

/-- The depth and the path array of the slot that extraction appends for a match reached
by `route`: the route, padded with zeros to `MAX_PATH_DEPTH` entries. -/
def routeSlotPath (L : Limits) (w : List Nat × Nat) : Nat × List Nat :=
  (w.1.length, w.1 ++ List.replicate (L.MAX_PATH_DEPTH - w.1.length) 0)

/-- What the extraction walk below one mapping slot is shown to do. -/
def ExtractSlotSpec (L : Limits) (getDescriptorOffset : Nat → Nat)
    (bindings : List IlcBinding) (s : GR_DESCRIPTOR_SLOT_INFO) : Prop :=
  ∀ (d i : Nat) (st : ExtractState),
    st.path.length = L.MAX_PATH_DEPTH → d ≤ L.MAX_PATH_DEPTH →
    match extractSlot L getDescriptorOffset bindings d i s st with
    | .error e => e = Fault.assertion ∧ redirectsTooDeep L d s = true
    | .ok st1 =>
      redirectsTooDeep L d s = false ∧
      st1.path.length = L.MAX_PATH_DEPTH ∧ st1.path.take d = st.path.take d ∧
      (∀ w, w ∈ matchedInSlot bindings (st.path.take d) i s → w.1.length ≤ L.MAX_PATH_DEPTH) ∧
      ∃ appended, st1.descriptorSlots = st.descriptorSlots ++ appended ∧
        appended.map (fun x => (x.pathDepth, x.path)) =
          (matchedInSlot bindings (st.path.take d) i s).map (routeSlotPath L)

/-- What the extraction walk over the rest of a mapping node is shown to do. -/
def ExtractSlotsSpec (L : Limits) (getDescriptorOffset : Nat → Nat)
    (bindings : List IlcBinding) (m : List GR_DESCRIPTOR_SLOT_INFO) : Prop :=
  ∀ (d i : Nat) (st : ExtractState),
    st.path.length = L.MAX_PATH_DEPTH → d ≤ L.MAX_PATH_DEPTH →
    match extractSlots L getDescriptorOffset bindings d i m st with
    | .error e => e = Fault.assertion ∧ redirectsTooDeepIn L d m = true
    | .ok st1 =>
      redirectsTooDeepIn L d m = false ∧
      st1.path.length = L.MAX_PATH_DEPTH ∧ st1.path.take d = st.path.take d ∧
      (∀ w, w ∈ matchedInMapping bindings (st.path.take d) i m →
        w.1.length ≤ L.MAX_PATH_DEPTH) ∧
      ∃ appended, st1.descriptorSlots = st.descriptorSlots ++ appended ∧
        appended.map (fun x => (x.pathDepth, x.path)) =
          (matchedInMapping bindings (st.path.take d) i m).map (routeSlotPath L)

/-- The position of the first slot of a list whose PathKey is the given route. -/
def positionOfPathKey (descriptorSlots : List PipelineDescriptorSlot) (route : List Nat) :
    Option Nat :=
  descriptorSlots.findIdx? (fun slot => decide (pathKey slot = (route.length, route)))

/-- The two array writes that the claim about index assignment names for a match: the
position `p` of the first slot with the PathKey of the match (the code's sentinel
`0xFFFFFFFF` when there is none) is added to the base offset in 32-bit arithmetic. -/
def patchWrite (slots : List PipelineDescriptorSlot) (bindings : List IlcBinding) (off : Nat)
    (acc : List IlcBindingPatchEntry × List Nat) (w : List Nat × Nat) :
    List IlcBindingPatchEntry × List Nat :=
  (acc.1.set w.2
      { id := (bindings.getD w.2 ⟨0, ILC_BINDING_SAMPLER, 0, 0, 0, 0, 0⟩).id
        bindingIndex := 0
        descriptorSetIndex := (off + (positionOfPathKey slots w.1).getD 0xFFFFFFFF) % 2 ^ 32 },
   acc.2.set w.2 ((off + (positionOfPathKey slots w.1).getD 0xFFFFFFFF) % 2 ^ 32))

/-! ## Specification-side notions for the merge -/

/-- The test by which the merge loop keeps a slot and its successor in one run. -/
def sameRun (a b : PipelineDescriptorSlot) : Bool :=
  decide (a.pathDepth = b.pathDepth) && decide (memcmp a.path b.path a.pathDepth = 0)

/-- Puts the elements `R` in front of the first run of a list of runs. -/
def attachRun {α : Type} (R : List α) : List (List α) → List (List α)
  | [] => [R]
  | r :: rs => (R ++ r) :: rs

/-- The maximal runs of adjacent elements of a list in which each element is related to
its successor by `same`. -/
def runsOf {α : Type} (same : α → α → Bool) : List α → List (List α)
  | [] => []
  | [s] => [[s]]
  | s :: t :: rest =>
    if same s t then attachRun [s] (runsOf same (t :: rest))
    else [s] :: runsOf same (t :: rest)

/-- The number of stride pairs held by the slots of a run. -/
def strideTotal (run : List PipelineDescriptorSlot) : Nat :=
  (run.map (fun s => s.strideCount)).sum

/-- One pass of the inner loop of `mergeDescriptorSlots`: the stride pair of
`slotToMerge`, if it has one, is added to `mergedSlot`. -/
def addStride (L : Limits) (mergedSlot slotToMerge : PipelineDescriptorSlot) :
    Except Fault PipelineDescriptorSlot :=
  if slotToMerge.strideCount = 1 then
    if mergedSlot.strideCount ≥ L.MAX_STRIDES then
      .error Fault.assertion
    else
      .ok { mergedSlot with
            strideCount := mergedSlot.strideCount + 1
            strideOffsets :=
              mergedSlot.strideOffsets.set mergedSlot.strideCount
                (slotToMerge.strideOffsets.getD 0 0)
            strideSlotIndexes :=
              mergedSlot.strideSlotIndexes.set mergedSlot.strideCount
                (slotToMerge.strideSlotIndexes.getD 0 0) }
  else
    .ok mergedSlot

/-- The inner loop of `mergeDescriptorSlots` over the later slots of a run. -/
def collapseInto (L : Limits) :
    PipelineDescriptorSlot → List PipelineDescriptorSlot → Except Fault PipelineDescriptorSlot
  | mergedSlot, [] => .ok mergedSlot
  | mergedSlot, s :: rest =>
    match addStride L mergedSlot s with
    | .error e => .error e
    | .ok m => collapseInto L m rest

/-- The slot to which a run collapses: its first slot with the stride pairs of the later
ones added. -/
def collapseRun (L : Limits) : List PipelineDescriptorSlot → Except Fault PipelineDescriptorSlot
  | [] => .ok default
  | s :: rest => collapseInto L s rest

/-- The runs collapsed one after the other, stopping at the first that fails. -/
def collapseRuns (L : Limits) :
    List (List PipelineDescriptorSlot) → Except Fault (List PipelineDescriptorSlot)
  | [] => .ok []
  | r :: rs =>
    match collapseRun L r with
    | .error e => .error e
    | .ok m =>
      match collapseRuns L rs with
      | .error e => .error e
      | .ok ms => .ok (m :: ms)

/-- The slots have paths that are arrays of 32-bit values with at least `pathDepth`
entries, as every slot built by `extractedSlot` has when the indices are 32-bit. -/
def WellFormedSlots (slots : List PipelineDescriptorSlot) : Prop :=
  ∀ s ∈ slots, s.pathDepth ≤ s.path.length ∧ ∀ x ∈ s.path, x < 2 ^ 32

/-- A stage whose shader has one resource binding for entity 0 with the given stride
constant index, reached through `exampleMappingB` (root slot 0 redirects to a nested set
whose slot 0 holds resource 0). -/
def exampleStrideStage (id : Nat) (strideIndex : Int) (flags : Nat) : Stage :=
  { shader :=
      { shader := some { bindings := [{ exampleBinding id 0 with strideIndex := strideIndex }],
                         code := [] }
        descriptorSetMapping := [exampleMappingB] }
    flags := flags }

/-- The per-stage arrays for two stages with one binding each. -/
def exampleStrideBuffers : List StageBuffers :=
  [{ patchEntries := [default], specOffsets := [0], specDescriptorIndices := [0] },
   { patchEntries := [default], specOffsets := [0], specDescriptorIndices := [0] }]

/-- The `createInfo` literal of `getVkPipelineLayout`, with the array `setLayouts` as the
loop leaves it. -/
def layoutCreateInfo (Y : BlobLayout) (grDevice : GrDevice) (descriptorSetCount : Nat)
    (vkBindPoint : VkPipelineBindPoint) : VkPipelineLayoutCreateInfo :=
  { setLayoutCount := (descriptorSetCount + 2) % 2 ^ 32
    pSetLayouts :=
      (List.range descriptorSetCount).foldl
        (fun acc i => acc.set (i + 2) grDevice.defaultDescriptorSetLayout)
        ([if grDevice.descriptorBufferSupported then grDevice.defaultDescriptorSetLayout
            else grDevice.dynamicMemorySetLayout,
          if grDevice.descriptorBufferSupported then grDevice.descriptorPushSetLayout
            else grDevice.atomicCounterSetLayout] ++ List.replicate 30 0)
    pPushConstantRanges :=
      [{ stageFlags :=
           if vkBindPoint = VK_PIPELINE_BIND_POINT_GRAPHICS then VK_SHADER_STAGE_ALL_GRAPHICS
           else VK_SHADER_STAGE_COMPUTE_BIT
         offset := 0
         size := Y.DESCRIPTOR_OFFSET_COUNT * 4 + Y.ILC_MAX_STRIDE_CONSTANTS * 4 }] }

/-! ## Specification-side notions for the size of the stored form -/

/-- A chunk with the given payload size: header and payload together, rounded up to a
multiple of 4. -/
def roundedChunk (Y : BlobLayout) (payload : Nat) : Nat :=
  (Y.sizeofGrBaseBlobChunk + payload + 3) / 4 * 4

/-- The total of the first `GR_MAX_DESCRIPTOR_SETS` entries of `descriptorSetCounts`. -/
def descriptorSetTotal (Y : BlobLayout) (grPipeline : GrPipeline) : Nat :=
  ((List.range Y.GR_MAX_DESCRIPTOR_SETS).map
    (fun i => grPipeline.descriptorSetCounts.getD i 0)).sum

/-- The chunks that stage `i` adds to the stored size: one `SPIRV` chunk iff
`shaderCode[i]` is non-null, one `SPEC_INFO` chunk iff `specInfos[i].dataSize > 0`, one
`SPEC_INFO_ENTRIES` chunk iff `specInfos[i].mapEntryCount > 0`. -/
def stageStoredSize (Y : BlobLayout) (grPipeline : GrPipeline) (i : Nat) : Nat :=
  (if (grPipeline.shaderCode.getD i none).isSome then
    roundedChunk Y (Y.sizeofGrSpirvBlobChunk + grPipeline.shaderCodeSizes.getD i 0)
   else 0) +
  (if (grPipeline.specInfos.getD i default).dataSize > 0 then
    roundedChunk Y (Y.sizeofGrSpecInfoDataBlobChunk +
      (grPipeline.specInfos.getD i default).dataSize)
   else 0) +
  (if (grPipeline.specInfos.getD i default).mapEntryCount > 0 then
    roundedChunk Y (Y.sizeofGrSpecInfoMapEntryBlobChunk +
      (grPipeline.specInfos.getD i default).mapEntryCount * Y.sizeofVkSpecializationMapEntry)
   else 0)

/-- The size of the stored form as the specification gives it: the blob header, one
`PIPELINE_INFO` chunk, one `GRAPHICS_PIPELINE_INFO` chunk iff `createInfo` is non-null, one
`DESCRIPTOR_SLOTS` chunk iff the total of `descriptorSetCounts` is above 0, and the chunks
of every stage index below `MAX_STAGE_COUNT`. -/
def storedPipelineSize (Y : BlobLayout) (grPipeline : GrPipeline) : Nat :=
  Y.sizeofGrStoredPipelineBlob +
  roundedChunk Y Y.sizeofGrPipelineInfoChunk +
  (if grPipeline.createInfo.isSome then roundedChunk Y Y.sizeofGrGraphicsPipelineInfoChunk
   else 0) +
  (if descriptorSetTotal Y grPipeline > 0 then
    roundedChunk Y (Y.sizeofGrPipelineDescriptorChunk +
      descriptorSetTotal Y grPipeline * Y.sizeofPipelineDescriptorSlot)
   else 0) +
  ((List.range Y.MAX_STAGE_COUNT).map (stageStoredSize Y grPipeline)).sum

/-- The byte offset of the chunk pointer, from the start of the buffer, when the fill pass
of `grStorePipeline` has written the first `k` chunks of the stored form. -/
def fillOffset (Y : BlobLayout) (grPipeline : GrPipeline) (blob : GrStoredPipelineBlob)
    (k : Nat) : Nat :=
  (emitAll Y ((storedChunks Y grPipeline).take k)
    ({ blob with version := 0 }, Y.sizeofGrStoredPipelineBlob)).2

/-! ## `handleDynamicDescriptorSlots` and `grCreateGraphicsPipeline` -/

/-- The value `VK_SHADER_STAGE_VERTEX_BIT`. -/
def VK_SHADER_STAGE_VERTEX_BIT : Nat := 0x1

/-- The value `VK_SHADER_STAGE_GEOMETRY_BIT`. -/
def VK_SHADER_STAGE_GEOMETRY_BIT : Nat := 0x8

/-- The value `VK_SHADER_STAGE_FRAGMENT_BIT`. -/
def VK_SHADER_STAGE_FRAGMENT_BIT : Nat := 0x10

/-- The value `VK_PIPELINE_CREATE_DISABLE_OPTIMIZATION_BIT`. -/
def VK_PIPELINE_CREATE_DISABLE_OPTIMIZATION_BIT : Nat := 0x1

/-- What the pipeline creation functions take from outside the sources: constants of
`mantle_internal.h` and of the API header, functions defined in other files (the binding
patcher, the shader compilers, the format conversions, `getGrResult`, `qsort`), whether
the file is compiled with `TESS`, the `VkResult` with which `vkCreateShaderModule` fails
on a code it does not accept, and the contents of memory that C leaves uninitialised (the
local path arrays, the arrays from `malloc`, the local `shaderStageCreateInfo`). -/
structure CreateEnv where
  L : Limits
  DESCRIPTOR_SET_ID : Nat
  DESCRIPTOR_BUFFERS_BASE_DESCRIPTOR_SET_ID : Nat
  DESCRIPTOR_BUFFERS_PUSH_DESCRIPTOR_SET_ID : Nat
  DYNAMIC_MEMORY_VIEW_DESCRIPTOR_SET_ID : Nat
  DESCRIPTOR_BUFFERS_DYNAMIC_MAPPING_BINDING_ID : Nat
  DYNAMIC_MEMORY_VIEW_BINDING_ID : Nat
  GR_TOPOLOGY_RECT_LIST : Nat
  GR_LOGIC_OP_COPY : Nat
  GR_PIPELINE_CREATE_DISABLE_OPTIMIZATION : Nat
  GR_MAX_COLOR_TARGETS : Nat
  TESS : Bool
  getDescriptorOffset : Nat → Nat
  qsort : Qsort
  patchShaderBindings : List Nat → Option (List IlcBindingPatchEntry) → Nat → List Nat
  ilcRecompileHullShader : List Nat → List Nat → List Nat
  ilcCompileRectangleGeometryShader : List Nat → List Nat
  getVkFormat : Nat → Nat
  getVkColorComponentFlags : Nat → Nat
  getVkPrimitiveTopology : Nat → Nat
  getVkLogicOp : Nat → Nat
  getDepthVkFormat : Nat → Nat
  getStencilVkFormat : Nat → Nat
  getGrResult : Int → GR_RESULT
  shaderModuleResult : List Nat → Int
  uninitPath : Nat → Nat
  uninitPatchEntry : Nat → Nat → IlcBindingPatchEntry
  uninitSpecData : Nat → Nat → Nat
  uninitStageCreateInfo : Nat → VkPipelineShaderStageCreateInfo

/-- What `handleDynamicDescriptorSlots` returns and leaves behind its pointers. -/
structure DynamicSlots where
  matched : Bool
  descriptorSlot : PipelineDescriptorSlot
  offsets : List Nat
  descriptorSetIndices : List Nat
  patchEntries : List IlcBindingPatchEntry
deriving DecidableEq, Repr

/-- The condition of the loop of `handleDynamicDescriptorSlots`, for one binding. -/
def dynamicMatches (dynamicMapping : GR_DYNAMIC_MEMORY_VIEW_SLOT_INFO) (binding : IlcBinding) :
    Bool :=
  decide (dynamicMapping.slotObjectType ≠ GR_SLOT_UNUSED) &&
    decide (binding.ilIndex = dynamicMapping.shaderEntityIndex) &&
    decide (binding.type = ILC_BINDING_RESOURCE)

/-- The slot that `handleDynamicDescriptorSlots` writes to `*descriptorSlot` for a matched
binding: depth 0, a zeroed path, and one stride pair when the binding has a stride
index. -/
def dynamicSlot (L : Limits) (binding : IlcBinding) : PipelineDescriptorSlot :=
  if 0 ≤ binding.strideIndex then
    { pathDepth := 0
      path := List.replicate L.MAX_PATH_DEPTH 0
      strideCount := 1
      strideOffsets :=
        (List.replicate L.MAX_STRIDES 0).set 0 ((binding.strideIndex * 4).toNat % 2 ^ 32)
      strideSlotIndexes := (List.replicate L.MAX_STRIDES 0).set 0 0 }
  else
    { pathDepth := 0
      path := List.replicate L.MAX_PATH_DEPTH 0
      strideCount := 0
      strideOffsets := List.replicate L.MAX_STRIDES 0
      strideSlotIndexes := List.replicate L.MAX_STRIDES 0 }

/-- Source: `handleDynamicDescriptorSlots`. -/
def handleDynamicDescriptorSlots (env : CreateEnv) (descriptorSlot : PipelineDescriptorSlot)
    (dynamicMapping : GR_DYNAMIC_MEMORY_VIEW_SLOT_INFO) (descriptorBufferUsed : Bool)
    (bindings : List IlcBinding) (offsets descriptorSetIndices : List Nat)
    (patchEntries : List IlcBindingPatchEntry) : DynamicSlots :=
  match bindings.findIdx? (dynamicMatches dynamicMapping) with
  | some i =>
    let binding := bindings.getD i ⟨0, ILC_BINDING_SAMPLER, 0, 0, 0, 0, 0⟩
    let descriptorSetIndex :=
      if descriptorBufferUsed then env.DESCRIPTOR_BUFFERS_PUSH_DESCRIPTOR_SET_ID
      else env.DYNAMIC_MEMORY_VIEW_DESCRIPTOR_SET_ID
    { matched := true
      descriptorSlot := dynamicSlot env.L binding
      offsets := offsets.set i 0
      descriptorSetIndices := descriptorSetIndices.set i descriptorSetIndex
      patchEntries := patchEntries.set i
        { id := binding.id
          bindingIndex :=
            if descriptorBufferUsed then env.DESCRIPTOR_BUFFERS_DYNAMIC_MAPPING_BINDING_ID
            else env.DYNAMIC_MEMORY_VIEW_BINDING_ID
          descriptorSetIndex := descriptorSetIndex } }
  | none =>
    { matched := false, descriptorSlot := descriptorSlot, offsets := offsets
      descriptorSetIndices := descriptorSetIndices, patchEntries := patchEntries }

/-- The structure `GR_PIPELINE_CB_TARGET_STATE`, with the format taken as one value. -/
structure GR_PIPELINE_CB_TARGET_STATE where
  format : Nat
  channelWriteMask : Nat
deriving DecidableEq, Repr

instance : Inhabited GR_PIPELINE_CB_TARGET_STATE := ⟨⟨0, 0⟩⟩

/-- The fields of `GR_GRAPHICS_PIPELINE_CREATE_INFO` that `grCreateGraphicsPipeline` reads:
the five shaders, `iaState.topology`, `tessState.patchControlPoints`,
`rsState.depthClipEnable`, `cbState.alphaToCoverageEnable`, `cbState.logicOp`,
`cbState.target`, `dbState.format` and `flags`. -/
structure GR_GRAPHICS_PIPELINE_CREATE_INFO where
  vs : GR_PIPELINE_SHADER
  hs : GR_PIPELINE_SHADER
  ds : GR_PIPELINE_SHADER
  gs : GR_PIPELINE_SHADER
  ps : GR_PIPELINE_SHADER
  topology : Nat
  patchControlPoints : Nat
  depthClipEnable : Nat
  alphaToCoverageEnable : Nat
  logicOp : Nat
  target : List GR_PIPELINE_CB_TARGET_STATE
  dbFormat : Nat
  flags : Nat

/-- The local array `stages` of `grCreateGraphicsPipeline`; it has five initialisers, and
`MAX_STAGE_COUNT` is its bound. -/
def graphicsStages (pCreateInfo : GR_GRAPHICS_PIPELINE_CREATE_INFO) : List Stage :=
  [{ shader := pCreateInfo.vs, flags := VK_SHADER_STAGE_VERTEX_BIT },
   { shader := pCreateInfo.hs, flags := VK_SHADER_STAGE_TESSELLATION_CONTROL_BIT },
   { shader := pCreateInfo.ds, flags := VK_SHADER_STAGE_TESSELLATION_EVALUATION_BIT },
   { shader := pCreateInfo.gs, flags := VK_SHADER_STAGE_GEOMETRY_BIT },
   { shader := pCreateInfo.ps, flags := VK_SHADER_STAGE_FRAGMENT_BIT }]

/-- The locals that the first stage loop of the creation functions fills: per stage the
arrays `patchEntries[i]`, `specData[i]` (its first half holds the offsets, its second
half is `descriptorSetIndices[i]`), `mapEntries[i]` (`none` is `NULL`, and with it
`patchEntries[i]` and `specData[i]` are `NULL`) and `specInfos[i]`; and the two locals
about the dynamic memory view. -/
structure PreparedStages where
  buffers : List StageBuffers
  mapEntries : List (Option (List VkSpecializationMapEntry))
  specInfos : List VkSpecializationInfo
  dynamicMappingUsed : Bool
  dynamicDescriptorSlot : PipelineDescriptorSlot
deriving DecidableEq, Repr

/-- The two entries `mapEntries[i][j * 2]` and `mapEntries[i][j * 2 + 1]`. -/
def stageMapEntries (bindings : List IlcBinding) (j : Nat) : List VkSpecializationMapEntry :=
  let binding := bindings.getD j ⟨0, ILC_BINDING_SAMPLER, 0, 0, 0, 0, 0⟩
  [{ constantID := binding.offsetSpecId, offset := (j * 4) % 2 ^ 32, size := 4 },
   { constantID := binding.descriptorSetIndexSpecId
     offset := ((j + bindings.length) * 4) % 2 ^ 32, size := 4 }]

/-- The body of the first stage loop of `grCreateGraphicsPipeline` for stage `i`. -/
def prepareStage (env : CreateEnv) (Y : BlobLayout) (grDevice : GrDevice) (i : Nat)
    (stage : Stage) (st : PreparedStages) : PreparedStages :=
  match stage.shader.shader with
  | none => st
  | some grShader =>
    if grShader.bindings.length = 0 then st
    else
      let bindingCount := grShader.bindings.length
      let r := handleDynamicDescriptorSlots env st.dynamicDescriptorSlot
        stage.shader.dynamicMemoryViewMapping grDevice.descriptorBufferSupported
        grShader.bindings
        ((List.range bindingCount).map (fun j => env.uninitSpecData i j))
        ((List.range bindingCount).map (fun j => env.uninitSpecData i (bindingCount + j)))
        ((List.range bindingCount).map (fun j => env.uninitPatchEntry i j))
      { buffers := st.buffers.set i
          { patchEntries := r.patchEntries, specOffsets := r.offsets
            specDescriptorIndices := r.descriptorSetIndices }
        mapEntries := st.mapEntries.set i
          (some ((List.range bindingCount).flatMap (stageMapEntries grShader.bindings)))
        specInfos := st.specInfos.set i
          { mapEntryCount := (bindingCount * 2) % 2 ^ 32
            dataSize := (4 * bindingCount * 2) % 2 ^ Y.sizeBits }
        dynamicMappingUsed := st.dynamicMappingUsed || r.matched
        dynamicDescriptorSlot := r.descriptorSlot }

/-- The first stage loop, from stage `i` on. -/
def prepareStages (env : CreateEnv) (Y : BlobLayout) (grDevice : GrDevice) :
    Nat → List Stage → PreparedStages → PreparedStages
  | _, [], st => st
  | i, stage :: rest, st =>
    prepareStages env Y grDevice (i + 1) rest (prepareStage env Y grDevice i stage st)

/-- The initial values of the locals of the first stage loop. -/
def initialPrepared (env : CreateEnv) (Y : BlobLayout) : PreparedStages :=
  { buffers := List.replicate Y.MAX_STAGE_COUNT ⟨[], [], []⟩
    mapEntries := List.replicate Y.MAX_STAGE_COUNT none
    specInfos := List.replicate Y.MAX_STAGE_COUNT ⟨0, 0⟩
    dynamicMappingUsed := false
    dynamicDescriptorSlot :=
      { pathDepth := 0, path := List.replicate env.L.MAX_PATH_DEPTH 0, strideCount := 0
        strideOffsets := List.replicate env.L.MAX_STRIDES 0
        strideSlotIndexes := List.replicate env.L.MAX_STRIDES 0 } }

/-- The locals of the loop over the mapping indices: the running `descriptorSetCount`,
`descriptorSetCounts`, `pipelineDescriptorSlots` (`none` is `NULL`: nothing was ever
appended) and the per-stage arrays. -/
structure ResolvedMappings where
  descriptorSetCount : Nat
  descriptorSetCounts : List Nat
  pipelineDescriptorSlots : List (Option (List PipelineDescriptorSlot))
  buffers : List StageBuffers
deriving DecidableEq, Repr

/-- The loop `for (i = 0; i < GR_MAX_DESCRIPTOR_SETS; i++)` that calls
`getDescriptorSlotMappings`, over the mapping indices not yet visited. -/
def resolveMappings (env : CreateEnv) (grDevice : GrDevice) (stages : List Stage) :
    List Nat → ResolvedMappings → Except Fault ResolvedMappings
  | [], r => .ok r
  | i :: rest, r =>
    match getDescriptorSlotMappings env.L env.getDescriptorOffset env.qsort env.uninitPath []
        stages r.buffers i
        ((r.descriptorSetCount +
          (if grDevice.descriptorBufferSupported then
            env.DESCRIPTOR_BUFFERS_BASE_DESCRIPTOR_SET_ID
           else env.DESCRIPTOR_SET_ID)) % 2 ^ 32) with
    | .error e => .error e
    | .ok (merged, buffers) =>
      resolveMappings env grDevice stages rest
        { descriptorSetCount := (r.descriptorSetCount + merged.length) % 2 ^ 32
          descriptorSetCounts := r.descriptorSetCounts.set i merged.length
          pipelineDescriptorSlots :=
            r.pipelineDescriptorSlots.set i (if merged = [] then none else some merged)
          buffers := buffers }

/-- The first two loops of `grCreateGraphicsPipeline` (and of `grCreateComputePipeline`) on
the stage array: the locals of the first loop, and the locals of the loop over the mapping
indices, whose per-stage arrays are what the third loop hands to `patchShaderBindings`. -/
def resolveStages (env : CreateEnv) (Y : BlobLayout) (grDevice : GrDevice)
    (stages : List Stage) : Except Fault (PreparedStages × ResolvedMappings) :=
  let prepared := prepareStages env Y grDevice 0 stages (initialPrepared env Y)
  match resolveMappings env grDevice stages (List.range Y.GR_MAX_DESCRIPTOR_SETS)
      { descriptorSetCount := 0
        descriptorSetCounts := List.replicate Y.GR_MAX_DESCRIPTOR_SETS 0
        pipelineDescriptorSlots := List.replicate Y.GR_MAX_DESCRIPTOR_SETS none
        buffers := prepared.buffers } with
  | .error e => .error e
  | .ok resolved => .ok (prepared, resolved)

/-- The locals of `grCreateGraphicsPipeline` that the third stage loop and the rectangle
block update. `specData[i]` is held as its `uint32_t` words. -/
structure BuiltStages where
  shaderModules : List (Option Nat)
  shaderCode : List (Option (List Nat))
  shaderCodeSizes : List Nat
  patchEntries : List (Option (List IlcBindingPatchEntry))
  specData : List (Option (List Nat))
  mapEntries : List (Option (List VkSpecializationMapEntry))
  specInfos : List VkSpecializationInfo
  shaderStageCreateInfo : List VkPipelineShaderStageCreateInfo
  stageCount : Nat
  hasTessellation : Bool
deriving DecidableEq, Repr

/-- How a part of a creation function ends: it goes on, or it jumps to `bail` with the
result code `res`. -/
inductive CreateFlow where
  | next (st : BuiltStages)
  | bail (res : GR_RESULT) (st : BuiltStages)
deriving DecidableEq, Repr

/-- The locals at the start of the third stage loop: the arrays of the first loop as the
loop over the mapping indices left them. -/
def initialBuilt (env : CreateEnv) (Y : BlobLayout) (prepared : PreparedStages)
    (resolved : ResolvedMappings) : BuiltStages :=
  { shaderModules := List.replicate Y.MAX_STAGE_COUNT none
    shaderCode := List.replicate Y.MAX_STAGE_COUNT none
    shaderCodeSizes := List.replicate Y.MAX_STAGE_COUNT 0
    patchEntries := (List.range Y.MAX_STAGE_COUNT).map (fun i =>
      if (prepared.mapEntries.getD i none).isSome then
        some (resolved.buffers.getD i default).patchEntries
      else none)
    specData := (List.range Y.MAX_STAGE_COUNT).map (fun i =>
      if (prepared.mapEntries.getD i none).isSome then
        some ((resolved.buffers.getD i default).specOffsets ++
          (resolved.buffers.getD i default).specDescriptorIndices)
      else none)
    mapEntries := prepared.mapEntries
    specInfos := prepared.specInfos
    shaderStageCreateInfo := (List.range Y.MAX_STAGE_COUNT).map env.uninitStageCreateInfo
    stageCount := 0
    hasTessellation := false }

/-- The body of the third stage loop of `grCreateGraphicsPipeline` for stage `i`.
`patchShaderBindings` rewrites the copy of the code in place; under `TESS` a hull shader
is recompiled when there is a vertex shader. -/
def buildStage (env : CreateEnv) (native : NativeApi) (stages : List Stage) (i : Nat)
    (stage : Stage) (st : BuiltStages) : CreateFlow :=
  match stage.shader.shader with
  | none => .next st
  | some grShader =>
    let patched := env.patchShaderBindings grShader.code (st.patchEntries.getD i none)
      grShader.bindings.length
    let recompiled : Option (List Nat) :=
      if env.TESS && decide (stage.flags = VK_SHADER_STAGE_TESSELLATION_CONTROL_BIT) then
        match (stages.getD 0 stage).shader.shader with
        | some grVertexShader =>
          some (env.ilcRecompileHullShader patched grVertexShader.outputLocations)
        | none => none
      else none
    let code := recompiled.getD patched
    let codeSize :=
      match recompiled with
      | some c => c.length
      | none => grShader.code.length
    let shaderModule := native.vkCreateShaderModule code
    let st1 := { st with
      shaderModules := st.shaderModules.set st.stageCount shaderModule
      shaderCode := st.shaderCode.set st.stageCount (some code)
      shaderCodeSizes := st.shaderCodeSizes.set st.stageCount (codeSize % 2 ^ 32) }
    match shaderModule with
    | none => .bail (env.getGrResult (env.shaderModuleResult code)) st1
    | some _ =>
      let st2 :=
        if st.stageCount ≠ i then
          { st1 with
            patchEntries :=
              (st1.patchEntries.set st.stageCount (st1.patchEntries.getD i none)).set i none
            mapEntries :=
              (st1.mapEntries.set st.stageCount (st1.mapEntries.getD i none)).set i none
            specData := (st1.specData.set st.stageCount (st1.specData.getD i none)).set i none
            specInfos :=
              (st1.specInfos.set st.stageCount (st1.specInfos.getD i default)).set i ⟨0, 0⟩ }
        else st1
      .next { st2 with
        shaderStageCreateInfo :=
          st2.shaderStageCreateInfo.set st.stageCount
            { stage := stage.flags, module := shaderModule }
        stageCount := st.stageCount + 1
        hasTessellation :=
          if stage.flags = VK_SHADER_STAGE_TESSELLATION_CONTROL_BIT ∨
              stage.flags = VK_SHADER_STAGE_TESSELLATION_EVALUATION_BIT then true
          else st2.hasTessellation }

/-- The third stage loop, from stage `i` on; `stages` is the whole stage array. -/
def buildStages (env : CreateEnv) (native : NativeApi) (stages : List Stage) :
    Nat → List Stage → BuiltStages → CreateFlow
  | _, [], st => .next st
  | i, stage :: rest, st =>
    match buildStage env native stages i stage st with
    | .bail res st1 => .bail res st1
    | .next st1 => buildStages env native stages (i + 1) rest st1

/-- The code of the geometry shader that emulates `GR_TOPOLOGY_RECT_LIST`, compiled for
the inputs of the pixel shader (for no inputs when there is no pixel shader). -/
def rectangleShaderCode (env : CreateEnv) (pCreateInfo : GR_GRAPHICS_PIPELINE_CREATE_INFO) :
    List Nat :=
  env.ilcCompileRectangleGeometryShader
    (match pCreateInfo.ps.shader with
      | some grPixelShader => grPixelShader.inputs
      | none => [])

/-- The block of `grCreateGraphicsPipeline` that emulates `GR_TOPOLOGY_RECT_LIST` with a
geometry shader. -/
def rectangleStage (env : CreateEnv) (native : NativeApi)
    (pCreateInfo : GR_GRAPHICS_PIPELINE_CREATE_INFO) (st : BuiltStages) :
    Except Fault CreateFlow :=
  if pCreateInfo.topology = env.GR_TOPOLOGY_RECT_LIST then
    if pCreateInfo.hs.shader.isSome ∨ pCreateInfo.ds.shader.isSome ∨
        pCreateInfo.gs.shader.isSome then
      .error Fault.assertion
    else
      let code := rectangleShaderCode env pCreateInfo
      let shaderModule := native.vkCreateShaderModule code
      let st1 := { st with
        shaderModules := st.shaderModules.set st.stageCount shaderModule
        shaderCode := st.shaderCode.set st.stageCount (some code)
        shaderCodeSizes := st.shaderCodeSizes.set st.stageCount (code.length % 2 ^ 32) }
      match shaderModule with
      | none => .ok (.bail (env.getGrResult (env.shaderModuleResult code)) st1)
      | some _ =>
        .ok (.next { st1 with
          shaderStageCreateInfo :=
            st1.shaderStageCreateInfo.set st.stageCount
              { stage := VK_SHADER_STAGE_GEOMETRY_BIT, module := shaderModule }
          stageCount := st.stageCount + 1 })
  else .ok (.next st)

/-- The heap buffers and native objects that `grCreateGraphicsPipeline` allocates, named by
the local variable that holds them (for an array: the buffers or handles in its entries). -/
inductive CreateResource where
  | patchEntries
  | specData
  | mapEntries
  | pipelineDescriptorSlots
  | shaderCode
  | shaderModules
  | pipelineCreateInfo
  | pipelineLayout
  | grPipeline
deriving DecidableEq, Repr

/-- What the block at `bail` of `grCreateGraphicsPipeline` releases: the pipeline layout,
every entry of `shaderModules`, `patchEntries`, `specData`, `mapEntries` and `shaderCode`,
and every entry of `pipelineDescriptorSlots`. -/
def bailReleases : List CreateResource :=
  [CreateResource.pipelineLayout, CreateResource.shaderModules, CreateResource.patchEntries,
   CreateResource.specData, CreateResource.mapEntries, CreateResource.shaderCode,
   CreateResource.pipelineDescriptorSlots]

/-- The resources that are still allocated after the block at `bail`, given those that
were allocated before the jump. -/
def liveAfterBail (allocated : List CreateResource) : List CreateResource :=
  allocated.filter (fun r => decide (r ∉ bailReleases))

/-- What the three stage loops, the loop over the mapping indices and the rectangle block
allocate: the buffers of the first loop (`malloc`), the slot arrays (`realloc`), the copies
of the shader code (`malloc`, or made by a compiler) and the shader modules. -/
def stageResources : List CreateResource :=
  [CreateResource.patchEntries, CreateResource.mapEntries, CreateResource.specData,
   CreateResource.pipelineDescriptorSlots, CreateResource.shaderCode,
   CreateResource.shaderModules]

/-- What a creation function hands back: the result code, the pipeline written to
`*pPipeline` (on success only), and the resources allocated during the call that are
still allocated at a failure return (on success what is still allocated belongs to the
pipeline). -/
structure CreateResult where
  result : GR_RESULT
  pipeline : Option GrPipeline
  leaked : List CreateResource := []
deriving DecidableEq, Repr

/-- The structure that `grCreateGraphicsPipeline` allocates as `pipelineCreateInfo`. -/
def graphicsCreateInfo (env : CreateEnv) (Y : BlobLayout)
    (pCreateInfo : GR_GRAPHICS_PIPELINE_CREATE_INFO) (st : BuiltStages) : PipelineCreateInfo :=
  { stageCreateInfos :=
      memcpyInto (List.replicate Y.MAX_STAGE_COUNT default)
        (memcpyRead st.shaderStageCreateInfo 0 st.stageCount default)
    topology := env.getVkPrimitiveTopology pCreateInfo.topology
    patchControlPoints := pCreateInfo.patchControlPoints
    depthClipEnable := if pCreateInfo.depthClipEnable ≠ 0 then 1 else 0
    alphaToCoverageEnable := if pCreateInfo.alphaToCoverageEnable ≠ 0 then 1 else 0
    logicOpEnable := if pCreateInfo.logicOp ≠ env.GR_LOGIC_OP_COPY then 1 else 0
    logicOp := env.getVkLogicOp pCreateInfo.logicOp
    colorFormats := (List.range env.GR_MAX_COLOR_TARGETS).map (fun i =>
      env.getVkFormat (pCreateInfo.target.getD i default).format)
    colorWriteMasks := (List.range env.GR_MAX_COLOR_TARGETS).map (fun i =>
      env.getVkColorComponentFlags (pCreateInfo.target.getD i default).channelWriteMask)
    depthFormat := env.getDepthVkFormat pCreateInfo.dbFormat
    stencilFormat := env.getStencilVkFormat pCreateInfo.dbFormat }

/-- Source: `grCreateGraphicsPipeline`. -/
def grCreateGraphicsPipeline (env : CreateEnv) (Y : BlobLayout) (native : NativeApi)
    (grDevice : GrDevice) (pCreateInfo : GR_GRAPHICS_PIPELINE_CREATE_INFO) :
    Except Fault CreateResult :=
  let stages := graphicsStages pCreateInfo
  match resolveStages env Y grDevice stages with
  | .error e => .error e
  | .ok (prepared, resolved) =>
    match buildStages env native stages 0 stages (initialBuilt env Y prepared resolved) with
    | .bail res _ =>
      .ok { result := res, pipeline := none, leaked := liveAfterBail stageResources }
    | .next built =>
      match rectangleStage env native pCreateInfo built with
      | .error e => .error e
      | .ok (.bail res _) =>
        .ok { result := res, pipeline := none, leaked := liveAfterBail stageResources }
      | .ok (.next st) =>
        -- `pipelineCreateInfo = malloc(sizeof(PipelineCreateInfo))` comes before the layout
        match getVkPipelineLayout Y native grDevice
            (totalDescriptorSets Y resolved.descriptorSetCounts)
            VK_PIPELINE_BIND_POINT_GRAPHICS with
        | .error e => .error e
        | .ok none =>
          .ok { result := GR_ERROR_OUT_OF_MEMORY, pipeline := none
                leaked := liveAfterBail (stageResources ++ [CreateResource.pipelineCreateInfo]) }
        | .ok (some pipelineLayout) =>
          .ok { result := GR_SUCCESS
                pipeline := some
                  { shaderModules := st.shaderModules
                    shaderCode := st.shaderCode
                    shaderCodeSizes := st.shaderCodeSizes
                    createFlags :=
                      (if pCreateInfo.flags &&& env.GR_PIPELINE_CREATE_DISABLE_OPTIMIZATION ≠ 0
                        then VK_PIPELINE_CREATE_DISABLE_OPTIMIZATION_BIT else 0) |||
                      (if grDevice.descriptorBufferSupported then
                        VK_PIPELINE_CREATE_DESCRIPTOR_BUFFER_BIT_EXT else 0)
                    createInfo := some (graphicsCreateInfo env Y pCreateInfo st)
                    hasTessellation := st.hasTessellation
                    pipeline := none
                    pipelineLayout := some pipelineLayout
                    stageCount := st.stageCount
                    dynamicMappingUsed := if prepared.dynamicMappingUsed then 1 else 0
                    dynamicDescriptorSlot := prepared.dynamicDescriptorSlot
                    descriptorSetCounts := resolved.descriptorSetCounts
                    descriptorSlots := resolved.pipelineDescriptorSlots
                    specInfos := st.specInfos
                    specData := st.specData.map (fun d =>
                      d.map (fun words => words.flatMap bytesOfUnsigned))
                    mapEntries := st.mapEntries } }

/-- Source: `getGrResult` of `mantleaxl_adv_msaa.c`, on the numeric values of `VkResult`
(`VK_SUCCESS` 0, `VK_NOT_READY` 1, `VK_TIMEOUT` 2, `VK_EVENT_SET` 3, `VK_EVENT_RESET` 4,
`VK_ERROR_OUT_OF_HOST_MEMORY` -1, `VK_ERROR_OUT_OF_DEVICE_MEMORY` -2,
`VK_ERROR_DEVICE_LOST` -4, `VK_ERROR_MEMORY_MAP_FAILED` -5). -/
def getGrResult (result : Int) : GR_RESULT :=
  if result = 0 then GR_SUCCESS
  else if result = 1 then GR_NOT_READY
  else if result = 2 then GR_TIMEOUT
  else if result = 3 then GR_EVENT_SET
  else if result = 4 then GR_EVENT_RESET
  else if result = -1 then GR_ERROR_OUT_OF_MEMORY
  else if result = -2 then GR_ERROR_OUT_OF_GPU_MEMORY
  else if result = -4 then GR_ERROR_DEVICE_LOST
  else if result = -5 then GR_ERROR_MEMORY_MAP_FAILED
  else GR_ERROR_UNKNOWN

/-- An environment for the examples: the reserved sets 0 and 1 and the base set 2 that the
pipeline layout shows, a patcher and compilers that leave the code as it is, a failing
`vkCreateShaderModule` reporting `VK_ERROR_OUT_OF_HOST_MEMORY`, zeroed fresh memory. -/
def exampleEnv : CreateEnv :=
  { L := exampleLimits
    DESCRIPTOR_SET_ID := 2
    DESCRIPTOR_BUFFERS_BASE_DESCRIPTOR_SET_ID := 2
    DESCRIPTOR_BUFFERS_PUSH_DESCRIPTOR_SET_ID := 1
    DYNAMIC_MEMORY_VIEW_DESCRIPTOR_SET_ID := 0
    DESCRIPTOR_BUFFERS_DYNAMIC_MAPPING_BINDING_ID := 0
    DYNAMIC_MEMORY_VIEW_BINDING_ID := 0
    GR_TOPOLOGY_RECT_LIST := 0x2105
    GR_LOGIC_OP_COPY := 0x2C00
    GR_PIPELINE_CREATE_DISABLE_OPTIMIZATION := 1
    GR_MAX_COLOR_TARGETS := 8
    TESS := false
    getDescriptorOffset := fun _ => 0
    qsort := stableQsort
    patchShaderBindings := fun code _ _ => code
    ilcRecompileHullShader := fun code _ => code
    ilcCompileRectangleGeometryShader := fun _ => [3, 2, 35, 7]
    getVkFormat := fun f => f
    getVkColorComponentFlags := fun m => m
    getVkPrimitiveTopology := fun t => t
    getVkLogicOp := fun o => o
    getDepthVkFormat := fun f => f
    getStencilVkFormat := fun f => f
    getGrResult := getGrResult
    shaderModuleResult := fun _ => -1
    uninitPath := fun _ => 0
    uninitPatchEntry := fun _ _ => default
    uninitSpecData := fun _ _ => 0
    uninitStageCreateInfo := fun _ => default }

/-- A native API whose `vkCreateShaderModule` fails on every code. -/
def exampleFailingNative : NativeApi :=
  { vkCreateShaderModule := fun _ => none
    vkCreatePipelineLayout := fun _ => some 2
    vkCreateComputePipelines := fun _ _ _ => some 3 }

/-- A pipeline shader without bindings and without mapping slots. -/
def examplePlainShader : GR_PIPELINE_SHADER :=
  { shader := some { bindings := [], code := [3, 2, 35, 7] }
    descriptorSetMapping := [[], []] }

/-- The null pipeline shader. -/
def exampleNullShader : GR_PIPELINE_SHADER :=
  { shader := none, descriptorSetMapping := [[], []] }

/-- A rect-list request with a vertex, a geometry and a pixel shader. -/
def exampleRectListRequest : GR_GRAPHICS_PIPELINE_CREATE_INFO :=
  { vs := examplePlainShader, hs := exampleNullShader, ds := exampleNullShader
    gs := examplePlainShader, ps := examplePlainShader
    topology := 0x2105, patchControlPoints := 0, depthClipEnable := 1
    alphaToCoverageEnable := 0, logicOp := 0x2C00
    target := [⟨37, 15⟩], dbFormat := 0, flags := 0 }

/-- The well-known descriptor set of the dynamic memory view. -/
def dynamicViewSet (env : CreateEnv) (descriptorBufferUsed : Bool) : Nat :=
  if descriptorBufferUsed then env.DESCRIPTOR_BUFFERS_PUSH_DESCRIPTOR_SET_ID
  else env.DYNAMIC_MEMORY_VIEW_DESCRIPTOR_SET_ID

/-- The well-known binding index of the dynamic memory view. -/
def dynamicViewBinding (env : CreateEnv) (descriptorBufferUsed : Bool) : Nat :=
  if descriptorBufferUsed then env.DESCRIPTOR_BUFFERS_DYNAMIC_MAPPING_BINDING_ID
  else env.DYNAMIC_MEMORY_VIEW_BINDING_ID

/-- A pipeline shader whose one binding (id 7, resource, entity 0) is named by the dynamic
memory view mapping, and whose descriptor set mapping 0 is the given node. -/
def exampleDynamicShader (mapping : GR_DESCRIPTOR_SET_MAPPING) : GR_PIPELINE_SHADER :=
  { shader := some { bindings := [exampleBinding 7 0], code := [3, 2, 35, 7] }
    descriptorSetMapping := [mapping, []]
    dynamicMemoryViewMapping := ⟨GR_SLOT_SHADER_RESOURCE, 0⟩ }

/-- A request whose only shader is the vertex shader `exampleDynamicShader mapping`. -/
def exampleDynamicRequest (mapping : GR_DESCRIPTOR_SET_MAPPING) :
    GR_GRAPHICS_PIPELINE_CREATE_INFO :=
  { vs := exampleDynamicShader mapping, hs := exampleNullShader, ds := exampleNullShader
    gs := exampleNullShader, ps := exampleNullShader
    topology := 3, patchControlPoints := 0, depthClipEnable := 1
    alphaToCoverageEnable := 0, logicOp := 0x2C00
    target := [⟨37, 15⟩], dbFormat := 0, flags := 0 }

/-! ## Specification-side notions for extraction and stride pairs -/

/-- The matching rule in the words of the specification: the binding's `ilIndex` is the
slot's `shaderEntityIndex`, and either the binding is a sampler and the slot a sampler
slot, or the binding is a resource and the slot a resource or UAV slot. -/
def slotMatchesBinding (slotObjectType : GR_DESCRIPTOR_SET_SLOT_TYPE) (shaderEntityIndex : Nat)
    (binding : IlcBinding) : Prop :=
  binding.ilIndex = shaderEntityIndex ∧
    ((binding.type = ILC_BINDING_SAMPLER ∧ slotObjectType = GR_SLOT_SHADER_SAMPLER) ∨
      (binding.type = ILC_BINDING_RESOURCE ∧
        (slotObjectType = GR_SLOT_SHADER_RESOURCE ∨ slotObjectType = GR_SLOT_SHADER_UAV)))

/-- A bound mapping slot that matches a binding: the route to its node, its index in the
node, and the index of the binding it matches. -/
structure SlotMatch where
  route : List Nat
  slotIndex : Nat
  bindingIndex : Nat
deriving DecidableEq, Repr

mutual
/-- The matched mapping slots below one mapping slot, in the order of the walk. -/
def boundInSlot (bindings : List IlcBinding) (route : List Nat) (i : Nat) :
    GR_DESCRIPTOR_SLOT_INFO → List SlotMatch
  | .mk slotObjectType shaderEntityIndex pNextLevelSet =>
    if slotObjectType = GR_SLOT_UNUSED then []
    else if slotObjectType = GR_SLOT_NEXT_DESCRIPTOR_SET then
      boundInMapping bindings (route ++ [i]) 0 pNextLevelSet
    else
      match findBinding bindings (.mk slotObjectType shaderEntityIndex pNextLevelSet) with
      | none => []
      | some j => [⟨route, i, j⟩]
/-- The matched mapping slots among the slots `i, i + 1, ...` of a node reached by `route`,
and below them. -/
def boundInMapping (bindings : List IlcBinding) (route : List Nat) (i : Nat) :
    List GR_DESCRIPTOR_SLOT_INFO → List SlotMatch
  | [] => []
  | slotInfo :: rest =>
    boundInSlot bindings route i slotInfo ++ boundInMapping bindings route (i + 1) rest
end

/-- The binding at index `j` of a shader's binding array. -/
def bindingAt (bindings : List IlcBinding) (j : Nat) : IlcBinding :=
  bindings.getD j ⟨0, ILC_BINDING_SAMPLER, 0, 0, 0, 0, 0⟩

/-- The write `offsets[j] = i * DESCRIPTORS_PER_SLOT + getDescriptorOffset(descriptorType)`
(a `uint32_t` value) that the specification names for a matched slot. -/
def offsetWrite (L : Limits) (getDescriptorOffset : Nat → Nat) (bindings : List IlcBinding)
    (offsets : List Nat) (w : SlotMatch) : List Nat :=
  offsets.set w.bindingIndex
    ((w.slotIndex * L.DESCRIPTORS_PER_SLOT +
      getDescriptorOffset (bindingAt bindings w.bindingIndex).descriptorType) % 2 ^ 32)

/-- The stride pairs that a descriptor slot holds: its first `strideCount` pairs of
`strideOffsets` and `strideSlotIndexes`. -/
def stridePairs (s : PipelineDescriptorSlot) : List (Nat × Nat) :=
  (s.strideOffsets.take s.strideCount).zip (s.strideSlotIndexes.take s.strideCount)

/-- The stride pairs that the specification names for a matched slot: the pair
(`strideIndex * sizeof(uint32_t)` as an `unsigned`, slot index) when the binding has a
stride index, none otherwise. -/
def stridePairsOfMatch (bindings : List IlcBinding) (w : SlotMatch) : List (Nat × Nat) :=
  if 0 ≤ (bindingAt bindings w.bindingIndex).strideIndex then
    [(((bindingAt bindings w.bindingIndex).strideIndex * 4).toNat % 2 ^ 32, w.slotIndex)]
  else []

/-- What the extraction walk below one mapping slot is shown to write. -/
def ExtractSlotWrites (L : Limits) (getDescriptorOffset : Nat → Nat)
    (bindings : List IlcBinding) (s : GR_DESCRIPTOR_SLOT_INFO) : Prop :=
  ∀ (d i : Nat) (st st1 : ExtractState),
    st.path.length = L.MAX_PATH_DEPTH → d ≤ L.MAX_PATH_DEPTH →
    extractSlot L getDescriptorOffset bindings d i s st = .ok st1 →
    st1.path.length = L.MAX_PATH_DEPTH ∧ st1.path.take d = st.path.take d ∧
    st1.offsets = (boundInSlot bindings (st.path.take d) i s).foldl
        (offsetWrite L getDescriptorOffset bindings) st.offsets ∧
      st1.descriptorSlots = st.descriptorSlots ++
        (boundInSlot bindings (st.path.take d) i s).map
          (fun w => extractedSlot L w.route.length w.route w.slotIndex
            (bindingAt bindings w.bindingIndex))

/-- What the extraction walk over the rest of a mapping node is shown to write. -/
def ExtractSlotsWrites (L : Limits) (getDescriptorOffset : Nat → Nat)
    (bindings : List IlcBinding) (m : List GR_DESCRIPTOR_SLOT_INFO) : Prop :=
  ∀ (d i : Nat) (st st1 : ExtractState),
    st.path.length = L.MAX_PATH_DEPTH → d ≤ L.MAX_PATH_DEPTH →
    extractSlots L getDescriptorOffset bindings d i m st = .ok st1 →
    st1.path.length = L.MAX_PATH_DEPTH ∧ st1.path.take d = st.path.take d ∧
    st1.offsets = (boundInMapping bindings (st.path.take d) i m).foldl
        (offsetWrite L getDescriptorOffset bindings) st.offsets ∧
      st1.descriptorSlots = st.descriptorSlots ++
        (boundInMapping bindings (st.path.take d) i m).map
          (fun w => extractedSlot L w.route.length w.route w.slotIndex
            (bindingAt bindings w.bindingIndex))

/-- A slot as extracted at depth 1 under root slot 3, without stride. -/
def exampleNestedSlot : PipelineDescriptorSlot :=
  { pathDepth := 1, path := [3, 0, 0, 0, 0, 0, 0, 0], strideCount := 0,
    strideOffsets := [0, 0, 0, 0, 0, 0, 0, 0], strideSlotIndexes := [0, 0, 0, 0, 0, 0, 0, 0] }

/-! ## Specification-side notions for structural defects of a blob -/

/-- The sum of the per-mapping-index counts that a `DESCRIPTOR_SLOTS` chunk declares. -/
def declaredSlotTotal (Y : BlobLayout) (chunk : GrBaseBlobChunk) : Nat :=
  ((List.range Y.GR_MAX_DESCRIPTOR_SETS).map
    (fun i => chunk.descriptorSlots.descriptorSetCounts.getD i 0)).sum

/-- The structural defects that the specification lists for the first pass, for the chunk
at running offset `sz`: the chunk overruns the buffer, a payload does not fit its chunk, or
a fixed-size chunk has the wrong size. -/
def FirstPassDefect (Y : BlobLayout) (dataSize sz : Nat) (chunk : GrBaseBlobChunk) : Prop :=
  sz + chunk.size32 + Y.sizeofGrBaseBlobChunk > dataSize ∨
    (chunk.type = SPIRV ∧ chunk.spirv.codeSize + Y.sizeofGrSpirvBlobChunk > chunk.size32) ∨
    (chunk.type = SPEC_INFO ∧
      chunk.specInfo.dataSize + Y.sizeofGrSpecInfoDataBlobChunk > chunk.size32) ∨
    (chunk.type = SPEC_INFO_ENTRIES ∧
      Y.sizeofGrSpecInfoMapEntryBlobChunk +
        chunk.specInfoEntries.mapEntryCount * Y.sizeofVkSpecializationMapEntry >
          chunk.size32) ∨
    (chunk.type = DESCRIPTOR_SLOTS ∧
      Y.sizeofGrPipelineDescriptorChunk +
        declaredSlotTotal Y chunk * Y.sizeofPipelineDescriptorSlot > chunk.size32) ∨
    (chunk.type = GRAPHICS_PIPELINE_INFO ∧
      chunk.size32 ≠ Y.sizeofGrGraphicsPipelineInfoChunk) ∨
    (chunk.type = PIPELINE_INFO ∧ chunk.size32 ≠ Y.sizeofGrPipelineInfoChunk)

/-- The sums of the payload checks of a chunk do not wrap: the `unsigned` total of the
declared slot counts and the `size_t` sums that are compared with `chunk->size`. -/
def PayloadSumsFit (Y : BlobLayout) (chunk : GrBaseBlobChunk) : Prop :=
  chunk.spirv.codeSize + Y.sizeofGrSpirvBlobChunk < 2 ^ Y.sizeBits ∧
    chunk.specInfo.dataSize + Y.sizeofGrSpecInfoDataBlobChunk < 2 ^ Y.sizeBits ∧
    Y.sizeofGrSpecInfoMapEntryBlobChunk +
      chunk.specInfoEntries.mapEntryCount * Y.sizeofVkSpecializationMapEntry <
        2 ^ Y.sizeBits ∧
    declaredSlotTotal Y chunk < 2 ^ 32 ∧
    Y.sizeofGrPipelineDescriptorChunk +
      declaredSlotTotal Y chunk * Y.sizeofPipelineDescriptorSlot < 2 ^ Y.sizeBits

/-- The defects that the second pass finds on a chunk, given the locals `st` filled from
the chunks before it: a stage index that is not below `MAX_STAGE_COUNT`, a `SPIRV` chunk
for a stage whose flags are already set, a `GRAPHICS_PIPELINE_INFO` chunk when one has
been loaded. -/
def SecondPassDefect (Y : BlobLayout) (chunk : GrBaseBlobChunk) (st : LoadState) : Prop :=
  (chunk.type = SPIRV ∧
      (chunk.spirv.stageIndex ≥ Y.MAX_STAGE_COUNT ∨
        st.stageFlags.getD chunk.spirv.stageIndex 0 ≠ 0)) ∨
    (chunk.type = SPEC_INFO ∧ chunk.specInfo.stageIndex ≥ Y.MAX_STAGE_COUNT) ∨
    (chunk.type = SPEC_INFO_ENTRIES ∧ chunk.specInfoEntries.stageIndex ≥ Y.MAX_STAGE_COUNT) ∨
    (chunk.type = GRAPHICS_PIPELINE_INFO ∧ st.createInfo.isSome = true)

/-- A blob of 148 bytes whose first chunk, at offset 4, is a `PIPELINE_INFO` chunk of
declared size 100 (the structure has 116 bytes). -/
def exampleBadInfoBlob : GrStoredPipelineBlob :=
  { version := 0
    chunkAt := fun o =>
      if o = 4 then { examplePipelineInfoChunk 1 with size := 100 }
      else zeroChunk }

/-- A `DESCRIPTOR_SLOTS` chunk that declares one slot for mapping index 0 and none for
mapping index 1, in a chunk of 120 bytes (8 + 104 bytes are needed). -/
def exampleLooseSlotsChunk : GrBaseBlobChunk :=
  { zeroChunk with
    type := DESCRIPTOR_SLOTS, size := 120
    descriptorSlots := { descriptorSetCounts := [1, 0], data := [exampleSlot 0] } }

/-- A blob of 280 bytes: a `PIPELINE_INFO` chunk at offset 4, the chunk
`exampleLooseSlotsChunk` at offset 128 and a compute `SPIRV` chunk at offset 256. -/
def exampleLooseSlotsBlob : GrStoredPipelineBlob :=
  { version := 0
    chunkAt := fun o =>
      if o = 4 then examplePipelineInfoChunk 1
      else if o = 128 then exampleLooseSlotsChunk
      else if o = 256 then exampleSpirvChunk 4
      else zeroChunk }

/-- A native API whose `vkCreatePipelineLayout` fails, the other calls succeeding. -/
def exampleNoLayoutNative : NativeApi :=
  { vkCreateShaderModule := fun _ => some 1
    vkCreatePipelineLayout := fun _ => none
    vkCreateComputePipelines := fun _ _ _ => some 3 }

/-! ## Specification-side notions for the compaction of the stage arrays -/

/-- The non-null stages among `stages`, each with its index in the stage array (the first
of `stages` has index `i`), in the order of the array. -/
def presentFrom : Nat → List Stage → List (Nat × Stage)
  | _, [] => []
  | i, stage :: rest =>
    if stage.shader.shader.isSome then (i, stage) :: presentFrom (i + 1) rest
    else presentFrom (i + 1) rest

/-- The non-null stages of a stage array with their indices, in the order of the array. -/
def presentStages (stages : List Stage) : List (Nat × Stage) :=
  presentFrom 0 stages

/-- The code handed to `vkCreateShaderModule` for the stage `w.2` at index `w.1` of the
stage array: the shader's code patched with the stage's patch entries, recompiled under
`TESS` when the stage is a hull shader and there is a vertex shader. -/
def stageShaderCode (env : CreateEnv) (stages : List Stage)
    (patchEntries : List (Option (List IlcBindingPatchEntry))) (w : Nat × Stage) : List Nat :=
  match w.2.shader.shader with
  | none => []
  | some grShader =>
    let patched := env.patchShaderBindings grShader.code (patchEntries.getD w.1 none)
      grShader.bindings.length
    let recompiled : Option (List Nat) :=
      if env.TESS && decide (w.2.flags = VK_SHADER_STAGE_TESSELLATION_CONTROL_BIT) then
        match (stages.getD 0 w.2).shader.shader with
        | some grVertexShader =>
          some (env.ilcRecompileHullShader patched grVertexShader.outputLocations)
        | none => none
      else none
    recompiled.getD patched

/-- The array `A` holds the entries of the non-null stages `done` of the stages below `i`
at the front, in order, taken from the array `A0` as it was before the loop; the entries
behind them and below `i` are `z`; the entries from `i` on are untouched. -/
def Compacted {α β : Type} (z : α) (A0 : List α) (done : List (Nat × β)) (i : Nat)
    (A : List α) : Prop :=
  A.length = A0.length ∧
    (∀ (k : Nat) (w : Nat × β), done[k]? = some w → A.getD k z = A0.getD w.1 z) ∧
    (∀ k, done.length ≤ k → k < i → A.getD k z = z) ∧
    (∀ k, i ≤ k → A.getD k z = A0.getD k z)

/-- The array `A` holds the value `val w` for each stage `w` of `done` at the front, in
order; the entries behind them are those of `A0`. -/
def Filled {α β : Type} (z : α) (A0 : List α) (val : Nat × β → α) (done : List (Nat × β))
    (A : List α) : Prop :=
  A.length = A0.length ∧
    (∀ (k : Nat) (w : Nat × β), done[k]? = some w → A.getD k z = val w) ∧
    (∀ k, done.length ≤ k → A.getD k z = A0.getD k z)

/-- The state of the third stage loop of `grCreateGraphicsPipeline` before stage `i`,
`done` being the non-null stages below `i` and `st0` the state before the loop. -/
def BuiltUpTo (env : CreateEnv) (native : NativeApi) (stages : List Stage) (st0 : BuiltStages)
    (done : List (Nat × Stage)) (i : Nat) (st : BuiltStages) : Prop :=
  st.stageCount = done.length ∧ done.length ≤ i ∧
    Compacted none st0.patchEntries done i st.patchEntries ∧
    Compacted none st0.mapEntries done i st.mapEntries ∧
    Compacted none st0.specData done i st.specData ∧
    Compacted ⟨0, 0⟩ st0.specInfos done i st.specInfos ∧
    Filled none st0.shaderModules
      (fun w => native.vkCreateShaderModule (stageShaderCode env stages st0.patchEntries w))
      done st.shaderModules ∧
    Filled none st0.shaderCode
      (fun w => some (stageShaderCode env stages st0.patchEntries w)) done st.shaderCode ∧
    Filled default st0.shaderStageCreateInfo
      (fun w => { stage := w.2.flags
                  module := native.vkCreateShaderModule
                    (stageShaderCode env stages st0.patchEntries w) })
      done st.shaderStageCreateInfo

/-- A request with a hull and a pixel shader only (topology: triangle list). -/
def exampleSparseRequest : GR_GRAPHICS_PIPELINE_CREATE_INFO :=
  { vs := exampleNullShader, hs := exampleDynamicShader [], ds := exampleNullShader
    gs := exampleNullShader, ps := examplePlainShader
    topology := 3, patchControlPoints := 0, depthClipEnable := 1
    alphaToCoverageEnable := 0, logicOp := 0x2C00
    target := [⟨37, 15⟩], dbFormat := 0, flags := 0 }

/-- The call of `handleDynamicDescriptorSlots` that the first stage loop makes for a stage
returns true: the stage has a shader with at least one binding, and the call returns true
whatever the slot and the arrays it is given hold. -/
def DynamicStageMatch (env : CreateEnv) (grDevice : GrDevice) (stage : Stage) : Prop :=
  ∃ sh, stage.shader.shader = some sh ∧ 0 < sh.bindings.length ∧
    ∀ (slot : PipelineDescriptorSlot) (offsets descriptorSetIndices : List Nat)
      (patchEntries : List IlcBindingPatchEntry),
      (handleDynamicDescriptorSlots env slot stage.shader.dynamicMemoryViewMapping
        grDevice.descriptorBufferSupported sh.bindings offsets descriptorSetIndices
        patchEntries).matched = true

/-- A request with two shaders that the dynamic memory view mapping names: the vertex
shader, whose binding has stride index 5, and the pixel shader, whose binding has none. -/
def exampleTwoDynamicRequest : GR_GRAPHICS_PIPELINE_CREATE_INFO :=
  { vs :=
      { shader := some { bindings := [{ exampleBinding 7 0 with strideIndex := 5 }],
                         code := [3, 2, 35, 7] }
        descriptorSetMapping := [[], []]
        dynamicMemoryViewMapping := ⟨GR_SLOT_SHADER_RESOURCE, 0⟩ }
    hs := exampleNullShader, ds := exampleNullShader, gs := exampleNullShader
    ps := exampleDynamicShader []
    topology := 3, patchControlPoints := 0, depthClipEnable := 1
    alphaToCoverageEnable := 0, logicOp := 0x2C00
    target := [⟨37, 15⟩], dbFormat := 0, flags := 0 }

/-- No mapping slot of the tree `mapping`, walked from the node reached by `route`, matches
binding `j`. -/
def Unreferenced (bindings : List IlcBinding) (route : List Nat)
    (mapping : GR_DESCRIPTOR_SET_MAPPING) (j : Nat) : Prop :=
  ∀ w ∈ boundInMapping bindings route 0 mapping, w.bindingIndex ≠ j

/-- Entry `j` of each of the three per-binding arrays of one stage is the same in both. -/
def SameEntries (j : Nat) (b1 b : StageBuffers) : Prop :=
  b1.patchEntries[j]? = b.patchEntries[j]? ∧ b1.specOffsets[j]? = b.specOffsets[j]? ∧
    b1.specDescriptorIndices[j]? = b.specDescriptorIndices[j]?

/-- A pipeline shader with two resource bindings (entities 0 and 1): the dynamic memory
view mapping names entity 0, and slot 0 of descriptor set mapping 0 names entity 1. -/
def exampleMixedShader : GR_PIPELINE_SHADER :=
  { shader := some { bindings := [exampleBinding 7 0, exampleBinding 8 1],
                     code := [3, 2, 35, 7] }
    descriptorSetMapping := [[.mk GR_SLOT_SHADER_RESOURCE 1 []], []]
    dynamicMemoryViewMapping := ⟨GR_SLOT_SHADER_RESOURCE, 0⟩ }

/-- The example environment with the given contents of the memory that `malloc` returns
for `patchEntries[i]` and `specData[i]`, and with a binding patcher that appends the
fields of the patch entries it is handed to the code. -/
def exampleUninitEnv (uninitPatchEntry : Nat → Nat → IlcBindingPatchEntry)
    (uninitSpecData : Nat → Nat → Nat) : CreateEnv :=
  { exampleEnv with
    uninitPatchEntry := uninitPatchEntry
    uninitSpecData := uninitSpecData
    patchShaderBindings := fun code entries bindingCount =>
      code ++ ((entries.getD []).take bindingCount).flatMap
        (fun e => [e.id, e.bindingIndex, e.descriptorSetIndex]) }

/-- A pipeline shader with one resource binding (entity 0) that neither a descriptor set
mapping nor the dynamic memory view mapping names. -/
def exampleUnboundShader : GR_PIPELINE_SHADER :=
  { shader := some { bindings := [exampleBinding 7 0], code := [3, 2, 35, 7] }
    descriptorSetMapping := [[], []] }

/-- A request whose only shader is the vertex shader `exampleUnboundShader`. -/
def exampleUnboundRequest : GR_GRAPHICS_PIPELINE_CREATE_INFO :=
  { vs := exampleUnboundShader, hs := exampleNullShader, ds := exampleNullShader
    gs := exampleNullShader, ps := exampleNullShader
    topology := 3, patchControlPoints := 0, depthClipEnable := 1
    alphaToCoverageEnable := 0, logicOp := 0x2C00
    target := [⟨37, 15⟩], dbFormat := 0, flags := 0 }

/-- A `SPIRV` chunk of 16 bytes for the given stage, with four bytes of code. -/
def exampleStageSpirvChunk (stageIndex stageFlags : Nat) : GrBaseBlobChunk :=
  { zeroChunk with
    type := SPIRV, size := 16
    spirv := { stageIndex := stageIndex, stageFlags := stageFlags
               codeSize := 4, code := [1, 2, 3, 4] } }

/-- A blob of 352 bytes: a `GRAPHICS_PIPELINE_INFO` chunk at offset 4, a `PIPELINE_INFO`
chunk at offset 108 that declares six stages, and `SPIRV` chunks for the stages 0 to 4 at
offsets 232, 256, 280, 304 and 328. -/
def exampleSixStageBlob : GrStoredPipelineBlob :=
  { version := 0
    chunkAt := fun o =>
      if o = 4 then exampleGraphicsInfoChunk
      else if o = 108 then examplePipelineInfoChunk 6
      else if o = 232 then exampleStageSpirvChunk 0 0x1
      else if o = 256 then exampleStageSpirvChunk 1 0x2
      else if o = 280 then exampleStageSpirvChunk 2 0x4
      else if o = 304 then exampleStageSpirvChunk 3 0x8
      else if o = 328 then exampleStageSpirvChunk 4 0x10
      else zeroChunk }

/-- A blob of 108 bytes whose only chunk, at offset 4, is a `GRAPHICS_PIPELINE_INFO`
chunk. -/
def exampleGraphicsOnlyBlob : GrStoredPipelineBlob :=
  { version := 0
    chunkAt := fun o => if o = 4 then exampleGraphicsInfoChunk else zeroChunk }

/-- A `DESCRIPTOR_SLOTS` chunk of 8 bytes (the counts alone) that declares `2 ^ 31` slots
for each of the two mapping indices. -/
def exampleWrapSlotsChunk : GrBaseBlobChunk :=
  { zeroChunk with
    type := DESCRIPTOR_SLOTS, size := 8
    descriptorSlots := { descriptorSetCounts := [2 ^ 31, 2 ^ 31], data := [] } }

/-- A blob of 168 bytes: a `PIPELINE_INFO` chunk at offset 4, the chunk
`exampleWrapSlotsChunk` at offset 128 and a compute `SPIRV` chunk at offset 144. -/
def exampleWrapSlotsBlob : GrStoredPipelineBlob :=
  { version := 0
    chunkAt := fun o =>
      if o = 4 then examplePipelineInfoChunk 1
      else if o = 128 then exampleWrapSlotsChunk
      else if o = 144 then exampleSpirvChunk 4
      else zeroChunk }

/-- The example device with descriptor buffer support. -/
def exampleBufferDevice : GrDevice :=
  { exampleDevice with descriptorBufferSupported := true }

/-- A native API whose every creation call succeeds, and whose `vkCreatePipelineLayout`
returns as the handle the stage flags of the push-constant range it is asked for, so that
the handle tells which range was requested. -/
def exampleRecordingNative : NativeApi :=
  { vkCreateShaderModule := fun _ => some 1
    vkCreatePipelineLayout := fun info =>
      some ((info.pPushConstantRanges.map (fun r => r.stageFlags)).sum)
    vkCreateComputePipelines := fun _ _ _ => some 3 }

/-- The pipeline that `grCreateGraphicsPipeline` returns for `exampleDynamicRequest []` on
`exampleBufferDevice` with `exampleRecordingNative`. -/
def exampleBufferPipeline : GrPipeline :=
  { shaderModules := [some 1, none, none, none, none]
    shaderCode := [some [3, 2, 35, 7], none, none, none, none]
    shaderCodeSizes := [4, 0, 0, 0, 0]
    createFlags := 0x20000000
    createInfo := some
      { stageCreateInfos := [⟨0x1, some 1⟩, ⟨0, none⟩, ⟨0, none⟩, ⟨0, none⟩, ⟨0, none⟩]
        topology := 3, patchControlPoints := 0, depthClipEnable := 1
        alphaToCoverageEnable := 0, logicOpEnable := 0, logicOp := 0x2C00
        colorFormats := [37, 0, 0, 0, 0, 0, 0, 0]
        colorWriteMasks := [15, 0, 0, 0, 0, 0, 0, 0]
        depthFormat := 0, stencilFormat := 0 }
    hasTessellation := false
    pipeline := none
    pipelineLayout := some 0x1F
    stageCount := 1
    dynamicMappingUsed := 1
    dynamicDescriptorSlot := exampleSlot 0
    descriptorSetCounts := [0, 0]
    descriptorSlots := [none, none]
    specInfos := [⟨2, 8⟩, ⟨0, 0⟩, ⟨0, 0⟩, ⟨0, 0⟩, ⟨0, 0⟩]
    specData := [some [0, 0, 0, 0, 1, 0, 0, 0], none, none, none, none]
    mapEntries := [some [⟨0, 0, 4⟩, ⟨0, 4, 4⟩], none, none, none, none] }

/-- The reserved base set id that `grCreateGraphicsPipeline` adds to the running
descriptor set count: `DESCRIPTOR_BUFFERS_BASE_DESCRIPTOR_SET_ID` with descriptor buffers,
`DESCRIPTOR_SET_ID` without. -/
def reservedBase (env : CreateEnv) (grDevice : GrDevice) : Nat :=
  if grDevice.descriptorBufferSupported then env.DESCRIPTOR_BUFFERS_BASE_DESCRIPTOR_SET_ID
  else env.DESCRIPTOR_SET_ID

/-- The value `B + c_0 + ... + c_(k-1)` for the base `B` and the counts `c`: the first set
index of the range of mapping index `k`, and the end of the range of mapping index
`k - 1`. -/
def setRangeStart (base : Nat) (counts : List Nat) (k : Nat) : Nat :=
  base + ((List.range k).map (fun m => counts.getD m 0)).sum

/-- Three slots as extraction appends them at depth 1: two under root slot 0 (for bindings
with stride constant indices 5 and 7, matched at slots 0 and 2 of the nested set) and one
under root slot 3 (stride constant index 9, matched at slot 1). Each holds one stride
pair, and the first two share a PathKey. -/
def exampleStridedSlots : List PipelineDescriptorSlot :=
  [extractedSlot exampleLimits 1 [0] 0 { exampleBinding 10 0 with strideIndex := 5 },
   extractedSlot exampleLimits 1 [0] 2 { exampleBinding 20 0 with strideIndex := 7 },
   extractedSlot exampleLimits 1 [3] 1 { exampleBinding 30 1 with strideIndex := 9 }]

/-- The example limits with room for one stride pair per slot only. -/
def exampleTightLimits : Limits :=
  { exampleLimits with MAX_STRIDES := 1 }

/-! # Properties -/

/-! ## The merge loop terminates and never grows the array -/

theorem mergeIter_measure (L : Limits) (st st1 : MergeState)
    (h : mergeIter L st = .ok st1) (hi : st.i < st.descriptorSlots.length) :
    st1.descriptorSlots.length + st.i + 1 = st.descriptorSlots.length + st1.i ∧
      st1.descriptorSlots.length ≤ st.descriptorSlots.length := by
  unfold mergeIter at h
  simp only at h
  split at h
  · cases h
    exact ⟨by simp only; omega, le_refl _⟩
  · split at h
    · cases h
    · cases h
      simp only [List.length_append, List.length_take, List.length_cons, List.length_drop]
      omega

theorem mergeStrides_fault (L : Limits) (slots : List PipelineDescriptorSlot) :
    ∀ (n j : Nat) (m : PipelineDescriptorSlot) (e : Fault),
      mergeStrides L slots j n m = .error e → e = Fault.assertion := by
  intro n
  induction n with
  | zero => intro j m e h; simp [mergeStrides] at h
  | succ n ih =>
    intro j m e h
    unfold mergeStrides at h
    simp only at h
    split at h
    · split at h
      · cases h; rfl
      · exact ih _ _ _ h
    · exact ih _ _ _ h

theorem mergeIter_fault (L : Limits) (st : MergeState) (e : Fault)
    (h : mergeIter L st = .error e) : e = Fault.assertion := by
  unfold mergeIter at h
  simp only at h
  split at h
  · cases h
  · split at h
    · rename_i e1 he
      cases h
      exact mergeStrides_fault L _ _ _ _ _ he
    · cases h

theorem mergeLoop_fault (L : Limits) :
    ∀ (fuel : Nat) (st : MergeState) (e : Fault), mergeLoop L fuel st = .error e →
      e = Fault.assertion ∨ e = Fault.outOfFuel := by
  intro fuel
  induction fuel with
  | zero =>
    intro st e h
    simp only [mergeLoop] at h
    split at h
    · cases h; exact Or.inr rfl
    · cases h
  | succ n ih =>
    intro st e h
    rw [mergeLoop] at h
    split at h
    · split at h
      · rename_i e1 he
        cases h
        exact Or.inl (mergeIter_fault L st _ he)
      · exact ih _ _ h
    · cases h

theorem mergeLoop_total (L : Limits) :
    ∀ (fuel : Nat) (st : MergeState), st.descriptorSlots.length ≤ fuel + st.i →
      mergeLoop L fuel st ≠ .error Fault.outOfFuel ∧
        ∀ out, mergeLoop L fuel st = .ok out → out.length ≤ st.descriptorSlots.length := by
  intro fuel
  induction fuel with
  | zero =>
    intro st hf
    have : ¬ st.i < st.descriptorSlots.length := by omega
    simp only [mergeLoop, this, if_false]
    refine ⟨by simp, ?_⟩
    intro out h
    cases h
    exact le_refl _
  | succ n ih =>
    intro st hf
    unfold mergeLoop
    by_cases hi : st.i < st.descriptorSlots.length
    · simp only [hi, if_true]
      cases hm : mergeIter L st with
      | error e =>
        simp only
        refine ⟨?_, by intro out h; cases h⟩
        intro hc
        cases hc
        have := mergeIter_fault L st _ hm
        cases this
      | ok st1 =>
        simp only
        obtain ⟨h1, h2⟩ := mergeIter_measure L st st1 hm hi
        obtain ⟨h3, h4⟩ := ih st1 (by omega)
        exact ⟨h3, fun out h => le_trans (h4 out h) h2⟩
    · simp only [hi, if_false]
      refine ⟨by simp, ?_⟩
      intro out h
      cases h
      exact le_refl _

/-! ## The index-assignment walk performs the writes of the matched slots -/

theorem memcmp_take (a p : List Nat) (d : Nat) : memcmp a (p.take d) d = memcmp a p d := by
  simp [memcmp, List.take_take]

theorem lookup_take (slots : List PipelineDescriptorSlot) (d : Nat) (p : List Nat) :
    lookupDescriptorSetIndex slots d (p.take d) = lookupDescriptorSetIndex slots d p := by
  simp [lookupDescriptorSetIndex, memcmp_take]


theorem take_succ_set (p : List Nat) (d i : Nat) (h : d < p.length) :
    (p.set d i).take (d + 1) = p.take d ++ [i] := by
  induction p generalizing d with
  | nil => simp at h
  | cons x xs ih =>
    cases d with
    | zero => simp
    | succ d =>
      simp only [List.length_cons, Nat.add_lt_add_iff_right] at h
      simp [ih d h]

theorem take_set_self (p : List Nat) (d i : Nat) : (p.set d i).take d = p.take d := by
  induction p generalizing d with
  | nil => simp
  | cons x xs ih =>
    cases d with
    | zero => simp
    | succ d => simp [ih d]

theorem setupSlot_step (L : Limits) (slots : List PipelineDescriptorSlot)
    (bindings : List IlcBinding) (off : Nat)
    (t : GR_DESCRIPTOR_SET_SLOT_TYPE) (e : Nat) (next : List GR_DESCRIPTOR_SLOT_INFO)
    (ih : SetupSlotsSpec L slots bindings off next) :
    SetupSlotSpec L slots bindings off (.mk t e next) := by
  intro d i st st1 hlen hd h
  rw [setupSlot] at h
  rw [matchedInSlot]
  by_cases h1 : t = GR_SLOT_UNUSED
  · simp only [h1, if_true] at h ⊢
    cases h
    exact ⟨hlen, rfl, rfl⟩
  · simp only [h1, if_false] at h ⊢
    by_cases h2 : t = GR_SLOT_NEXT_DESCRIPTOR_SET
    · simp only [h2, if_true] at h ⊢
      by_cases h3 : d ≥ L.MAX_PATH_DEPTH
      · simp [h3] at h
      · simp only [h3, if_false] at h
        have hd1 : d < st.path.length := by omega
        obtain ⟨ha, hb, hc⟩ := ih (d + 1) 0 { st with path := st.path.set d i } st1
          (by simp [hlen]) (by omega) h
        simp only at hb hc
        rw [take_succ_set _ _ _ hd1] at hb hc
        refine ⟨ha, ?_, hc⟩
        have := congrArg (List.take d) hb
        rw [List.take_take, List.take_append_of_le_length (by simp; omega)] at this
        simpa [Nat.min_eq_left (Nat.le_succ d), List.take_take] using this
    · simp only [h2, if_false] at h ⊢
      cases hf : findBinding bindings (.mk t e next) with
      | none =>
        simp only [hf] at h ⊢
        cases h
        exact ⟨hlen, rfl, rfl⟩
      | some j =>
        simp only [hf] at h ⊢
        cases h
        refine ⟨hlen, rfl, ?_⟩
        simp only [List.foldl_cons, List.foldl_nil, setupWrite, setIndexOfRoute,
          List.length_take, lookup_take]
        rw [Nat.min_eq_left (by omega)]
        simp [lookup_take]

theorem setupSlots_step (L : Limits) (slots : List PipelineDescriptorSlot)
    (bindings : List IlcBinding) (off : Nat)
    (s : GR_DESCRIPTOR_SLOT_INFO) (rest : List GR_DESCRIPTOR_SLOT_INFO)
    (ih1 : SetupSlotSpec L slots bindings off s)
    (ih2 : SetupSlotsSpec L slots bindings off rest) :
    SetupSlotsSpec L slots bindings off (s :: rest) := by
  intro d i st st1 hlen hd h
  rw [setupSlots] at h
  rw [matchedInMapping]
  cases hs : setupSlot L slots bindings off (lookupDescriptorSetIndex slots d st.path) d i s st with
  | error e => simp [hs] at h
  | ok st2 =>
    simp only [hs] at h
    obtain ⟨ha, hb, hc⟩ := ih1 d i st st2 hlen hd hs
    have hl : lookupDescriptorSetIndex slots d st.path = lookupDescriptorSetIndex slots d st2.path := by
      rw [← lookup_take slots d st.path, ← lookup_take slots d st2.path, hb]
    rw [hl] at h
    obtain ⟨ha2, hb2, hc2⟩ := ih2 d (i + 1) st2 st1 ha hd h
    refine ⟨ha2, hb2.trans hb, ?_⟩
    rw [List.foldl_append, ← hc, ← hb, hc2]

theorem setupSlots_nil (L : Limits) (slots : List PipelineDescriptorSlot)
    (bindings : List IlcBinding) (off : Nat) : SetupSlotsSpec L slots bindings off [] := by
  intro d i st st1 hlen hd h
  rw [setupSlots] at h
  rw [matchedInMapping]
  cases h
  exact ⟨hlen, rfl, rfl⟩

theorem setupSlots_spec (L : Limits) (slots : List PipelineDescriptorSlot)
    (bindings : List IlcBinding) (off : Nat) (m : List GR_DESCRIPTOR_SLOT_INFO) :
    SetupSlotsSpec L slots bindings off m :=
  @GR_DESCRIPTOR_SLOT_INFO.rec_1
    (SetupSlotSpec L slots bindings off) (SetupSlotsSpec L slots bindings off)
    (setupSlot_step L slots bindings off) (setupSlots_nil L slots bindings off)
    (setupSlots_step L slots bindings off) m

theorem foldl_setupWrite_length (slots : List PipelineDescriptorSlot)
    (bindings : List IlcBinding) (off : Nat) (ws : List (List Nat × Nat)) :
    ∀ acc : List IlcBindingPatchEntry × List Nat,
      (ws.foldl (setupWrite slots bindings off) acc).1.length = acc.1.length ∧
      (ws.foldl (setupWrite slots bindings off) acc).2.length = acc.2.length := by
  induction ws with
  | nil => intro acc; exact ⟨rfl, rfl⟩
  | cons w ws ih =>
    intro acc
    simp only [List.foldl_cons]
    obtain ⟨h1, h2⟩ := ih (setupWrite slots bindings off acc w)
    simp only [setupWrite, List.length_set] at h1 h2
    exact ⟨h1, h2⟩

theorem getD_set_field {α : Type} (f : StageBuffers → α) (bufs : List StageBuffers)
    (i k : Nat) (x : StageBuffers) (hx : f x = f (bufs.getD i default)) :
    f ((bufs.set i x).getD k default) = f (bufs.getD k default) := by
  simp only [List.getD_eq_getElem?_getD, List.getElem?_set] at hx ⊢
  by_cases hik : i = k
  · subst hik
    by_cases hlt : i < bufs.length
    · simp only [hlt, if_true, Option.getD_some]
      exact hx
    · simp only [hlt, if_false, if_true]
      rw [List.getElem?_eq_none (by omega)]
  · simp only [hik, if_false]

theorem extractStages_frame (L : Limits) (gdo : Nat → Nat) (uninit : Nat → Nat) (mi : Nat)
    (stages : List Stage) :
    ∀ (i : Nat) (slots : List PipelineDescriptorSlot) (bufs : List StageBuffers)
      (slots1 : List PipelineDescriptorSlot) (bufs1 : List StageBuffers),
      extractStages L gdo uninit mi i stages (slots, bufs) = .ok (slots1, bufs1) →
      bufs1.length = bufs.length ∧
      ∀ k, (bufs1.getD k default).patchEntries = (bufs.getD k default).patchEntries ∧
        (bufs1.getD k default).specDescriptorIndices =
          (bufs.getD k default).specDescriptorIndices := by
  induction stages with
  | nil =>
    intro i slots bufs slots1 bufs1 h
    simp only [extractStages, Except.ok.injEq, Prod.mk.injEq] at h
    obtain ⟨_, rfl⟩ := h
    exact ⟨rfl, fun k => ⟨rfl, rfl⟩⟩
  | cons stage rest ih =>
    intro i slots bufs slots1 bufs1 h
    rw [extractStages] at h
    cases hs : stage.shader.shader with
    | none =>
      simp only [hs] at h
      exact ih _ _ _ _ _ h
    | some sh =>
      simp only [hs] at h
      split at h
      · cases h
      · rename_i st hst
        obtain ⟨h1, h2⟩ := ih _ _ _ _ _ h
        refine ⟨by simpa using h1, fun k => ?_⟩
        obtain ⟨h3, h4⟩ := h2 k
        rw [h3, h4]
        exact ⟨getD_set_field (fun b => b.patchEntries) bufs i k _ rfl,
          getD_set_field (fun b => b.specDescriptorIndices) bufs i k _ rfl⟩

theorem setupStages_spec (L : Limits) (uninit : Nat → Nat) (mi : Nat)
    (slots : List PipelineDescriptorSlot) (off : Nat) (stages : List Stage) :
    ∀ (i : Nat) (bufs out : List StageBuffers), i + stages.length ≤ bufs.length →
      setupStages L uninit mi slots off i stages bufs = .ok out →
      out.length = bufs.length ∧
      (∀ k, k < i → out.getD k default = bufs.getD k default) ∧
      ∀ (k : Nat) (stage : Stage) (sh : GrShader), stages[k]? = some stage →
        stage.shader.shader = some sh →
        ∃ st1, setupDescriptorSetIndices L slots sh.bindings off
            (stage.shader.descriptorSetMapping.getD mi []) 0
            { patchEntries := (bufs.getD (i + k) default).patchEntries,
              descriptorSetIndices := (bufs.getD (i + k) default).specDescriptorIndices,
              path := localPath L uninit } = .ok st1 ∧
          (out.getD (i + k) default).patchEntries = st1.patchEntries ∧
          (out.getD (i + k) default).specDescriptorIndices = st1.descriptorSetIndices := by
  induction stages with
  | nil =>
    intro i bufs out _ h
    simp only [setupStages, Except.ok.injEq] at h
    subst h
    exact ⟨rfl, fun _ _ => rfl, fun k stage sh hk => by simp at hk⟩
  | cons stage rest ih =>
    intro i bufs out hlen h
    rw [setupStages] at h
    simp only [List.length_cons] at hlen
    cases hs : stage.shader.shader with
    | none =>
      simp only [hs] at h
      obtain ⟨h1, h2, h3⟩ := ih (i + 1) bufs out (by omega) h
      refine ⟨h1, fun k hk => h2 k (by omega), ?_⟩
      intro k stage1 sh hk hsh
      cases k with
      | zero =>
        simp only [List.getElem?_cons_zero, Option.some.injEq] at hk
        subst hk
        rw [hs] at hsh
        cases hsh
      | succ k =>
        simp only [List.getElem?_cons_succ] at hk
        have := h3 k stage1 sh hk hsh
        rwa [show i + 1 + k = i + (k + 1) by omega] at this
    | some sh0 =>
      simp only [hs] at h
      split at h
      · cases h
      · rename_i st hst
        obtain ⟨h1, h2, h3⟩ := ih (i + 1) _ out (by simp; omega) h
        refine ⟨by simpa using h1, ?_, ?_⟩
        · intro k hk
          rw [h2 k (by omega)]
          simp only [List.getD_eq_getElem?_getD]
          rw [List.getElem?_set_ne (by omega)]
        · intro k stage1 sh hk hsh
          cases k with
          | zero =>
            simp only [List.getElem?_cons_zero, Option.some.injEq] at hk
            subst hk
            rw [hs] at hsh
            cases hsh
            refine ⟨st, hst, ?_⟩
            rw [Nat.add_zero, h2 i (by omega)]
            simp only [List.getD_eq_getElem?_getD]
            rw [List.getElem?_set_self (by omega)]
            exact ⟨rfl, rfl⟩
          | succ k =>
            simp only [List.getElem?_cons_succ] at hk
            obtain ⟨st1, ha, hb, hc⟩ := h3 k stage1 sh hk hsh
            rw [show i + 1 + k = i + (k + 1) by omega] at ha hb hc
            refine ⟨st1, ?_, hb, hc⟩
            simp only [List.getD_eq_getElem?_getD] at ha ⊢
            rw [List.getElem?_set_ne (by omega)] at ha
            exact ha

theorem localPath_length (L : Limits) (uninit : Nat → Nat) :
    (localPath L uninit).length = L.MAX_PATH_DEPTH := by
  simp [localPath]

/-- C9: for every input slot list on which `mergeDescriptorSlots` does not hit the stride
assertion, the merge returns, and the slot count after merging is at most the slot count
before merging (for every `qsort` that keeps the element count of the array). -/
theorem mergeDescriptorSlots_count_le (L : Limits) (qsort : Qsort)
    (descriptorSlots : List PipelineDescriptorSlot)
    (hq : (qsort compareDescriptorSlots descriptorSlots).length = descriptorSlots.length)
    (hna : mergeDescriptorSlots L qsort descriptorSlots ≠ .error Fault.assertion) :
    ∃ out, mergeDescriptorSlots L qsort descriptorSlots = .ok out ∧
      out.length ≤ descriptorSlots.length := by
  unfold mergeDescriptorSlots at hna ⊢
  simp only at hna ⊢
  obtain ⟨h1, h2⟩ := mergeLoop_total L (qsort compareDescriptorSlots descriptorSlots).length
    { descriptorSlots := qsort compareDescriptorSlots descriptorSlots, i := 0,
      mergingDescriptorCount := 0 } (by simp)
  cases hr : mergeLoop L (qsort compareDescriptorSlots descriptorSlots).length
      { descriptorSlots := qsort compareDescriptorSlots descriptorSlots, i := 0,
        mergingDescriptorCount := 0 } with
  | error e =>
    cases mergeLoop_fault L _ _ e hr with
    | inl he => exact absurd (he ▸ hr) hna
    | inr he => exact absurd (he ▸ hr) h1
  | ok out =>
    refine ⟨out, rfl, ?_⟩
    have := h2 out hr
    simp only [hq] at this
    exact this

/-- Witness for C9: two slots with the same PathKey merge into one. -/
theorem mergeDescriptorSlots_count_le_witness :
    ∃ out, mergeDescriptorSlots exampleLimits stableQsort [exampleSlot 1, exampleSlot 1] =
        .ok out ∧ out.length ≤ [exampleSlot 1, exampleSlot 1].length :=
  mergeDescriptorSlots_count_le exampleLimits stableQsort [exampleSlot 1, exampleSlot 1]
    (by decide) (by decide)

/-- C1, the code at a failing input: the two example stages yield three extracted slots
whose path arrays are equal byte for byte, so `compareDescriptorSlots` returns 0 for every
pair and a sort may leave them in extraction order; the merge then keeps all three, and
the first and the third merged slot have the same PathKey. -/
theorem mergeDescriptorSlots_keeps_equal_pathKeys :
    (∃ buffers, extractStages exampleLimits (fun _ => 0) (fun _ => 7) 0 0
        [exampleStageA, exampleStageB] ([], exampleBuffers) =
        .ok (exampleExtracted, buffers)) ∧
      (∀ a ∈ exampleExtracted, ∀ b ∈ exampleExtracted, compareDescriptorSlots a b = 0) ∧
      mergeDescriptorSlots exampleLimits stableQsort exampleExtracted =
        .ok exampleExtracted ∧
      pathKey (exampleExtracted.getD 0 default) = pathKey (exampleExtracted.getD 2 default) := by
  refine ⟨⟨[⟨[default, default], [0, 8], [0, 0]⟩, ⟨[default], [0], [0]⟩], by decide⟩,
    by decide, by decide, by decide⟩

/-- C10, the code at a failing input: on the three slots extracted from the two example
stages the merge returns as many slots as it was given, although the first and the third
extracted slot share a PathKey. -/
theorem mergeDescriptorSlots_same_count_with_shared_pathKey :
    (∃ out, mergeDescriptorSlots exampleLimits stableQsort exampleExtracted = .ok out ∧
        out.length = exampleExtracted.length) ∧
      ∃ i j, i < j ∧ j < exampleExtracted.length ∧
        pathKey (exampleExtracted.getD i default) = pathKey (exampleExtracted.getD j default) := by
  refine ⟨⟨exampleExtracted, by decide, rfl⟩, 0, 2, by decide, by decide, by decide⟩

theorem size32_lt (chunk : GrBaseBlobChunk) : chunk.size32 < 2 ^ 32 := by
  unfold GrBaseBlobChunk.size32
  exact Nat.mod_lt _ (by decide)

theorem alignSize_bounds (Y : BlobLayout) (x : Nat) (h : x + 3 < 2 ^ Y.sizeBits) :
    x ≤ alignSize Y x ∧ alignSize Y x ≤ x + 3 ∧ alignSize Y x % 4 = 0 := by
  unfold alignSize
  rw [Nat.mod_eq_of_lt h]
  omega

theorem nextSz_eq (Y : BlobLayout) (dataSize sz : Nat) (chunk : GrBaseBlobChunk)
    (hw : NoWrap Y dataSize) (hsz : sz < dataSize) :
    nextSz Y sz chunk = sz + alignSize Y (Y.sizeofGrBaseBlobChunk + chunk.size32) ∧
      sz + Y.sizeofGrBaseBlobChunk + chunk.size32 ≤ nextSz Y sz chunk := by
  obtain ⟨hB, hW⟩ := hw
  have h32 := size32_lt chunk
  have h1 : Y.sizeofGrBaseBlobChunk + chunk.size32 < 2 ^ Y.sizeBits := by omega
  obtain ⟨a, b, _⟩ := alignSize_bounds Y (Y.sizeofGrBaseBlobChunk + chunk.size32) (by omega)
  unfold nextSz
  rw [Nat.mod_eq_of_lt h1, Nat.mod_eq_of_lt (by omega)]
  exact ⟨rfl, by omega⟩

theorem chunkPosition_ge_mul (Y : BlobLayout) (dataSize : Nat) (blob : GrStoredPipelineBlob)
    (hw : NoWrap Y dataSize) :
    ∀ k, (∀ j, j < k → (chunkPosition Y blob j).1 < dataSize) →
      Y.sizeofGrStoredPipelineBlob + k * Y.sizeofGrBaseBlobChunk ≤
        (chunkPosition Y blob k).1 := by
  intro k
  induction k with
  | zero => intro _; simp [chunkPosition]
  | succ k ih =>
    intro hr
    have h1 := ih (fun j hj => hr j (by omega))
    have h2 := (nextSz_eq Y dataSize _ (blob.chunkAt (chunkPosition Y blob k).2) hw
      (hr k (by omega))).2
    simp only [chunkPosition, Nat.add_mul, Nat.one_mul]
    omega

theorem chunkPosition_ge (Y : BlobLayout) (dataSize : Nat) (blob : GrStoredPipelineBlob)
    (hw : NoWrap Y dataSize) (k : Nat) (hr : ChunkReached Y dataSize blob k) :
    Y.sizeofGrStoredPipelineBlob + k ≤ (chunkPosition Y blob k).1 := by
  have h1 := chunkPosition_ge_mul Y dataSize blob hw k (fun j hj => hr j (by omega))
  have h2 : k ≤ k * Y.sizeofGrBaseBlobChunk := Nat.le_mul_of_pos_right k hw.1
  omega

theorem validateLoop_advance (Y : BlobLayout) (dataSize : Nat) (blob : GrStoredPipelineBlob) :
    ∀ (k fuel : Nat), (∀ j, j < k → (chunkPosition Y blob j).1 < dataSize) →
      ValidBefore Y dataSize blob k →
      validateLoop Y dataSize blob (fuel + k) Y.sizeofGrStoredPipelineBlob
          Y.sizeofGrStoredPipelineBlob =
        validateLoop Y dataSize blob fuel (chunkPosition Y blob k).1
          (chunkPosition Y blob k).2 := by
  intro k
  induction k with
  | zero => intro fuel _ _; rfl
  | succ k ih =>
    intro fuel hr hv
    have hvk : ValidBefore Y dataSize blob k := fun j hj => hv j (by omega)
    have := ih (fuel + 1) (fun j hj => hr j (by omega)) hvk
    rw [show fuel + 1 + k = fuel + (k + 1) by omega] at this
    rw [this, validateLoop]
    have h1 := hr k (by omega)
    have h2 := hv k (by omega)
    unfold chunkNumber at h2
    simp only [h1, if_true, h2, chunkPosition]

theorem validateLoop_reject (Y : BlobLayout) (dataSize : Nat) (blob : GrStoredPipelineBlob)
    (hw : NoWrap Y dataSize) (k : Nat) (r : GR_RESULT)
    (hr : ChunkReached Y dataSize blob k) (hv : ValidBefore Y dataSize blob k)
    (hbad : validateChunk Y dataSize (chunkPosition Y blob k).1 (chunkNumber Y blob k) =
      some r) :
    validateLoop Y dataSize blob dataSize Y.sizeofGrStoredPipelineBlob
      Y.sizeofGrStoredPipelineBlob = .ok (some r) := by
  have h1 := chunkPosition_ge Y dataSize blob hw k hr
  have h2 := hr k (le_refl _)
  obtain ⟨f, hf⟩ : ∃ f, dataSize = (f + 1) + k := ⟨dataSize - k - 1, by omega⟩
  have h3 := validateLoop_advance Y dataSize blob k (f + 1) (fun j hj => hr j (by omega)) hv
  rw [← hf] at h3
  rw [h3, validateLoop]
  unfold chunkNumber at hbad
  simp only [h2, if_true, hbad]

/-- When the first pass rejects, `grLoadPipeline` returns its code without any allocation. -/
theorem grLoadPipeline_of_reject (Y : BlobLayout) (native : NativeApi) (grDevice : GrDevice)
    (dataSize : Nat) (blob : GrStoredPipelineBlob)
    (h : validateLoop Y dataSize blob dataSize Y.sizeofGrStoredPipelineBlob
      Y.sizeofGrStoredPipelineBlob = .ok (some GR_ERROR_INVALID_MEMORY_SIZE)) :
    grLoadPipeline Y native grDevice dataSize (some blob) =
      .ok { result := GR_ERROR_INVALID_MEMORY_SIZE, pipeline := none, allocations := 0 } := by
  unfold grLoadPipeline
  split
  · rfl
  · simp only [h]

/-! ## Claims about the first pass of `grLoadPipeline` -/

/-- C5: for every `dataSize` smaller than the blob header plus one chunk header,
`grLoadPipeline` returns an error, whatever `pData` is (null or any memory), and makes no
allocation. -/
theorem grLoadPipeline_rejects_short (Y : BlobLayout) (native : NativeApi)
    (grDevice : GrDevice) (dataSize : Nat) (pData : Option GrStoredPipelineBlob)
    (h : dataSize < Y.sizeofGrStoredPipelineBlob + Y.sizeofGrBaseBlobChunk) :
    grLoadPipeline Y native grDevice dataSize pData =
      .ok { result := GR_ERROR_INVALID_MEMORY_SIZE, pipeline := none, allocations := 0 } := by
  unfold grLoadPipeline
  rw [if_pos (Nat.le_of_lt h)]

/-- Witness for C5: 11 bytes are fewer than the 4 + 8 bytes of the two headers. -/
theorem grLoadPipeline_rejects_short_witness :
    grLoadPipeline exampleLayout exampleNative exampleDevice 11 (some exampleTwoInfoBlob) =
      .ok { result := GR_ERROR_INVALID_MEMORY_SIZE, pipeline := none, allocations := 0 } :=
  grLoadPipeline_rejects_short exampleLayout exampleNative exampleDevice 11
    (some exampleTwoInfoBlob) (by decide)

/-- C4: when the walk reaches, after valid chunks only, a `SPIRV` chunk whose declared
`codeSize` plus `sizeof(GrSpirvBlobChunk)` exceeds the chunk's declared size,
`grLoadPipeline` returns `GR_ERROR_INVALID_MEMORY_SIZE` from its first pass: no pipeline is
produced and nothing has been allocated or created. -/
theorem grLoadPipeline_rejects_oversized_spirv (Y : BlobLayout) (native : NativeApi)
    (grDevice : GrDevice) (dataSize : Nat) (blob : GrStoredPipelineBlob) (k : Nat)
    (hw : NoWrap Y dataSize)
    (hr : ChunkReached Y dataSize blob k) (hv : ValidBefore Y dataSize blob k)
    (ht : (chunkNumber Y blob k).type = SPIRV)
    (hfit : (chunkNumber Y blob k).spirv.codeSize + Y.sizeofGrSpirvBlobChunk <
      2 ^ Y.sizeBits)
    (hbad : (chunkNumber Y blob k).spirv.codeSize + Y.sizeofGrSpirvBlobChunk >
      (chunkNumber Y blob k).size32) :
    grLoadPipeline Y native grDevice dataSize (some blob) =
      .ok { result := GR_ERROR_INVALID_MEMORY_SIZE, pipeline := none, allocations := 0 } := by
  apply grLoadPipeline_of_reject
  apply validateLoop_reject Y dataSize blob hw k _ hr hv
  unfold validateChunk
  split
  · rfl
  · simp only [ht]
    rw [Nat.mod_eq_of_lt hfit, if_pos hbad]

/-- Witness for C4: the second chunk of `exampleBadSpirvBlob` declares 4 bytes of code in
a chunk of 12 bytes. -/
theorem grLoadPipeline_rejects_oversized_spirv_witness :
    grLoadPipeline exampleLayout exampleNative exampleDevice 148 (some exampleBadSpirvBlob) =
      .ok { result := GR_ERROR_INVALID_MEMORY_SIZE, pipeline := none, allocations := 0 } :=
  grLoadPipeline_rejects_oversized_spirv exampleLayout exampleNative exampleDevice 148
    exampleBadSpirvBlob 1 (by unfold NoWrap; decide)
    (by
      intro j hj
      match j, hj with
      | 0, _ => decide
      | 1, _ => decide)
    (by
      intro j hj
      match j, hj with
      | 0, _ => decide)
    (by decide) (by decide) (by decide)

theorem validateChunk_code (Y : BlobLayout) (dataSize sz : Nat) (chunk : GrBaseBlobChunk)
    (r : GR_RESULT) (h : validateChunk Y dataSize sz chunk = some r) :
    r = GR_ERROR_INVALID_MEMORY_SIZE := by
  unfold validateChunk at h
  simp only at h
  split at h
  · cases h; rfl
  · split at h <;> (try split at h) <;> first | (cases h; rfl) | cases h

theorem validateLoop_code (Y : BlobLayout) (dataSize : Nat) (blob : GrStoredPipelineBlob) :
    ∀ (fuel sz p : Nat) (r : GR_RESULT),
      validateLoop Y dataSize blob fuel sz p = .ok (some r) →
      r = GR_ERROR_INVALID_MEMORY_SIZE := by
  intro fuel
  induction fuel with
  | zero =>
    intro sz p r h
    simp only [validateLoop] at h
    split at h <;> cases h
  | succ n ih =>
    intro sz p r h
    rw [validateLoop] at h
    split at h
    · split at h
      · rename_i r1 hr
        cases h
        exact validateChunk_code _ _ _ _ _ hr
      · exact ih _ _ _ h
    · cases h

/-- An accepted blob is longer than the two headers and passes the first loop. -/
theorem validateLoop_of_accept (Y : BlobLayout) (native : NativeApi) (grDevice : GrDevice)
    (dataSize : Nat) (blob : GrStoredPipelineBlob) (res : LoadResult)
    (h : grLoadPipeline Y native grDevice dataSize (some blob) = .ok res)
    (hs : res.result = GR_SUCCESS) :
    Y.sizeofGrStoredPipelineBlob + Y.sizeofGrBaseBlobChunk < dataSize ∧
      validateLoop Y dataSize blob dataSize Y.sizeofGrStoredPipelineBlob
        Y.sizeofGrStoredPipelineBlob = .ok none := by
  unfold grLoadPipeline at h
  split at h
  · cases h
    cases hs
  · rename_i hlt
    refine ⟨by omega, ?_⟩
    simp only at h
    split at h
    · cases h
    · rename_i r hr
      cases h
      simp only at hs
      subst hs
      have := validateLoop_code _ _ _ _ _ _ _ hr
      cases this
    · rename_i hr
      exact hr

/-- When the first loop accepts, every chunk that the walk reaches passes its checks. -/
theorem valid_of_validateLoop (Y : BlobLayout) (dataSize : Nat) (blob : GrStoredPipelineBlob)
    (hw : NoWrap Y dataSize)
    (h : validateLoop Y dataSize blob dataSize Y.sizeofGrStoredPipelineBlob
      Y.sizeofGrStoredPipelineBlob = .ok none) :
    ∀ k, ChunkReached Y dataSize blob k →
      validateChunk Y dataSize (chunkPosition Y blob k).1 (chunkNumber Y blob k) = none := by
  intro k
  induction k using Nat.strong_induction_on with
  | _ k ih =>
    intro hr
    have hv : ValidBefore Y dataSize blob k :=
      fun j hj => ih j hj (fun i hi => hr i (by omega))
    cases hc : validateChunk Y dataSize (chunkPosition Y blob k).1 (chunkNumber Y blob k) with
    | none => rfl
    | some r =>
      have := validateLoop_reject Y dataSize blob hw k r hr hv hc
      rw [h] at this
      cases this

theorem chunk_inside_of_valid (Y : BlobLayout) (dataSize sz : Nat) (chunk : GrBaseBlobChunk)
    (hw : NoWrap Y dataSize) (hsz : sz < dataSize)
    (h : validateChunk Y dataSize sz chunk = none) :
    sz + Y.sizeofGrBaseBlobChunk + chunk.size32 ≤ dataSize := by
  unfold validateChunk at h
  have h32 := size32_lt chunk
  obtain ⟨_, hW⟩ := hw
  split at h
  · cases h
  · rename_i hn
    rw [Nat.mod_eq_of_lt (by omega)] at hn
    omega

/-- Below 4 GiB and with a chunk header whose size is a multiple of 4, the chunk pointer
stays at the running offset. -/
theorem chunkPosition_pointer (Y : BlobLayout) (dataSize : Nat) (blob : GrStoredPipelineBlob)
    (hw : NoWrap Y dataSize) (hB : Y.sizeofGrBaseBlobChunk % 4 = 0)
    (h32 : dataSize + 3 < 2 ^ 32) :
    ∀ k, (∀ j, j < k → (chunkPosition Y blob j).1 < dataSize ∧
        validateChunk Y dataSize (chunkPosition Y blob j).1 (chunkNumber Y blob j) = none) →
      (chunkPosition Y blob k).2 = (chunkPosition Y blob k).1 := by
  intro k
  induction k with
  | zero => intro _; rfl
  | succ k ih =>
    intro hr
    have h1 := ih (fun j hj => hr j (by omega))
    obtain ⟨h2, h3⟩ := hr k (by omega)
    have h4 := chunk_inside_of_valid Y dataSize _ _ hw h2 h3
    have h5 := (nextSz_eq Y dataSize _ (blob.chunkAt (chunkPosition Y blob k).2) hw h2).1
    unfold chunkNumber at h4
    simp only [chunkPosition]
    rw [h5]
    unfold nextChunk
    generalize blob.chunkAt (chunkPosition Y blob k).2 = c at h4 ⊢
    rw [h1]
    unfold alignSize alignU32
    have hW := hw.2
    have hc := size32_lt c
    rw [Nat.mod_eq_of_lt (by omega), Nat.mod_eq_of_lt (by omega)]
    omega

/-- C6: `grLoadPipeline` rejects every blob in which a chunk that the walk reaches (after
valid chunks) at running offset `sz` declares a size with
`sz + sizeof(GrBaseBlobChunk) + size > dataSize`; hence in every accepted blob each chunk
reached lies, header and declared payload, inside the first `dataSize` bytes (and, for a
header size that is a multiple of 4 and a blob below 4 GiB, the chunk pointer is at that
running offset). -/
theorem grLoadPipeline_chunks_inside (Y : BlobLayout) (native : NativeApi)
    (grDevice : GrDevice) (dataSize : Nat) (blob : GrStoredPipelineBlob)
    (hw : NoWrap Y dataSize) :
    (∀ k, ChunkReached Y dataSize blob k → ValidBefore Y dataSize blob k →
        (chunkPosition Y blob k).1 + Y.sizeofGrBaseBlobChunk + (chunkNumber Y blob k).size32 >
          dataSize →
        grLoadPipeline Y native grDevice dataSize (some blob) =
          .ok { result := GR_ERROR_INVALID_MEMORY_SIZE, pipeline := none,
                allocations := 0 }) ∧
      (∀ res, grLoadPipeline Y native grDevice dataSize (some blob) = .ok res →
        res.result = GR_SUCCESS →
        ∀ k, ChunkReached Y dataSize blob k →
          (chunkPosition Y blob k).1 + Y.sizeofGrBaseBlobChunk +
              (chunkNumber Y blob k).size32 ≤ dataSize ∧
            (Y.sizeofGrBaseBlobChunk % 4 = 0 → dataSize + 3 < 2 ^ 32 →
              (chunkPosition Y blob k).2 = (chunkPosition Y blob k).1)) := by
  constructor
  · intro k hr hv hbad
    apply grLoadPipeline_of_reject
    apply validateLoop_reject Y dataSize blob hw k _ hr hv
    unfold validateChunk
    have h32 := size32_lt (chunkNumber Y blob k)
    have h2 := hr k (le_refl _)
    have hW := hw.2
    rw [Nat.mod_eq_of_lt (by omega), if_pos (by omega)]
  · intro res h hs k hr
    obtain ⟨_, hv⟩ := validateLoop_of_accept Y native grDevice dataSize blob res h hs
    have hall := valid_of_validateLoop Y dataSize blob hw hv
    refine ⟨chunk_inside_of_valid Y dataSize _ _ hw (hr k (le_refl _)) (hall k hr), ?_⟩
    intro hB h32
    exact chunkPosition_pointer Y dataSize blob hw hB h32 k
      (fun j hj => ⟨hr j (by omega), hall j (fun i hi => hr i (by omega))⟩)

/-- Witness for C6: the second chunk of `exampleOverrunBlob` starts at offset 128 and
declares 100 bytes in a buffer of 200 bytes. -/
theorem grLoadPipeline_chunks_inside_witness :
    grLoadPipeline exampleLayout exampleNative exampleDevice 200 (some exampleOverrunBlob) =
      .ok { result := GR_ERROR_INVALID_MEMORY_SIZE, pipeline := none, allocations := 0 } :=
  (grLoadPipeline_chunks_inside exampleLayout exampleNative exampleDevice 200
    exampleOverrunBlob (by unfold NoWrap; decide)).1 1
    (by
      intro j hj
      match j, hj with
      | 0, _ => decide
      | 1, _ => decide)
    (by
      intro j hj
      match j, hj with
      | 0, _ => decide)
    (by decide)

/-- C7, the code at a failing input: `exampleTwoInfoBlob` holds two `PIPELINE_INFO` chunks
and `grLoadPipeline` accepts it; the pipeline takes its stage count (1) from the second
of them. -/
theorem grLoadPipeline_accepts_two_pipeline_infos :
    (chunkNumber exampleLayout exampleTwoInfoBlob 0).type = PIPELINE_INFO ∧
      (chunkNumber exampleLayout exampleTwoInfoBlob 1).type = PIPELINE_INFO ∧
      ChunkReached exampleLayout 276 exampleTwoInfoBlob 1 ∧
      grLoadPipeline exampleLayout exampleNative exampleDevice 276
          (some exampleTwoInfoBlob) =
        .ok { result := GR_SUCCESS, pipeline := some exampleLoadedPipeline,
              allocations := 5 } := by
  refine ⟨by decide, by decide, ?_, by decide⟩
  intro j hj
  match j, hj with
  | 0, _ => decide
  | 1, _ => decide

/-! ## The second pass of `grLoadPipeline` -/

theorem loadLoop_advance (Y : BlobLayout) (dataSize : Nat) (blob : GrStoredPipelineBlob) :
    ∀ (k fuel : Nat), (∀ j, j < k → (chunkPosition Y blob j).1 < dataSize) →
      loadLoop Y dataSize blob (fuel + k) Y.sizeofGrStoredPipelineBlob
          Y.sizeofGrStoredPipelineBlob (initialLoadState Y) =
        match loadedAfter Y blob k with
        | .bail s => .ok (.bail s)
        | .next s =>
          loadLoop Y dataSize blob fuel (chunkPosition Y blob k).1 (chunkPosition Y blob k).2
            s := by
  intro k
  induction k with
  | zero => intro fuel _; rfl
  | succ k ih =>
    intro fuel hr
    have h1 := ih (fuel + 1) (fun j hj => hr j (by omega))
    rw [show fuel + 1 + k = fuel + (k + 1) by omega] at h1
    rw [h1]
    simp only [loadedAfter]
    cases hl : loadedAfter Y blob k with
    | bail s => rfl
    | next s =>
      simp only
      rw [loadLoop]
      simp only [hr k (by omega), if_true, chunkNumber]
      cases loadChunk Y (blob.chunkAt (chunkPosition Y blob k).2) s with
      | bail s1 => rfl
      | next s1 => simp only [chunkPosition]

theorem loadDescriptorSlots_createInfo (dataChunk : GrPipelineDescriptorChunk) :
    ∀ (is : List Nat) (idx : Nat) (st : LoadState),
      (loadDescriptorSlots dataChunk is idx st).createInfo = st.createInfo := by
  intro is
  induction is with
  | nil => intro idx st; rfl
  | cons i is ih =>
    intro idx st
    rw [loadDescriptorSlots, ih]
    split <;> rfl

/-- Once a `GRAPHICS_PIPELINE_INFO` chunk has been loaded, `createInfo` stays non-null. -/
theorem loadChunk_createInfo (Y : BlobLayout) (chunk : GrBaseBlobChunk) (s s1 : LoadState)
    (h : loadChunk Y chunk s = .next s1) (hs : s.createInfo.isSome = true) :
    s1.createInfo.isSome = true := by
  unfold loadChunk at h
  split at h
  · simp only at h
    split at h
    · cases h
    · cases h; exact hs
  · simp only at h
    split at h
    · cases h
    · cases h; exact hs
  · simp only at h
    split at h
    · cases h
    · cases h; exact hs
  · cases h
    rw [loadDescriptorSlots_createInfo]
    exact hs
  · split at h
    · cases h
    · cases h; rfl
  · cases h; exact hs
  · cases h; exact hs

theorem loadChunk_graphics (Y : BlobLayout) (chunk : GrBaseBlobChunk) (s : LoadState)
    (ht : chunk.type = GRAPHICS_PIPELINE_INFO) :
    (s.createInfo.isSome = true → ∃ s1, loadChunk Y chunk s = .bail s1) ∧
      ∀ s1, loadChunk Y chunk s = .next s1 → s1.createInfo.isSome = true := by
  unfold loadChunk
  simp only [ht]
  constructor
  · intro hs
    cases hc : s.createInfo with
    | none => simp [hc] at hs
    | some c => exact ⟨s, rfl⟩
  · intro s1 h
    split at h
    · cases h
    · cases h; rfl

/-- After a `GRAPHICS_PIPELINE_INFO` chunk at position `k1`, the second pass has either
jumped to `bail` or holds a non-null `createInfo`. -/
theorem loadedAfter_createInfo (Y : BlobLayout) (blob : GrStoredPipelineBlob) (k1 : Nat)
    (h1 : (chunkNumber Y blob k1).type = GRAPHICS_PIPELINE_INFO) :
    ∀ k, k1 < k →
      (∃ s, loadedAfter Y blob k = .bail s) ∨
        ∃ s, loadedAfter Y blob k = .next s ∧ s.createInfo.isSome = true := by
  intro k hk
  induction k with
  | zero => omega
  | succ k ih =>
    simp only [loadedAfter]
    by_cases hkk : k1 = k
    · subst hkk
      cases hl : loadedAfter Y blob k1 with
      | bail s => exact Or.inl ⟨s, rfl⟩
      | next s =>
        simp only
        cases hc : loadChunk Y (chunkNumber Y blob k1) s with
        | bail s1 => exact Or.inl ⟨s1, rfl⟩
        | next s1 => exact Or.inr ⟨s1, rfl, (loadChunk_graphics Y _ s h1).2 s1 hc⟩
    · cases ih (by omega) with
      | inl hb =>
        obtain ⟨s, hs⟩ := hb
        rw [hs]
        exact Or.inl ⟨s, rfl⟩
      | inr hn =>
        obtain ⟨s, hs, hci⟩ := hn
        rw [hs]
        simp only
        cases hc : loadChunk Y (chunkNumber Y blob k) s with
        | bail s1 => exact Or.inl ⟨s1, rfl⟩
        | next s1 => exact Or.inr ⟨s1, rfl, loadChunk_createInfo Y _ s s1 hc hci⟩

/-- C8: `grLoadPipeline` returns `GR_ERROR_BAD_PIPELINE_DATA` (the code of the `bail`
path) and no pipeline for every blob that passes the first loop and in which the walk
reaches two `GRAPHICS_PIPELINE_INFO` chunks. -/
theorem grLoadPipeline_rejects_two_graphics_infos (Y : BlobLayout) (native : NativeApi)
    (grDevice : GrDevice) (dataSize : Nat) (blob : GrStoredPipelineBlob) (k1 k2 : Nat)
    (hw : NoWrap Y dataSize)
    (hvalid : validateLoop Y dataSize blob dataSize Y.sizeofGrStoredPipelineBlob
      Y.sizeofGrStoredPipelineBlob = .ok none)
    (hk : k1 < k2) (hr : ChunkReached Y dataSize blob k2)
    (h1 : (chunkNumber Y blob k1).type = GRAPHICS_PIPELINE_INFO)
    (h2 : (chunkNumber Y blob k2).type = GRAPHICS_PIPELINE_INFO) :
    ∃ n, grLoadPipeline Y native grDevice dataSize (some blob) =
      .ok { result := GR_ERROR_BAD_PIPELINE_DATA, pipeline := none, allocations := n } := by
  have hpos := chunkPosition_ge_mul Y dataSize blob hw k2 (fun j hj => hr j (by omega))
  have hlt := hr k2 (le_refl _)
  have hB : Y.sizeofGrBaseBlobChunk ≤ k2 * Y.sizeofGrBaseBlobChunk :=
    Nat.le_mul_of_pos_left _ (by omega)
  have hge := chunkPosition_ge Y dataSize blob hw k2 hr
  -- the second pass bails at the second chunk at the latest
  have hbail : ∃ s, loadedAfter Y blob (k2 + 1) = .bail s := by
    simp only [loadedAfter]
    cases loadedAfter_createInfo Y blob k1 h1 k2 hk with
    | inl hb =>
      obtain ⟨s, hs⟩ := hb
      rw [hs]
      exact ⟨s, rfl⟩
    | inr hn =>
      obtain ⟨s, hs, hci⟩ := hn
      rw [hs]
      exact (loadChunk_graphics Y _ s h2).1 hci
  obtain ⟨s, hs⟩ := hbail
  obtain ⟨f, hf⟩ : ∃ f, dataSize = f + (k2 + 1) := ⟨dataSize - (k2 + 1), by omega⟩
  have hloop := loadLoop_advance Y dataSize blob (k2 + 1) f
    (fun j hj => hr j (by omega))
  rw [← hf, hs] at hloop
  refine ⟨s.allocations, ?_⟩
  unfold grLoadPipeline
  rw [if_neg (by omega)]
  simp only [hvalid, hloop]

/-- Witness for C8: `exampleTwoGraphicsBlob` passes the first loop and holds two
`GRAPHICS_PIPELINE_INFO` chunks. -/
theorem grLoadPipeline_rejects_two_graphics_infos_witness :
    ∃ n, grLoadPipeline exampleLayout exampleNative exampleDevice 336
        (some exampleTwoGraphicsBlob) =
      .ok { result := GR_ERROR_BAD_PIPELINE_DATA, pipeline := none, allocations := n } :=
  grLoadPipeline_rejects_two_graphics_infos exampleLayout exampleNative exampleDevice 336
    exampleTwoGraphicsBlob 1 2 (by unfold NoWrap; decide) (by decide) (by decide)
    (by
      intro j hj
      match j, hj with
      | 0, _ => decide
      | 1, _ => decide
      | 2, _ => decide)
    (by decide) (by decide)

/-! ## Walking a blob that the fill pass has written -/

theorem emitChunk_snd (Y : BlobLayout) (x : StoredChunk) (st : FillState) :
    (emitChunk Y x st).2 = st.2 + Y.sizeofGrBaseBlobChunk +
      alignU32 (x.write Y (st.1.chunkAt st.2)).size32 := rfl

theorem emitAll_cons (Y : BlobLayout) (x : StoredChunk) (cs : List StoredChunk)
    (st : FillState) : emitAll Y (x :: cs) st = emitAll Y cs (emitChunk Y x st) := rfl

theorem emitAll_append (Y : BlobLayout) (cs ds : List StoredChunk) (st : FillState) :
    emitAll Y (cs ++ ds) st = emitAll Y ds (emitAll Y cs st) := by
  simp [emitAll, List.foldl_append]

theorem emitAll_snd_le (Y : BlobLayout) (cs : List StoredChunk) :
    ∀ st : FillState, st.2 ≤ (emitAll Y cs st).2 := by
  induction cs with
  | nil => intro st; exact le_refl _
  | cons x cs ih =>
    intro st
    rw [emitAll_cons]
    have := ih (emitChunk Y x st)
    rw [emitChunk_snd] at this
    omega

theorem emitAll_frame (Y : BlobLayout) (hB : 0 < Y.sizeofGrBaseBlobChunk)
    (cs : List StoredChunk) :
    ∀ (st : FillState) (o : Nat), o < st.2 →
      (emitAll Y cs st).1.chunkAt o = st.1.chunkAt o := by
  induction cs with
  | nil => intro st o _; rfl
  | cons x cs ih =>
    intro st o ho
    rw [emitAll_cons, ih _ o (by rw [emitChunk_snd]; omega)]
    simp only [emitChunk]
    rw [Function.update_noteq (by omega)]

/-- The chunk that the walk finds where the `k`-th block was written is what that block
wrote. -/
theorem emitAll_read (Y : BlobLayout) (hB : 0 < Y.sizeofGrBaseBlobChunk)
    (cs ds : List StoredChunk) (x : StoredChunk) (st : FillState) :
    (emitAll Y (cs ++ x :: ds) st).1.chunkAt (emitAll Y cs st).2 =
      x.write Y ((emitAll Y cs st).1.chunkAt (emitAll Y cs st).2) := by
  rw [emitAll_append, emitAll_cons, emitAll_frame Y hB ds _ _ (by rw [emitChunk_snd]; omega)]
  simp only [emitChunk, Function.update_same]

theorem chunkPosition_emitAll (Y : BlobLayout) (hB : 0 < Y.sizeofGrBaseBlobChunk)
    (blob : GrStoredPipelineBlob) :
    ∀ (cs ds : List StoredChunk),
      (chunkPosition Y (emitAll Y (cs ++ ds) (blob, Y.sizeofGrStoredPipelineBlob)).1
        cs.length).2 = (emitAll Y cs (blob, Y.sizeofGrStoredPipelineBlob)).2 := by
  intro cs
  induction cs using List.reverseRecOn with
  | nil => intro ds; rfl
  | append_singleton cs x ih =>
    intro ds
    rw [List.length_append, List.length_singleton]
    simp only [chunkPosition]
    have h1 := ih (x :: ds)
    rw [List.append_assoc, List.singleton_append, h1, emitAll_read Y hB]
    rw [emitAll_append Y cs [x]]
    rfl

theorem chunkNumber_emitAll (Y : BlobLayout) (hB : 0 < Y.sizeofGrBaseBlobChunk)
    (blob : GrStoredPipelineBlob) (cs ds : List StoredChunk) (x : StoredChunk) :
    ∃ old, chunkNumber Y (emitAll Y (cs ++ x :: ds) (blob, Y.sizeofGrStoredPipelineBlob)).1
        cs.length = x.write Y old := by
  unfold chunkNumber
  rw [chunkPosition_emitAll Y hB blob cs (x :: ds), emitAll_read Y hB]
  exact ⟨_, rfl⟩

theorem memcpyRead_length {α : Type} (src : List α) (start n : Nat) (d : α) :
    (memcpyRead src start n d).length = n := by
  simp [memcpyRead]

theorem memcpyRead_getD {α : Type} (src : List α) (start n i : Nat) (d : α) (h : i < n) :
    (memcpyRead src start n d).getD i d = src.getD (start + i) d := by
  simp [memcpyRead, List.getD_eq_getElem?_getD, List.getElem?_map, List.getElem?_range h]

theorem memcpyRead_congr {α : Type} (src1 src2 : List α) (start n : Nat) (d : α)
    (h : ∀ k, k < n → src1.getD (start + k) d = src2.getD (start + k) d) :
    memcpyRead src1 start n d = memcpyRead src2 start n d := by
  unfold memcpyRead
  apply List.map_congr_left
  intro k hk
  exact h k (List.mem_range.mp hk)

theorem getD_memcpyInto {α : Type} (dst copied : List α) (i : Nat) (d : α)
    (h : i < copied.length) : (memcpyInto dst copied).getD i d = copied.getD i d := by
  simp [memcpyInto, List.getD_eq_getElem?_getD, List.getElem?_append_left h]

/-- Reading back what `memcpy` has put at the start of an array. -/
theorem memcpyRead_memcpyInto {α : Type} (dst copied : List α) (start n : Nat) (d : α)
    (h : start + n ≤ copied.length) :
    memcpyRead (memcpyInto dst copied) start n d = memcpyRead copied start n d :=
  memcpyRead_congr _ _ _ _ _ (fun k hk => getD_memcpyInto dst copied _ d (by omega))

theorem memcpyRead_idem {α : Type} (src : List α) (n m : Nat) (d : α) (h : m ≤ n) :
    memcpyRead (memcpyRead src 0 n d) 0 m d = memcpyRead src 0 m d :=
  memcpyRead_congr _ _ _ _ _ (fun k hk => by
    rw [memcpyRead_getD _ _ _ _ _ (by omega)]
    simp)

theorem write_type (Y : BlobLayout) (x : StoredChunk) (old : GrBaseBlobChunk) :
    (x.write Y old).type = (x.write Y zeroChunk).type := by
  cases x <;> rfl

theorem write_size32 (Y : BlobLayout) (x : StoredChunk) (old : GrBaseBlobChunk) :
    (x.write Y old).size32 = x.payloadSize Y % 2 ^ 32 := by
  cases x <;> simp [StoredChunk.write, GrBaseBlobChunk.size32, StoredChunk.payloadSize]

theorem foldl_counts_congr (c1 c2 : List Nat) (is : List Nat)
    (h : ∀ i, i ∈ is → c1.getD i 0 = c2.getD i 0) (a : Nat) :
    is.foldl (fun acc i => (acc + c1.getD i 0) % 2 ^ 32) a =
      is.foldl (fun acc i => (acc + c2.getD i 0) % 2 ^ 32) a := by
  induction is generalizing a with
  | nil => rfl
  | cons i is ih =>
    simp only [List.foldl_cons]
    rw [h i (List.mem_cons_self _ _)]
    exact ih (fun j hj => h j (List.mem_cons_of_mem _ hj)) _

theorem totalDescriptorSets_memcpyInto (Y : BlobLayout) (dst counts : List Nat)
    (h : counts.length = Y.GR_MAX_DESCRIPTOR_SETS) :
    totalDescriptorSets Y (memcpyInto dst counts) = totalDescriptorSets Y counts := by
  unfold totalDescriptorSets
  apply foldl_counts_congr
  intro i hi
  exact getD_memcpyInto dst counts i 0 (by rw [h]; exact List.mem_range.mp hi)

/-- A chunk that the fill pass wrote passes the checks of the first loop, wherever it ends
inside the buffer. -/
theorem validateChunk_write (Y : BlobLayout) (dataSize sz : Nat) (x : StoredChunk)
    (old : GrBaseBlobChunk) (hs : x.Sound Y)
    (hfit : x.payloadSize Y < 2 ^ 32) (hwide : 2 ^ 32 ≤ 2 ^ Y.sizeBits)
    (hin : sz + x.payloadSize Y + Y.sizeofGrBaseBlobChunk ≤ dataSize)
    (hd : dataSize < 2 ^ Y.sizeBits) :
    validateChunk Y dataSize sz (x.write Y old) = none := by
  unfold validateChunk
  rw [write_size32, Nat.mod_eq_of_lt hfit, Nat.mod_eq_of_lt (by omega), if_neg (by omega)]
  cases x with
  | pipelineInfo info => simp [StoredChunk.write, StoredChunk.payloadSize]
  | graphicsPipelineInfo info => simp [StoredChunk.write, StoredChunk.payloadSize]
  | descriptorSlots total counts slots =>
    obtain ⟨h1, h2, _, _⟩ := hs
    simp only [StoredChunk.write, StoredChunk.payloadSize] at hfit ⊢
    have := totalDescriptorSets_memcpyInto Y old.descriptorSlots.descriptorSetCounts counts h1
    unfold totalDescriptorSets at this h2
    have hm : (Y.sizeofGrPipelineDescriptorChunk + total * Y.sizeofPipelineDescriptorSlot) %
        2 ^ Y.sizeBits =
        Y.sizeofGrPipelineDescriptorChunk + total * Y.sizeofPipelineDescriptorSlot :=
      Nat.mod_eq_of_lt (by omega)
    simp only [this, ← h2, hm]
    simp
  | spirv i f n code =>
    simp only [StoredChunk.write, StoredChunk.payloadSize] at hfit ⊢
    have hm : (n + Y.sizeofGrSpirvBlobChunk) % 2 ^ Y.sizeBits = n + Y.sizeofGrSpirvBlobChunk :=
      Nat.mod_eq_of_lt (by omega)
    simp only [hm]
    rw [if_neg (by omega)]
  | specInfo i n data =>
    simp only [StoredChunk.write, StoredChunk.payloadSize] at hfit ⊢
    have hm : (n + Y.sizeofGrSpecInfoDataBlobChunk) % 2 ^ Y.sizeBits =
        n + Y.sizeofGrSpecInfoDataBlobChunk := Nat.mod_eq_of_lt (by omega)
    simp only [hm]
    rw [if_neg (by omega)]
  | specInfoEntries i n es =>
    simp only [StoredChunk.write, StoredChunk.payloadSize] at hfit ⊢
    have hm : (Y.sizeofGrSpecInfoMapEntryBlobChunk + n * Y.sizeofVkSpecializationMapEntry) %
        2 ^ Y.sizeBits =
        Y.sizeofGrSpecInfoMapEntryBlobChunk + n * Y.sizeofVkSpecializationMapEntry :=
      Nat.mod_eq_of_lt (by omega)
    simp only [hm]
    simp

theorem loadDescriptorSlots_congr (dc1 dc2 : GrPipelineDescriptorChunk) (bound : Nat)
    (hb : bound < 2 ^ 32)
    (hdata : ∀ j, j < bound → dc1.data.getD j default = dc2.data.getD j default) :
    ∀ (is : List Nat) (idx : Nat) (st : LoadState),
      (∀ i, i ∈ is → dc1.descriptorSetCounts.getD i 0 = dc2.descriptorSetCounts.getD i 0) →
      idx + (is.map (fun i => dc1.descriptorSetCounts.getD i 0)).sum ≤ bound →
      loadDescriptorSlots dc1 is idx st = loadDescriptorSlots dc2 is idx st := by
  intro is
  induction is with
  | nil => intro idx st _ _; rfl
  | cons i is ih =>
    intro idx st hc hsum
    simp only [List.map_cons, List.sum_cons] at hsum
    rw [loadDescriptorSlots, loadDescriptorSlots]
    have hci := hc i (List.mem_cons_self _ _)
    rw [← hci]
    have hm : memcpyRead dc1.data idx (dc1.descriptorSetCounts.getD i 0) default =
        memcpyRead dc2.data idx (dc1.descriptorSetCounts.getD i 0) default :=
      memcpyRead_congr _ _ _ _ _ (fun k hk => hdata _ (by omega))
    rw [hm]
    apply ih
    · exact fun j hj => hc j (List.mem_cons_of_mem _ hj)
    · rw [Nat.mod_eq_of_lt (by omega)]
      omega

/-- What the second pass does with a chunk that the fill pass wrote does not depend on
what the buffer held before. -/
theorem loadChunk_write (Y : BlobLayout) (x : StoredChunk) (old : GrBaseBlobChunk)
    (st : LoadState) (hs : x.Sound Y) :
    loadChunk Y (x.write Y old) st = loadChunk Y (x.write Y zeroChunk) st := by
  cases x with
  | pipelineInfo info => rfl
  | graphicsPipelineInfo info => rfl
  | descriptorSlots total counts slots =>
    obtain ⟨h1, h2, h3, h4⟩ := hs
    simp only [loadChunk, StoredChunk.write]
    congr 1
    apply loadDescriptorSlots_congr _ _ slots.length h4
    · intro j hj
      simp only
      rw [getD_memcpyInto _ _ _ _ hj, getD_memcpyInto _ _ _ _ hj]
    · intro i hi
      have hi2 : i < counts.length := by rw [h1]; exact List.mem_range.mp hi
      simp only
      rw [getD_memcpyInto _ _ _ _ hi2, getD_memcpyInto _ _ _ _ hi2]
    · simp only [Nat.zero_add]
      rw [← h3]
      apply le_of_eq
      congr 1
      apply List.map_congr_left
      intro i hi
      exact getD_memcpyInto _ _ _ _ (by rw [h1]; exact List.mem_range.mp hi)
  | spirv i f n code =>
    obtain ⟨h1, _⟩ := hs
    simp only [loadChunk, StoredChunk.write]
    rw [memcpyRead_memcpyInto _ _ _ _ _ (by rw [h1]; exact (Nat.zero_add _).symm ▸ Nat.mod_le _ _),
      memcpyRead_memcpyInto _ _ _ _ _ (by rw [h1]; exact (Nat.zero_add _).symm ▸ Nat.mod_le _ _)]
  | specInfo i n data =>
    obtain ⟨h1, _⟩ := hs
    simp only [loadChunk, StoredChunk.write]
    rw [memcpyRead_memcpyInto _ _ _ _ _ (by rw [h1]; omega),
      memcpyRead_memcpyInto _ _ _ _ _ (by rw [h1]; omega)]
  | specInfoEntries i n es =>
    obtain ⟨h1, _⟩ := hs
    simp only [loadChunk, StoredChunk.write]
    rw [memcpyRead_memcpyInto _ _ _ _ _ (by rw [h1]; omega),
      memcpyRead_memcpyInto _ _ _ _ _ (by rw [h1]; omega)]

theorem idealSize_append (Y : BlobLayout) (cs ds : List StoredChunk) :
    idealSize Y (cs ++ ds) = idealSize Y cs + (ds.map (chunkSpan Y)).sum := by
  simp [idealSize, Nat.add_assoc]

theorem idealSize_snoc (Y : BlobLayout) (cs : List StoredChunk) (x : StoredChunk) :
    idealSize Y (cs ++ [x]) = idealSize Y cs + chunkSpan Y x := by
  simp [idealSize_append]

theorem chunkSpan_bounds (Y : BlobLayout) (x : StoredChunk) :
    Y.sizeofGrBaseBlobChunk + x.payloadSize Y ≤ chunkSpan Y x ∧
      chunkSpan Y x ≤ Y.sizeofGrBaseBlobChunk + x.payloadSize Y + 3 := by
  unfold chunkSpan
  omega

theorem idealSize_mid (Y : BlobLayout) (cs ds : List StoredChunk) (x : StoredChunk) :
    idealSize Y cs + chunkSpan Y x ≤ idealSize Y (cs ++ x :: ds) := by
  rw [idealSize_append]
  simp only [List.map_cons, List.sum_cons]
  omega

/-- The running offset after a chunk that the fill pass wrote, in a blob below 4 GiB. -/
theorem nextSz_write (Y : BlobLayout) (sz : Nat) (x : StoredChunk) (old : GrBaseBlobChunk)
    (h2w : 2 ^ 32 ≤ 2 ^ Y.sizeBits) (h : sz + chunkSpan Y x + 3 < 2 ^ 32) :
    nextSz Y sz (x.write Y old) = sz + chunkSpan Y x := by
  have hsp := chunkSpan_bounds Y x
  have hp : x.payloadSize Y % 2 ^ 32 = x.payloadSize Y := Nat.mod_eq_of_lt (by omega)
  have h1 : (Y.sizeofGrBaseBlobChunk + x.payloadSize Y) % 2 ^ Y.sizeBits =
      Y.sizeofGrBaseBlobChunk + x.payloadSize Y := Nat.mod_eq_of_lt (by omega)
  have h2 : (Y.sizeofGrBaseBlobChunk + x.payloadSize Y + 3) % 2 ^ Y.sizeBits =
      Y.sizeofGrBaseBlobChunk + x.payloadSize Y + 3 := Nat.mod_eq_of_lt (by omega)
  unfold nextSz alignSize
  rw [write_size32, hp, h1, h2]
  unfold chunkSpan at h ⊢
  exact Nat.mod_eq_of_lt (by omega)

theorem length_le_idealSize (Y : BlobLayout) (hB : 0 < Y.sizeofGrBaseBlobChunk)
    (cs : List StoredChunk) : cs.length ≤ idealSize Y cs := by
  unfold idealSize
  induction cs with
  | nil => simp
  | cons x cs ih =>
    have hsp := chunkSpan_bounds Y x
    simp only [List.length_cons, List.map_cons, List.sum_cons]
    omega

theorem chunkPosition_sz (Y : BlobLayout) (blob : GrStoredPipelineBlob)
    (hB : 0 < Y.sizeofGrBaseBlobChunk) :
    ∀ (cs ds : List StoredChunk),
      idealSize Y (cs ++ ds) + 3 < 2 ^ 32 → 2 ^ 32 ≤ 2 ^ Y.sizeBits →
      (chunkPosition Y (emitAll Y (cs ++ ds) (blob, Y.sizeofGrStoredPipelineBlob)).1
        cs.length).1 = idealSize Y cs := by
  intro cs
  induction cs using List.reverseRecOn with
  | nil => intro ds _ _; simp [chunkPosition, idealSize]
  | append_singleton cs x ih =>
    intro ds hsmall hw
    rw [List.length_append, List.length_singleton]
    simp only [chunkPosition]
    rw [List.append_assoc, List.singleton_append] at hsmall ⊢
    have h1 := ih (x :: ds) hsmall hw
    have h2 := chunkPosition_emitAll Y hB blob cs (x :: ds)
    have h3 := emitAll_read Y hB cs ds x (blob, Y.sizeofGrStoredPipelineBlob)
    have hmid := idealSize_mid Y cs ds x
    rw [h1, h2, h3, nextSz_write Y _ x _ hw (by omega), idealSize_snoc]

theorem take_decomp {α : Type} (l : List α) (k : Nat) (hk : k < l.length) :
    l = l.take k ++ l.get ⟨k, hk⟩ :: l.drop (k + 1) := by
  rw [List.get_eq_getElem, List.getElem_cons_drop, List.take_append_drop]

theorem take_succ_get {α : Type} (l : List α) (k : Nat) (hk : k < l.length) :
    l.take (k + 1) = l.take k ++ [l.get ⟨k, hk⟩] := by
  rw [List.get_eq_getElem, List.take_succ, List.getElem?_eq_getElem hk]
  rfl

theorem idealSize_take_le (Y : BlobLayout) (all : List StoredChunk) (k : Nat) :
    idealSize Y (all.take k) ≤ idealSize Y all := by
  conv => rhs; rw [← List.take_append_drop k all]
  rw [idealSize_append]
  omega

theorem idealSize_take_lt (Y : BlobLayout) (hB : 0 < Y.sizeofGrBaseBlobChunk)
    (all : List StoredChunk) (k : Nat) (hk : k < all.length) :
    idealSize Y (all.take k) < idealSize Y all := by
  have h1 := idealSize_mid Y (all.take k) (all.drop (k + 1)) (all.get ⟨k, hk⟩)
  rw [← take_decomp all k hk] at h1
  have hsp := chunkSpan_bounds Y (all.get ⟨k, hk⟩)
  omega

/-- Position and content of the `k`-th chunk of the walk over a blob that the fill pass
wrote from the list `all`. -/
theorem walk_emitted (Y : BlobLayout) (blob : GrStoredPipelineBlob) (all : List StoredChunk)
    (hB : 0 < Y.sizeofGrBaseBlobChunk) (hsmall : idealSize Y all + 3 < 2 ^ 32)
    (hw : 2 ^ 32 ≤ 2 ^ Y.sizeBits) :
    (∀ k, k ≤ all.length →
      (chunkPosition Y (emitAll Y all (blob, Y.sizeofGrStoredPipelineBlob)).1 k).1 =
        idealSize Y (all.take k)) ∧
    (∀ k (hk : k < all.length), ∃ old,
      chunkNumber Y (emitAll Y all (blob, Y.sizeofGrStoredPipelineBlob)).1 k =
        (all.get ⟨k, hk⟩).write Y old) := by
  constructor
  · intro k hk
    have h := chunkPosition_sz Y blob hB (all.take k) (all.drop k)
      (by rw [List.take_append_drop]; exact hsmall) hw
    rw [List.take_append_drop, List.length_take, Nat.min_eq_left hk] at h
    exact h
  · intro k hk
    have h := chunkNumber_emitAll Y hB blob (all.take k) (all.drop (k + 1)) (all.get ⟨k, hk⟩)
    rw [← take_decomp all k hk, List.length_take, Nat.min_eq_left (Nat.le_of_lt hk)] at h
    exact h

theorem loadAll_bail (Y : BlobLayout) (cs : List GrBaseBlobChunk) (s : LoadState) :
    loadAll Y cs (.bail s) = .bail s := by
  cases cs <;> rfl

theorem loadAll_snoc (Y : BlobLayout) (cs : List GrBaseBlobChunk) (c : GrBaseBlobChunk) :
    ∀ f : Flow, loadAll Y (cs ++ [c]) f =
      match loadAll Y cs f with
      | .bail s => .bail s
      | .next s => loadChunk Y c s := by
  induction cs with
  | nil =>
    intro f
    cases f <;> rfl
  | cons d cs ih =>
    intro f
    cases f with
    | bail s => simp [loadAll, loadAll_bail]
    | next s => simp only [List.cons_append, loadAll]; exact ih _

/-- The first loop accepts a blob that the fill pass wrote from sound chunks, and the
second loop loads its chunks one after the other. -/
theorem loops_emitted (Y : BlobLayout) (blob : GrStoredPipelineBlob) (all : List StoredChunk)
    (hB : 0 < Y.sizeofGrBaseBlobChunk) (hwide : 32 ≤ Y.sizeBits)
    (hsmall : idealSize Y all + 3 < 2 ^ 32)
    (hsound : ∀ x, x ∈ all → x.Sound Y) :
    validateLoop Y (idealSize Y all) (emitAll Y all (blob, Y.sizeofGrStoredPipelineBlob)).1
        (idealSize Y all) Y.sizeofGrStoredPipelineBlob Y.sizeofGrStoredPipelineBlob =
      .ok none ∧
    loadLoop Y (idealSize Y all) (emitAll Y all (blob, Y.sizeofGrStoredPipelineBlob)).1
        (idealSize Y all) Y.sizeofGrStoredPipelineBlob Y.sizeofGrStoredPipelineBlob
        (initialLoadState Y) =
      .ok (loadAll Y (all.map (fun x => x.write Y zeroChunk))
        (.next (initialLoadState Y))) := by
  have h2w : (2 : Nat) ^ 32 ≤ 2 ^ Y.sizeBits := Nat.pow_le_pow_right (by decide) hwide
  obtain ⟨hpos, hnum⟩ := walk_emitted Y blob all hB hsmall h2w
  generalize hF : (emitAll Y all (blob, Y.sizeofGrStoredPipelineBlob)).1 = F at hpos hnum ⊢
  have hreach : ∀ j, j < all.length → (chunkPosition Y F j).1 < idealSize Y all := by
    intro j hj
    rw [hpos j (Nat.le_of_lt hj)]
    exact idealSize_take_lt Y hB all j hj
  have hend : (chunkPosition Y F all.length).1 = idealSize Y all := by
    rw [hpos _ (le_refl _), List.take_length]
  have hvalid : ValidBefore Y (idealSize Y all) F all.length := by
    intro j hj
    obtain ⟨old, ho⟩ := hnum j hj
    rw [ho, hpos j (Nat.le_of_lt hj)]
    have hmid := idealSize_mid Y (all.take j) (all.drop (j + 1)) (all.get ⟨j, hj⟩)
    rw [← take_decomp all j hj] at hmid
    have hsp := chunkSpan_bounds Y (all.get ⟨j, hj⟩)
    apply validateChunk_write Y _ _ _ _ (hsound _ (List.get_mem _ _ _)) (by omega) h2w
      (by omega) (by omega)
  have hlen : all.length ≤ idealSize Y all := length_le_idealSize Y hB all
  obtain ⟨f, hf⟩ : ∃ f, idealSize Y all = f + all.length := ⟨idealSize Y all - all.length, by omega⟩
  constructor
  · have h := validateLoop_advance Y (idealSize Y all) F all.length f hreach hvalid
    rw [← hf] at h
    rw [h, hend]
    cases f <;> simp [validateLoop]
  · have h := loadLoop_advance Y (idealSize Y all) F all.length f hreach
    rw [← hf] at h
    rw [h, hend]
    have hl : ∀ k, k ≤ all.length →
        loadedAfter Y F k =
          loadAll Y ((all.take k).map (fun x => x.write Y zeroChunk))
            (.next (initialLoadState Y)) := by
      intro k
      induction k with
      | zero => intro _; rfl
      | succ k ih =>
        intro hk
        have hk1 : k < all.length := by omega
        simp only [loadedAfter]
        rw [ih (by omega), take_succ_get all k hk1, List.map_append, List.map_singleton,
          loadAll_snoc]
        obtain ⟨old, ho⟩ := hnum k hk1
        rw [ho]
        cases loadAll Y ((all.take k).map (fun x => x.write Y zeroChunk))
            (.next (initialLoadState Y)) with
        | bail s => rfl
        | next s =>
          simp only
          exact loadChunk_write Y _ old s (hsound _ (List.get_mem _ _ _))
    rw [hl _ (le_refl _), List.take_length]
    cases loadAll Y (all.map (fun x => x.write Y zeroChunk)) (.next (initialLoadState Y)) with
    | bail s => rfl
    | next s => cases f <;> simp [loadLoop]

/-! ## The fill pass writes the stored form, and the sizing pass measures it -/

theorem emitAll_flatMap (Y : BlobLayout) (g : Nat → List StoredChunk) :
    ∀ (l : List Nat) (st : FillState),
      emitAll Y (l.flatMap g) st = l.foldl (fun st i => emitAll Y (g i) st) st := by
  intro l
  induction l with
  | nil => intro st; rfl
  | cons i l ih =>
    intro st
    rw [List.flatMap_cons, emitAll_append, ih]
    rfl

theorem fillStage_eq (Y : BlobLayout) (p : GrPipeline) (st : FillState) (i : Nat) :
    fillStage Y p st i = emitAll Y (stageChunks p i) st := by
  unfold fillStage stageChunks storedStageFlags
  rw [emitAll_append, emitAll_append]
  generalize p.specInfos.getD i default = info
  generalize p.shaderCode.getD i none = c
  cases c <;> by_cases hd : info.dataSize > 0 <;> by_cases hm : info.mapEntryCount > 0 <;>
    simp [hd, hm, emitAll]

theorem fillBlob_eq (Y : BlobLayout) (p : GrPipeline) (blob : GrStoredPipelineBlob) :
    fillBlob Y p blob =
      emitAll Y (storedChunks Y p)
        ({ blob with version := 0 }, Y.sizeofGrStoredPipelineBlob) := by
  unfold fillBlob storedChunks
  rw [emitAll_append, emitAll_append, emitAll_append, emitAll_flatMap]
  have hf : (fun st i => emitAll Y (stageChunks p i) st) = fillStage Y p := by
    funext st i
    exact (fillStage_eq Y p st i).symm
  rw [hf]
  generalize totalDescriptorSets Y p.descriptorSetCounts = total
  cases p.createInfo <;> by_cases hd : total > 0 <;> simp [hd, emitAll]

theorem addAligned_eq (Y : BlobLayout) (sz x : Nat)
    (h : sz + (x + 3) / 4 * 4 + 3 < 2 ^ Y.sizeBits) :
    addAligned Y sz x = sz + (x + 3) / 4 * 4 := by
  unfold addAligned alignSize
  have hx : x % 2 ^ Y.sizeBits = x := Nat.mod_eq_of_lt (by omega)
  have hx3 : (x + 3) % 2 ^ Y.sizeBits = x + 3 := Nat.mod_eq_of_lt (by omega)
  rw [hx, hx3]
  exact Nat.mod_eq_of_lt (by omega)

/-- The span of the chunks of one stage. -/
theorem sizeStage_eq (Y : BlobLayout) (p : GrPipeline) (sz i : Nat)
    (h : sz + ((stageChunks p i).map (chunkSpan Y)).sum + 3 < 2 ^ Y.sizeBits) :
    sizeStage Y p sz i = sz + ((stageChunks p i).map (chunkSpan Y)).sum := by
  unfold sizeStage
  unfold stageChunks at h ⊢
  generalize p.specInfos.getD i default = info at h ⊢
  generalize p.shaderCode.getD i none = c at h ⊢
  cases c <;> by_cases hd : info.dataSize > 0 <;> by_cases hm : info.mapEntryCount > 0 <;>
    simp only [hd, hm, if_true, if_false, Option.isSome_none, Option.isSome_some,
      List.nil_append, List.append_nil, List.map_nil, List.sum_nil, List.map_cons,
      List.sum_cons, List.singleton_append, Nat.add_zero, Bool.false_eq_true,
      List.cons_append, List.map_append, List.sum_append] at h ⊢
  all_goals simp only [chunkSpan, StoredChunk.payloadSize] at h ⊢
  all_goals
    first
    | rfl
    | (rw [addAligned_eq Y sz, addAligned_eq Y (sz + _), addAligned_eq Y (sz + _ + _)] <;> omega)
    | (rw [addAligned_eq Y sz, addAligned_eq Y (sz + _)] <;> omega)
    | (rw [addAligned_eq Y sz] <;> omega)

theorem foldl_sizeStage_eq (Y : BlobLayout) (p : GrPipeline) :
    ∀ (l : List Nat) (sz : Nat),
      sz + ((l.flatMap (stageChunks p)).map (chunkSpan Y)).sum + 3 < 2 ^ Y.sizeBits →
      l.foldl (sizeStage Y p) sz = sz + ((l.flatMap (stageChunks p)).map (chunkSpan Y)).sum := by
  intro l
  induction l with
  | nil => intro sz _; rfl
  | cons i l ih =>
    intro sz h
    simp only [List.flatMap_cons, List.map_append, List.sum_append, List.foldl_cons] at h ⊢
    rw [sizeStage_eq Y p sz i (by omega), ih _ (by omega)]
    omega

/-- Below the wrap-around of `size_t`, the sizing pass returns the size of the stored
form. -/
theorem storeSize_eq (Y : BlobLayout) (p : GrPipeline)
    (h : idealSize Y (storedChunks Y p) + 3 < 2 ^ Y.sizeBits) :
    storeSize Y p = idealSize Y (storedChunks Y p) := by
  unfold storeSize
  unfold idealSize storedChunks storedDescriptorSlots at h ⊢
  generalize totalDescriptorSets Y p.descriptorSetCounts = total at h ⊢
  simp only [List.map_append, List.sum_append, List.singleton_append, List.map_cons,
    List.sum_cons, List.cons_append, List.nil_append] at h ⊢
  rw [foldl_sizeStage_eq Y p _ _ (by omega)]
  generalize (((List.range Y.MAX_STAGE_COUNT).flatMap (stageChunks p)).map
    (chunkSpan Y)).sum = S at h ⊢
  cases hc : p.createInfo <;> by_cases hd : total > 0 <;>
    simp only [hc, hd, if_true, if_false, Option.isSome_none, Option.isSome_some,
      List.map_nil, List.sum_nil, List.map_cons, List.sum_cons, Nat.add_zero,
      Bool.false_eq_true, chunkSpan, StoredChunk.payloadSize, storedPipelineInfo,
      storedGraphicsInfo] at h ⊢
  all_goals
    first
    | (rw [addAligned_eq Y (Y.sizeofGrStoredPipelineBlob + S),
        addAligned_eq Y (Y.sizeofGrStoredPipelineBlob + S + _),
        addAligned_eq Y (Y.sizeofGrStoredPipelineBlob + S + _ + _)] <;> omega)
    | (rw [addAligned_eq Y (Y.sizeofGrStoredPipelineBlob + S),
        addAligned_eq Y (Y.sizeofGrStoredPipelineBlob + S + _)] <;> omega)
    | (rw [addAligned_eq Y (Y.sizeofGrStoredPipelineBlob + S)] <;> omega)

/-! ## The stored form is well formed -/

theorem foldl_counts_sum (counts : List Nat) :
    ∀ (is : List Nat) (a : Nat),
      a + (is.map (fun i => counts.getD i 0)).sum < 2 ^ 32 →
      is.foldl (fun acc i => (acc + counts.getD i 0) % 2 ^ 32) a =
        a + (is.map (fun i => counts.getD i 0)).sum := by
  intro is
  induction is with
  | nil => intro a _; rfl
  | cons i is ih =>
    intro a h
    simp only [List.map_cons, List.sum_cons, List.foldl_cons] at h ⊢
    rw [Nat.mod_eq_of_lt (by omega), ih _ (by omega)]
    omega

theorem totalDescriptorSets_eq_sum (Y : BlobLayout) (counts : List Nat)
    (h : ((List.range Y.GR_MAX_DESCRIPTOR_SETS).map (fun i => counts.getD i 0)).sum < 2 ^ 32) :
    totalDescriptorSets Y counts =
      ((List.range Y.GR_MAX_DESCRIPTOR_SETS).map (fun i => counts.getD i 0)).sum := by
  unfold totalDescriptorSets
  rw [foldl_counts_sum counts _ 0 (by omega)]
  omega

theorem storedSlots_length (p : GrPipeline) (is : List Nat) :
    (storedSlots p is).length = (is.map (fun i => p.descriptorSetCounts.getD i 0)).sum := by
  unfold storedSlots
  induction is with
  | nil => rfl
  | cons i is ih =>
    rw [List.flatMap_cons, List.length_append, ih, memcpyRead_length]
    rfl

theorem memcpyRead_zero_getD {α : Type} (src : List α) (n i : Nat) (d : α) (h : i < n) :
    (memcpyRead src 0 n d).getD i d = src.getD i d := by
  rw [memcpyRead_getD _ _ _ _ _ h, Nat.zero_add]

theorem mem_stageChunks_sound (Y : BlobLayout) (p : GrPipeline) (i : Nat)
    (hi : i < Y.MAX_STAGE_COUNT) : ∀ x, x ∈ stageChunks p i → x.Sound Y := by
  intro x hx
  unfold stageChunks at hx
  simp only [List.mem_append] at hx
  rcases hx with (hx | hx) | hx
  · split at hx
    · rw [List.mem_singleton] at hx
      subst hx
      exact ⟨memcpyRead_length _ _ _ _, hi⟩
    · cases hx
  · split at hx
    · rw [List.mem_singleton] at hx
      subst hx
      exact ⟨memcpyRead_length _ _ _ _, hi⟩
    · cases hx
  · split at hx
    · rw [List.mem_singleton] at hx
      subst hx
      exact ⟨memcpyRead_length _ _ _ _, hi⟩
    · cases hx

/-- Every chunk of the stored form of a pipeline is well formed when the slot counts add
up to less than `2 ^ 32`. -/
theorem storedChunks_sound (Y : BlobLayout) (p : GrPipeline)
    (hcap : ((List.range Y.GR_MAX_DESCRIPTOR_SETS).map
      (fun i => p.descriptorSetCounts.getD i 0)).sum < 2 ^ 32) :
    ∀ x, x ∈ storedChunks Y p → x.Sound Y := by
  intro x hx
  unfold storedChunks at hx
  simp only [List.mem_append, List.mem_flatMap, List.mem_range] at hx
  rcases hx with ((hx | hx) | hx) | ⟨i, hi, hx⟩
  · rw [List.mem_singleton] at hx
    subst hx
    trivial
  · split at hx
    · rw [List.mem_singleton] at hx
      subst hx
      trivial
    · cases hx
  · split at hx
    · rw [List.mem_singleton] at hx
      subst hx
      have hc : ∀ i, i ∈ List.range Y.GR_MAX_DESCRIPTOR_SETS →
          (memcpyRead p.descriptorSetCounts 0 Y.GR_MAX_DESCRIPTOR_SETS 0).getD i 0 =
            p.descriptorSetCounts.getD i 0 :=
        fun i hi => memcpyRead_zero_getD _ _ _ _ (List.mem_range.mp hi)
      refine ⟨memcpyRead_length _ _ _ _, ?_, ?_, ?_⟩
      · unfold totalDescriptorSets
        exact (foldl_counts_congr _ _ _ hc 0).symm
      · rw [storedSlots_length]
        exact congrArg List.sum (List.map_congr_left hc)
      · rw [storedSlots_length]
        exact hcap
    · cases hx
  · exact mem_stageChunks_sound Y p i hi x hx

/-! ## Loading the chunks of one stage -/

theorem getD_set_self {α : Type} (l : List α) (i : Nat) (a d : α) (h : i < l.length) :
    (l.set i a).getD i d = a := by
  simp [List.getD_eq_getElem?_getD, List.getElem?_set, h]

theorem getD_set_other {α : Type} (l : List α) (i j : Nat) (a d : α) (h : i ≠ j) :
    (l.set i a).getD j d = l.getD j d := by
  simp [List.getD_eq_getElem?_getD, List.getElem?_set, h]

theorem loadAll_append (Y : BlobLayout) (cs ds : List GrBaseBlobChunk) :
    ∀ f : Flow, loadAll Y (cs ++ ds) f = loadAll Y ds (loadAll Y cs f) := by
  induction cs with
  | nil => intro f; rfl
  | cons c cs ih =>
    intro f
    cases f with
    | next s => exact ih _
    | bail s => rw [List.cons_append]; simp only [loadAll, loadAll_bail]

theorem sameHead_refl (a : LoadState) : SameHead a a :=
  ⟨rfl, rfl, rfl, rfl, rfl, rfl, rfl⟩

theorem sameHead_trans {a b c : LoadState} (h1 : SameHead a b) (h2 : SameHead b c) :
    SameHead a c := by
  obtain ⟨a1, a2, a3, a4, a5, a6, a7⟩ := h1
  obtain ⟨b1, b2, b3, b4, b5, b6, b7⟩ := h2
  exact ⟨a1.trans b1, a2.trans b2, a3.trans b3, a4.trans b4, a5.trans b5, a6.trans b6,
    a7.trans b7⟩

/-- The `SPIRV` chunk of stage `k`, if the pipeline has code for the stage. -/
theorem load_stage_code (Y : BlobLayout) (p : GrPipeline) (k : Nat) (st : LoadState)
    (hk : k < Y.MAX_STAGE_COUNT)
    (hn : (p.shaderCode.getD k none).isSome → p.shaderCodeSizes.getD k 0 < 2 ^ 32)
    (hinv : StagesLoaded Y p k k k st) :
    ∃ st1,
      loadAll Y
          ((match p.shaderCode.getD k none with
            | some code =>
              [StoredChunk.spirv k (storedStageFlags p k) (p.shaderCodeSizes.getD k 0)
                (memcpyRead code 0 (p.shaderCodeSizes.getD k 0) 0)]
            | none => []).map (fun x : StoredChunk => x.write Y zeroChunk)) (.next st) = .next st1 ∧
        StagesLoaded Y p (k + 1) k k st1 ∧ SameHead st1 st := by
  obtain ⟨l1, l2, l3, l4, l5, l6, hall⟩ := hinv
  cases hc : p.shaderCode.getD k none with
  | none =>
    refine ⟨st, rfl, ⟨l1, l2, l3, l4, l5, l6, fun i => ?_⟩, sameHead_refl _⟩
    obtain ⟨h1, h2, h3, h4, h5, h6⟩ := hall i
    refine ⟨fun hi => ?_, fun hi => h2 (by omega), h3, h4, h5, h6⟩
    rcases Nat.lt_succ_iff_lt_or_eq.mp hi with hlt | heq
    · exact h1 hlt
    · subst heq
      unfold CodeLoaded
      rw [hc]
      exact (h2 (le_refl _)).2
  | some code =>
    have hz : st.stageFlags.getD k 0 = 0 := ((hall k).2.1 (le_refl _)).1
    replace hn := hn (by rw [hc]; rfl)
    simp only [List.map_cons, List.map_nil, loadAll, loadChunk, StoredChunk.write]
    rw [if_neg (by rw [hz]; omega)]
    refine ⟨_, rfl, ⟨?_, ?_, ?_, l4, l5, l6, fun i => ?_⟩, ⟨rfl, rfl, rfl, rfl, rfl, rfl, rfl⟩⟩
    · simp only [List.length_set]; exact l1
    · simp only [List.length_set]; exact l2
    · simp only [List.length_set]; exact l3
    · obtain ⟨h1, h2, h3, h4, h5, h6⟩ := hall i
      refine ⟨fun hi => ?_, fun hi => ?_, h3, h4, h5, h6⟩
      · rcases Nat.lt_succ_iff_lt_or_eq.mp hi with hlt | heq
        · have hne : k ≠ i := by omega
          have := h1 hlt
          unfold CodeLoaded at this ⊢
          simp only [getD_set_other _ _ _ _ _ hne]
          exact this
        · subst heq
          unfold CodeLoaded
          rw [hc]
          simp only [getD_set_self _ _ _ _ (l1 ▸ hk), getD_set_self _ _ _ _ (l2 ▸ hk),
            getD_set_self _ _ _ _ (l3 ▸ hk)]
          refine ⟨_, rfl, ?_, Nat.mod_eq_of_lt hn, trivial⟩
          rw [Nat.mod_eq_of_lt hn, memcpyRead_idem _ _ _ _ (le_refl _),
            memcpyRead_memcpyInto _ _ _ _ _ (by rw [memcpyRead_length]; omega),
            memcpyRead_idem _ _ _ _ (le_refl _)]
      · have hne : k ≠ i := by omega
        simp only [getD_set_other _ _ _ _ _ hne]
        exact h2 (by omega)

theorem memcpyRead_none {α : Type} (a b : List α) (start : Nat) (d : α) :
    memcpyRead a start 0 d = memcpyRead b start 0 d := rfl

/-- The `SPEC_INFO` chunk of stage `k`, if the stage has specialization data. -/
theorem load_stage_data (Y : BlobLayout) (p : GrPipeline) (k : Nat) (st : LoadState)
    (hk : k < Y.MAX_STAGE_COUNT)
    (hinv : StagesLoaded Y p (k + 1) k k st) :
    ∃ st1,
      loadAll Y
          ((if (p.specInfos.getD k default).dataSize > 0 then
              [StoredChunk.specInfo k (p.specInfos.getD k default).dataSize
                (memcpyRead ((p.specData.getD k none).getD []) 0
                  (p.specInfos.getD k default).dataSize 0)]
            else []).map (fun x : StoredChunk => x.write Y zeroChunk)) (.next st) = .next st1 ∧
        StagesLoaded Y p (k + 1) (k + 1) k st1 ∧ SameHead st1 st := by
  obtain ⟨l1, l2, l3, l4, l5, l6, hall⟩ := hinv
  by_cases hd : (p.specInfos.getD k default).dataSize > 0
  · rw [if_pos hd]
    simp only [List.map_cons, List.map_nil, loadAll, loadChunk, StoredChunk.write]
    rw [if_neg (by omega)]
    refine ⟨_, rfl, ⟨l1, l2, l3, ?_, ?_, l6, fun i => ?_⟩, ⟨rfl, rfl, rfl, rfl, rfl, rfl, rfl⟩⟩
    · simp only [List.length_set]; exact l4
    · simp only [List.length_set]; exact l5
    · obtain ⟨h1, h2, h3, h4, h5, h6⟩ := hall i
      refine ⟨h1, h2, fun hi => ?_, fun hi => ?_, fun hi => ?_, fun hi => ?_⟩
      · rcases Nat.lt_succ_iff_lt_or_eq.mp hi with hlt | heq
        · have hne : k ≠ i := by omega
          have := h3 hlt
          unfold DataLoaded at this ⊢
          simp only [getD_set_other _ _ _ _ _ hne]
          exact this
        · subst heq
          unfold DataLoaded
          simp only [getD_set_self _ _ _ _ (l4 ▸ hk), getD_set_self _ _ _ _ (l5 ▸ hk)]
          refine ⟨trivial, ?_⟩
          simp only [Option.getD_some]
          rw [memcpyRead_idem _ _ _ _ (le_refl _),
            memcpyRead_memcpyInto _ _ _ _ _ (by rw [memcpyRead_length]; omega),
            memcpyRead_idem _ _ _ _ (le_refl _)]
      · have hne : k ≠ i := by omega
        simp only [getD_set_other _ _ _ _ _ hne]
        exact h4 (by omega)
      · have hne : k ≠ i := by omega
        have := h5 hi
        unfold EntriesLoaded at this ⊢
        simp only [getD_set_other _ _ _ _ _ hne]
        exact this
      · rcases Nat.eq_or_lt_of_le hi with heq | hlt
        · subst heq
          simp only [getD_set_self _ _ _ _ (l4 ▸ hk)]
          exact h6 (le_refl _)
        · have hne : k ≠ i := by omega
          simp only [getD_set_other _ _ _ _ _ hne]
          exact h6 hi
  · rw [if_neg hd]
    refine ⟨st, rfl, ⟨l1, l2, l3, l4, l5, l6, fun i => ?_⟩, sameHead_refl _⟩
    obtain ⟨h1, h2, h3, h4, h5, h6⟩ := hall i
    refine ⟨h1, h2, fun hi => ?_, fun hi => h4 (by omega), h5, h6⟩
    rcases Nat.lt_succ_iff_lt_or_eq.mp hi with hlt | heq
    · exact h3 hlt
    · subst heq
      have h0 : (p.specInfos.getD i default).dataSize = 0 := by omega
      unfold DataLoaded
      rw [h0]
      exact ⟨h4 (le_refl _), memcpyRead_none _ _ _ _⟩

/-- The `SPEC_INFO_ENTRIES` chunk of stage `k`, if the stage has map entries. -/
theorem load_stage_entries (Y : BlobLayout) (p : GrPipeline) (k : Nat) (st : LoadState)
    (hk : k < Y.MAX_STAGE_COUNT)
    (hinv : StagesLoaded Y p (k + 1) (k + 1) k st) :
    ∃ st1,
      loadAll Y
          ((if (p.specInfos.getD k default).mapEntryCount > 0 then
              [StoredChunk.specInfoEntries k (p.specInfos.getD k default).mapEntryCount
                (memcpyRead ((p.mapEntries.getD k none).getD []) 0
                  (p.specInfos.getD k default).mapEntryCount default)]
            else []).map (fun x : StoredChunk => x.write Y zeroChunk)) (.next st) = .next st1 ∧
        StagesLoaded Y p (k + 1) (k + 1) (k + 1) st1 ∧ SameHead st1 st := by
  obtain ⟨l1, l2, l3, l4, l5, l6, hall⟩ := hinv
  by_cases hd : (p.specInfos.getD k default).mapEntryCount > 0
  · rw [if_pos hd]
    simp only [List.map_cons, List.map_nil, loadAll, loadChunk, StoredChunk.write]
    rw [if_neg (by omega)]
    refine ⟨_, rfl, ⟨l1, l2, l3, ?_, l5, ?_, fun i => ?_⟩, ⟨rfl, rfl, rfl, rfl, rfl, rfl, rfl⟩⟩
    · simp only [List.length_set]; exact l4
    · simp only [List.length_set]; exact l6
    · obtain ⟨h1, h2, h3, h4, h5, h6⟩ := hall i
      refine ⟨h1, h2, fun hi => ?_, fun hi => ?_, fun hi => ?_, fun hi => ?_⟩
      · rcases Nat.lt_succ_iff_lt_or_eq.mp hi with hlt | heq
        · have hne : k ≠ i := by omega
          have := h3 hi
          unfold DataLoaded at this ⊢
          simp only [getD_set_other _ _ _ _ _ hne]
          exact this
        · subst heq
          have := h3 hi
          unfold DataLoaded at this ⊢
          simp only [getD_set_self _ _ _ _ (l4 ▸ hk)]
          exact this
      · have hne : k ≠ i := by omega
        simp only [getD_set_other _ _ _ _ _ hne]
        exact h4 hi
      · rcases Nat.lt_succ_iff_lt_or_eq.mp hi with hlt | heq
        · have hne : k ≠ i := by omega
          have := h5 hlt
          unfold EntriesLoaded at this ⊢
          simp only [getD_set_other _ _ _ _ _ hne]
          exact this
        · subst heq
          unfold EntriesLoaded
          simp only [getD_set_self _ _ _ _ (l4 ▸ hk), getD_set_self _ _ _ _ (l6 ▸ hk)]
          refine ⟨trivial, ?_⟩
          simp only [Option.getD_some]
          rw [memcpyRead_idem _ _ _ _ (le_refl _),
            memcpyRead_memcpyInto _ _ _ _ _ (by rw [memcpyRead_length]; omega),
            memcpyRead_idem _ _ _ _ (le_refl _)]
      · have hne : k ≠ i := by omega
        simp only [getD_set_other _ _ _ _ _ hne]
        exact h6 (by omega)
  · rw [if_neg hd]
    refine ⟨st, rfl, ⟨l1, l2, l3, l4, l5, l6, fun i => ?_⟩, sameHead_refl _⟩
    obtain ⟨h1, h2, h3, h4, h5, h6⟩ := hall i
    refine ⟨h1, h2, h3, h4, fun hi => ?_, fun hi => h6 (by omega)⟩
    rcases Nat.lt_succ_iff_lt_or_eq.mp hi with hlt | heq
    · exact h5 hlt
    · subst heq
      have h0 : (p.specInfos.getD i default).mapEntryCount = 0 := by omega
      unfold EntriesLoaded
      rw [h0]
      exact ⟨h6 (le_refl _), memcpyRead_none _ _ _ _⟩

/-- The chunks of stage `k`, loaded one after the other. -/
theorem load_stage (Y : BlobLayout) (p : GrPipeline) (k : Nat) (st : LoadState)
    (hk : k < Y.MAX_STAGE_COUNT)
    (hn : (p.shaderCode.getD k none).isSome → p.shaderCodeSizes.getD k 0 < 2 ^ 32)
    (hinv : StagesLoaded Y p k k k st) :
    ∃ st1,
      loadAll Y ((stageChunks p k).map (fun x : StoredChunk => x.write Y zeroChunk))
          (.next st) = .next st1 ∧
        StagesLoaded Y p (k + 1) (k + 1) (k + 1) st1 ∧ SameHead st1 st := by
  obtain ⟨s1, e1, i1, a1⟩ := load_stage_code Y p k st hk hn hinv
  obtain ⟨s2, e2, i2, a2⟩ := load_stage_data Y p k s1 hk i1
  obtain ⟨s3, e3, i3, a3⟩ := load_stage_entries Y p k s2 hk i2
  refine ⟨s3, ?_, i3, sameHead_trans a3 (sameHead_trans a2 a1)⟩
  unfold stageChunks
  rw [List.map_append, List.map_append, loadAll_append, loadAll_append]
  exact ((congrArg (loadAll Y _) ((congrArg (loadAll Y _) e1).trans e2)).trans e3)

theorem load_stages (Y : BlobLayout) (p : GrPipeline)
    (hn : ∀ i, i < Y.MAX_STAGE_COUNT → (p.shaderCode.getD i none).isSome →
      p.shaderCodeSizes.getD i 0 < 2 ^ 32) :
    ∀ (n k : Nat) (st : LoadState), k + n ≤ Y.MAX_STAGE_COUNT → StagesLoaded Y p k k k st →
      ∃ st1,
        loadAll Y (((List.range' k n).flatMap (stageChunks p)).map
            (fun x : StoredChunk => x.write Y zeroChunk)) (.next st) = .next st1 ∧
          StagesLoaded Y p (k + n) (k + n) (k + n) st1 ∧ SameHead st1 st := by
  intro n
  induction n with
  | zero => intro k st _ hinv; exact ⟨st, rfl, hinv, sameHead_refl _⟩
  | succ n ih =>
    intro k st hk hinv
    obtain ⟨s1, e1, i1, a1⟩ := load_stage Y p k st (by omega) (hn k (by omega)) hinv
    obtain ⟨s2, e2, i2, a2⟩ := ih (k + 1) s1 (by omega) i1
    refine ⟨s2, ?_, ?_, sameHead_trans a2 a1⟩
    · rw [List.range'_succ, List.flatMap_cons, List.map_append, loadAll_append, e1, e2]
    · have : k + (n + 1) = k + 1 + n := by omega
      rw [this]
      exact i2

/-! ## Loading the chunks that precede the stages -/

theorem memcpyRead_append_mid {α : Type} (pre blk post : List α) (d : α) (n : Nat)
    (hn : blk.length = n) :
    memcpyRead (pre ++ (blk ++ post)) pre.length n d = blk := by
  subst hn
  apply List.ext_getElem (by simp [memcpyRead])
  intro k h1 h2
  simp [memcpyRead, List.getD_eq_getElem?_getD, List.getElem?_append_right,
    List.getElem?_append_left h2, List.getElem?_eq_getElem h2]

theorem storedSlots_cons (p : GrPipeline) (i : Nat) (is : List Nat) :
    storedSlots p (i :: is) =
      memcpyRead ((p.descriptorSlots.getD i none).getD []) 0
        (p.descriptorSetCounts.getD i 0) default ++ storedSlots p is := rfl

/-- The loop of the `DESCRIPTOR_SLOTS` case over a chunk that holds the slot arrays of a
pipeline one after the other. -/
theorem loadDescriptorSlots_stored (p : GrPipeline) (dc : GrPipelineDescriptorChunk) :
    ∀ (is : List Nat) (pre post : List PipelineDescriptorSlot) (st : LoadState),
      dc.data = pre ++ (storedSlots p is ++ post) →
      (∀ i, i ∈ is → dc.descriptorSetCounts.getD i 0 = p.descriptorSetCounts.getD i 0) →
      pre.length + (storedSlots p is).length < 2 ^ 32 →
      is.Nodup →
      (∀ i, i ∈ is → i < st.descriptorSetCounts.length ∧ i < st.descriptorSlots.length) →
      ∃ slots counts a,
        loadDescriptorSlots dc is pre.length st =
          { st with descriptorSlots := slots, descriptorSetCounts := counts, allocations := a } ∧
        slots.length = st.descriptorSlots.length ∧
        counts.length = st.descriptorSetCounts.length ∧
        (∀ j, j ∉ is → counts.getD j 0 = st.descriptorSetCounts.getD j 0 ∧
          slots.getD j none = st.descriptorSlots.getD j none) ∧
        (∀ i, i ∈ is →
          (0 < p.descriptorSetCounts.getD i 0 →
            counts.getD i 0 = p.descriptorSetCounts.getD i 0 ∧
            slots.getD i none = some (memcpyRead ((p.descriptorSlots.getD i none).getD []) 0
              (p.descriptorSetCounts.getD i 0) default)) ∧
          (p.descriptorSetCounts.getD i 0 = 0 →
            counts.getD i 0 = st.descriptorSetCounts.getD i 0 ∧
            slots.getD i none = st.descriptorSlots.getD i none)) := by
  intro is
  induction is with
  | nil =>
    intro pre post st _ _ _ _ _
    exact ⟨st.descriptorSlots, st.descriptorSetCounts, st.allocations, rfl, rfl, rfl,
      fun j _ => ⟨rfl, rfl⟩, fun i hi => absurd hi (List.not_mem_nil i)⟩
  | cons i is ih =>
    intro pre post st hdata hcounts hfit hnodup hlen
    have hci := hcounts i (List.mem_cons_self _ _)
    obtain ⟨hi1, hi2⟩ := hlen i (List.mem_cons_self _ _)
    have hnot : i ∉ is := (List.nodup_cons.mp hnodup).1
    rw [storedSlots_cons] at hdata hfit
    rw [List.length_append, memcpyRead_length] at hfit
    have hblk : (memcpyRead ((p.descriptorSlots.getD i none).getD []) 0
        (p.descriptorSetCounts.getD i 0) default).length = p.descriptorSetCounts.getD i 0 :=
      memcpyRead_length _ _ _ _
    have hread : memcpyRead dc.data pre.length (p.descriptorSetCounts.getD i 0) default =
        memcpyRead ((p.descriptorSlots.getD i none).getD []) 0
          (p.descriptorSetCounts.getD i 0) default := by
      rw [hdata, List.append_assoc]
      exact memcpyRead_append_mid _ _ _ _ _ hblk
    have hidx : (pre.length + p.descriptorSetCounts.getD i 0) % 2 ^ 32 =
        (pre ++ memcpyRead ((p.descriptorSlots.getD i none).getD []) 0
          (p.descriptorSetCounts.getD i 0) default).length := by
      rw [List.length_append, hblk]
      exact Nat.mod_eq_of_lt (by omega)
    have hdata1 : dc.data =
        (pre ++ memcpyRead ((p.descriptorSlots.getD i none).getD []) 0
          (p.descriptorSetCounts.getD i 0) default) ++ (storedSlots p is ++ post) := by
      rw [hdata]
      simp only [List.append_assoc]
    simp only [loadDescriptorSlots]
    rw [hci, hidx]
    by_cases hpos : p.descriptorSetCounts.getD i 0 > 0
    · rw [if_pos hpos]
      obtain ⟨slots, counts, a, e, ls, lc, hout, hin⟩ :=
        ih _ post
          { st with
            descriptorSlots := st.descriptorSlots.set i
              (some (memcpyRead dc.data pre.length (p.descriptorSetCounts.getD i 0) default))
            descriptorSetCounts := st.descriptorSetCounts.set i (p.descriptorSetCounts.getD i 0)
            allocations := st.allocations + 1 }
          hdata1 (fun j hj => hcounts j (List.mem_cons_of_mem _ hj))
          (by rw [List.length_append, hblk]; omega) (List.nodup_cons.mp hnodup).2
          (fun j hj => by
            simp only [List.length_set]
            exact hlen j (List.mem_cons_of_mem _ hj))
      refine ⟨slots, counts, a, e, ?_, ?_, fun j hj => ?_, fun j hj => ?_⟩
      · rw [ls]; simp only [List.length_set]
      · rw [lc]; simp only [List.length_set]
      · have hji : i ≠ j := fun h => hj (h ▸ List.mem_cons_self _ _)
        have hjis : j ∉ is := fun h => hj (List.mem_cons_of_mem _ h)
        obtain ⟨o1, o2⟩ := hout j hjis
        simp only [getD_set_other _ _ _ _ _ hji] at o1 o2
        exact ⟨o1, o2⟩
      · rcases List.mem_cons.mp hj with heq | hjis
        · subst heq
          obtain ⟨o1, o2⟩ := hout j hnot
          simp only [getD_set_self _ _ _ _ hi1, getD_set_self _ _ _ _ hi2] at o1 o2
          refine ⟨fun _ => ⟨o1, ?_⟩, fun h0 => absurd h0 (by omega)⟩
          rw [o2, hread]
        · have hji : i ≠ j := fun h => hnot (h ▸ hjis)
          obtain ⟨q1, q2⟩ := hin j hjis
          refine ⟨q1, fun h0 => ?_⟩
          have := q2 h0
          simp only [getD_set_other _ _ _ _ _ hji] at this
          exact this
    · rw [if_neg hpos]
      obtain ⟨slots, counts, a, e, ls, lc, hout, hin⟩ :=
        ih _ post st hdata1 (fun j hj => hcounts j (List.mem_cons_of_mem _ hj))
          (by rw [List.length_append, hblk]; omega) (List.nodup_cons.mp hnodup).2
          (fun j hj => hlen j (List.mem_cons_of_mem _ hj))
      refine ⟨slots, counts, a, e, ls, lc, fun j hj => ?_, fun j hj => ?_⟩
      · exact hout j (fun h => hj (List.mem_cons_of_mem _ h))
      · rcases List.mem_cons.mp hj with heq | hjis
        · subst heq
          exact ⟨fun h => absurd h hpos, fun _ => hout j hnot⟩
        · exact hin j hjis

theorem load_descriptor_chunk (Y : BlobLayout) (p : GrPipeline) (st : LoadState)
    (hcap : ((List.range Y.GR_MAX_DESCRIPTOR_SETS).map
      (fun i => p.descriptorSetCounts.getD i 0)).sum < 2 ^ 32)
    (hl1 : st.descriptorSetCounts.length = Y.GR_MAX_DESCRIPTOR_SETS)
    (hl2 : st.descriptorSlots.length = Y.GR_MAX_DESCRIPTOR_SETS)
    (hz : ∀ i, i < Y.GR_MAX_DESCRIPTOR_SETS → st.descriptorSetCounts.getD i 0 = 0) :
    ∃ slots counts a,
      loadChunk Y ((storedDescriptorSlots Y p).write Y zeroChunk) st =
        .next { st with descriptorSlots := slots, descriptorSetCounts := counts,
                        allocations := a } ∧
      ∀ i, i < Y.GR_MAX_DESCRIPTOR_SETS →
        counts.getD i 0 = p.descriptorSetCounts.getD i 0 ∧
        memcpyRead ((slots.getD i none).getD []) 0 (p.descriptorSetCounts.getD i 0) default =
          memcpyRead ((p.descriptorSlots.getD i none).getD []) 0
            (p.descriptorSetCounts.getD i 0) default := by
  have h := loadDescriptorSlots_stored p
    ((storedDescriptorSlots Y p).write Y zeroChunk).descriptorSlots
    (List.range Y.GR_MAX_DESCRIPTOR_SETS) [] [] st
    (by simp [storedDescriptorSlots, StoredChunk.write, memcpyInto, zeroChunk])
    (fun i hi => by
      simp only [storedDescriptorSlots, StoredChunk.write]
      rw [getD_memcpyInto _ _ _ _ (by rw [memcpyRead_length]; exact List.mem_range.mp hi)]
      exact memcpyRead_zero_getD _ _ _ _ (List.mem_range.mp hi))
    (by rw [storedSlots_length]; simpa using hcap)
    (List.nodup_range _)
    (fun i hi => by rw [hl1, hl2]; exact ⟨List.mem_range.mp hi, List.mem_range.mp hi⟩)
  obtain ⟨slots, counts, a, e, ls, lc, hout, hin⟩ := h
  refine ⟨slots, counts, a, ?_, fun i hi => ?_⟩
  · rw [← e]
    rfl
  · obtain ⟨q1, q2⟩ := hin i (List.mem_range.mpr hi)
    by_cases hpos : 0 < p.descriptorSetCounts.getD i 0
    · obtain ⟨r1, r2⟩ := q1 hpos
      refine ⟨r1, ?_⟩
      rw [r2, Option.getD_some, memcpyRead_idem _ _ _ _ (le_refl _)]
    · have h0 : p.descriptorSetCounts.getD i 0 = 0 := by omega
      obtain ⟨r1, r2⟩ := q2 h0
      rw [h0]
      exact ⟨r1.trans (hz i hi), memcpyRead_none _ _ _ _⟩

theorem stagesLoaded_initial (Y : BlobLayout) (p : GrPipeline) (st : LoadState)
    (h1 : st.stageFlags = List.replicate Y.MAX_STAGE_COUNT 0)
    (h2 : st.shaderCode = List.replicate Y.MAX_STAGE_COUNT none)
    (h3 : st.shaderCodeSizes = List.replicate Y.MAX_STAGE_COUNT 0)
    (h4 : st.specInfos = List.replicate Y.MAX_STAGE_COUNT default)
    (h5 : st.specData = List.replicate Y.MAX_STAGE_COUNT none)
    (h6 : st.mapEntries = List.replicate Y.MAX_STAGE_COUNT none) :
    StagesLoaded Y p 0 0 0 st := by
  have hr : ∀ {α : Type} (n i : Nat) (a : α), (List.replicate n a).getD i a = a := by
    intro α n i a
    simp only [List.getD_eq_getElem?_getD, List.getElem?_replicate]
    split <;> rfl
  refine ⟨by rw [h1, List.length_replicate], by rw [h2, List.length_replicate],
    by rw [h3, List.length_replicate], by rw [h4, List.length_replicate],
    by rw [h5, List.length_replicate], by rw [h6, List.length_replicate], fun i => ?_⟩
  refine ⟨fun h => absurd h (Nat.not_lt_zero _), fun _ => ?_, fun h => absurd h (Nat.not_lt_zero _),
    fun _ => ?_, fun h => absurd h (Nat.not_lt_zero _), fun _ => ?_⟩
  · rw [h1, h2, hr, hr]
    exact ⟨rfl, rfl⟩
  · rw [h4, hr]
    rfl
  · rw [h4, hr]
    rfl

theorem headLoaded_of_sameHead (Y : BlobLayout) (p : GrPipeline) {a b : LoadState}
    (h : SameHead a b) (hb : HeadLoaded Y p b) : HeadLoaded Y p a := by
  obtain ⟨a1, a2, a3, a4, a5, a6, a7⟩ := h
  obtain ⟨b1, b2, b3, b4, b5, b6⟩ := hb
  refine ⟨a2.trans b1, a3.trans b2, a4.trans b3, a5.trans b4, ?_, ?_⟩
  · unfold GraphicsLoaded at b5 ⊢
    rw [a1]
    exact b5
  · unfold SlotsLoaded at b6 ⊢
    rw [a6, a7]
    exact b6

theorem counts_zero_of_total (Y : BlobLayout) (counts : List Nat)
    (hcap : ((List.range Y.GR_MAX_DESCRIPTOR_SETS).map (fun i => counts.getD i 0)).sum < 2 ^ 32)
    (h0 : ¬ totalDescriptorSets Y counts > 0) :
    ∀ i, i < Y.GR_MAX_DESCRIPTOR_SETS → counts.getD i 0 = 0 := by
  intro i hi
  rw [totalDescriptorSets_eq_sum Y counts hcap] at h0
  have hs : ((List.range Y.GR_MAX_DESCRIPTOR_SETS).map (fun i => counts.getD i 0)).sum = 0 := by
    omega
  rw [List.sum_eq_zero_iff] at hs
  exact hs _ (List.mem_map.mpr ⟨i, List.mem_range.mpr hi, rfl⟩)

/-- The chunks of the stored form that precede the stages, loaded from the initial
locals. -/
theorem load_head (Y : BlobLayout) (p : GrPipeline)
    (hcap : ((List.range Y.GR_MAX_DESCRIPTOR_SETS).map
      (fun i => p.descriptorSetCounts.getD i 0)).sum < 2 ^ 32) :
    ∃ sh,
      loadAll Y
          (([storedPipelineInfo p] ++
            (match p.createInfo with
              | some createInfo => [storedGraphicsInfo createInfo]
              | none => []) ++
            (if totalDescriptorSets Y p.descriptorSetCounts > 0 then
              [storedDescriptorSlots Y p]
             else [])).map (fun x : StoredChunk => x.write Y zeroChunk))
          (.next (initialLoadState Y)) = .next sh ∧
        HeadLoaded Y p sh ∧ StagesLoaded Y p 0 0 0 sh := by
  have hr : ∀ (n i : Nat), (List.replicate n 0).getD i 0 = 0 := by
    intro n i
    simp only [List.getD_eq_getElem?_getD, List.getElem?_replicate]
    split <;> rfl
  have hinfo : loadChunk Y ((storedPipelineInfo p).write Y zeroChunk) (initialLoadState Y) =
      .next { initialLoadState Y with
        stageCount := p.stageCount
        dynamicMappingUsed := p.dynamicMappingUsed
        pipelineCreateFlags := p.createFlags &&& 0xDFFFFFFF
        dynamicDescriptorSlot := p.dynamicDescriptorSlot } := rfl
  cases hc : p.createInfo with
  | none =>
    have hg : ∀ (st : LoadState), st.createInfo = none → GraphicsLoaded Y p st := by
      intro st hst
      unfold GraphicsLoaded
      rw [hc]
      exact hst
    by_cases hd : totalDescriptorSets Y p.descriptorSetCounts > 0
    · simp only [if_pos hd, List.singleton_append, List.nil_append, List.map_cons,
        List.map_nil, loadAll, List.cons_append, hinfo]
      obtain ⟨slots, counts, a, e, hs⟩ := load_descriptor_chunk Y p
        { initialLoadState Y with
          stageCount := p.stageCount
          dynamicMappingUsed := p.dynamicMappingUsed
          pipelineCreateFlags := p.createFlags &&& 0xDFFFFFFF
          dynamicDescriptorSlot := p.dynamicDescriptorSlot }
        hcap (List.length_replicate _ _) (List.length_replicate _ _) (fun i _ => hr _ i)
      refine ⟨_, e, ?_, ?_⟩
      · exact ⟨rfl, rfl, rfl, rfl, hg _ rfl, hs⟩
      · exact stagesLoaded_initial Y p _ rfl rfl rfl rfl rfl rfl
    · simp only [if_neg hd, List.singleton_append, List.nil_append, List.map_cons,
        List.map_nil, loadAll, List.append_nil, hinfo]
      refine ⟨_, rfl, ?_, ?_⟩
      · refine ⟨rfl, rfl, rfl, rfl, hg _ rfl, ?_⟩
        intro i hi
        have h0 := counts_zero_of_total Y _ hcap hd i hi
        rw [h0]
        exact ⟨hr _ i, memcpyRead_none _ _ _ _⟩
      · exact stagesLoaded_initial Y p _ rfl rfl rfl rfl rfl rfl
  | some ci =>
    have hg : ∀ (st : LoadState), st.createInfo = some
          { stageCreateInfos := List.replicate Y.MAX_STAGE_COUNT default
            topology := ci.topology
            patchControlPoints := ci.patchControlPoints
            depthClipEnable := ci.depthClipEnable
            alphaToCoverageEnable := ci.alphaToCoverageEnable
            logicOpEnable := ci.logicOpEnable
            logicOp := ci.logicOp
            colorFormats := ci.colorFormats
            colorWriteMasks := ci.colorWriteMasks
            depthFormat := ci.depthFormat
            stencilFormat := ci.stencilFormat } → GraphicsLoaded Y p st := by
      intro st hst
      unfold GraphicsLoaded
      rw [hc]
      exact ⟨_, hst, rfl, List.length_replicate _ _⟩
    have hgfx : loadChunk Y ((storedGraphicsInfo ci).write Y zeroChunk)
        { initialLoadState Y with
          stageCount := p.stageCount
          dynamicMappingUsed := p.dynamicMappingUsed
          pipelineCreateFlags := p.createFlags &&& 0xDFFFFFFF
          dynamicDescriptorSlot := p.dynamicDescriptorSlot } =
        .next { initialLoadState Y with
          stageCount := p.stageCount
          dynamicMappingUsed := p.dynamicMappingUsed
          pipelineCreateFlags := p.createFlags &&& 0xDFFFFFFF
          dynamicDescriptorSlot := p.dynamicDescriptorSlot
          createInfo := some
            { stageCreateInfos := List.replicate Y.MAX_STAGE_COUNT default
              topology := ci.topology
              patchControlPoints := ci.patchControlPoints
              depthClipEnable := ci.depthClipEnable
              alphaToCoverageEnable := ci.alphaToCoverageEnable
              logicOpEnable := ci.logicOpEnable
              logicOp := ci.logicOp
              colorFormats := ci.colorFormats
              colorWriteMasks := ci.colorWriteMasks
              depthFormat := ci.depthFormat
              stencilFormat := ci.stencilFormat }
          allocations := 1 } := rfl
    by_cases hd : totalDescriptorSets Y p.descriptorSetCounts > 0
    · simp only [if_pos hd, List.singleton_append, List.nil_append, List.map_cons,
        List.map_nil, loadAll, List.cons_append, hinfo, hgfx]
      obtain ⟨slots, counts, a, e, hs⟩ := load_descriptor_chunk Y p
        { initialLoadState Y with
          stageCount := p.stageCount
          dynamicMappingUsed := p.dynamicMappingUsed
          pipelineCreateFlags := p.createFlags &&& 0xDFFFFFFF
          dynamicDescriptorSlot := p.dynamicDescriptorSlot
          createInfo := some
            { stageCreateInfos := List.replicate Y.MAX_STAGE_COUNT default
              topology := ci.topology
              patchControlPoints := ci.patchControlPoints
              depthClipEnable := ci.depthClipEnable
              alphaToCoverageEnable := ci.alphaToCoverageEnable
              logicOpEnable := ci.logicOpEnable
              logicOp := ci.logicOp
              colorFormats := ci.colorFormats
              colorWriteMasks := ci.colorWriteMasks
              depthFormat := ci.depthFormat
              stencilFormat := ci.stencilFormat }
          allocations := 1 }
        hcap (List.length_replicate _ _) (List.length_replicate _ _) (fun i _ => hr _ i)
      refine ⟨_, e, ?_, ?_⟩
      · exact ⟨rfl, rfl, rfl, rfl, hg _ rfl, hs⟩
      · exact stagesLoaded_initial Y p _ rfl rfl rfl rfl rfl rfl
    · simp only [if_neg hd, List.singleton_append, List.nil_append, List.map_cons,
        List.map_nil, loadAll, List.append_nil, hinfo, hgfx]
      refine ⟨_, rfl, ?_, ?_⟩
      · refine ⟨rfl, rfl, rfl, rfl, hg _ rfl, ?_⟩
        intro i hi
        have h0 := counts_zero_of_total Y _ hcap hd i hi
        rw [h0]
        exact ⟨hr _ i, memcpyRead_none _ _ _ _⟩
      · exact stagesLoaded_initial Y p _ rfl rfl rfl rfl rfl rfl

/-- The second pass over the chunks of the stored form of a pipeline ends with locals that
hold what the pipeline holds. -/
theorem load_storedChunks (Y : BlobLayout) (p : GrPipeline)
    (hcap : ((List.range Y.GR_MAX_DESCRIPTOR_SETS).map
      (fun i => p.descriptorSetCounts.getD i 0)).sum < 2 ^ 32)
    (hn : ∀ i, i < Y.MAX_STAGE_COUNT → (p.shaderCode.getD i none).isSome →
      p.shaderCodeSizes.getD i 0 < 2 ^ 32) :
    ∃ st,
      loadAll Y ((storedChunks Y p).map (fun x : StoredChunk => x.write Y zeroChunk))
          (.next (initialLoadState Y)) = .next st ∧
        HeadLoaded Y p st ∧
        StagesLoaded Y p Y.MAX_STAGE_COUNT Y.MAX_STAGE_COUNT Y.MAX_STAGE_COUNT st := by
  obtain ⟨sh, e1, hh, hs⟩ := load_head Y p hcap
  obtain ⟨st, e2, i2, a2⟩ := load_stages Y p hn Y.MAX_STAGE_COUNT 0 sh (by omega) hs
  rw [Nat.zero_add] at i2
  refine ⟨st, ?_, headLoaded_of_sameHead Y p a2 hh, i2⟩
  unfold storedChunks
  rw [List.map_append, loadAll_append, List.range_eq_range']
  exact (congrArg (loadAll Y _) e1).trans e2

/-! ## The end of `grLoadPipeline` on the locals of a stored pipeline -/

theorem checkGraphicsStages_ok (Y : BlobLayout) (st : LoadState) :
    ∀ (n i : Nat), i + n ≤ Y.MAX_STAGE_COUNT →
      (∀ j, i ≤ j → j < i + n →
        st.shaderCode.getD j none ≠ none ∧ st.stageFlags.getD j 0 ≠ 0 ∧
        ((st.specInfos.getD j default).mapEntryCount > 0 ↔
          (st.specInfos.getD j default).dataSize > 0)) →
      checkGraphicsStages Y st i n = .ok true := by
  intro n
  induction n with
  | zero => intro i _ _; rfl
  | succ n ih =>
    intro i hi h
    obtain ⟨h1, h2, h3⟩ := h i (le_refl _) (by omega)
    unfold checkGraphicsStages
    rw [if_neg (by omega), if_neg (by simp only [not_or]; exact ⟨h1, h2⟩),
      if_neg (by simp only [ne_eq, decide_eq_decide, not_not]; exact h3)]
    exact ih (i + 1) (by omega) (fun j hj1 hj2 => h j (by omega) (by omega))

/-- The module loop on a graphics blob whose stages all have code and a stage bit. -/
theorem createStageModules_graphics (Y : BlobLayout) (native : NativeApi)
    (hnat : ∀ code, (native.vkCreateShaderModule code).isSome = true) :
    ∀ (n i : Nat) (st : LoadState) (ci : PipelineCreateInfo),
      i + n ≤ Y.MAX_STAGE_COUNT → st.createInfo = some ci →
      i + n ≤ ci.stageCreateInfos.length →
      (∀ j, i ≤ j → j < i + n →
        st.shaderCode.getD j none ≠ none ∧ st.stageFlags.getD j 0 ≠ 0) →
      ∃ sm a ci1 ht,
        createStageModules Y native i n st =
          .ok (.next { st with shaderModules := sm, allocations := a, createInfo := some ci1,
                               hasTessellation := ht }) ∧
        storedGraphicsInfo ci1 = storedGraphicsInfo ci ∧
        ci1.stageCreateInfos.length = ci.stageCreateInfos.length ∧
        (∀ j, j < i → ci1.stageCreateInfos.getD j default = ci.stageCreateInfos.getD j default) ∧
        (∀ j, i ≤ j → j < i + n →
          (ci1.stageCreateInfos.getD j default).stage = st.stageFlags.getD j 0) := by
  intro n
  induction n with
  | zero =>
    intro i st ci _ hci _ _
    refine ⟨st.shaderModules, st.allocations, ci, st.hasTessellation, ?_, rfl, rfl,
      fun _ _ => rfl, fun j h1 h2 => absurd h2 (by omega)⟩
    unfold createStageModules
    rw [← hci]
  | succ n ih =>
    intro i st ci hi hci hlen h
    obtain ⟨h1, h2⟩ := h i (le_refl _) (by omega)
    obtain ⟨code, hcode⟩ := Option.ne_none_iff_exists'.mp h1
    obtain ⟨m, hm⟩ := Option.isSome_iff_exists.mp (hnat code)
    unfold createStageModules
    rw [if_neg (by omega)]
    simp only [hcode, hm, hci]
    rw [if_neg h2]
    obtain ⟨sm, a, ci1, ht, e, g1, g2, g3, g4⟩ := ih (i + 1)
      { st with
        shaderModules := st.shaderModules.set i (some m)
        allocations := st.allocations + 1
        createInfo := some
          { ci with
            stageCreateInfos := (ci.stageCreateInfos.set i ⟨st.stageFlags.getD i 0, some m⟩) }
        hasTessellation :=
          if st.stageFlags.getD i 0 = VK_SHADER_STAGE_TESSELLATION_CONTROL_BIT ∨
              st.stageFlags.getD i 0 = VK_SHADER_STAGE_TESSELLATION_EVALUATION_BIT
          then true else st.hasTessellation }
      { ci with
        stageCreateInfos := (ci.stageCreateInfos.set i ⟨st.stageFlags.getD i 0, some m⟩) }
      (by omega) rfl (by simp only [List.length_set]; omega)
      (fun j hj1 hj2 => h j (by omega) (by omega))
    refine ⟨sm, a, ci1, ht, e, g1, ?_, fun j hj => ?_, fun j hj1 hj2 => ?_⟩
    · rw [g2]; simp only [List.length_set]
    · rw [g3 j (by omega)]
      exact getD_set_other _ _ _ _ _ (by omega)
    · rcases Nat.eq_or_lt_of_le hj1 with heq | hlt
      · subst heq
        rw [g3 i (by omega), getD_set_self _ _ _ _ (by omega)]
      · exact g4 j (by omega) (by omega)

/-- The module loop on a compute blob: one stage. -/
theorem createStageModules_compute (Y : BlobLayout) (native : NativeApi)
    (hnat : ∀ code, (native.vkCreateShaderModule code).isSome = true)
    (st : LoadState) (hmax : 0 < Y.MAX_STAGE_COUNT) (hci : st.createInfo = none)
    (h1 : st.shaderCode.getD 0 none ≠ none) (h2 : st.stageFlags.getD 0 0 ≠ 0) :
    ∃ sm a csi,
      createStageModules Y native 0 1 st =
        .ok (.next { st with shaderModules := sm, allocations := a, computeStageInfo := csi }) := by
  obtain ⟨code, hcode⟩ := Option.ne_none_iff_exists'.mp h1
  obtain ⟨m, hm⟩ := Option.isSome_iff_exists.mp (hnat code)
  unfold createStageModules
  rw [if_neg (by omega)]
  simp only [hcode, hm, hci]
  rw [if_neg h2]
  exact ⟨_, _, _, rfl⟩

theorem flatMap_congr_mem {α β : Type} (f g : α → List β) :
    ∀ (l : List α), (∀ i, i ∈ l → f i = g i) → l.flatMap f = l.flatMap g := by
  intro l
  induction l with
  | nil => intro _; rfl
  | cons i l ih =>
    intro h
    rw [List.flatMap_cons, List.flatMap_cons, h i (List.mem_cons_self _ _),
      ih (fun j hj => h j (List.mem_cons_of_mem _ hj))]

/-- A pipeline that takes its fields from locals that hold what pipeline `p` holds has
the stored form of `p`. -/
theorem storedChunks_eq_of_loaded (Y : BlobLayout) (p p1 : GrPipeline) (st : LoadState)
    (hc : CreatedPipeline Y p) (hh : HeadLoaded Y p st)
    (hs : StagesLoaded Y p Y.MAX_STAGE_COUNT Y.MAX_STAGE_COUNT Y.MAX_STAGE_COUNT st)
    (f1 : p1.shaderCode = st.shaderCode) (f2 : p1.shaderCodeSizes = st.shaderCodeSizes)
    (f3 : p1.createFlags = st.pipelineCreateFlags) (f4 : p1.stageCount = st.stageCount)
    (f5 : p1.dynamicMappingUsed = st.dynamicMappingUsed)
    (f6 : p1.dynamicDescriptorSlot = st.dynamicDescriptorSlot)
    (f7 : p1.descriptorSetCounts = st.descriptorSetCounts)
    (f8 : p1.descriptorSlots = st.descriptorSlots)
    (f9 : p1.specInfos = st.specInfos) (f10 : p1.specData = st.specData)
    (f11 : p1.mapEntries = st.mapEntries)
    (fci : match p.createInfo with
      | none => p1.createInfo = none
      | some ci =>
        ∃ ci1, p1.createInfo = some ci1 ∧ storedGraphicsInfo ci1 = storedGraphicsInfo ci ∧
          ∀ j, j < p.stageCount →
            (ci1.stageCreateInfos.getD j default).stage = st.stageFlags.getD j 0) :
    storedChunks Y p1 = storedChunks Y p := by
  obtain ⟨c1, c2, c3, c4, c5⟩ := hc
  obtain ⟨g1, g2, g3, g4, g5, g6⟩ := hh
  obtain ⟨l1, l2, l3, l4, l5, l6, hall⟩ := hs
  have hinfo : storedPipelineInfo p1 = storedPipelineInfo p := by
    unfold storedPipelineInfo
    have hM : (3758096383 &&& 3758096383 : Nat) = 3758096383 := by decide
    rw [f3, f4, f5, f6, g1, g2, g3, g4, Nat.land_assoc, hM]
  have hcounts : ∀ i, i ∈ List.range Y.GR_MAX_DESCRIPTOR_SETS →
      p1.descriptorSetCounts.getD i 0 = p.descriptorSetCounts.getD i 0 := by
    intro i hi
    rw [f7]
    exact (g6 i (List.mem_range.mp hi)).1
  have htotal : totalDescriptorSets Y p1.descriptorSetCounts =
      totalDescriptorSets Y p.descriptorSetCounts := by
    unfold totalDescriptorSets
    exact foldl_counts_congr _ _ _ hcounts 0
  have hdesc : storedDescriptorSlots Y p1 = storedDescriptorSlots Y p := by
    unfold storedDescriptorSlots storedSlots
    rw [htotal]
    congr 1
    · exact memcpyRead_congr _ _ _ _ _ (fun k hk => by
        rw [Nat.zero_add]
        exact hcounts k (List.mem_range.mpr hk))
    · apply flatMap_congr_mem
      intro i hi
      rw [hcounts i hi, f8]
      exact (g6 i (List.mem_range.mp hi)).2
  have hflags : ∀ i, i < Y.MAX_STAGE_COUNT → (p.shaderCode.getD i none).isSome = true →
      storedStageFlags p1 i = storedStageFlags p i := by
    intro i hi hsome
    have hlt : i < p.stageCount := (c2 i hi).mp hsome
    have hcl := (hall i).1 hi
    unfold CodeLoaded at hcl
    obtain ⟨code, hcode⟩ := Option.isSome_iff_exists.mp hsome
    rw [hcode] at hcl
    obtain ⟨code1, _, _, _, q4⟩ := hcl
    cases hci : p.createInfo with
    | none =>
      rw [hci] at fci
      simp only at fci
      unfold storedStageFlags
      rw [fci, hci]
    | some ci =>
      rw [hci] at fci
      obtain ⟨ci1, e1, e2, e3⟩ := fci
      rw [← q4, ← e3 i hlt]
      unfold storedStageFlags
      rw [e1]
  have hstage : ∀ i, i ∈ List.range Y.MAX_STAGE_COUNT → stageChunks p1 i = stageChunks p i := by
    intro i hi
    have hi := List.mem_range.mp hi
    obtain ⟨q1, _, q3, _, q5, _⟩ := hall i
    have hcl := q1 hi
    obtain ⟨d1, d2⟩ := q3 hi
    obtain ⟨m1, m2⟩ := q5 hi
    unfold stageChunks
    rw [f9, f10, f11, d1, d2, m1, m2]
    congr 2
    unfold CodeLoaded at hcl
    cases hcode : p.shaderCode.getD i none with
    | none =>
      rw [hcode] at hcl
      rw [f1, hcl]
    | some code =>
      rw [hcode] at hcl
      obtain ⟨code1, r1, r2, r3, r4⟩ := hcl
      rw [f1, r1, f2, r3]
      simp only [r2, hflags i hi (by rw [hcode]; rfl)]
  unfold storedChunks
  rw [hinfo, htotal, hdesc, flatMap_congr_mem _ _ _ hstage]
  cases hci : p.createInfo with
  | none =>
    rw [hci] at fci
    simp only at fci
    simp only [fci]
  | some ci =>
    rw [hci] at fci
    obtain ⟨ci1, e1, e2, _⟩ := fci
    simp only [e1, e2]

theorem getVkPipelineLayout_ok (Y : BlobLayout) (native : NativeApi) (grDevice : GrDevice)
    (hnat : ∀ info, (native.vkCreatePipelineLayout info).isSome = true)
    (n : Nat) (bp : VkPipelineBindPoint) (hn : n + 2 ≤ 32) :
    ∃ h, getVkPipelineLayout Y native grDevice n bp = .ok (some h) := by
  unfold getVkPipelineLayout
  simp only
  rw [if_neg (by rw [Nat.mod_eq_of_lt (by omega)]; omega)]
  obtain ⟨h, hh⟩ := Option.isSome_iff_exists.mp (hnat
    { setLayoutCount := (n + 2) % 2 ^ 32
      pSetLayouts := (List.range n).foldl
        (fun acc i => acc.set (i + 2) grDevice.defaultDescriptorSetLayout)
        ([if grDevice.descriptorBufferSupported then grDevice.defaultDescriptorSetLayout
            else grDevice.dynamicMemorySetLayout,
          if grDevice.descriptorBufferSupported then grDevice.descriptorPushSetLayout
            else grDevice.atomicCounterSetLayout] ++ List.replicate 30 0)
      pPushConstantRanges :=
        [{ stageFlags :=
             if bp = VK_PIPELINE_BIND_POINT_GRAPHICS then VK_SHADER_STAGE_ALL_GRAPHICS
             else VK_SHADER_STAGE_COMPUTE_BIT
           offset := 0
           size := Y.DESCRIPTOR_OFFSET_COUNT * 4 + Y.ILC_MAX_STRIDE_CONSTANTS * 4 }] })
  exact ⟨h, congrArg Except.ok hh⟩

theorem finishLoad_stored (Y : BlobLayout) (native : NativeApi) (grDevice : GrDevice)
    (p : GrPipeline) (st : LoadState)
    (hc : CreatedPipeline Y p) (hnat : NativeSucceeds native) (hh : HeadLoaded Y p st)
    (hs : StagesLoaded Y p Y.MAX_STAGE_COUNT Y.MAX_STAGE_COUNT Y.MAX_STAGE_COUNT st) :
    ∃ p1 a, finishLoad Y native grDevice st = .ok ⟨GR_SUCCESS, some p1, a⟩ ∧
      storedChunks Y p1 = storedChunks Y p := by
  have hc0 := hc
  have hh0 := hh
  have hs0 := hs
  obtain ⟨c1, c2, c3, c4, c5⟩ := hc
  obtain ⟨g1, g2, g3, g4, g5, g6⟩ := hh
  obtain ⟨l1, l2, l3, l4, l5, l6, hall⟩ := hs
  obtain ⟨n1, n2, n3⟩ := hnat
  -- every stage below `stageCount` has code and the stage bit that was stored
  have hstage : ∀ j, j < p.stageCount →
      st.shaderCode.getD j none ≠ none ∧ st.stageFlags.getD j 0 = storedStageFlags p j := by
    intro j hj
    have hcl := (hall j).1 (by omega)
    unfold CodeLoaded at hcl
    obtain ⟨code, hcode⟩ := Option.isSome_iff_exists.mp ((c2 j (by omega)).mpr hj)
    rw [hcode] at hcl
    obtain ⟨code1, q1, _, _, q4⟩ := hcl
    exact ⟨by rw [q1]; exact Option.some_ne_none _, q4⟩
  have htotal : (List.range Y.GR_MAX_DESCRIPTOR_SETS).foldl
      (fun acc i => (acc + st.descriptorSetCounts.getD i 0) % 2 ^ 32) 0 + 2 ≤ 32 := by
    have e1 := foldl_counts_congr st.descriptorSetCounts p.descriptorSetCounts
      (List.range Y.GR_MAX_DESCRIPTOR_SETS)
      (fun i hi => (g6 i (List.mem_range.mp hi)).1) 0
    have e2 := totalDescriptorSets_eq_sum Y p.descriptorSetCounts (by omega)
    unfold totalDescriptorSets at e2
    rw [e1, e2]
    exact c5
  obtain ⟨layout, hlayout⟩ := getVkPipelineLayout_ok Y native grDevice n2 _
    VK_PIPELINE_BIND_POINT_COMPUTE htotal
  cases hci : p.createInfo with
  | none =>
    unfold GraphicsLoaded at g5
    rw [hci] at g5 c4
    simp only at g5 c4
    have hsc : st.stageCount = 1 := g1.trans c4
    obtain ⟨q1, q2⟩ := hstage 0 (by omega)
    have hflag : st.stageFlags.getD 0 0 = VK_SHADER_STAGE_COMPUTE_BIT := by
      rw [q2]
      unfold storedStageFlags
      rw [hci]
    obtain ⟨sm, a, csi, e⟩ := createStageModules_compute Y native n1 st (by omega) g5 q1
      (by rw [hflag]; decide)
    obtain ⟨vk, hvk⟩ := Option.isSome_iff_exists.mp (n3
      (st.pipelineCreateFlags |||
        (if grDevice.descriptorBufferSupported then
          VK_PIPELINE_CREATE_DESCRIPTOR_BUFFER_BIT_EXT else 0)) csi layout)
    have hdec : decide (¬ ((1 : Nat) ≠ 1 ∨
        VK_SHADER_STAGE_COMPUTE_BIT ≠ VK_SHADER_STAGE_COMPUTE_BIT)) = true := by decide
    unfold finishLoad
    simp only [g5, hsc, hflag, hdec, e, hlayout, hvk]
    refine ⟨_, _, rfl, ?_⟩
    apply storedChunks_eq_of_loaded Y p _ st hc0 hh0 hs0 rfl rfl rfl hsc.symm rfl rfl rfl rfl
      rfl rfl rfl
    rw [hci]
  | some ci =>
    unfold GraphicsLoaded at g5
    rw [hci] at g5 c4
    obtain ⟨ci0, k1, k2, k3⟩ := g5
    simp only at c4
    have hcheck : checkGraphicsStages Y st 0 st.stageCount = .ok true := by
      apply checkGraphicsStages_ok
      · omega
      · intro j _ hj
        rw [g1, Nat.zero_add] at hj
        obtain ⟨q1, q2⟩ := hstage j hj
        refine ⟨q1, ?_, ?_⟩
        · rw [q2]
          unfold storedStageFlags
          rw [hci]
          exact c4 j hj
        · rw [((hall j).2.2.1 (by omega)).1, ((hall j).2.2.2.2.1 (by omega)).1]
          exact c3 j (by omega)
    obtain ⟨sm, a, ci1, ht, e, r1, r2, r3, r4⟩ :=
      createStageModules_graphics Y native n1 st.stageCount 0 st ci0 (by omega) k1 (by omega)
        (fun j _ hj => by
          rw [g1, Nat.zero_add] at hj
          obtain ⟨q1, q2⟩ := hstage j hj
          refine ⟨q1, ?_⟩
          rw [q2]
          unfold storedStageFlags
          rw [hci]
          exact c4 j hj)
    unfold finishLoad
    simp only [k1, hcheck, e, hlayout]
    refine ⟨_, _, rfl, ?_⟩
    apply storedChunks_eq_of_loaded Y p _ st hc0 hh0 hs0 rfl rfl rfl rfl rfl rfl rfl rfl rfl
      rfl rfl
    rw [hci]
    exact ⟨ci1, rfl, r1.trans k2, fun j hj => r4 j (Nat.zero_le _) (by rw [g1]; omega)⟩

/-! ## Claim about the round trip of the cache codec -/

theorem chunkSpan_le_idealSize (Y : BlobLayout) (x : StoredChunk) :
    ∀ (cs : List StoredChunk), x ∈ cs →
      Y.sizeofGrStoredPipelineBlob + chunkSpan Y x ≤ idealSize Y cs := by
  intro cs
  induction cs with
  | nil => intro h; cases h
  | cons c cs ih =>
    intro h
    unfold idealSize at ih ⊢
    rw [List.map_cons, List.sum_cons]
    rcases List.mem_cons.mp h with heq | hmem
    · subst heq
      omega
    · have := ih hmem
      omega

theorem codeSize_small (Y : BlobLayout) (p : GrPipeline)
    (hsmall : idealSize Y (storedChunks Y p) + 3 < 2 ^ 32) :
    ∀ i, i < Y.MAX_STAGE_COUNT → (p.shaderCode.getD i none).isSome = true →
      p.shaderCodeSizes.getD i 0 < 2 ^ 32 := by
  intro i hi hsome
  obtain ⟨code, hcode⟩ := Option.isSome_iff_exists.mp hsome
  have hmem : StoredChunk.spirv i (storedStageFlags p i) (p.shaderCodeSizes.getD i 0)
      (memcpyRead code 0 (p.shaderCodeSizes.getD i 0) 0) ∈ storedChunks Y p := by
    unfold storedChunks
    apply List.mem_append_right
    rw [List.mem_flatMap]
    refine ⟨i, List.mem_range.mpr hi, ?_⟩
    unfold stageChunks
    rw [hcode]
    exact List.mem_append_left _ (List.mem_append_left _ (List.mem_singleton.mpr rfl))
  have h1 := chunkSpan_le_idealSize Y _ _ hmem
  have h2 := (chunkSpan_bounds Y (StoredChunk.spirv i (storedStageFlags p i)
    (p.shaderCodeSizes.getD i 0) (memcpyRead code 0 (p.shaderCodeSizes.getD i 0) 0))).1
  simp only [StoredChunk.payloadSize] at h2
  omega

theorem idealSize_storedChunks_ge (Y : BlobLayout) (p : GrPipeline) :
    Y.sizeofGrStoredPipelineBlob + Y.sizeofGrBaseBlobChunk + Y.sizeofGrPipelineInfoChunk ≤
      idealSize Y (storedChunks Y p) := by
  have hmem : storedPipelineInfo p ∈ storedChunks Y p := by
    unfold storedChunks
    exact List.mem_append_left _ (List.mem_append_left _ (List.mem_append_left _
      (List.mem_singleton.mpr rfl)))
  have h1 := chunkSpan_le_idealSize Y _ _ hmem
  have h2 := (chunkSpan_bounds Y (storedPipelineInfo p)).1
  simp only [storedPipelineInfo, StoredChunk.payloadSize] at h2
  unfold storedPipelineInfo at h1
  omega

/-- Loading the blob that the fill pass wrote for a created pipeline succeeds, whatever the
buffer held before, and gives a pipeline with the same stored form. -/
theorem grLoadPipeline_stored (Y : BlobLayout) (native : NativeApi) (grDevice : GrDevice)
    (p : GrPipeline)
    (hB : 0 < Y.sizeofGrBaseBlobChunk) (hInfo : 0 < Y.sizeofGrPipelineInfoChunk)
    (hwide : 32 ≤ Y.sizeBits)
    (hc : CreatedPipeline Y p) (hnat : NativeSucceeds native)
    (hsmall : idealSize Y (storedChunks Y p) + 3 < 2 ^ 32) :
    ∃ p1 a, storedChunks Y p1 = storedChunks Y p ∧
      ∀ buf : GrStoredPipelineBlob,
        grLoadPipeline Y native grDevice (idealSize Y (storedChunks Y p))
            (some (emitAll Y (storedChunks Y p)
              ({ buf with version := 0 }, Y.sizeofGrStoredPipelineBlob)).1) =
          .ok ⟨GR_SUCCESS, some p1, a⟩ := by
  have hcap : ((List.range Y.GR_MAX_DESCRIPTOR_SETS).map
      (fun i => p.descriptorSetCounts.getD i 0)).sum < 2 ^ 32 := by
    have := hc.2.2.2.2
    omega
  have hge := idealSize_storedChunks_ge Y p
  obtain ⟨st, e, hh, hs⟩ := load_storedChunks Y p hcap (codeSize_small Y p hsmall)
  obtain ⟨p1, a, e1, e2⟩ := finishLoad_stored Y native grDevice p st hc hnat hh hs
  refine ⟨p1, a, e2, fun buf => ?_⟩
  obtain ⟨v, l⟩ := loops_emitted Y { buf with version := 0 } (storedChunks Y p) hB hwide
    hsmall (storedChunks_sound Y p hcap)
  unfold grLoadPipeline
  rw [if_neg (by omega)]
  simp only [v, l, e]
  exact e1

/-- C3: round trip of the cache codec. Let `p` be a pipeline as `grCreateGraphicsPipeline`
or `grCreateComputePipeline` returns it (`CreatedPipeline`: at most `MAX_STAGE_COUNT`
stages, packed from index 0; resolved sets within the capacity of the layout), let
every native call succeed, and let the stored form take less than 4 GiB on a build whose
`size_t` has at least 32 bits. Then the sizing call of `grStorePipeline` returns a size
`n`; storing `p` into any buffer of `n` bytes succeeds and `grLoadPipeline` turns the
result into a pipeline `p1` with `GR_SUCCESS`; the sizing call for `p1` returns `n` again,
and storing `p1` into a buffer leaves in it exactly the memory that storing `p` into the
same buffer leaves. -/
theorem grStorePipeline_round_trip (Y : BlobLayout) (native : NativeApi)
    (grDevice : GrDevice) (p : GrPipeline)
    (hB : 0 < Y.sizeofGrBaseBlobChunk) (hInfo : 0 < Y.sizeofGrPipelineInfoChunk)
    (hwide : 32 ≤ Y.sizeBits)
    (hc : CreatedPipeline Y p) (hnat : NativeSucceeds native)
    (hsmall : idealSize Y (storedChunks Y p) + 3 < 2 ^ 32) :
    ∃ n p1 a,
      (grStorePipeline Y p (some 0) none).result = GR_SUCCESS ∧
      (grStorePipeline Y p (some 0) none).dataSize = some n ∧
      (∀ buf : GrStoredPipelineBlob,
        (grStorePipeline Y p (some n) (some buf)).result = GR_SUCCESS ∧
        grLoadPipeline Y native grDevice n (grStorePipeline Y p (some n) (some buf)).data =
          .ok ⟨GR_SUCCESS, some p1, a⟩) ∧
      (grStorePipeline Y p1 (some 0) none).result = GR_SUCCESS ∧
      (grStorePipeline Y p1 (some 0) none).dataSize = some n ∧
      (∀ buf : GrStoredPipelineBlob,
        (grStorePipeline Y p1 (some n) (some buf)).result = GR_SUCCESS ∧
        (grStorePipeline Y p1 (some n) (some buf)).data =
          (grStorePipeline Y p (some n) (some buf)).data) := by
  obtain ⟨p1, a, hform, hload⟩ := grLoadPipeline_stored Y native grDevice p hB hInfo hwide hc
    hnat hsmall
  have h2w : (2 : Nat) ^ 32 ≤ 2 ^ Y.sizeBits := Nat.pow_le_pow_right (by decide) (by omega)
  have hsz : storeSize Y p = idealSize Y (storedChunks Y p) := storeSize_eq Y p (by omega)
  have hsz1 : storeSize Y p1 = idealSize Y (storedChunks Y p) := by
    rw [storeSize_eq Y p1 (by rw [hform]; omega), hform]
  have hstore : ∀ (q : GrPipeline) (buf : GrStoredPipelineBlob),
      storeSize Y q = idealSize Y (storedChunks Y p) →
      grStorePipeline Y q (some (idealSize Y (storedChunks Y p))) (some buf) =
        { result := GR_SUCCESS, dataSize := some (idealSize Y (storedChunks Y p))
          data := some (fillBlob Y q buf).1 } := by
    intro q buf hq
    unfold grStorePipeline
    simp only [hq, Nat.lt_irrefl, if_false]
  have hfill : ∀ buf, fillBlob Y p1 buf = fillBlob Y p buf := by
    intro buf
    rw [fillBlob_eq, fillBlob_eq, hform]
  refine ⟨idealSize Y (storedChunks Y p), p1, a, rfl, ?_, fun buf => ?_, rfl, ?_, fun buf => ?_⟩
  · unfold grStorePipeline
    simp only [hsz]
  · rw [hstore p buf hsz]
    refine ⟨rfl, ?_⟩
    simp only [fillBlob_eq]
    exact hload buf
  · unfold grStorePipeline
    simp only [hsz1]
  · rw [hstore p1 buf hsz1, hstore p buf hsz, hfill]
    exact ⟨rfl, rfl⟩

/-- Witness for C3: the round trip of `exampleCreatedPipeline`, a graphics pipeline of two
stages with specialization data, map entries and one resolved slot. -/
theorem grStorePipeline_round_trip_witness :
    ∃ n p1 a,
      (grStorePipeline exampleLayout exampleCreatedPipeline (some 0) none).result =
        GR_SUCCESS ∧
      (grStorePipeline exampleLayout exampleCreatedPipeline (some 0) none).dataSize = some n ∧
      (∀ buf : GrStoredPipelineBlob,
        (grStorePipeline exampleLayout exampleCreatedPipeline (some n) (some buf)).result =
          GR_SUCCESS ∧
        grLoadPipeline exampleLayout exampleNative exampleDevice n
            (grStorePipeline exampleLayout exampleCreatedPipeline (some n) (some buf)).data =
          .ok ⟨GR_SUCCESS, some p1, a⟩) ∧
      (grStorePipeline exampleLayout p1 (some 0) none).result = GR_SUCCESS ∧
      (grStorePipeline exampleLayout p1 (some 0) none).dataSize = some n ∧
      (∀ buf : GrStoredPipelineBlob,
        (grStorePipeline exampleLayout p1 (some n) (some buf)).result = GR_SUCCESS ∧
        (grStorePipeline exampleLayout p1 (some n) (some buf)).data =
          (grStorePipeline exampleLayout exampleCreatedPipeline (some n) (some buf)).data) :=
  grStorePipeline_round_trip exampleLayout exampleNative exampleDevice exampleCreatedPipeline
    (by decide) (by decide) (by decide)
    ⟨by decide, by decide, by decide, by simp only [exampleCreatedPipeline]; decide, by decide⟩
    ⟨fun _ => rfl, fun _ => rfl, fun _ _ _ => rfl⟩
    (by decide)

/-! ## `memcmp` on path prefixes decides their equality -/

theorem bytesOfUnsigned_inj (x y : Nat) (hx : x < 2 ^ 32) (hy : y < 2 ^ 32)
    (h : bytesOfUnsigned x = bytesOfUnsigned y) : x = y := by
  simp only [bytesOfUnsigned, List.cons.injEq, and_true] at h
  omega

theorem memcmpBytes_self (l : List Nat) : memcmpBytes l l = 0 := by
  induction l with
  | nil => rfl
  | cons a l ih => simp [memcmpBytes, ih]

theorem memcmpBytes_eq_zero (l1 : List Nat) :
    ∀ l2 : List Nat, l1.length = l2.length → memcmpBytes l1 l2 = 0 → l1 = l2 := by
  induction l1 with
  | nil =>
    intro l2 hl _
    cases l2 with
    | nil => rfl
    | cons b l2 => simp at hl
  | cons a l1 ih =>
    intro l2 hl h
    cases l2 with
    | nil => simp at hl
    | cons b l2 =>
      simp only [memcmpBytes] at h
      by_cases h1 : a < b
      · simp [h1] at h
      · by_cases h2 : b < a
        · simp [h1, h2] at h
        · simp only [h1, h2, if_false] at h
          have hab : a = b := by omega
          rw [hab, ih l2 (by simpa using hl) h]

theorem flatMap_bytes_inj (l1 : List Nat) :
    ∀ l2 : List Nat, l1.length = l2.length → (∀ x ∈ l1, x < 2 ^ 32) → (∀ x ∈ l2, x < 2 ^ 32) →
      l1.flatMap bytesOfUnsigned = l2.flatMap bytesOfUnsigned → l1 = l2 := by
  induction l1 with
  | nil =>
    intro l2 hl _ _ _
    cases l2 with
    | nil => rfl
    | cons b l2 => simp at hl
  | cons a l1 ih =>
    intro l2 hl h1 h2 h
    cases l2 with
    | nil => simp at hl
    | cons b l2 =>
      simp only [List.flatMap_cons] at h
      obtain ⟨ha, hb⟩ := List.append_inj h (by simp [bytesOfUnsigned])
      rw [bytesOfUnsigned_inj a b (h1 a (by simp)) (h2 b (by simp)) ha,
        ih l2 (by simpa using hl) (fun x hx => h1 x (by simp [hx]))
          (fun x hx => h2 x (by simp [hx])) hb]

theorem length_flatMap_bytes (l : List Nat) :
    (l.flatMap bytesOfUnsigned).length = 4 * l.length := by
  induction l with
  | nil => rfl
  | cons a l ih => simp [List.flatMap_cons, bytesOfUnsigned, ih]; omega

theorem memcmp_eq_zero_iff (a b : List Nat) (n : Nat) (ha : n ≤ a.length) (hb : n ≤ b.length)
    (h1 : ∀ x ∈ a.take n, x < 2 ^ 32) (h2 : ∀ x ∈ b.take n, x < 2 ^ 32) :
    memcmp a b n = 0 ↔ a.take n = b.take n := by
  unfold memcmp
  constructor
  · intro h
    have hl : (a.take n).length = (b.take n).length := by
      simp [List.length_take, Nat.min_eq_left ha, Nat.min_eq_left hb]
    exact flatMap_bytes_inj _ _ hl h1 h2
      (memcmpBytes_eq_zero _ _ (by rw [length_flatMap_bytes, length_flatMap_bytes, hl]) h)
  · intro h
    rw [h]
    exact memcmpBytes_self _

/-- A slot array whose paths are arrays of 32-bit values holding at least `pathDepth`
entries. -/
theorem lookup_eq_position (slots : List PipelineDescriptorSlot) (route : List Nat)
    (hslots : ∀ s ∈ slots, s.pathDepth ≤ s.path.length ∧ ∀ x ∈ s.path, x < 2 ^ 32)
    (hroute : ∀ x ∈ route, x < 2 ^ 32) :
    lookupDescriptorSetIndex slots route.length route =
      (positionOfPathKey slots route).getD 0xFFFFFFFF := by
  have hfun : ∀ s ∈ slots,
      (decide (s.pathDepth = route.length) && decide (memcmp s.path route route.length = 0)) =
        decide (pathKey s = (route.length, route)) := by
    intro s hs
    obtain ⟨hl, hx⟩ := hslots s hs
    by_cases hd : s.pathDepth = route.length
    · have := memcmp_eq_zero_iff s.path route route.length (by omega) (le_refl _)
        (fun x hx1 => hx x (List.mem_of_mem_take hx1))
        (fun x hx1 => hroute x (List.mem_of_mem_take hx1))
      simp only [List.take_length] at this
      simp only [hd, decide_True, Bool.true_and, pathKey, Prod.mk.injEq, true_and]
      exact decide_eq_decide.mpr this
    · simp [hd, pathKey]
  have hfind : ∀ (l : List PipelineDescriptorSlot), (∀ s ∈ l, s ∈ slots) →
      l.findIdx? (fun slot => decide (slot.pathDepth = route.length) &&
        decide (memcmp slot.path route route.length = 0)) =
      l.findIdx? (fun slot => decide (pathKey slot = (route.length, route))) := by
    intro l
    induction l with
    | nil => intro _; rfl
    | cons s l ih =>
      intro hm
      simp only [List.findIdx?_cons, hfun s (hm s (by simp)), zero_add]
      rw [List.findIdx?_succ, List.findIdx?_succ, ih (fun x hx => hm x (by simp [hx]))]
  unfold lookupDescriptorSetIndex positionOfPathKey
  rw [hfind slots (fun _ h => h)]
  cases List.findIdx? (fun slot => decide (pathKey slot = (route.length, route))) slots <;> rfl

/-! ## The extraction walk appends one slot per match, with the route as its path -/

theorem extractSlot_step (L : Limits) (getDescriptorOffset : Nat → Nat)
    (bindings : List IlcBinding)
    (t : GR_DESCRIPTOR_SET_SLOT_TYPE) (e : Nat) (next : List GR_DESCRIPTOR_SLOT_INFO)
    (ih : ExtractSlotsSpec L getDescriptorOffset bindings next) :
    ExtractSlotSpec L getDescriptorOffset bindings (.mk t e next) := by
  intro d i st hlen hd
  rw [extractSlot, matchedInSlot, redirectsTooDeep]
  by_cases h1 : t = GR_SLOT_UNUSED
  · simp only [h1, if_true]
    exact ⟨trivial, hlen, trivial, by simp, [], by simp, rfl⟩
  · simp only [h1, if_false]
    by_cases h2 : t = GR_SLOT_NEXT_DESCRIPTOR_SET
    · simp only [h2, if_true]
      by_cases h3 : d ≥ L.MAX_PATH_DEPTH
      · simp [h3]
      · simp only [h3, if_false, decide_False, Bool.false_or]
        have hd1 : d < st.path.length := by omega
        have ih1 := ih (d + 1) 0 { st with path := st.path.set d i } (by simp [hlen]) (by omega)
        simp only [take_succ_set _ _ _ hd1] at ih1
        cases hx : extractSlots L getDescriptorOffset bindings (d + 1) 0 next
            { st with path := st.path.set d i } with
        | error e1 =>
          rw [hx] at ih1
          exact ih1
        | ok st1 =>
          rw [hx] at ih1
          obtain ⟨ha, hb, hc, hw, happ⟩ := ih1
          refine ⟨ha, hb, ?_, hw, happ⟩
          have := congrArg (List.take d) hc
          rw [List.take_take, List.take_append_of_le_length (by simp; omega)] at this
          simpa [Nat.min_eq_left (Nat.le_succ d), List.take_take] using this
    · simp only [h2, if_false]
      cases hf : findBinding bindings (.mk t e next) with
      | none =>
        exact ⟨trivial, hlen, rfl, by simp, [], by simp, rfl⟩
      | some j =>
        refine ⟨trivial, hlen, rfl, ?_, _, rfl, ?_⟩
        · intro w hw
          simp only [List.mem_singleton] at hw
          subst hw
          simp only [List.length_take]
          omega
        · simp only [List.map_cons, List.map_nil, routeSlotPath, List.length_take,
            Nat.min_eq_left (show d ≤ st.path.length by omega)]
          unfold extractedSlot
          split <;> rfl

theorem extractSlots_nil (L : Limits) (getDescriptorOffset : Nat → Nat)
    (bindings : List IlcBinding) : ExtractSlotsSpec L getDescriptorOffset bindings [] := by
  intro d i st hlen hd
  rw [extractSlots, matchedInMapping, redirectsTooDeepIn]
  exact ⟨rfl, hlen, rfl, by simp, [], by simp, rfl⟩

theorem extractSlots_step (L : Limits) (getDescriptorOffset : Nat → Nat)
    (bindings : List IlcBinding)
    (s : GR_DESCRIPTOR_SLOT_INFO) (rest : List GR_DESCRIPTOR_SLOT_INFO)
    (ih1 : ExtractSlotSpec L getDescriptorOffset bindings s)
    (ih2 : ExtractSlotsSpec L getDescriptorOffset bindings rest) :
    ExtractSlotsSpec L getDescriptorOffset bindings (s :: rest) := by
  intro d i st hlen hd
  rw [extractSlots, matchedInMapping, redirectsTooDeepIn]
  have h1 := ih1 d i st hlen hd
  cases hs : extractSlot L getDescriptorOffset bindings d i s st with
  | error e =>
    rw [hs] at h1
    simp only [h1.1, h1.2, Bool.true_or, and_self]
  | ok st2 =>
    rw [hs] at h1
    obtain ⟨ha, hb, hc, hw, app1, happ1, hmap1⟩ := h1
    simp only [ha, Bool.false_or]
    have h2 := ih2 d (i + 1) st2 hb hd
    cases hs2 : extractSlots L getDescriptorOffset bindings d (i + 1) rest st2 with
    | error e =>
      rw [hs2] at h2
      exact h2
    | ok st3 =>
      rw [hs2] at h2
      obtain ⟨ha2, hb2, hc2, hw2, app2, happ2, hmap2⟩ := h2
      rw [hc] at hw2 hmap2
      refine ⟨ha2, hb2, hc2.trans hc, ?_, app1 ++ app2, ?_, ?_⟩
      · intro w hw1
        rcases List.mem_append.mp hw1 with h | h
        · exact hw w h
        · exact hw2 w h
      · rw [happ2, happ1, List.append_assoc]
      · rw [List.map_append, List.map_append, hmap1, hmap2]

theorem extractSlots_spec (L : Limits) (getDescriptorOffset : Nat → Nat)
    (bindings : List IlcBinding) (m : List GR_DESCRIPTOR_SLOT_INFO) :
    ExtractSlotsSpec L getDescriptorOffset bindings m :=
  @GR_DESCRIPTOR_SLOT_INFO.rec_1
    (ExtractSlotSpec L getDescriptorOffset bindings)
    (ExtractSlotsSpec L getDescriptorOffset bindings)
    (extractSlot_step L getDescriptorOffset bindings)
    (extractSlots_nil L getDescriptorOffset bindings)
    (extractSlots_step L getDescriptorOffset bindings) m

/-! ## The index-assignment walk stops exactly on a redirection that is too deep -/

theorem setupSlots_fault (L : Limits) (slots : List PipelineDescriptorSlot)
    (bindings : List IlcBinding) (off : Nat) (m : List GR_DESCRIPTOR_SLOT_INFO) :
    ∀ (idx d i : Nat) (st : SetupState),
      match setupSlots L slots bindings off idx d i m st with
      | .error e => e = Fault.assertion ∧ redirectsTooDeepIn L d m = true
      | .ok _ => redirectsTooDeepIn L d m = false :=
  @GR_DESCRIPTOR_SLOT_INFO.rec_1
    (fun s => ∀ (idx d i : Nat) (st : SetupState),
      match setupSlot L slots bindings off idx d i s st with
      | .error e => e = Fault.assertion ∧ redirectsTooDeep L d s = true
      | .ok _ => redirectsTooDeep L d s = false)
    (fun m => ∀ (idx d i : Nat) (st : SetupState),
      match setupSlots L slots bindings off idx d i m st with
      | .error e => e = Fault.assertion ∧ redirectsTooDeepIn L d m = true
      | .ok _ => redirectsTooDeepIn L d m = false)
    (by
      intro t e next ih idx d i st
      rw [setupSlot, redirectsTooDeep]
      by_cases h1 : t = GR_SLOT_UNUSED
      · simp [h1]
      · simp only [h1, if_false]
        by_cases h2 : t = GR_SLOT_NEXT_DESCRIPTOR_SET
        · simp only [h2, if_true]
          by_cases h3 : d ≥ L.MAX_PATH_DEPTH
          · simp [h3]
          · simp only [h3, if_false, decide_False, Bool.false_or]
            exact ih _ _ _ _
        · simp only [h2, if_false]
          cases hf : findBinding bindings (.mk t e next) <;> simp)
    (by
      intro idx d i st
      rw [setupSlots, redirectsTooDeepIn])
    (by
      intro s rest ih1 ih2 idx d i st
      rw [setupSlots, redirectsTooDeepIn]
      have h1 := ih1 idx d i st
      cases hs : setupSlot L slots bindings off idx d i s st with
      | error e =>
        rw [hs] at h1
        simp only [h1.1, h1.2, Bool.true_or, and_self]
      | ok st2 =>
        rw [hs] at h1
        simp only [h1, Bool.false_or]
        exact ih2 idx d (i + 1) st2)
    m

theorem foldl_patchWrite_eq (slots : List PipelineDescriptorSlot) (bindings : List IlcBinding)
    (off : Nat)
    (hslots : ∀ s ∈ slots, s.pathDepth ≤ s.path.length ∧ ∀ x ∈ s.path, x < 2 ^ 32)
    (ws : List (List Nat × Nat)) :
    ∀ acc : List IlcBindingPatchEntry × List Nat,
      (∀ w ∈ ws, ∀ x ∈ w.1, x < 2 ^ 32) →
      ws.foldl (setupWrite slots bindings off) acc =
        ws.foldl (patchWrite slots bindings off) acc := by
  induction ws with
  | nil => intro acc _; rfl
  | cons w ws ih =>
    intro acc hw
    simp only [List.foldl_cons]
    have : setupWrite slots bindings off acc w = patchWrite slots bindings off acc w := by
      simp only [setupWrite, patchWrite, setIndexOfRoute,
        lookup_eq_position slots w.1 hslots (hw w (by simp))]
    rw [this, ih _ (fun w1 h1 => hw w1 (by simp [h1]))]

/-- C14: on a mapping tree without a redirection that is too deep, whose routes and the
paths of the merged slots are arrays of 32-bit values (each path holding at least
`pathDepth` entries), `setupDescriptorSetIndices` returns, and what it leaves in
`patchEntries` and `descriptorSetIndices` is the result of performing, for every mapping
slot that matches a binding `j`, in walk order, the writes
`patchEntries[j] = (id of binding j, 0, off + p)` and `descriptorSetIndices[j] = off + p`,
with `p` the position of the first merged slot whose PathKey is the route of the node
holding the mapping slot (the sentinel `0xFFFFFFFF` when no merged slot has it; the sum is
taken in 32-bit arithmetic). -/
theorem setupDescriptorSetIndices_writes_first_position (L : Limits)
    (slots : List PipelineDescriptorSlot) (bindings : List IlcBinding) (off : Nat)
    (mapping : GR_DESCRIPTOR_SET_MAPPING) (st : SetupState)
    (hpath : st.path.length = L.MAX_PATH_DEPTH)
    (hslots : ∀ s ∈ slots, s.pathDepth ≤ s.path.length ∧ ∀ x ∈ s.path, x < 2 ^ 32)
    (hroutes : ∀ w ∈ matchedInMapping bindings [] 0 mapping, ∀ x ∈ w.1, x < 2 ^ 32)
    (hdepth : redirectsTooDeepIn L 0 mapping = false) :
    ∃ st1, setupDescriptorSetIndices L slots bindings off mapping 0 st = .ok st1 ∧
      (st1.patchEntries, st1.descriptorSetIndices) =
        (matchedInMapping bindings [] 0 mapping).foldl (patchWrite slots bindings off)
          (st.patchEntries, st.descriptorSetIndices) := by
  unfold setupDescriptorSetIndices
  have hf := setupSlots_fault L slots bindings off mapping
    (lookupDescriptorSetIndex slots 0 st.path) 0 0 st
  cases hs : setupSlots L slots bindings off (lookupDescriptorSetIndex slots 0 st.path) 0 0
      mapping st with
  | error e =>
    rw [hs] at hf
    rw [hf.2] at hdepth
    cases hdepth
  | ok st1 =>
    obtain ⟨_, _, h3⟩ := setupSlots_spec L slots bindings off mapping 0 0 st st1 hpath
      (Nat.zero_le _) hs
    refine ⟨st1, rfl, ?_⟩
    rw [h3, List.take_zero]
    exact foldl_patchWrite_eq slots bindings off hslots _ _ hroutes

theorem setupDescriptorSetIndices_writes_first_position_witness :
    ∃ st1, setupDescriptorSetIndices exampleLimits [exampleSlot 0, exampleSlot 1]
        [exampleBinding 10 0, exampleBinding 11 1] 2 exampleMappingA 0
        { patchEntries := [default, default], descriptorSetIndices := [0, 0],
          path := localPath exampleLimits (fun _ => 0) } = .ok st1 ∧
      (st1.patchEntries, st1.descriptorSetIndices) =
        (matchedInMapping [exampleBinding 10 0, exampleBinding 11 1] [] 0
            exampleMappingA).foldl
          (patchWrite [exampleSlot 0, exampleSlot 1]
            [exampleBinding 10 0, exampleBinding 11 1] 2)
          ([default, default], [0, 0]) :=
  setupDescriptorSetIndices_writes_first_position exampleLimits
    [exampleSlot 0, exampleSlot 1] [exampleBinding 10 0, exampleBinding 11 1] 2
    exampleMappingA _ (by decide) (by decide) (by decide) (by decide)

/-- C15: started at depth 0 with a path buffer of `MAX_PATH_DEPTH` entries,
`getDescriptorSlotsFromMapping` stops on its assertion exactly when the walk reaches a
`GR_SLOT_NEXT_DESCRIPTOR_SET` slot at a depth that is not below `MAX_PATH_DEPTH`; otherwise
it returns, the slots it appends correspond one to one, in walk order, to the matched
mapping slots, each has `pathDepth` (the number of redirections taken) at most
`MAX_PATH_DEPTH`, and its path array holds the slot indices of the redirections taken from
the root, in order, followed by zeros. -/
theorem getDescriptorSlotsFromMapping_depth_limit (L : Limits)
    (getDescriptorOffset : Nat → Nat) (bindings : List IlcBinding)
    (mapping : GR_DESCRIPTOR_SET_MAPPING) (st : ExtractState)
    (hpath : st.path.length = L.MAX_PATH_DEPTH) :
    (getDescriptorSlotsFromMapping L getDescriptorOffset bindings mapping 0 st =
        .error Fault.assertion ↔ redirectsTooDeepIn L 0 mapping = true) ∧
    (redirectsTooDeepIn L 0 mapping = false →
      ∃ st1 appended,
        getDescriptorSlotsFromMapping L getDescriptorOffset bindings mapping 0 st = .ok st1 ∧
        st1.descriptorSlots = st.descriptorSlots ++ appended ∧
        appended.map (fun x => (x.pathDepth, x.path)) =
          (matchedInMapping bindings [] 0 mapping).map
            (fun w => (w.1.length, w.1 ++ List.replicate (L.MAX_PATH_DEPTH - w.1.length) 0)) ∧
        ∀ x ∈ appended, x.pathDepth ≤ L.MAX_PATH_DEPTH ∧
          ∃ w ∈ matchedInMapping bindings [] 0 mapping, pathKey x = (w.1.length, w.1)) := by
  unfold getDescriptorSlotsFromMapping
  have hs := extractSlots_spec L getDescriptorOffset bindings mapping 0 0 st hpath
    (Nat.zero_le _)
  cases hx : extractSlots L getDescriptorOffset bindings 0 0 mapping st with
  | error e =>
    rw [hx] at hs
    rw [hs.1, hs.2]
    simp
  | ok st1 =>
    rw [hx] at hs
    obtain ⟨ha, _, _, hw, appended, happ, hmap⟩ := hs
    rw [List.take_zero] at hw hmap
    rw [ha]
    refine ⟨by simp, fun _ => ⟨st1, appended, rfl, happ, hmap, ?_⟩⟩
    intro x hx1
    have hmem : (x.pathDepth, x.path) ∈
        (matchedInMapping bindings [] 0 mapping).map (routeSlotPath L) := by
      rw [← hmap]
      exact List.mem_map.mpr ⟨x, hx1, rfl⟩
    obtain ⟨w, hw1, hw2⟩ := List.mem_map.mp hmem
    simp only [routeSlotPath, Prod.mk.injEq] at hw2
    refine ⟨by rw [← hw2.1]; exact hw w hw1, w, hw1, ?_⟩
    simp only [pathKey, ← hw2.1, ← hw2.2, List.take_left]

theorem getDescriptorSlotsFromMapping_depth_limit_witness :
    (getDescriptorSlotsFromMapping exampleLimits (fun _ => 0)
        [exampleBinding 10 0, exampleBinding 11 1] exampleMappingA 0
        { descriptorSlots := [], offsets := [0, 0],
          path := localPath exampleLimits (fun _ => 0) } =
        .error Fault.assertion ↔ redirectsTooDeepIn exampleLimits 0 exampleMappingA = true) ∧
    (redirectsTooDeepIn exampleLimits 0 exampleMappingA = false →
      ∃ st1 appended,
        getDescriptorSlotsFromMapping exampleLimits (fun _ => 0)
          [exampleBinding 10 0, exampleBinding 11 1] exampleMappingA 0
          { descriptorSlots := [], offsets := [0, 0],
            path := localPath exampleLimits (fun _ => 0) } = .ok st1 ∧
        st1.descriptorSlots = [] ++ appended ∧
        appended.map (fun x => (x.pathDepth, x.path)) =
          (matchedInMapping [exampleBinding 10 0, exampleBinding 11 1] [] 0
              exampleMappingA).map
            (fun w => (w.1.length,
              w.1 ++ List.replicate (exampleLimits.MAX_PATH_DEPTH - w.1.length) 0)) ∧
        ∀ x ∈ appended, x.pathDepth ≤ exampleLimits.MAX_PATH_DEPTH ∧
          ∃ w ∈ matchedInMapping [exampleBinding 10 0, exampleBinding 11 1] [] 0
              exampleMappingA, pathKey x = (w.1.length, w.1)) :=
  getDescriptorSlotsFromMapping_depth_limit exampleLimits (fun _ => 0)
    [exampleBinding 10 0, exampleBinding 11 1] exampleMappingA _ (by decide)

/-! ## The merge loop collapses the runs of the sorted array -/

theorem getD_append_cons {α : Type} (A B : List α) (s d : α) :
    (A ++ s :: B).getD A.length d = s := by
  rw [List.getD_eq_getElem?_getD, List.getElem?_append_right (le_refl _)]
  simp

theorem mergeStrides_eq (L : Limits) (X : List PipelineDescriptorSlot) :
    ∀ (pre post : List PipelineDescriptorSlot) (m : PipelineDescriptorSlot),
      mergeStrides L (pre ++ X ++ post) pre.length X.length m = collapseInto L m X := by
  induction X with
  | nil => intro pre post m; rfl
  | cons x X ih =>
    intro pre post m
    have harr : pre ++ x :: X ++ post = (pre ++ [x]) ++ X ++ post := by simp
    have hget : (pre ++ x :: X ++ post).getD pre.length default = x := by
      rw [List.append_assoc]
      exact getD_append_cons pre _ x default
    have hlen : pre.length + 1 = (pre ++ [x]).length := by simp
    simp only [List.length_cons, mergeStrides, collapseInto, addStride, hget]
    by_cases h1 : x.strideCount = 1
    · simp only [h1, if_true]
      by_cases h2 : m.strideCount ≥ L.MAX_STRIDES
      · simp only [h2, if_true]
      · simp only [h2, if_false]
        rw [harr, hlen, ih]
    · simp only [h1, if_false]
      rw [harr, hlen, ih]

theorem attachRun_attachRun {α : Type} (R : List α) (s : α) (X : List (List α)) :
    attachRun R (attachRun [s] X) = attachRun (R ++ [s]) X := by
  cases X <;> simp [attachRun]

theorem runsOf_cons_ne_nil {α : Type} (same : α → α → Bool) (t : α) (T : List α) :
    ∃ r rs, runsOf same (t :: T) = r :: rs := by
  cases T with
  | nil => exact ⟨[t], [], rfl⟩
  | cons u T =>
    rw [runsOf]
    by_cases h : same t u = true
    · simp only [h, if_true]
      cases runsOf same (u :: T) with
      | nil => exact ⟨_, _, rfl⟩
      | cons r rs => exact ⟨_, _, rfl⟩
    · simp only [h]
      exact ⟨_, _, rfl⟩

/-- Closing a run: the slot at `i` ends the run `h :: X` that starts at position
`P.length`. -/
theorem mergeIter_close (L : Limits) (P X T : List PipelineDescriptorSlot)
    (h : PipelineDescriptorSlot)
    (hcond : (!decide (P.length + X.length + 1 = (P ++ h :: X ++ T).length) &&
        decide (((P ++ h :: X ++ T).getD (P.length + X.length) default).pathDepth =
          ((P ++ h :: X ++ T).getD (P.length + X.length + 1) default).pathDepth) &&
        decide (memcmp ((P ++ h :: X ++ T).getD (P.length + X.length) default).path
          ((P ++ h :: X ++ T).getD (P.length + X.length + 1) default).path
          ((P ++ h :: X ++ T).getD (P.length + X.length) default).pathDepth = 0)) = false) :
    mergeIter L ⟨P ++ h :: X ++ T, P.length + X.length, X.length⟩ =
      match collapseInto L h X with
      | .error e => .error e
      | .ok m => .ok ⟨P ++ m :: T, P.length + 1, 0⟩ := by
  unfold mergeIter
  simp only [hcond]
  have hidx : P.length + X.length + 1 - (X.length + 1) = P.length := by omega
  have hn : P.length + X.length - P.length = X.length := by omega
  have hget : (P ++ h :: X ++ T).getD P.length default = h := by
    rw [List.append_assoc]
    exact getD_append_cons P _ h default
  have harr : P ++ h :: X ++ T = (P ++ [h]) ++ X ++ T := by simp
  have hlen : P.length + 1 = (P ++ [h]).length := by simp
  have htake : (P ++ h :: X ++ T).take P.length = P := by
    rw [List.append_assoc, List.take_left]
  have hdrop : (P ++ h :: X ++ T).drop (P.length + X.length + 1) = T := by
    have : P.length + X.length + 1 = (P ++ h :: X).length := by simp; omega
    rw [this, List.drop_left]
  simp only [hidx, hn, hget, htake, hdrop, Bool.false_eq_true, if_false]
  rw [harr, hlen, mergeStrides_eq]

theorem mergeLoop_runs (L : Limits) (T : List PipelineDescriptorSlot) :
    ∀ (s : PipelineDescriptorSlot) (P R : List PipelineDescriptorSlot) (fuel : Nat),
      T.length + 1 ≤ fuel →
      mergeLoop L fuel ⟨P ++ R ++ s :: T, P.length + R.length, R.length⟩ =
        match collapseRuns L (attachRun R (runsOf sameRun (s :: T))) with
        | .error e => .error e
        | .ok ms => .ok (P ++ ms) := by
  induction T with
  | nil =>
    intro s P R fuel hf
    obtain ⟨fuel, rfl⟩ : ∃ k, fuel = k + 1 := ⟨fuel - 1, by simp at hf; omega⟩
    obtain ⟨h, X, hrun⟩ : ∃ h X, R ++ [s] = h :: X := by
      cases R with
      | nil => exact ⟨s, [], rfl⟩
      | cons a R => exact ⟨a, R ++ [s], rfl⟩
    have hXlen : X.length = R.length := by
      have := congrArg List.length hrun
      simp at this
      omega
    have harr : P ++ R ++ [s] = P ++ h :: X ++ [] := by
      rw [List.append_assoc, hrun, List.append_nil]
    rw [mergeLoop]
    have hi : P.length + R.length < (P ++ R ++ [s]).length := by simp
    simp only [hi, if_true]
    have hlast : P.length + X.length + 1 = (P ++ h :: X ++ []).length := by simp; omega
    rw [harr, ← hXlen, mergeIter_close L P X [] h
      (by simp only [hlast, decide_True, Bool.not_true, Bool.false_and])]
    simp only [runsOf, attachRun, hrun, collapseRuns, collapseRun]
    cases collapseInto L h X with
    | error e => rfl
    | ok m =>
      simp only
      cases fuel <;> simp [mergeLoop]
  | cons t T ih =>
    intro s P R fuel hf
    obtain ⟨fuel, rfl⟩ : ∃ k, fuel = k + 1 := ⟨fuel - 1, by simp at hf; omega⟩
    have hf1 : T.length + 1 ≤ fuel := by simp at hf; omega
    rw [mergeLoop]
    have hi : P.length + R.length < (P ++ R ++ s :: t :: T).length := by simp
    simp only [hi, if_true]
    have hs : (P ++ R ++ s :: t :: T).getD (P.length + R.length) default = s := by
      rw [show P.length + R.length = (P ++ R).length by simp]
      exact getD_append_cons (P ++ R) (t :: T) s default
    have ht : (P ++ R ++ s :: t :: T).getD (P.length + R.length + 1) default = t := by
      rw [show P ++ R ++ s :: t :: T = (P ++ R ++ [s]) ++ t :: T by simp,
        show P.length + R.length + 1 = (P ++ R ++ [s]).length by simp; omega]
      exact getD_append_cons (P ++ R ++ [s]) T t default
    have hne : P.length + R.length + 1 ≠ (P ++ R ++ s :: t :: T).length := by
      simp only [List.length_append, List.length_cons]
      omega
    by_cases hsame : sameRun s t = true
    · have hiter : mergeIter L ⟨P ++ R ++ s :: t :: T, P.length + R.length, R.length⟩ =
          .ok ⟨P ++ (R ++ [s]) ++ t :: T, P.length + (R ++ [s]).length, (R ++ [s]).length⟩ := by
        unfold mergeIter
        simp only [hs, ht]
        have hc : (!decide (P.length + R.length + 1 = (P ++ R ++ s :: t :: T).length) &&
            decide (s.pathDepth = t.pathDepth) &&
            decide (memcmp s.path t.path s.pathDepth = 0)) = true := by
          unfold sameRun at hsame
          simp only [Bool.and_eq_true] at hsame ⊢
          refine ⟨⟨?_, hsame.1⟩, hsame.2⟩
          simp only [Bool.not_eq_true', decide_eq_false_iff_not]
          exact hne
        simp only [hc, if_true]
        simp [Nat.add_assoc]
      rw [hiter]
      simp only
      rw [ih t P (R ++ [s]) fuel hf1]
      rw [runsOf.eq_3]
      simp only [hsame, if_true, attachRun_attachRun]
    · obtain ⟨h, X, hrun⟩ : ∃ h X, R ++ [s] = h :: X := by
        cases R with
        | nil => exact ⟨s, [], rfl⟩
        | cons a R => exact ⟨a, R ++ [s], rfl⟩
      have hXlen : X.length = R.length := by
        have := congrArg List.length hrun
        simp at this
        omega
      have harr : P ++ R ++ s :: t :: T = P ++ h :: X ++ t :: T := by
        have : P ++ R ++ s :: t :: T = P ++ (R ++ [s]) ++ t :: T := by simp
        rw [this, hrun]
      have hc : (!decide (P.length + X.length + 1 = (P ++ h :: X ++ t :: T).length) &&
          decide (((P ++ h :: X ++ t :: T).getD (P.length + X.length) default).pathDepth =
            ((P ++ h :: X ++ t :: T).getD (P.length + X.length + 1) default).pathDepth) &&
          decide (memcmp ((P ++ h :: X ++ t :: T).getD (P.length + X.length) default).path
            ((P ++ h :: X ++ t :: T).getD (P.length + X.length + 1) default).path
            ((P ++ h :: X ++ t :: T).getD (P.length + X.length) default).pathDepth = 0)) =
          false := by
        rw [← harr, hXlen, hs, ht]
        unfold sameRun at hsame
        simp only [Bool.and_eq_true, not_and, Bool.not_eq_true] at hsame
        cases hd : decide (s.pathDepth = t.pathDepth) with
        | false => simp
        | true => simp [hsame hd]
      rw [harr, ← hXlen, mergeIter_close L P X (t :: T) h hc]
      rw [runsOf.eq_3]
      simp only [hsame, attachRun, hrun, collapseRuns, collapseRun, Bool.false_eq_true,
        if_false]
      cases collapseInto L h X with
      | error e => rfl
      | ok m =>
        simp only
        have := ih t (P ++ [m]) [] fuel hf1
        simp only [List.append_nil, List.length_append, List.length_singleton,
          List.length_nil, Nat.add_zero] at this
        have harr2 : P ++ m :: t :: T = P ++ [m] ++ t :: T := by simp
        rw [harr2, this]
        obtain ⟨r, rs, hr⟩ := runsOf_cons_ne_nil sameRun t T
        rw [hr]
        simp only [attachRun, List.nil_append]
        cases collapseRuns L (r :: rs) with
        | error e => rfl
        | ok ms => simp

/-- The merge is the collapse of the runs of the sorted array. -/
theorem mergeDescriptorSlots_eq (L : Limits) (qsort : Qsort)
    (slots : List PipelineDescriptorSlot) :
    mergeDescriptorSlots L qsort slots =
      collapseRuns L (runsOf sameRun (qsort compareDescriptorSlots slots)) := by
  unfold mergeDescriptorSlots
  cases hq : qsort compareDescriptorSlots slots with
  | nil => simp [mergeLoop, runsOf, collapseRuns]
  | cons s T =>
    have := mergeLoop_runs L T s [] [] (s :: T).length (by simp)
    simp only [List.nil_append, List.length_nil, Nat.add_zero] at this
    simp only
    rw [this]
    obtain ⟨r, rs, hr⟩ := runsOf_cons_ne_nil sameRun s T
    rw [hr]
    simp only [attachRun, List.nil_append]
    cases collapseRuns L (r :: rs) <;> rfl

/-! ## What collapsing a run does to the stride count -/

theorem collapseInto_spec (L : Limits) (X : List PipelineDescriptorSlot) :
    ∀ m : PipelineDescriptorSlot, m.strideCount ≤ L.MAX_STRIDES →
      (∀ x ∈ X, x.strideCount ≤ 1) →
      match collapseInto L m X with
      | .error e => e = Fault.assertion ∧ L.MAX_STRIDES < m.strideCount + strideTotal X
      | .ok r => r.strideCount = m.strideCount + strideTotal X ∧
          r.strideCount ≤ L.MAX_STRIDES ∧ r.pathDepth = m.pathDepth ∧ r.path = m.path := by
  induction X with
  | nil =>
    intro m hm _
    simp [collapseInto, strideTotal, hm]
  | cons x X ih =>
    intro m hm hX
    have hx := hX x (by simp)
    have hX1 : ∀ y ∈ X, y.strideCount ≤ 1 := fun y hy => hX y (by simp [hy])
    have hsum : strideTotal (x :: X) = x.strideCount + strideTotal X := by
      simp [strideTotal]
    rw [collapseInto, addStride, hsum]
    by_cases h1 : x.strideCount = 1
    · simp only [h1, if_true]
      by_cases h2 : m.strideCount ≥ L.MAX_STRIDES
      · simp only [h2, if_true]
        exact ⟨trivial, by omega⟩
      · simp only [h2, if_false]
        have := ih { m with
            strideCount := m.strideCount + 1
            strideOffsets := m.strideOffsets.set m.strideCount (x.strideOffsets.getD 0 0)
            strideSlotIndexes :=
              m.strideSlotIndexes.set m.strideCount (x.strideSlotIndexes.getD 0 0) }
          (by simp only; omega) hX1
        revert this
        cases collapseInto L _ X with
        | error e =>
          simp only
          intro h
          exact ⟨h.1, by omega⟩
        | ok r =>
          simp only
          intro h
          exact ⟨by omega, h.2.1, h.2.2.1, h.2.2.2⟩
    · simp only [h1, if_false]
      have h0 : x.strideCount = 0 := by omega
      have := ih m hm hX1
      revert this
      cases collapseInto L m X with
      | error e =>
        simp only
        intro h
        exact ⟨h.1, by omega⟩
      | ok r =>
        simp only
        intro h
        exact ⟨by omega, h.2.1, h.2.2.1, h.2.2.2⟩

theorem collapseRuns_spec (L : Limits) (hmax : 1 ≤ L.MAX_STRIDES)
    (runs : List (List PipelineDescriptorSlot)) :
    (∀ run ∈ runs, run ≠ [] ∧ ∀ x ∈ run, x.strideCount ≤ 1) →
    match collapseRuns L runs with
    | .error e => e = Fault.assertion ∧ ∃ run ∈ runs, L.MAX_STRIDES < strideTotal run
    | .ok ms => (∀ run ∈ runs, strideTotal run ≤ L.MAX_STRIDES) ∧
        (∀ s ∈ ms, s.strideCount ≤ L.MAX_STRIDES) ∧
        ms.map pathKey = runs.map (fun run => pathKey (run.headD default)) ∧
        ms.map (fun s => s.strideCount) = runs.map strideTotal := by
  induction runs with
  | nil =>
    intro _
    simp [collapseRuns]
  | cons run runs ih =>
    intro h
    obtain ⟨hne, hone⟩ := h run (by simp)
    have ih1 := ih (fun r hr => h r (by simp [hr]))
    cases run with
    | nil => exact absurd rfl hne
    | cons s X =>
      have hs := hone s (by simp)
      have hsum : strideTotal (s :: X) = s.strideCount + strideTotal X := by
        simp [strideTotal]
      have hc := collapseInto_spec L X s (by omega) (fun x hx => hone x (by simp [hx]))
      rw [collapseRuns, collapseRun]
      revert hc
      cases collapseInto L s X with
      | error e =>
        simp only
        intro hc
        exact ⟨hc.1, s :: X, by simp, by rw [hsum]; exact hc.2⟩
      | ok m =>
        simp only
        intro hc
        revert ih1
        cases collapseRuns L runs with
        | error e =>
          simp only
          intro ih1
          obtain ⟨he, r, hr, hr2⟩ := ih1
          exact ⟨he, r, by simp [hr], hr2⟩
        | ok ms =>
          simp only
          intro ih1
          obtain ⟨h1, h2, h3, h4⟩ := ih1
          refine ⟨?_, ?_, ?_, ?_⟩
          · intro r hr
            rcases List.mem_cons.mp hr with h | h
            · rw [h, hsum]; omega
            · exact h1 r h
          · intro x hx
            rcases List.mem_cons.mp hx with h | h
            · rw [h]; exact hc.2.1
            · exact h2 x h
          · simp only [List.map_cons, h3, List.headD_cons, pathKey, hc.2.2.1, hc.2.2.2]
          · simp only [List.map_cons, h4, hsum, hc.1]

/-! ## Facts about runs -/

theorem runsOf_mem {α : Type} (same : α → α → Bool) (l : List α) :
    ∀ r ∈ runsOf same l, r ≠ [] ∧ ∀ x ∈ r, x ∈ l := by
  induction l with
  | nil => intro r hr; simp [runsOf] at hr
  | cons s T ih =>
    cases T with
    | nil =>
      intro r hr
      simp only [runsOf, List.mem_singleton] at hr
      subst hr
      simp
    | cons t T =>
      intro r hr
      rw [runsOf] at hr
      obtain ⟨r0, rs, hrs⟩ := runsOf_cons_ne_nil same t T
      rw [hrs] at hr ih
      by_cases hst : same s t = true
      · simp only [hst, if_true, attachRun, List.mem_cons] at hr
        rcases hr with h | h
        · subst h
          refine ⟨by simp, ?_⟩
          intro x hx
          simp only [List.singleton_append, List.mem_cons] at hx
          rcases hx with h | h
          · simp [h]
          · exact List.mem_cons_of_mem _ ((ih r0 (by simp)).2 x h)
        · obtain ⟨h1, h2⟩ := ih r (by simp [h])
          exact ⟨h1, fun x hx => List.mem_cons_of_mem _ (h2 x hx)⟩
      · simp only [hst, List.mem_cons, Bool.false_eq_true, if_false] at hr
        rcases hr with h | h
        · subst h
          simp
        · obtain ⟨h1, h2⟩ := ih r (by simpa using h)
          exact ⟨h1, fun x hx => List.mem_cons_of_mem _ (h2 x hx)⟩

theorem runsOf_congr {α : Type} (same1 same2 : α → α → Bool) (l : List α) :
    (∀ a ∈ l, ∀ b ∈ l, same1 a b = same2 a b) → runsOf same1 l = runsOf same2 l := by
  induction l with
  | nil => intro _; rfl
  | cons s T ih =>
    cases T with
    | nil => intro _; rfl
    | cons t T =>
      intro h
      rw [runsOf, runsOf, h s (by simp) t (by simp),
        ih (fun a ha b hb => h a (List.mem_cons_of_mem _ ha) b (List.mem_cons_of_mem _ hb))]

theorem sameRun_eq_pathKey (a b : PipelineDescriptorSlot)
    (ha : a.pathDepth ≤ a.path.length ∧ ∀ x ∈ a.path, x < 2 ^ 32)
    (hb : b.pathDepth ≤ b.path.length ∧ ∀ x ∈ b.path, x < 2 ^ 32) :
    sameRun a b = decide (pathKey a = pathKey b) := by
  unfold sameRun pathKey
  by_cases hd : a.pathDepth = b.pathDepth
  · have := memcmp_eq_zero_iff a.path b.path a.pathDepth ha.1 (by omega)
      (fun x hx => ha.2 x (List.mem_of_mem_take hx))
      (fun x hx => hb.2 x (List.mem_of_mem_take hx))
    simp only [hd, decide_True, Bool.true_and, Prod.mk.injEq, true_and]
    rw [hd] at this
    exact decide_eq_decide.mpr this
  · simp [hd]

theorem runsOf_sameRun (l : List PipelineDescriptorSlot) (hwf : WellFormedSlots l) :
    runsOf sameRun l = runsOf (fun a b => decide (pathKey a = pathKey b)) l :=
  runsOf_congr _ _ l (fun a ha b hb => sameRun_eq_pathKey a b (hwf a ha) (hwf b hb))

/-- C16: on extracted slots (each holds at most one stride pair, paths are arrays of 32-bit
values with at least `pathDepth` entries), with `MAX_STRIDES` at least 1 and a `qsort` that
returns elements of its input, `mergeDescriptorSlots` stops on its assertion exactly when
some run of adjacent equal-PathKey slots of the sorted array holds more than `MAX_STRIDES`
stride pairs; otherwise it returns, and every merged slot has
`strideCount ≤ MAX_STRIDES`. -/
theorem mergeDescriptorSlots_stride_limit (L : Limits) (qsort : Qsort)
    (slots : List PipelineDescriptorSlot)
    (hmax : 1 ≤ L.MAX_STRIDES)
    (hq : ∀ s ∈ qsort compareDescriptorSlots slots, s ∈ slots)
    (hwf : WellFormedSlots slots)
    (hone : ∀ s ∈ slots, s.strideCount ≤ 1) :
    (mergeDescriptorSlots L qsort slots = .error Fault.assertion ↔
      ∃ run ∈ runsOf (fun a b => decide (pathKey a = pathKey b))
          (qsort compareDescriptorSlots slots),
        L.MAX_STRIDES < strideTotal run) ∧
    ((∀ run ∈ runsOf (fun a b => decide (pathKey a = pathKey b))
          (qsort compareDescriptorSlots slots),
        strideTotal run ≤ L.MAX_STRIDES) →
      ∃ merged, mergeDescriptorSlots L qsort slots = .ok merged ∧
        ∀ s ∈ merged, s.strideCount ≤ L.MAX_STRIDES) := by
  have hwf1 : WellFormedSlots (qsort compareDescriptorSlots slots) :=
    fun s hs => hwf s (hq s hs)
  rw [mergeDescriptorSlots_eq, ← runsOf_sameRun _ hwf1]
  have hspec := collapseRuns_spec L hmax (runsOf sameRun (qsort compareDescriptorSlots slots))
    (fun run hr => ⟨(runsOf_mem sameRun _ run hr).1,
      fun x hx => hone x (hq x ((runsOf_mem sameRun _ run hr).2 x hx))⟩)
  revert hspec
  cases collapseRuns L (runsOf sameRun (qsort compareDescriptorSlots slots)) with
  | error e =>
    simp only
    intro hspec
    rw [hspec.1]
    refine ⟨⟨fun _ => hspec.2, fun _ => rfl⟩, ?_⟩
    intro hall
    obtain ⟨run, hr, hlt⟩ := hspec.2
    exact absurd (hall run hr) (by omega)
  | ok ms =>
    simp only
    intro hspec
    refine ⟨Iff.intro (fun h => by cases h) ?_, fun _ => ⟨ms, rfl, hspec.2.1⟩⟩
    rintro ⟨run, hr, hlt⟩
    exact absurd (hspec.1 run hr) (by omega)

/-- Witness for C16: three extracted slots with one stride pair each, the first two with
the same PathKey. With `MAX_STRIDES` 1 the run of the first two holds two stride pairs and
the merge stops on its assertion; with `MAX_STRIDES` 8 every run fits, the merge returns
two slots, and the first holds two stride pairs. -/
theorem mergeDescriptorSlots_stride_limit_witness :
    strideTotal (exampleStridedSlots.take 2) = 2 ∧
    mergeDescriptorSlots exampleTightLimits stableQsort exampleStridedSlots =
      .error Fault.assertion ∧
    (∃ merged, mergeDescriptorSlots exampleLimits stableQsort exampleStridedSlots =
        .ok merged ∧
      ∀ s ∈ merged, s.strideCount ≤ exampleLimits.MAX_STRIDES) ∧
    ∃ merged, mergeDescriptorSlots exampleLimits stableQsort exampleStridedSlots =
        .ok merged ∧
      merged.map (fun s => s.strideCount) = [2, 1] :=
  ⟨by decide,
    (mergeDescriptorSlots_stride_limit exampleTightLimits stableQsort exampleStridedSlots
      (by decide) (fun s hs => (List.perm_insertionSort _ _).subset hs)
      (by unfold WellFormedSlots; decide) (by decide)).1.2
      ⟨exampleStridedSlots.take 2, by decide, by decide⟩,
    (mergeDescriptorSlots_stride_limit exampleLimits stableQsort exampleStridedSlots
      (by decide) (fun s hs => (List.perm_insertionSort _ _).subset hs)
      (by unfold WellFormedSlots; decide) (by decide)).2 (by decide),
    ⟨_, rfl, by decide⟩⟩

/-! ## Two stages sharing a bound slot of a nested set -/

theorem setupStages_total (L : Limits) (uninit : Nat → Nat) (mappingIndex : Nat)
    (slots : List PipelineDescriptorSlot) (off : Nat) (stages : List Stage) :
    ∀ (i : Nat) (buffers : List StageBuffers),
      (∀ stage ∈ stages, redirectsTooDeepIn L 0
        (stage.shader.descriptorSetMapping.getD mappingIndex []) = false) →
      ∃ buffers2, setupStages L uninit mappingIndex slots off i stages buffers =
        .ok buffers2 := by
  induction stages with
  | nil => intro i buffers _; exact ⟨buffers, rfl⟩
  | cons stage rest ih =>
    intro i buffers h
    have hrest : ∀ s ∈ rest, redirectsTooDeepIn L 0
        (s.shader.descriptorSetMapping.getD mappingIndex []) = false :=
      fun s hs => h s (by simp [hs])
    rw [setupStages]
    cases hsh : stage.shader.shader with
    | none => exact ih _ _ hrest
    | some grShader =>
      simp only
      have hf := setupSlots_fault L slots grShader.bindings off
        (stage.shader.descriptorSetMapping.getD mappingIndex [])
        (lookupDescriptorSetIndex slots 0 (localPath L uninit)) 0 0
        { patchEntries := (buffers.getD i default).patchEntries
          descriptorSetIndices := (buffers.getD i default).specDescriptorIndices
          path := localPath L uninit }
      unfold setupDescriptorSetIndices
      revert hf
      cases setupSlots L slots grShader.bindings off
        (lookupDescriptorSetIndex slots 0 (localPath L uninit)) 0 0
        (stage.shader.descriptorSetMapping.getD mappingIndex [])
        { patchEntries := (buffers.getD i default).patchEntries
          descriptorSetIndices := (buffers.getD i default).specDescriptorIndices
          path := localPath L uninit } with
      | error e =>
        simp only
        intro hf
        rw [h stage (by simp)] at hf
        cases hf.2
      | ok st =>
        simp only
        intro _
        exact ih _ _ hrest

theorem perm_pair {α : Type} (l : List α) (a b : α) (h : l.Perm [a, b]) :
    l = [a, b] ∨ l = [b, a] := by
  have hlen := h.length_eq
  match l, hlen with
  | [x, y], _ =>
    have hx : x ∈ [a, b] := h.subset (by simp)
    have hy : y ∈ [a, b] := h.subset (by simp)
    have ha : a ∈ [x, y] := h.symm.subset (by simp)
    have hb : b ∈ [x, y] := h.symm.subset (by simp)
    simp only [List.mem_cons, List.mem_singleton, List.not_mem_nil, or_false] at hx hy ha hb
    rcases hx with rfl | rfl <;> rcases hy with rfl | rfl <;> simp_all

theorem extractedSlot_stride (L : Limits) (d : Nat) (p : List Nat) (i : Nat)
    (binding : IlcBinding) (h : 0 ≤ binding.strideIndex) :
    extractedSlot L d p i binding =
      { pathDepth := d
        path := p.take d ++ List.replicate (L.MAX_PATH_DEPTH - d) 0
        strideCount := 1
        strideOffsets :=
          (List.replicate L.MAX_STRIDES 0).set 0 ((binding.strideIndex * 4).toNat % 2 ^ 32)
        strideSlotIndexes := (List.replicate L.MAX_STRIDES 0).set 0 i } := by
  simp [extractedSlot, h]

theorem collapse_pair (L : Limits) (hstr : 2 ≤ L.MAX_STRIDES) (p : List Nat) (o1 o2 : Nat) :
    collapseRuns L (runsOf sameRun
      [{ pathDepth := 1, path := p, strideCount := 1,
         strideOffsets := (List.replicate L.MAX_STRIDES 0).set 0 o1,
         strideSlotIndexes := (List.replicate L.MAX_STRIDES 0).set 0 0 },
       { pathDepth := 1, path := p, strideCount := 1,
         strideOffsets := (List.replicate L.MAX_STRIDES 0).set 0 o2,
         strideSlotIndexes := (List.replicate L.MAX_STRIDES 0).set 0 0 }]) =
    .ok [{ pathDepth := 1, path := p, strideCount := 2,
           strideOffsets := ((List.replicate L.MAX_STRIDES 0).set 0 o1).set 1 o2,
           strideSlotIndexes := ((List.replicate L.MAX_STRIDES 0).set 0 0).set 1 0 }] := by
  obtain ⟨n, hn⟩ : ∃ n, L.MAX_STRIDES = n + 2 := ⟨L.MAX_STRIDES - 2, by omega⟩
  have h1 : ¬ (1 ≥ L.MAX_STRIDES) := by omega
  have hsame : ∀ a b : PipelineDescriptorSlot, a.pathDepth = 1 → b.pathDepth = 1 →
      a.path = p → b.path = p → sameRun a b = true := by
    intro a b ha hb hpa hpb
    simp [sameRun, ha, hb, hpa, hpb, memcmp, memcmpBytes_self]
  rw [runsOf, hsame _ _ rfl rfl rfl rfl]
  simp only [if_true, runsOf, attachRun, List.singleton_append, collapseRuns, collapseRun,
    collapseInto, addStride, h1, if_false]
  simp [hn, List.replicate_succ]

theorem extractSlots_nested (L : Limits) (gdo : Nat → Nat) (b : List IlcBinding)
    (t : GR_DESCRIPTOR_SET_SLOT_TYPE) (e e0 : Nat) (next : List GR_DESCRIPTOR_SLOT_INFO)
    (j : Nat) (ds : List PipelineDescriptorSlot) (os p : List Nat)
    (hdepth : 1 ≤ L.MAX_PATH_DEPTH) (hlen : p.length = L.MAX_PATH_DEPTH)
    (ht1 : t ≠ GR_SLOT_UNUSED) (ht2 : t ≠ GR_SLOT_NEXT_DESCRIPTOR_SET)
    (hj : findBinding b (.mk t e next) = some j)
    (hs : 0 ≤ (b.getD j ⟨0, ILC_BINDING_SAMPLER, 0, 0, 0, 0, 0⟩).strideIndex) :
    extractSlots L gdo b 0 0 [.mk GR_SLOT_NEXT_DESCRIPTOR_SET e0 [.mk t e next]]
        { descriptorSlots := ds, offsets := os, path := p } =
      .ok { descriptorSlots := ds ++
              [{ pathDepth := 1
                 path := 0 :: List.replicate (L.MAX_PATH_DEPTH - 1) 0
                 strideCount := 1
                 strideOffsets := (List.replicate L.MAX_STRIDES 0).set 0
                   (((b.getD j ⟨0, ILC_BINDING_SAMPLER, 0, 0, 0, 0, 0⟩).strideIndex * 4).toNat %
                     2 ^ 32)
                 strideSlotIndexes := (List.replicate L.MAX_STRIDES 0).set 0 0 }]
            offsets := os.set j ((0 * L.DESCRIPTORS_PER_SLOT +
              gdo (b.getD j ⟨0, ILC_BINDING_SAMPLER, 0, 0, 0, 0, 0⟩).descriptorType) % 2 ^ 32)
            path := p.set 0 0 } := by
  have h0 : ¬ (0 ≥ L.MAX_PATH_DEPTH) := by omega
  have hnu : GR_SLOT_NEXT_DESCRIPTOR_SET ≠ GR_SLOT_UNUSED := by decide
  have htk : (p.set 0 0).take 1 = [0] := by
    have := take_succ_set p 0 0 (by omega)
    simpa using this
  simp only [extractSlots, extractSlot, hnu, if_true, h0, if_false, ht1, ht2, hj,
    extractedSlot_stride _ _ _ _ _ hs, Nat.zero_add, htk, List.singleton_append]

/-- Resolution of two stages that share the bound slot 0 of a nested set reached from root
slot 0. -/
theorem getDescriptorSlotMappings_nested (L : Limits) (gdo : Nat → Nat)
    (qsort : Qsort) (uninit : Nat → Nat) (b1 b2 : List IlcBinding) (c1 c2 : List Nat)
    (t : GR_DESCRIPTOR_SET_SLOT_TYPE) (e e0 : Nat) (next : List GR_DESCRIPTOR_SLOT_INFO)
    (j1 j2 : Nat) (M1 M2 : List GR_DESCRIPTOR_SET_MAPPING) (f1 f2 : Nat)
    (buffers : List StageBuffers) (k off : Nat)
    (hdepth : 1 ≤ L.MAX_PATH_DEPTH) (hstr : 2 ≤ L.MAX_STRIDES)
    (hq : ∀ l, (qsort compareDescriptorSlots l).Perm l)
    (ht1 : t ≠ GR_SLOT_UNUSED) (ht2 : t ≠ GR_SLOT_NEXT_DESCRIPTOR_SET)
    (hM1 : M1.getD k [] = [.mk GR_SLOT_NEXT_DESCRIPTOR_SET e0 [.mk t e next]])
    (hM2 : M2.getD k [] = [.mk GR_SLOT_NEXT_DESCRIPTOR_SET e0 [.mk t e next]])
    (hj1 : findBinding b1 (.mk t e next) = some j1)
    (hj2 : findBinding b2 (.mk t e next) = some j2)
    (hs1 : 0 ≤ (b1.getD j1 ⟨0, ILC_BINDING_SAMPLER, 0, 0, 0, 0, 0⟩).strideIndex)
    (hs2 : 0 ≤ (b2.getD j2 ⟨0, ILC_BINDING_SAMPLER, 0, 0, 0, 0, 0⟩).strideIndex) :
    ∃ slot buffers1,
      getDescriptorSlotMappings L gdo qsort uninit []
        [{ shader := { shader := some { bindings := b1, code := c1 },
                       descriptorSetMapping := M1 }, flags := f1 },
         { shader := { shader := some { bindings := b2, code := c2 },
                       descriptorSetMapping := M2 }, flags := f2 }]
        buffers k off = .ok ([slot], buffers1) ∧
      pathKey slot = (1, [0]) ∧ slot.strideCount = 2 ∧
      slot.strideSlotIndexes.take 2 = [0, 0] ∧
      (slot.strideOffsets.take 2 =
          [((b1.getD j1 ⟨0, ILC_BINDING_SAMPLER, 0, 0, 0, 0, 0⟩).strideIndex * 4).toNat % 2 ^ 32,
           ((b2.getD j2 ⟨0, ILC_BINDING_SAMPLER, 0, 0, 0, 0, 0⟩).strideIndex * 4).toNat % 2 ^ 32] ∨
        slot.strideOffsets.take 2 =
          [((b2.getD j2 ⟨0, ILC_BINDING_SAMPLER, 0, 0, 0, 0, 0⟩).strideIndex * 4).toNat % 2 ^ 32,
           ((b1.getD j1 ⟨0, ILC_BINDING_SAMPLER, 0, 0, 0, 0, 0⟩).strideIndex * 4).toNat %
             2 ^ 32]) := by
  obtain ⟨n, hn⟩ : ∃ n, L.MAX_STRIDES = n + 2 := ⟨L.MAX_STRIDES - 2, by omega⟩
  have h0 : ¬ (0 ≥ L.MAX_PATH_DEPTH) := by omega
  have hlp : 0 < (localPath L uninit).length := by rw [localPath_length]; omega
  have htk : ((localPath L uninit).set 0 0).take 1 = [0] := by
    have := take_succ_set (localPath L uninit) 0 0 hlp
    simpa using this
  have hdeep : ∀ stage ∈
      ([{ shader := { shader := some { bindings := b1, code := c1 },
                      descriptorSetMapping := M1 }, flags := f1 },
        { shader := { shader := some { bindings := b2, code := c2 },
                      descriptorSetMapping := M2 }, flags := f2 }] : List Stage),
      redirectsTooDeepIn L 0 (stage.shader.descriptorSetMapping.getD k []) = false := by
    intro stage hs
    simp only [List.mem_cons, List.mem_singleton, List.not_mem_nil, or_false] at hs
    rcases hs with rfl | rfl
    · show redirectsTooDeepIn L 0 (M1.getD k []) = false
      rw [hM1]
      simp [redirectsTooDeepIn, redirectsTooDeep, ht1, ht2, h0]
    · show redirectsTooDeepIn L 0 (M2.getD k []) = false
      rw [hM2]
      simp [redirectsTooDeepIn, redirectsTooDeep, ht1, ht2, h0]
  unfold getDescriptorSlotMappings
  simp only [extractStages, getDescriptorSlotsFromMapping, hM1, hM2,
    extractSlots_nested L gdo _ t e e0 next _ _ _ _ hdepth (localPath_length L uninit) ht1 ht2
      hj1 hs1,
    extractSlots_nested L gdo _ t e e0 next _ _ _ _ hdepth (localPath_length L uninit) ht1 ht2
      hj2 hs2,
    List.nil_append, List.singleton_append]
  rw [mergeDescriptorSlots_eq]
  rcases perm_pair _ _ _ (hq _) with hp | hp <;> rw [hp, collapse_pair L hstr] <;> simp only
  · obtain ⟨buffers2, hb⟩ := setupStages_total L uninit k _ off _ 0 _ hdeep
    rw [hb]
    refine ⟨_, _, rfl, ?_, rfl, ?_, Or.inl ?_⟩
    · simp [pathKey]
    · simp [hn, List.replicate_succ]
    · simp [hn, List.replicate_succ]
  · obtain ⟨buffers2, hb⟩ := setupStages_total L uninit k _ off _ 0 _ hdeep
    rw [hb]
    refine ⟨_, _, rfl, ?_, rfl, ?_, Or.inr ?_⟩
    · simp [pathKey]
    · simp [hn, List.replicate_succ]
    · simp [hn, List.replicate_succ]

/-- C11 (amended): for two stages whose mapping, at the resolved mapping index, has as root
slot 0 a redirection to a nested set whose slot 0 is a bound slot matched by a binding with
a stride constant in each stage, resolution from an empty slot array returns exactly one
merged slot; its PathKey is `[0]` at depth 1 (the index of the one redirection taken; the
bound slot's own index is not part of the path), and it holds two stride pairs, one per
stage, each with slot index 0 and the stride offset of the stage's binding. -/
theorem getDescriptorSlotMappings_nested_shared (L : Limits) (gdo : Nat → Nat)
    (qsort : Qsort) (uninit : Nat → Nat) (b1 b2 : List IlcBinding) (c1 c2 : List Nat)
    (t : GR_DESCRIPTOR_SET_SLOT_TYPE) (e e0 : Nat) (next : List GR_DESCRIPTOR_SLOT_INFO)
    (j1 j2 : Nat) (M1 M2 : List GR_DESCRIPTOR_SET_MAPPING) (f1 f2 : Nat)
    (buffers : List StageBuffers) (k off : Nat)
    (hdepth : 1 ≤ L.MAX_PATH_DEPTH) (hstr : 2 ≤ L.MAX_STRIDES)
    (hq : ∀ l, (qsort compareDescriptorSlots l).Perm l)
    (ht1 : t ≠ GR_SLOT_UNUSED) (ht2 : t ≠ GR_SLOT_NEXT_DESCRIPTOR_SET)
    (hM1 : M1.getD k [] = [.mk GR_SLOT_NEXT_DESCRIPTOR_SET e0 [.mk t e next]])
    (hM2 : M2.getD k [] = [.mk GR_SLOT_NEXT_DESCRIPTOR_SET e0 [.mk t e next]])
    (hj1 : findBinding b1 (.mk t e next) = some j1)
    (hj2 : findBinding b2 (.mk t e next) = some j2)
    (hs1 : 0 ≤ (b1.getD j1 ⟨0, ILC_BINDING_SAMPLER, 0, 0, 0, 0, 0⟩).strideIndex)
    (hs2 : 0 ≤ (b2.getD j2 ⟨0, ILC_BINDING_SAMPLER, 0, 0, 0, 0, 0⟩).strideIndex) :
    ∃ slot buffers1,
      getDescriptorSlotMappings L gdo qsort uninit []
        [{ shader := { shader := some { bindings := b1, code := c1 },
                       descriptorSetMapping := M1 }, flags := f1 },
         { shader := { shader := some { bindings := b2, code := c2 },
                       descriptorSetMapping := M2 }, flags := f2 }]
        buffers k off = .ok ([slot], buffers1) ∧
      pathKey slot = (1, [0]) ∧ slot.strideCount = 2 ∧
      slot.strideSlotIndexes.take 2 = [0, 0] ∧
      (slot.strideOffsets.take 2 =
          [((b1.getD j1 ⟨0, ILC_BINDING_SAMPLER, 0, 0, 0, 0, 0⟩).strideIndex * 4).toNat % 2 ^ 32,
           ((b2.getD j2 ⟨0, ILC_BINDING_SAMPLER, 0, 0, 0, 0, 0⟩).strideIndex * 4).toNat % 2 ^ 32] ∨
        slot.strideOffsets.take 2 =
          [((b2.getD j2 ⟨0, ILC_BINDING_SAMPLER, 0, 0, 0, 0, 0⟩).strideIndex * 4).toNat % 2 ^ 32,
           ((b1.getD j1 ⟨0, ILC_BINDING_SAMPLER, 0, 0, 0, 0, 0⟩).strideIndex * 4).toNat %
             2 ^ 32]) :=
  getDescriptorSlotMappings_nested L gdo qsort uninit b1 b2 c1 c2 t e e0 next j1 j2 M1 M2 f1 f2
    buffers k off hdepth hstr hq ht1 ht2 hM1 hM2 hj1 hj2 hs1 hs2

theorem getDescriptorSlotMappings_nested_shared_witness :
    ∃ slot buffers1,
      getDescriptorSlotMappings exampleLimits (fun _ => 0) stableQsort (fun _ => 0) []
        [{ shader := { shader := some { bindings := [{ exampleBinding 10 0 with strideIndex := 0 }],
                                        code := [] },
                       descriptorSetMapping := [exampleMappingB] }, flags := 1 },
         { shader := { shader := some { bindings := [{ exampleBinding 20 0 with strideIndex := 1 }],
                                        code := [] },
                       descriptorSetMapping := [exampleMappingB] }, flags := 16 }]
        exampleStrideBuffers 0 2 = .ok ([slot], buffers1) ∧
      pathKey slot = (1, [0]) ∧ slot.strideCount = 2 ∧
      slot.strideSlotIndexes.take 2 = [0, 0] ∧
      (slot.strideOffsets.take 2 =
          [(((([{ exampleBinding 10 0 with strideIndex := 0 }] : List IlcBinding).getD 0
              ⟨0, ILC_BINDING_SAMPLER, 0, 0, 0, 0, 0⟩).strideIndex * 4).toNat % 2 ^ 32),
           (((([{ exampleBinding 20 0 with strideIndex := 1 }] : List IlcBinding).getD 0
              ⟨0, ILC_BINDING_SAMPLER, 0, 0, 0, 0, 0⟩).strideIndex * 4).toNat % 2 ^ 32)] ∨
        slot.strideOffsets.take 2 =
          [(((([{ exampleBinding 20 0 with strideIndex := 1 }] : List IlcBinding).getD 0
              ⟨0, ILC_BINDING_SAMPLER, 0, 0, 0, 0, 0⟩).strideIndex * 4).toNat % 2 ^ 32),
           (((([{ exampleBinding 10 0 with strideIndex := 0 }] : List IlcBinding).getD 0
              ⟨0, ILC_BINDING_SAMPLER, 0, 0, 0, 0, 0⟩).strideIndex * 4).toNat % 2 ^ 32)]) :=
  getDescriptorSlotMappings_nested_shared exampleLimits (fun _ => 0) stableQsort (fun _ => 0)
    [{ exampleBinding 10 0 with strideIndex := 0 }] [{ exampleBinding 20 0 with strideIndex := 1 }]
    [] [] GR_SLOT_SHADER_RESOURCE 0 0 [] 0 0 [exampleMappingB] [exampleMappingB] 1 16
    exampleStrideBuffers 0 2 (by decide) (by decide)
    (fun l => List.perm_insertionSort _ l) (by decide) (by decide) rfl rfl (by decide)
    (by decide) (by decide) (by decide)

/-- C11 (as stated, refuted): two stages use, with stride constants 0 and 1, the resource in
slot 0 of the nested set reached from root slot 0. Resolution produces one merged slot
with two stride pairs, but its PathKey is not `[0, 0]`: the path holds one entry. -/
theorem nested_shared_slot_pathKey_not_two_deep :
    ∃ slot buffers1,
      getDescriptorSlotMappings exampleLimits (fun _ => 0) stableQsort (fun _ => 0) []
        [exampleStrideStage 10 0 1, exampleStrideStage 20 1 16]
        exampleStrideBuffers 0 2 = .ok ([slot], buffers1) ∧
      slot.strideCount = 2 ∧ pathKey slot ≠ (2, [0, 0]) ∧
      slot.path.take slot.pathDepth ≠ [0, 0] := by
  obtain ⟨slot, buffers1, h, hk, hc, _, _⟩ :=
    getDescriptorSlotMappings_nested exampleLimits (fun _ => 0) stableQsort (fun _ => 0)
      [{ exampleBinding 10 0 with strideIndex := 0 }]
      [{ exampleBinding 20 0 with strideIndex := 1 }]
      [] [] GR_SLOT_SHADER_RESOURCE 0 0 [] 0 0 [exampleMappingB] [exampleMappingB] 1 16
      exampleStrideBuffers 0 2 (by decide) (by decide)
      (fun l => List.perm_insertionSort _ l) (by decide) (by decide) rfl rfl (by decide)
      (by decide) (by decide) (by decide)
  refine ⟨slot, buffers1, h, hc, ?_, ?_⟩
  · rw [hk]
    decide
  · have := congrArg Prod.snd hk
    simp only [pathKey] at this
    rw [this]
    decide

/-! ## The pipeline layout request -/

theorem foldl_setLayouts (v : Nat) (n : Nat) :
    ∀ base : List Nat, n + 2 ≤ base.length →
      ((List.range n).foldl (fun acc i => acc.set (i + 2) v) base).length = base.length ∧
      ((List.range n).foldl (fun acc i => acc.set (i + 2) v) base).getD 0 0 = base.getD 0 0 ∧
      ((List.range n).foldl (fun acc i => acc.set (i + 2) v) base).getD 1 0 = base.getD 1 0 ∧
      ∀ i, 2 ≤ i → i < n + 2 →
        ((List.range n).foldl (fun acc i => acc.set (i + 2) v) base).getD i 0 = v := by
  induction n with
  | zero =>
    intro base _
    refine ⟨rfl, rfl, rfl, ?_⟩
    intro i h1 h2
    omega
  | succ n ih =>
    intro base hlen
    obtain ⟨h1, h2, h3, h4⟩ := ih base (by omega)
    rw [List.range_succ, List.foldl_append]
    simp only [List.foldl_cons, List.foldl_nil, List.length_set]
    refine ⟨h1, ?_, ?_, ?_⟩
    · rw [getD_set_other _ _ _ _ _ (by omega), h2]
    · rw [getD_set_other _ _ _ _ _ (by omega), h3]
    · intro i hi1 hi2
      by_cases hi : i = n + 2
      · rw [hi, getD_set_self _ _ _ _ (by omega)]
      · rw [getD_set_other _ _ _ _ _ (fun h => hi h.symm)]
        exact h4 i hi1 (by omega)

theorem getVkPipelineLayout_eq (Y : BlobLayout) (native : NativeApi) (grDevice : GrDevice)
    (n : Nat) (bp : VkPipelineBindPoint) (h : (n + 2) % 2 ^ 32 ≤ 32) :
    getVkPipelineLayout Y native grDevice n bp =
      .ok (native.vkCreatePipelineLayout (layoutCreateInfo Y grDevice n bp)) := by
  unfold getVkPipelineLayout layoutCreateInfo
  simp only
  rw [if_neg (not_not.mpr h)]

/-- C17: `getVkPipelineLayout` stops on its assertion exactly when the 32-bit sum
`descriptorSetCount + 2` is above 32, the size of its array of set layouts; for a count
whose sum with 2 does not wrap this is `descriptorSetCount + 2 > 32`; and when it does not
stop there, the layout it requests from the native API has
`setLayoutCount = descriptorSetCount + 2 ≤ 32`. -/
theorem getVkPipelineLayout_asserts_iff (Y : BlobLayout) (grDevice : GrDevice)
    (descriptorSetCount : Nat) (vkBindPoint : VkPipelineBindPoint)
    (hn : descriptorSetCount + 2 < 2 ^ 32) :
    (∀ native, getVkPipelineLayout Y native grDevice descriptorSetCount vkBindPoint =
        .error Fault.assertion ↔ 32 < (descriptorSetCount + 2) % 2 ^ 32) ∧
    (∀ native, getVkPipelineLayout Y native grDevice descriptorSetCount vkBindPoint =
        .error Fault.assertion ↔ 32 < descriptorSetCount + 2) ∧
    (¬ 32 < descriptorSetCount + 2 →
      ∃ info, (∀ native, getVkPipelineLayout Y native grDevice descriptorSetCount vkBindPoint =
          .ok (native.vkCreatePipelineLayout info)) ∧
        info.setLayoutCount = descriptorSetCount + 2 ∧ info.setLayoutCount ≤ 32) := by
  have hmod : (descriptorSetCount + 2) % 2 ^ 32 = descriptorSetCount + 2 :=
    Nat.mod_eq_of_lt hn
  refine ⟨?_, ?_, ?_⟩
  · intro native
    unfold getVkPipelineLayout
    simp only
    by_cases h : (descriptorSetCount + 2) % 2 ^ 32 ≤ 32
    · rw [if_neg (not_not.mpr h)]
      constructor
      · intro h1; cases h1
      · intro h1; omega
    · rw [if_pos h]
      constructor
      · intro _; omega
      · intro _; rfl
  · intro native
    unfold getVkPipelineLayout
    simp only
    rw [hmod]
    by_cases h : descriptorSetCount + 2 ≤ 32
    · rw [if_neg (not_not.mpr h)]
      constructor
      · intro h1; cases h1
      · intro h1; omega
    · rw [if_pos h]
      constructor
      · intro _; omega
      · intro _; rfl
  · intro h
    refine ⟨layoutCreateInfo Y grDevice descriptorSetCount vkBindPoint, fun native => ?_, ?_, ?_⟩
    · exact getVkPipelineLayout_eq Y native grDevice _ _ (by rw [hmod]; omega)
    · simp only [layoutCreateInfo, hmod]
    · simp only [layoutCreateInfo, hmod]
      omega

theorem getVkPipelineLayout_asserts_iff_witness :
    (∀ native, getVkPipelineLayout exampleLayout native exampleDevice 3
        VK_PIPELINE_BIND_POINT_GRAPHICS = .error Fault.assertion ↔ 32 < (3 + 2) % 2 ^ 32) ∧
    (∀ native, getVkPipelineLayout exampleLayout native exampleDevice 3
        VK_PIPELINE_BIND_POINT_GRAPHICS = .error Fault.assertion ↔ 32 < 3 + 2) ∧
    (¬ 32 < 3 + 2 →
      ∃ info, (∀ native, getVkPipelineLayout exampleLayout native exampleDevice 3
          VK_PIPELINE_BIND_POINT_GRAPHICS = .ok (native.vkCreatePipelineLayout info)) ∧
        info.setLayoutCount = 3 + 2 ∧ info.setLayoutCount ≤ 32) :=
  getVkPipelineLayout_asserts_iff exampleLayout exampleDevice 3 VK_PIPELINE_BIND_POINT_GRAPHICS
    (by decide)

/-- C18: for every count `N ≤ 30`, the create-info that `getVkPipelineLayout` passes to the
native layout call has `N + 2` set layouts: entry 0 is `defaultDescriptorSetLayout` when
`descriptorBufferSupported` and `dynamicMemorySetLayout` otherwise, entry 1 is
`descriptorPushSetLayout` when `descriptorBufferSupported` and `atomicCounterSetLayout`
otherwise, entries `2 .. N + 1` are `defaultDescriptorSetLayout`; and it has exactly one
push-constant range, with offset 0, size
`(DESCRIPTOR_OFFSET_COUNT + ILC_MAX_STRIDE_CONSTANTS) * 4` and stage flags
`VK_SHADER_STAGE_ALL_GRAPHICS` for the graphics bind point and
`VK_SHADER_STAGE_COMPUTE_BIT` otherwise. -/
theorem getVkPipelineLayout_create_info (Y : BlobLayout) (grDevice : GrDevice) (N : Nat)
    (vkBindPoint : VkPipelineBindPoint) (hN : N ≤ 30) :
    ∃ info, (∀ native, getVkPipelineLayout Y native grDevice N vkBindPoint =
        .ok (native.vkCreatePipelineLayout info)) ∧
      info.setLayoutCount = N + 2 ∧
      info.pSetLayouts.getD 0 0 =
        (if grDevice.descriptorBufferSupported then grDevice.defaultDescriptorSetLayout
         else grDevice.dynamicMemorySetLayout) ∧
      info.pSetLayouts.getD 1 0 =
        (if grDevice.descriptorBufferSupported then grDevice.descriptorPushSetLayout
         else grDevice.atomicCounterSetLayout) ∧
      (∀ i, 2 ≤ i → i < N + 2 →
        info.pSetLayouts.getD i 0 = grDevice.defaultDescriptorSetLayout) ∧
      info.pPushConstantRanges =
        [{ stageFlags :=
             if vkBindPoint = VK_PIPELINE_BIND_POINT_GRAPHICS then VK_SHADER_STAGE_ALL_GRAPHICS
             else VK_SHADER_STAGE_COMPUTE_BIT
           offset := 0
           size := (Y.DESCRIPTOR_OFFSET_COUNT + Y.ILC_MAX_STRIDE_CONSTANTS) * 4 }] := by
  have hmod : (N + 2) % 2 ^ 32 = N + 2 := Nat.mod_eq_of_lt (by omega)
  obtain ⟨_, h2, h3, h4⟩ := foldl_setLayouts grDevice.defaultDescriptorSetLayout N
    ([if grDevice.descriptorBufferSupported then grDevice.defaultDescriptorSetLayout
        else grDevice.dynamicMemorySetLayout,
      if grDevice.descriptorBufferSupported then grDevice.descriptorPushSetLayout
        else grDevice.atomicCounterSetLayout] ++ List.replicate 30 0)
    (by simp; omega)
  refine ⟨layoutCreateInfo Y grDevice N vkBindPoint, fun native => ?_, ?_, ?_, ?_, ?_, ?_⟩
  · exact getVkPipelineLayout_eq Y native grDevice _ _ (by rw [hmod]; omega)
  · simp only [layoutCreateInfo, hmod]
  · simp only [layoutCreateInfo]
    rw [h2]
    rfl
  · simp only [layoutCreateInfo]
    rw [h3]
    rfl
  · intro i hi1 hi2
    exact h4 i hi1 hi2
  · simp only [layoutCreateInfo, Nat.add_mul]

theorem getVkPipelineLayout_create_info_witness :
    ∃ info, (∀ native, getVkPipelineLayout exampleLayout native exampleDevice 3
        VK_PIPELINE_BIND_POINT_COMPUTE = .ok (native.vkCreatePipelineLayout info)) ∧
      info.setLayoutCount = 3 + 2 ∧
      info.pSetLayouts.getD 0 0 =
        (if exampleDevice.descriptorBufferSupported then exampleDevice.defaultDescriptorSetLayout
         else exampleDevice.dynamicMemorySetLayout) ∧
      info.pSetLayouts.getD 1 0 =
        (if exampleDevice.descriptorBufferSupported then exampleDevice.descriptorPushSetLayout
         else exampleDevice.atomicCounterSetLayout) ∧
      (∀ i, 2 ≤ i → i < 3 + 2 →
        info.pSetLayouts.getD i 0 = exampleDevice.defaultDescriptorSetLayout) ∧
      info.pPushConstantRanges =
        [{ stageFlags :=
             if VK_PIPELINE_BIND_POINT_COMPUTE = VK_PIPELINE_BIND_POINT_GRAPHICS then
               VK_SHADER_STAGE_ALL_GRAPHICS
             else VK_SHADER_STAGE_COMPUTE_BIT
           offset := 0
           size := (exampleLayout.DESCRIPTOR_OFFSET_COUNT +
             exampleLayout.ILC_MAX_STRIDE_CONSTANTS) * 4 }] :=
  getVkPipelineLayout_create_info exampleLayout exampleDevice 3 VK_PIPELINE_BIND_POINT_COMPUTE
    (by decide)

/-! ## The sizing pass of `grStorePipeline` -/

theorem stageChunks_span (Y : BlobLayout) (p : GrPipeline) (i : Nat) :
    ((stageChunks p i).map (chunkSpan Y)).sum = stageStoredSize Y p i := by
  unfold stageChunks stageStoredSize
  generalize p.specInfos.getD i default = info
  generalize p.shaderCode.getD i none = c
  cases c <;> by_cases hd : info.dataSize > 0 <;> by_cases hm : info.mapEntryCount > 0 <;>
    (simp [hd, hm, chunkSpan, StoredChunk.payloadSize, roundedChunk]; try omega)

theorem flatMap_span (Y : BlobLayout) (p : GrPipeline) (l : List Nat) :
    ((l.flatMap (stageChunks p)).map (chunkSpan Y)).sum =
      (l.map (stageStoredSize Y p)).sum := by
  induction l with
  | nil => rfl
  | cons i l ih =>
    rw [List.flatMap_cons, List.map_append, List.sum_append, ih, stageChunks_span]
    simp

theorem idealSize_storedChunks (Y : BlobLayout) (p : GrPipeline)
    (htotal : descriptorSetTotal Y p < 2 ^ 32) :
    idealSize Y (storedChunks Y p) = storedPipelineSize Y p := by
  have ht : totalDescriptorSets Y p.descriptorSetCounts = descriptorSetTotal Y p :=
    totalDescriptorSets_eq_sum Y p.descriptorSetCounts htotal
  unfold idealSize storedChunks storedPipelineSize storedDescriptorSlots
  rw [ht]
  simp only [List.map_append, List.sum_append, flatMap_span]
  generalize descriptorSetTotal Y p = total
  cases p.createInfo <;> by_cases hd : total > 0 <;>
    simp [hd, chunkSpan, StoredChunk.payloadSize, roundedChunk, storedPipelineInfo,
      storedGraphicsInfo] <;> omega

/-- C19: for a pipeline whose stored size fits `GR_SIZE` and whose total of
`descriptorSetCounts` fits `unsigned`, `grStorePipeline` called with a null buffer returns
`GR_SUCCESS` and sets `*pDataSize` to `sizeof(GrStoredPipelineBlob)` plus, each rounded up
to a multiple of 4 together with its chunk header: one `PIPELINE_INFO` chunk, one
`GRAPHICS_PIPELINE_INFO` chunk iff `createInfo` is non-null, one `DESCRIPTOR_SLOTS` chunk
iff the total of `descriptorSetCounts` is above 0, and for every stage index below
`MAX_STAGE_COUNT` one `SPIRV` chunk iff `shaderCode[i]` is non-null, one `SPEC_INFO` chunk
iff `specInfos[i].dataSize > 0` and one `SPEC_INFO_ENTRIES` chunk iff
`specInfos[i].mapEntryCount > 0`. -/
theorem grStorePipeline_sizing (Y : BlobLayout) (grPipeline : GrPipeline) (dataSize : Nat)
    (hfit : storedPipelineSize Y grPipeline + 3 < 2 ^ Y.sizeBits)
    (htotal : descriptorSetTotal Y grPipeline < 2 ^ 32) :
    (grStorePipeline Y grPipeline (some dataSize) none).result = GR_SUCCESS ∧
    (grStorePipeline Y grPipeline (some dataSize) none).dataSize =
      some (storedPipelineSize Y grPipeline) := by
  have h := idealSize_storedChunks Y grPipeline htotal
  have hs := storeSize_eq Y grPipeline (by rw [h]; exact hfit)
  unfold grStorePipeline
  simp only [hs, h, and_self]

theorem grStorePipeline_sizing_witness :
    (grStorePipeline exampleLayout exampleCreatedPipeline (some 0) none).result = GR_SUCCESS ∧
    (grStorePipeline exampleLayout exampleCreatedPipeline (some 0) none).dataSize =
      some (storedPipelineSize exampleLayout exampleCreatedPipeline) :=
  grStorePipeline_sizing exampleLayout exampleCreatedPipeline 0 (by decide) (by decide)

/-! ## The fill pass of `grStorePipeline` stays inside the size of the sizing pass -/

theorem emitAll_snd_eq (Y : BlobLayout) (hB : Y.sizeofGrBaseBlobChunk % 4 = 0)
    (cs : List StoredChunk) :
    ∀ st : FillState, (∀ x ∈ cs, x.payloadSize Y + 3 < 2 ^ 32) →
      (emitAll Y cs st).2 = st.2 + (cs.map (chunkSpan Y)).sum := by
  induction cs with
  | nil => intro st _; rfl
  | cons x cs ih =>
    intro st h
    have hx := h x (by simp)
    rw [emitAll_cons, ih _ (fun y hy => h y (by simp [hy])), emitChunk_snd, write_size32]
    have h1 : x.payloadSize Y % 2 ^ 32 = x.payloadSize Y := Nat.mod_eq_of_lt (by omega)
    have h2 : (x.payloadSize Y + 3) % 2 ^ 32 = x.payloadSize Y + 3 := Nat.mod_eq_of_lt hx
    simp only [alignU32, h1, h2, List.map_cons, List.sum_cons, chunkSpan]
    omega

theorem sum_span_mod (Y : BlobLayout) (cs : List StoredChunk) :
    (cs.map (chunkSpan Y)).sum % 4 = 0 := by
  induction cs with
  | nil => rfl
  | cons x cs ih =>
    simp only [List.map_cons, List.sum_cons]
    have : chunkSpan Y x % 4 = 0 := by unfold chunkSpan; omega
    omega

theorem payload_small (Y : BlobLayout) (cs : List StoredChunk)
    (hsmall : idealSize Y cs + 3 < 2 ^ 32) : ∀ x ∈ cs, x.payloadSize Y + 3 < 2 ^ 32 := by
  intro x hx
  obtain ⟨k, hk, rfl⟩ := List.getElem_of_mem hx
  have h1 := idealSize_mid Y (cs.take k) (cs.drop (k + 1)) (cs.get ⟨k, hk⟩)
  rw [← take_decomp cs k hk] at h1
  have hsp := chunkSpan_bounds Y (cs.get ⟨k, hk⟩)
  have h0 : Y.sizeofGrStoredPipelineBlob ≤ idealSize Y (cs.take k) := by
    unfold idealSize; omega
  simp only [List.get_eq_getElem] at h1 hsp
  omega

/-- C20: for a pipeline whose stored form stays below 4 GiB (the chunk size field has 32
bits), in a layout where the blob header and the chunk header are multiples of 4 bytes:
when `grStorePipeline` is called with a buffer whose size is the size returned by the
sizing call, it succeeds, the fill pass writes the chunks of the stored form one after the
other from the end of the blob header, every chunk starts at an offset that is a multiple
of 4, the header and payload of a chunk end at or before the start of the next chunk, no
chunk starts or ends past the reported size, and the offset just past the last chunk,
padding included, is exactly that size. -/
theorem grStorePipeline_fill_within_size (Y : BlobLayout) (grPipeline : GrPipeline)
    (buf : GrStoredPipelineBlob)
    (hH : Y.sizeofGrStoredPipelineBlob % 4 = 0) (hB : Y.sizeofGrBaseBlobChunk % 4 = 0)
    (hwide : 32 ≤ Y.sizeBits)
    (hsmall : idealSize Y (storedChunks Y grPipeline) + 3 < 2 ^ 32) :
    ∃ n, (grStorePipeline Y grPipeline (some 0) none).dataSize = some n ∧
      (grStorePipeline Y grPipeline (some n) (some buf)).result = GR_SUCCESS ∧
      (grStorePipeline Y grPipeline (some n) (some buf)).data =
        some (fillBlob Y grPipeline buf).1 ∧
      fillBlob Y grPipeline buf =
        emitAll Y (storedChunks Y grPipeline)
          ({ buf with version := 0 }, Y.sizeofGrStoredPipelineBlob) ∧
      fillOffset Y grPipeline buf 0 = Y.sizeofGrStoredPipelineBlob ∧
      (∀ k (hk : k < (storedChunks Y grPipeline).length),
        fillOffset Y grPipeline buf k % 4 = 0 ∧
        fillOffset Y grPipeline buf k + Y.sizeofGrBaseBlobChunk +
            ((storedChunks Y grPipeline).get ⟨k, hk⟩).payloadSize Y ≤
          fillOffset Y grPipeline buf (k + 1) ∧
        fillOffset Y grPipeline buf (k + 1) ≤ n) ∧
      (fillBlob Y grPipeline buf).2 = n := by
  have hpow : (2 : Nat) ^ 32 ≤ 2 ^ Y.sizeBits := Nat.pow_le_pow_right (by decide) hwide
  have hs := storeSize_eq Y grPipeline (by omega)
  have hpay := payload_small Y _ hsmall
  have hoff : ∀ k, fillOffset Y grPipeline buf k =
      idealSize Y ((storedChunks Y grPipeline).take k) := by
    intro k
    unfold fillOffset
    rw [emitAll_snd_eq Y hB _ _ (fun x hx => hpay x (List.mem_of_mem_take hx))]
    rfl
  refine ⟨idealSize Y (storedChunks Y grPipeline), ?_, ?_, ?_, fillBlob_eq Y grPipeline buf,
    rfl, ?_, ?_⟩
  · simp only [grStorePipeline, hs]
  · simp only [grStorePipeline, hs, Nat.lt_irrefl, if_false]
  · simp only [grStorePipeline, hs, Nat.lt_irrefl, if_false]
  · intro k hk
    rw [hoff, hoff, take_succ_get _ k hk, idealSize_snoc]
    have hsp := chunkSpan_bounds Y ((storedChunks Y grPipeline).get ⟨k, hk⟩)
    have hle := idealSize_take_le Y (storedChunks Y grPipeline) (k + 1)
    rw [take_succ_get _ k hk, idealSize_snoc] at hle
    have hmod := sum_span_mod Y ((storedChunks Y grPipeline).take k)
    refine ⟨?_, by omega, hle⟩
    unfold idealSize
    omega
  · rw [fillBlob_eq, emitAll_snd_eq Y hB _ _ hpay]
    rfl

theorem grStorePipeline_fill_within_size_witness :
    ∃ n, (grStorePipeline exampleLayout exampleCreatedPipeline (some 0) none).dataSize =
        some n ∧
      (grStorePipeline exampleLayout exampleCreatedPipeline (some n)
        (some exampleTwoInfoBlob)).result = GR_SUCCESS ∧
      (grStorePipeline exampleLayout exampleCreatedPipeline (some n)
        (some exampleTwoInfoBlob)).data =
        some (fillBlob exampleLayout exampleCreatedPipeline exampleTwoInfoBlob).1 ∧
      fillBlob exampleLayout exampleCreatedPipeline exampleTwoInfoBlob =
        emitAll exampleLayout (storedChunks exampleLayout exampleCreatedPipeline)
          ({ exampleTwoInfoBlob with version := 0 },
            exampleLayout.sizeofGrStoredPipelineBlob) ∧
      fillOffset exampleLayout exampleCreatedPipeline exampleTwoInfoBlob 0 =
        exampleLayout.sizeofGrStoredPipelineBlob ∧
      (∀ k (hk : k < (storedChunks exampleLayout exampleCreatedPipeline).length),
        fillOffset exampleLayout exampleCreatedPipeline exampleTwoInfoBlob k % 4 = 0 ∧
        fillOffset exampleLayout exampleCreatedPipeline exampleTwoInfoBlob k +
            exampleLayout.sizeofGrBaseBlobChunk +
            ((storedChunks exampleLayout exampleCreatedPipeline).get ⟨k, hk⟩).payloadSize
              exampleLayout ≤
          fillOffset exampleLayout exampleCreatedPipeline exampleTwoInfoBlob (k + 1) ∧
        fillOffset exampleLayout exampleCreatedPipeline exampleTwoInfoBlob (k + 1) ≤ n) ∧
      (fillBlob exampleLayout exampleCreatedPipeline exampleTwoInfoBlob).2 = n :=
  grStorePipeline_fill_within_size exampleLayout exampleCreatedPipeline exampleTwoInfoBlob
    (by decide) (by decide) (by decide) (by decide)

/-! ## Descriptor resolution stops only on an assertion -/

theorem extractStages_fault (L : Limits) (gdo : Nat → Nat) (uninit : Nat → Nat) (mi : Nat)
    (stages : List Stage) :
    ∀ (i : Nat) (acc : List PipelineDescriptorSlot × List StageBuffers) (e : Fault),
      extractStages L gdo uninit mi i stages acc = .error e → e = Fault.assertion := by
  induction stages with
  | nil => intro i acc e h; simp [extractStages] at h
  | cons stage rest ih =>
    intro i acc e h
    obtain ⟨slots, bufs⟩ := acc
    rw [extractStages] at h
    cases hs : stage.shader.shader with
    | none =>
      simp only [hs] at h
      exact ih _ _ _ h
    | some sh =>
      simp only [hs, getDescriptorSlotsFromMapping] at h
      have hx := extractSlots_spec L gdo sh.bindings
        (stage.shader.descriptorSetMapping.getD mi []) 0 0
        { descriptorSlots := slots, offsets := (bufs.getD i default).specOffsets,
          path := localPath L uninit } (localPath_length L uninit) (Nat.zero_le _)
      revert h hx
      cases extractSlots L gdo sh.bindings 0 0 (stage.shader.descriptorSetMapping.getD mi [])
        { descriptorSlots := slots, offsets := (bufs.getD i default).specOffsets,
          path := localPath L uninit } with
      | error e1 =>
        simp only
        intro h hx
        cases h
        exact hx.1
      | ok st =>
        simp only
        intro h _
        exact ih _ _ _ h

theorem setupStages_fault (L : Limits) (uninit : Nat → Nat) (mi : Nat)
    (slots : List PipelineDescriptorSlot) (off : Nat) (stages : List Stage) :
    ∀ (i : Nat) (bufs : List StageBuffers) (e : Fault),
      setupStages L uninit mi slots off i stages bufs = .error e → e = Fault.assertion := by
  induction stages with
  | nil => intro i bufs e h; simp [setupStages] at h
  | cons stage rest ih =>
    intro i bufs e h
    rw [setupStages] at h
    cases hs : stage.shader.shader with
    | none =>
      simp only [hs] at h
      exact ih _ _ _ h
    | some sh =>
      simp only [hs, setupDescriptorSetIndices] at h
      have hx := setupSlots_fault L slots sh.bindings off
        (stage.shader.descriptorSetMapping.getD mi [])
        (lookupDescriptorSetIndex slots 0 (localPath L uninit)) 0 0
        { patchEntries := (bufs.getD i default).patchEntries
          descriptorSetIndices := (bufs.getD i default).specDescriptorIndices
          path := localPath L uninit }
      revert h hx
      cases setupSlots L slots sh.bindings off
        (lookupDescriptorSetIndex slots 0 (localPath L uninit)) 0 0
        (stage.shader.descriptorSetMapping.getD mi [])
        { patchEntries := (bufs.getD i default).patchEntries
          descriptorSetIndices := (bufs.getD i default).specDescriptorIndices
          path := localPath L uninit } with
      | error e1 =>
        simp only
        intro h hx
        cases h
        exact hx.1
      | ok st =>
        simp only
        intro h _
        exact ih _ _ _ h

theorem mergeDescriptorSlots_fault (L : Limits) (qsort : Qsort)
    (slots : List PipelineDescriptorSlot) (e : Fault)
    (h : mergeDescriptorSlots L qsort slots = .error e) : e = Fault.assertion := by
  unfold mergeDescriptorSlots at h
  rcases mergeLoop_fault L _ _ _ h with h1 | h1
  · exact h1
  · rw [h1] at h
    exact absurd h (mergeLoop_total L _ _ (by simp)).1

theorem getDescriptorSlotMappings_fault (L : Limits) (gdo : Nat → Nat) (qsort : Qsort)
    (uninit : Nat → Nat) (slots0 : List PipelineDescriptorSlot) (stages : List Stage)
    (buffers : List StageBuffers) (mi off : Nat) (e : Fault)
    (h : getDescriptorSlotMappings L gdo qsort uninit slots0 stages buffers mi off =
      .error e) : e = Fault.assertion := by
  unfold getDescriptorSlotMappings at h
  split at h
  · rename_i e1 he
    cases h
    exact extractStages_fault L gdo uninit mi stages _ _ _ he
  · split at h
    · rename_i e1 he
      cases h
      exact mergeDescriptorSlots_fault L qsort _ _ he
    · split at h
      · rename_i e1 he
        cases h
        exact setupStages_fault L uninit mi _ off stages _ _ _ he
      · cases h

theorem resolveMappings_fault (env : CreateEnv) (grDevice : GrDevice) (stages : List Stage)
    (is : List Nat) :
    ∀ (r : ResolvedMappings) (e : Fault),
      resolveMappings env grDevice stages is r = .error e → e = Fault.assertion := by
  induction is with
  | nil => intro r e h; simp [resolveMappings] at h
  | cons i rest ih =>
    intro r e h
    rw [resolveMappings] at h
    split at h
    · rename_i e1 he
      cases h
      exact getDescriptorSlotMappings_fault _ _ _ _ _ _ _ _ _ _ he
    · exact ih _ _ h

theorem resolveStages_fault (env : CreateEnv) (Y : BlobLayout) (grDevice : GrDevice)
    (stages : List Stage) (e : Fault)
    (h : resolveStages env Y grDevice stages = .error e) : e = Fault.assertion := by
  unfold resolveStages at h
  simp only at h
  split at h
  · rename_i e1 he
    cases h
    exact resolveMappings_fault env grDevice stages _ _ _ he
  · cases h

/-! ## The third stage loop when every shader module is created -/

theorem buildStage_next (env : CreateEnv) (native : NativeApi)
    (hnat : ∀ code, (native.vkCreateShaderModule code).isSome = true)
    (stages : List Stage) (i : Nat) (stage : Stage) (st : BuiltStages) :
    ∃ st1, buildStage env native stages i stage st = .next st1 ∧
      st1.stageCount = st.stageCount + (if stage.shader.shader.isSome then 1 else 0) := by
  unfold buildStage
  cases hs : stage.shader.shader with
  | none => exact ⟨st, rfl, by simp⟩
  | some sh =>
    simp only
    generalize hc : (Option.getD _ (env.patchShaderBindings sh.code (st.patchEntries.getD i none)
      sh.bindings.length)) = code
    obtain ⟨m, hm⟩ := Option.isSome_iff_exists.mp (hnat code)
    rw [hm]
    exact ⟨_, rfl, by simp⟩

theorem buildStages_next (env : CreateEnv) (native : NativeApi)
    (hnat : ∀ code, (native.vkCreateShaderModule code).isSome = true)
    (stages : List Stage) (rest : List Stage) :
    ∀ (i : Nat) (st : BuiltStages),
      ∃ st1, buildStages env native stages i rest st = .next st1 ∧
        st1.stageCount = st.stageCount + rest.countP (fun s => s.shader.shader.isSome) := by
  induction rest with
  | nil => intro i st; exact ⟨st, rfl, by simp⟩
  | cons stage rest ih =>
    intro i st
    obtain ⟨st1, h1, hc1⟩ := buildStage_next env native hnat stages i stage st
    obtain ⟨st2, h2, hc2⟩ := ih (i + 1) st1
    refine ⟨st2, ?_, ?_⟩
    · rw [buildStages, h1]
      exact h2
    · rw [hc2, hc1, List.countP_cons]
      omega

theorem graphicsStages_count (pCreateInfo : GR_GRAPHICS_PIPELINE_CREATE_INFO)
    (hhs : pCreateInfo.hs.shader = none) (hds : pCreateInfo.ds.shader = none)
    (hgs : pCreateInfo.gs.shader = none) :
    (graphicsStages pCreateInfo).countP (fun s => s.shader.shader.isSome) =
      (if pCreateInfo.vs.shader.isSome then 1 else 0) +
        (if pCreateInfo.ps.shader.isSome then 1 else 0) := by
  unfold graphicsStages
  simp only [List.countP_cons, List.countP_nil, hhs, hds, hgs, Option.isSome_none]
  simp
  omega

/-- C12 (amended): for every `grCreateGraphicsPipeline` request with topology
`GR_TOPOLOGY_RECT_LIST`, when `vkCreateShaderModule` succeeds on every code: if the hull,
domain or geometry stage has a non-null shader, the call ends in an assertion and returns
neither a pipeline nor a result code; with none of the three present, once descriptor
resolution has returned, the third stage loop leaves as many stages as there are non-null
shaders among vertex and pixel, and the rectangle block adds exactly one stage after them,
at index `stageCount`, with the geometry stage bit, the module and the code of the
rectangle shader, leaving the other per-stage arrays as they are; and when the pipeline
layout is created the call returns `GR_SUCCESS` with a pipeline of that many stages. -/
theorem grCreateGraphicsPipeline_rect_list (env : CreateEnv) (Y : BlobLayout) (native : NativeApi)
    (grDevice : GrDevice) (pCreateInfo : GR_GRAPHICS_PIPELINE_CREATE_INFO)
    (htopo : pCreateInfo.topology = env.GR_TOPOLOGY_RECT_LIST)
    (hnat : ∀ code, (native.vkCreateShaderModule code).isSome = true) :
    ((pCreateInfo.hs.shader.isSome ∨ pCreateInfo.ds.shader.isSome ∨
        pCreateInfo.gs.shader.isSome) →
      grCreateGraphicsPipeline env Y native grDevice pCreateInfo = .error Fault.assertion) ∧
    (pCreateInfo.hs.shader = none → pCreateInfo.ds.shader = none →
      pCreateInfo.gs.shader = none →
      ∀ prepared resolved,
        resolveStages env Y grDevice (graphicsStages pCreateInfo) = .ok (prepared, resolved) →
        ∃ built st,
          buildStages env native (graphicsStages pCreateInfo) 0 (graphicsStages pCreateInfo)
            (initialBuilt env Y prepared resolved) = .next built ∧
          built.stageCount = (if pCreateInfo.vs.shader.isSome then 1 else 0) +
            (if pCreateInfo.ps.shader.isSome then 1 else 0) ∧
          rectangleStage env native pCreateInfo built = .ok (.next st) ∧
          st.stageCount = built.stageCount + 1 ∧
          st.shaderStageCreateInfo =
            built.shaderStageCreateInfo.set built.stageCount
              { stage := VK_SHADER_STAGE_GEOMETRY_BIT
                module := native.vkCreateShaderModule
                  (rectangleShaderCode env pCreateInfo) } ∧
          st.shaderCode =
            built.shaderCode.set built.stageCount
              (some (rectangleShaderCode env pCreateInfo)) ∧
          st.patchEntries = built.patchEntries ∧ st.specData = built.specData ∧
          st.mapEntries = built.mapEntries ∧ st.specInfos = built.specInfos ∧
          ∀ pipelineLayout,
            getVkPipelineLayout Y native grDevice
              (totalDescriptorSets Y resolved.descriptorSetCounts)
              VK_PIPELINE_BIND_POINT_GRAPHICS = .ok (some pipelineLayout) →
            ∃ p, grCreateGraphicsPipeline env Y native grDevice pCreateInfo =
                .ok { result := GR_SUCCESS, pipeline := some p } ∧
              p.stageCount = built.stageCount + 1 ∧
              p.shaderCode = st.shaderCode ∧
              p.createInfo = some (graphicsCreateInfo env Y pCreateInfo st)) := by
  constructor
  · intro hany
    unfold grCreateGraphicsPipeline
    simp only
    cases hr : resolveStages env Y grDevice (graphicsStages pCreateInfo) with
    | error e =>
      simp only
      rw [resolveStages_fault env Y grDevice _ e hr]
    | ok pr =>
      obtain ⟨prepared, resolved⟩ := pr
      simp only
      obtain ⟨built, hb, _⟩ := buildStages_next env native hnat (graphicsStages pCreateInfo)
        (graphicsStages pCreateInfo) 0 (initialBuilt env Y prepared resolved)
      rw [hb]
      simp only [rectangleStage, htopo, if_true, hany]
  · intro hhs hds hgs prepared resolved hr
    obtain ⟨built, hb, hc⟩ := buildStages_next env native hnat (graphicsStages pCreateInfo)
      (graphicsStages pCreateInfo) 0 (initialBuilt env Y prepared resolved)
    rw [graphicsStages_count pCreateInfo hhs hds hgs] at hc
    have hnone : ¬ (pCreateInfo.hs.shader.isSome ∨ pCreateInfo.ds.shader.isSome ∨
        pCreateInfo.gs.shader.isSome) := by
      simp [hhs, hds, hgs]
    obtain ⟨m, hm⟩ := Option.isSome_iff_exists.mp (hnat
      (rectangleShaderCode env pCreateInfo))
    have hrect : rectangleStage env native pCreateInfo built = .ok (.next
        { built with
          shaderModules := built.shaderModules.set built.stageCount (some m)
          shaderCode := built.shaderCode.set built.stageCount
            (some (rectangleShaderCode env pCreateInfo))
          shaderCodeSizes := built.shaderCodeSizes.set built.stageCount
            ((rectangleShaderCode env pCreateInfo).length % 2 ^ 32)
          shaderStageCreateInfo := built.shaderStageCreateInfo.set built.stageCount
            { stage := VK_SHADER_STAGE_GEOMETRY_BIT, module := some m }
          stageCount := built.stageCount + 1 }) := by
      simp only [rectangleStage, htopo, if_true, hnone, if_false, hm]
    refine ⟨built, _, hb, by simpa [initialBuilt] using hc, hrect, rfl, ?_, rfl, rfl, rfl, rfl,
      rfl, ?_⟩
    · simp only [hm]
    · intro pipelineLayout hl
      unfold grCreateGraphicsPipeline
      simp only [hr, hb, hrect, hl]
      exact ⟨_, rfl, rfl, rfl, rfl⟩

theorem grCreateGraphicsPipeline_rect_list_witness :
    grCreateGraphicsPipeline exampleEnv exampleLayout exampleNative exampleDevice
      exampleRectListRequest = .error Fault.assertion :=
  (grCreateGraphicsPipeline_rect_list exampleEnv exampleLayout exampleNative exampleDevice
    exampleRectListRequest rfl (fun _ => rfl)).1 (by decide)

/-- C12 (as stated, refuted): a rect-list request with a non-null geometry shader, on a
device whose `vkCreateShaderModule` fails: the call does not reach the assertion, it
returns the result code of the failed module creation and no pipeline. -/
theorem rect_list_with_geometry_returns_code :
    exampleRectListRequest.topology = exampleEnv.GR_TOPOLOGY_RECT_LIST ∧
    exampleRectListRequest.gs.shader.isSome = true ∧
    grCreateGraphicsPipeline exampleEnv exampleLayout exampleFailingNative exampleDevice
      exampleRectListRequest = .ok { result := GR_ERROR_OUT_OF_MEMORY, pipeline := none } := by
  refine ⟨rfl, rfl, ?_⟩
  decide

/-! ## A shader whose only binding is the dynamic memory view -/

theorem prepareStage_frame (env : CreateEnv) (Y : BlobLayout) (grDevice : GrDevice)
    (i s : Nat) (stage : Stage) (st : PreparedStages) (h : i ≠ s) :
    (prepareStage env Y grDevice i stage st).buffers.getD s default =
        st.buffers.getD s default ∧
      (prepareStage env Y grDevice i stage st).buffers.length = st.buffers.length ∧
      (st.dynamicMappingUsed = true →
        (prepareStage env Y grDevice i stage st).dynamicMappingUsed = true) := by
  unfold prepareStage
  cases hsx : stage.shader.shader with
  | none =>
    simp only
    exact ⟨trivial, trivial, fun h => h⟩
  | some sh =>
    simp only
    by_cases hb : sh.bindings.length = 0
    · simp only [hb, if_true]
      exact ⟨trivial, trivial, fun h => h⟩
    · simp only [hb, if_false, List.length_set]
      refine ⟨getD_set_other _ _ _ _ _ h, trivial, ?_⟩
      intro hd
      simp [hd]

theorem prepareStages_frame (env : CreateEnv) (Y : BlobLayout) (grDevice : GrDevice)
    (s : Nat) (rest : List Stage) :
    ∀ (i : Nat) (st : PreparedStages), s < i →
      (prepareStages env Y grDevice i rest st).buffers.getD s default =
          st.buffers.getD s default ∧
        (prepareStages env Y grDevice i rest st).buffers.length = st.buffers.length ∧
        (st.dynamicMappingUsed = true →
          (prepareStages env Y grDevice i rest st).dynamicMappingUsed = true) := by
  induction rest with
  | nil => intro i st _; exact ⟨rfl, rfl, fun h => h⟩
  | cons stage rest ih =>
    intro i st hi
    rw [prepareStages]
    obtain ⟨h1, h2, h3⟩ := prepareStage_frame env Y grDevice i s stage st (by omega)
    obtain ⟨h4, h5, h6⟩ := ih (i + 1) (prepareStage env Y grDevice i stage st) (by omega)
    exact ⟨h4.trans h1, h5.trans h2, fun h => h6 (h3 h)⟩

/-- The per-stage arrays that the first stage loop leaves for a stage whose shader has the
dynamic memory view as its one binding. -/
theorem prepareStages_dynamic (env : CreateEnv) (Y : BlobLayout) (grDevice : GrDevice)
    (stage : Stage) (sh : GrShader) (b : IlcBinding)
    (hsh : stage.shader.shader = some sh) (hb : sh.bindings = [b])
    (hdyn : dynamicMatches stage.shader.dynamicMemoryViewMapping b = true)
    (stages : List Stage) :
    ∀ (i s : Nat) (st : PreparedStages), stages[s]? = some stage →
      i + s < st.buffers.length →
      (prepareStages env Y grDevice i stages st).dynamicMappingUsed = true ∧
      (prepareStages env Y grDevice i stages st).buffers.length = st.buffers.length ∧
      (prepareStages env Y grDevice i stages st).buffers.getD (i + s) default =
        { patchEntries :=
            [{ id := b.id
               bindingIndex :=
                 if grDevice.descriptorBufferSupported then
                   env.DESCRIPTOR_BUFFERS_DYNAMIC_MAPPING_BINDING_ID
                 else env.DYNAMIC_MEMORY_VIEW_BINDING_ID
               descriptorSetIndex :=
                 if grDevice.descriptorBufferSupported then
                   env.DESCRIPTOR_BUFFERS_PUSH_DESCRIPTOR_SET_ID
                 else env.DYNAMIC_MEMORY_VIEW_DESCRIPTOR_SET_ID }]
          specOffsets := [0]
          specDescriptorIndices :=
            [if grDevice.descriptorBufferSupported then
               env.DESCRIPTOR_BUFFERS_PUSH_DESCRIPTOR_SET_ID
             else env.DYNAMIC_MEMORY_VIEW_DESCRIPTOR_SET_ID] } := by
  induction stages with
  | nil => intro i s st h; simp at h
  | cons stage0 rest ih =>
    intro i s st hs hlen
    rw [prepareStages]
    cases s with
    | zero =>
      simp only [List.getElem?_cons_zero, Option.some.injEq] at hs
      subst hs
      obtain ⟨h4, h5, h6⟩ := prepareStages_frame env Y grDevice i rest (i + 1)
        (prepareStage env Y grDevice i stage0 st) (by omega)
      have hstep : (prepareStage env Y grDevice i stage0 st).dynamicMappingUsed = true ∧
          (prepareStage env Y grDevice i stage0 st).buffers.length = st.buffers.length ∧
          (prepareStage env Y grDevice i stage0 st).buffers.getD i default =
            { patchEntries :=
                [{ id := b.id
                   bindingIndex :=
                     if grDevice.descriptorBufferSupported then
                       env.DESCRIPTOR_BUFFERS_DYNAMIC_MAPPING_BINDING_ID
                     else env.DYNAMIC_MEMORY_VIEW_BINDING_ID
                   descriptorSetIndex :=
                     if grDevice.descriptorBufferSupported then
                       env.DESCRIPTOR_BUFFERS_PUSH_DESCRIPTOR_SET_ID
                     else env.DYNAMIC_MEMORY_VIEW_DESCRIPTOR_SET_ID }]
              specOffsets := [0]
              specDescriptorIndices :=
                [if grDevice.descriptorBufferSupported then
                   env.DESCRIPTOR_BUFFERS_PUSH_DESCRIPTOR_SET_ID
                 else env.DYNAMIC_MEMORY_VIEW_DESCRIPTOR_SET_ID] } := by
        unfold prepareStage
        simp only [hsh, hb, List.length_singleton, one_ne_zero, if_false,
          handleDynamicDescriptorSlots, List.findIdx?_cons, hdyn, if_true, List.length_set,
          Bool.or_true, true_and]
        rw [getD_set_self _ _ _ _ (by omega)]
        simp [List.range_succ]
      simp only [Nat.add_zero] at h4 ⊢
      exact ⟨h6 hstep.1, h5.trans hstep.2.1, h4.trans hstep.2.2⟩
    | succ s =>
      simp only [List.getElem?_cons_succ] at hs
      obtain ⟨h1, h2, _⟩ := prepareStage_frame env Y grDevice i (i + 1 + s) stage0 st (by omega)
      have := ih (i + 1) s (prepareStage env Y grDevice i stage0 st) hs (by rw [h2]; omega)
      have e : i + (s + 1) = i + 1 + s := by omega
      rw [e]
      exact ⟨this.1, this.2.1.trans h2, this.2.2⟩

/-- One call of `getDescriptorSlotMappings` leaves the patch entries and the set indices of
a stage alone when no mapping slot of the stage's tree matches a binding. -/
theorem getDescriptorSlotMappings_unmatched (L : Limits) (gdo : Nat → Nat) (qsort : Qsort)
    (uninit : Nat → Nat) (slots0 : List PipelineDescriptorSlot) (stages : List Stage)
    (buffers : List StageBuffers) (mi off : Nat)
    (merged : List PipelineDescriptorSlot) (out : List StageBuffers)
    (h : getDescriptorSlotMappings L gdo qsort uninit slots0 stages buffers mi off =
      .ok (merged, out))
    (hlen : stages.length ≤ buffers.length)
    (s : Nat) (stage : Stage) (sh : GrShader)
    (hs : stages[s]? = some stage) (hsh : stage.shader.shader = some sh)
    (hno : matchedInMapping sh.bindings [] 0 (stage.shader.descriptorSetMapping.getD mi []) =
      []) :
    out.length = buffers.length ∧
      (out.getD s default).patchEntries = (buffers.getD s default).patchEntries ∧
      (out.getD s default).specDescriptorIndices =
        (buffers.getD s default).specDescriptorIndices := by
  unfold getDescriptorSlotMappings at h
  split at h
  · cases h
  · rename_i extracted buffers1 hex
    split at h
    · cases h
    · rename_i merged1 hm
      split at h
      · cases h
      · rename_i buffers2 hset
        simp only [Except.ok.injEq, Prod.mk.injEq] at h
        obtain ⟨rfl, rfl⟩ := h
        obtain ⟨hl1, hf1⟩ := extractStages_frame L gdo uninit mi stages 0 slots0 buffers
          extracted buffers1 hex
        obtain ⟨hl2, _, hsp⟩ := setupStages_spec L uninit mi merged1 off stages 0 buffers1
          buffers2 (by omega) hset
        obtain ⟨st1, hst, hp, hd⟩ := hsp s stage sh hs hsh
        unfold setupDescriptorSetIndices at hst
        obtain ⟨_, _, hfold⟩ := setupSlots_spec L merged1 sh.bindings off
          (stage.shader.descriptorSetMapping.getD mi []) 0 0 _ st1 (localPath_length L uninit)
          (Nat.zero_le _) hst
        simp only [List.take_zero, hno, List.foldl_nil, Prod.mk.injEq] at hfold
        simp only [Nat.zero_add] at hp hd
        refine ⟨hl2.trans hl1, ?_, ?_⟩
        · rw [hp, hfold.1, Nat.zero_add, (hf1 s).1]
        · rw [hd, hfold.2, Nat.zero_add, (hf1 s).2]

theorem resolveMappings_unmatched (env : CreateEnv) (grDevice : GrDevice)
    (stages : List Stage) (s : Nat) (stage : Stage) (sh : GrShader)
    (hs : stages[s]? = some stage) (hsh : stage.shader.shader = some sh) (is : List Nat) :
    ∀ (r out : ResolvedMappings),
      (∀ i ∈ is, matchedInMapping sh.bindings [] 0
        (stage.shader.descriptorSetMapping.getD i []) = []) →
      stages.length ≤ r.buffers.length →
      resolveMappings env grDevice stages is r = .ok out →
      (out.buffers.getD s default).patchEntries = (r.buffers.getD s default).patchEntries ∧
      (out.buffers.getD s default).specDescriptorIndices =
        (r.buffers.getD s default).specDescriptorIndices := by
  induction is with
  | nil =>
    intro r out _ _ h
    simp only [resolveMappings, Except.ok.injEq] at h
    subst h
    exact ⟨rfl, rfl⟩
  | cons i rest ih =>
    intro r out hno hlen h
    rw [resolveMappings] at h
    split at h
    · cases h
    · rename_i merged buffers hg
      obtain ⟨hl, hp, hd⟩ := getDescriptorSlotMappings_unmatched _ _ _ _ _ _ _ _ _ _ _ hg hlen
        s stage sh hs hsh (hno i (by simp))
      obtain ⟨hp2, hd2⟩ := ih _ out (fun k hk => hno k (by simp [hk])) (by simp only; omega) h
      exact ⟨hp2.trans hp, hd2.trans hd⟩

theorem prepareStage_mapEntries_frame (env : CreateEnv) (Y : BlobLayout) (grDevice : GrDevice)
    (i s : Nat) (stage : Stage) (st : PreparedStages) (h : i ≠ s) :
    (prepareStage env Y grDevice i stage st).mapEntries.getD s none =
        st.mapEntries.getD s none ∧
      (prepareStage env Y grDevice i stage st).mapEntries.length = st.mapEntries.length := by
  unfold prepareStage
  cases hsx : stage.shader.shader with
  | none =>
    simp only
    exact ⟨trivial, trivial⟩
  | some sh =>
    simp only
    by_cases hb : sh.bindings.length = 0
    · simp only [hb, if_true]
      exact ⟨trivial, trivial⟩
    · simp only [hb, if_false, List.length_set]
      exact ⟨getD_set_other _ _ _ _ _ h, trivial⟩

theorem prepareStages_mapEntries_frame (env : CreateEnv) (Y : BlobLayout)
    (grDevice : GrDevice) (s : Nat) (rest : List Stage) :
    ∀ (i : Nat) (st : PreparedStages), s < i →
      (prepareStages env Y grDevice i rest st).mapEntries.getD s none =
          st.mapEntries.getD s none ∧
        (prepareStages env Y grDevice i rest st).mapEntries.length = st.mapEntries.length := by
  induction rest with
  | nil => intro i st _; exact ⟨rfl, rfl⟩
  | cons stage rest ih =>
    intro i st hi
    rw [prepareStages]
    obtain ⟨h1, h2⟩ := prepareStage_mapEntries_frame env Y grDevice i s stage st (by omega)
    obtain ⟨h4, h5⟩ := ih (i + 1) (prepareStage env Y grDevice i stage st) (by omega)
    exact ⟨h4.trans h1, h5.trans h2⟩

theorem prepareStages_allocated (env : CreateEnv) (Y : BlobLayout) (grDevice : GrDevice)
    (stage : Stage) (sh : GrShader) (hsh : stage.shader.shader = some sh)
    (hb : sh.bindings ≠ []) (stages : List Stage) :
    ∀ (i s : Nat) (st : PreparedStages), stages[s]? = some stage →
      i + s < st.mapEntries.length →
      ((prepareStages env Y grDevice i stages st).mapEntries.getD (i + s) none).isSome =
        true := by
  induction stages with
  | nil => intro i s st h; simp at h
  | cons stage0 rest ih =>
    intro i s st hs hlen
    rw [prepareStages]
    cases s with
    | zero =>
      simp only [List.getElem?_cons_zero, Option.some.injEq] at hs
      subst hs
      obtain ⟨h4, _⟩ := prepareStages_mapEntries_frame env Y grDevice i rest (i + 1)
        (prepareStage env Y grDevice i stage0 st) (by omega)
      simp only [Nat.add_zero]
      rw [h4]
      unfold prepareStage
      have hl : sh.bindings.length ≠ 0 := by
        intro h0
        exact hb (List.length_eq_zero.mp h0)
      simp only [hsh, hl, if_false]
      rw [getD_set_self _ _ _ _ (by omega)]
      rfl
    | succ s =>
      simp only [List.getElem?_cons_succ] at hs
      obtain ⟨_, h2⟩ := prepareStage_mapEntries_frame env Y grDevice i (i + 1 + s) stage0 st
        (by omega)
      have := ih (i + 1) s (prepareStage env Y grDevice i stage0 st) hs (by rw [h2]; omega)
      have e : i + (s + 1) = i + 1 + s := by omega
      rw [e]
      exact this

/-- A stage without a dynamic match leaves the dynamic slot as it is. -/
theorem prepareStages_slot_frame (env : CreateEnv) (Y : BlobLayout) (grDevice : GrDevice)
    (rest : List Stage) :
    ∀ (i : Nat) (st : PreparedStages),
      (∀ stage ∈ rest, ∀ sh, stage.shader.shader = some sh →
        sh.bindings.findIdx? (dynamicMatches stage.shader.dynamicMemoryViewMapping) = none) →
      (prepareStages env Y grDevice i rest st).dynamicDescriptorSlot =
        st.dynamicDescriptorSlot := by
  induction rest with
  | nil => intro i st _; rfl
  | cons stage rest ih =>
    intro i st h
    rw [prepareStages, ih _ _ (fun s hs => h s (by simp [hs]))]
    unfold prepareStage
    cases hsx : stage.shader.shader with
    | none => rfl
    | some sh =>
      simp only
      by_cases hb : sh.bindings.length = 0
      · simp only [hb, if_true]
      · simp only [hb, if_false, handleDynamicDescriptorSlots, h stage (by simp) sh hsx]

theorem prepareStages_append (env : CreateEnv) (Y : BlobLayout) (grDevice : GrDevice)
    (pre : List Stage) :
    ∀ (post : List Stage) (i : Nat) (st : PreparedStages),
      prepareStages env Y grDevice i (pre ++ post) st =
        prepareStages env Y grDevice (i + pre.length) post
          (prepareStages env Y grDevice i pre st) := by
  induction pre with
  | nil => intro post i st; rfl
  | cons stage pre ih =>
    intro post i st
    rw [List.cons_append, prepareStages, prepareStages, ih, List.length_cons]
    congr 1
    omega

theorem prepareStage_slot (env : CreateEnv) (Y : BlobLayout) (grDevice : GrDevice) (i : Nat)
    (stage : Stage) (sh : GrShader) (b : IlcBinding) (st : PreparedStages)
    (hsh : stage.shader.shader = some sh) (hb : sh.bindings = [b])
    (hdyn : dynamicMatches stage.shader.dynamicMemoryViewMapping b = true) :
    (prepareStage env Y grDevice i stage st).dynamicDescriptorSlot = dynamicSlot env.L b := by
  unfold prepareStage
  simp only [hsh, hb, List.length_singleton, one_ne_zero, if_false,
    handleDynamicDescriptorSlots, List.findIdx?_cons, hdyn, if_true]
  rfl

/-! ## The third stage loop does not touch the arrays of the stages it has not reached -/

theorem buildStage_frame (env : CreateEnv) (native : NativeApi) (stages : List Stage)
    (i s : Nat) (stage : Stage) (st st1 : BuiltStages)
    (hc : st.stageCount ≤ i) (hi : i < s)
    (h : buildStage env native stages i stage st = .next st1) :
    st1.patchEntries.getD s none = st.patchEntries.getD s none ∧ st1.stageCount ≤ i + 1 := by
  unfold buildStage at h
  cases hsx : stage.shader.shader with
  | none =>
    simp only [hsx, CreateFlow.next.injEq] at h
    subst h
    exact ⟨rfl, by omega⟩
  | some sh =>
    simp only [hsx] at h
    split at h
    · cases h
    · by_cases hne : st.stageCount ≠ i
      · simp only [hne, if_true, ne_eq, not_false_eq_true, CreateFlow.next.injEq] at h
        subst h
        simp only
        refine ⟨?_, by omega⟩
        rw [getD_set_other _ _ _ _ _ (by omega), getD_set_other _ _ _ _ _ (by omega)]
      · simp only [hne, if_false, CreateFlow.next.injEq] at h
        subst h
        exact ⟨rfl, by simp only; omega⟩

theorem buildStages_frame (env : CreateEnv) (native : NativeApi) (stages : List Stage)
    (s : Nat) (rest : List Stage) :
    ∀ (i : Nat) (st st1 : BuiltStages), st.stageCount ≤ i → i + rest.length ≤ s →
      buildStages env native stages i rest st = .next st1 →
      st1.patchEntries.getD s none = st.patchEntries.getD s none := by
  induction rest with
  | nil =>
    intro i st st1 _ _ h
    simp only [buildStages, CreateFlow.next.injEq] at h
    subst h
    rfl
  | cons stage rest ih =>
    intro i st st1 hc hi h
    rw [buildStages] at h
    simp only [List.length_cons] at hi
    cases hb : buildStage env native stages i stage st with
    | bail res st2 => simp [hb] at h
    | next st2 =>
      simp only [hb] at h
      obtain ⟨h1, h2⟩ := buildStage_frame env native stages i s stage st st2 hc (by omega) hb
      exact (ih (i + 1) st2 st1 h2 (by omega) h).trans h1

theorem grCreateGraphicsPipeline_dynamic_fields (env : CreateEnv) (Y : BlobLayout)
    (native : NativeApi) (grDevice : GrDevice)
    (pCreateInfo : GR_GRAPHICS_PIPELINE_CREATE_INFO)
    (prepared : PreparedStages) (resolved : ResolvedMappings)
    (hr : resolveStages env Y grDevice (graphicsStages pCreateInfo) = .ok (prepared, resolved))
    (r : CreateResult) (p : GrPipeline)
    (h : grCreateGraphicsPipeline env Y native grDevice pCreateInfo = .ok r)
    (hp : r.pipeline = some p) :
    p.dynamicMappingUsed = (if prepared.dynamicMappingUsed then 1 else 0) ∧
      p.dynamicDescriptorSlot = prepared.dynamicDescriptorSlot := by
  unfold grCreateGraphicsPipeline at h
  simp only [hr] at h
  split at h
  · cases h
    cases hp
  · split at h
    · cases h
    · cases h
      cases hp
    · split at h
      · cases h
      · cases h
        cases hp
      · cases h
        cases hp
        exact ⟨rfl, rfl⟩

/-- The first two loops on a stage whose shader has the dynamic memory view as its one
binding and whose mapping trees match nothing. -/
theorem resolveStages_dynamic_only (env : CreateEnv) (Y : BlobLayout) (grDevice : GrDevice)
    (stages : List Stage) (s : Nat) (stage : Stage) (sh : GrShader) (b : IlcBinding)
    (hmax : stages.length ≤ Y.MAX_STAGE_COUNT)
    (hs : stages[s]? = some stage) (hsh : stage.shader.shader = some sh)
    (hb : sh.bindings = [b])
    (hdyn : dynamicMatches stage.shader.dynamicMemoryViewMapping b = true)
    (hno : ∀ i, i < Y.GR_MAX_DESCRIPTOR_SETS →
      matchedInMapping [b] [] 0 (stage.shader.descriptorSetMapping.getD i []) = [])
    (prepared : PreparedStages) (resolved : ResolvedMappings)
    (hr : resolveStages env Y grDevice stages = .ok (prepared, resolved)) :
    prepared.dynamicMappingUsed = true ∧
    ((prepared.mapEntries.getD s none).isSome = true) ∧
    (resolved.buffers.getD s default).patchEntries =
      [{ id := b.id
         bindingIndex := dynamicViewBinding env grDevice.descriptorBufferSupported
         descriptorSetIndex := dynamicViewSet env grDevice.descriptorBufferSupported }] ∧
    (resolved.buffers.getD s default).specDescriptorIndices =
      [dynamicViewSet env grDevice.descriptorBufferSupported] ∧
    ((∀ stage1 ∈ stages.drop (s + 1), ∀ sh1, stage1.shader.shader = some sh1 →
        sh1.bindings.findIdx? (dynamicMatches stage1.shader.dynamicMemoryViewMapping) =
          none) →
      prepared.dynamicDescriptorSlot = dynamicSlot env.L b) := by
  have hslt : s < stages.length := by
    rcases Nat.lt_or_ge s stages.length with h | h
    · exact h
    · rw [List.getElem?_eq_none h] at hs
      cases hs
  unfold resolveStages at hr
  simp only at hr
  split at hr
  · cases hr
  · rename_i resolved1 hres
    simp only [Except.ok.injEq, Prod.mk.injEq] at hr
    obtain ⟨rfl, rfl⟩ := hr
    have hinit : 0 + s < (initialPrepared env Y).buffers.length := by
      simp [initialPrepared]; omega
    obtain ⟨h1, h2, h3⟩ := prepareStages_dynamic env Y grDevice stage sh b hsh hb hdyn stages
      0 s (initialPrepared env Y) hs hinit
    have halloc := prepareStages_allocated env Y grDevice stage sh hsh (by rw [hb]; simp)
      stages 0 s (initialPrepared env Y) hs (by simp [initialPrepared]; omega)
    simp only [Nat.zero_add] at h3 halloc
    obtain ⟨h4, h5⟩ := resolveMappings_unmatched env grDevice stages s stage sh hs hsh
      (List.range Y.GR_MAX_DESCRIPTOR_SETS) _ resolved1
      (fun i hi => by rw [hb]; exact hno i (List.mem_range.mp hi))
      (by simp only [h2]; simp [initialPrepared]; omega) hres
    simp only [h3] at h4 h5
    refine ⟨h1, halloc, h4, h5, ?_⟩
    intro hlater
    have hsplit : stages = stages.take s ++ stage :: stages.drop (s + 1) := by
      have := take_decomp stages s hslt
      rw [List.get_eq_getElem] at this
      have hget : stages[s] = stage := by
        have := List.getElem?_eq_getElem hslt
        rw [hs] at this
        exact (Option.some.inj this).symm
      rw [hget] at this
      exact this
    rw [hsplit, prepareStages_append, prepareStages, prepareStages_slot_frame _ _ _ _ _ _ hlater]
    exact prepareStage_slot env Y grDevice _ stage sh b _ hsh hb hdyn

theorem initialBuilt_patchEntries (env : CreateEnv) (Y : BlobLayout)
    (prepared : PreparedStages) (resolved : ResolvedMappings) (s : Nat)
    (hs : s < Y.MAX_STAGE_COUNT) (ha : (prepared.mapEntries.getD s none).isSome = true) :
    (initialBuilt env Y prepared resolved).patchEntries.getD s none =
      some (resolved.buffers.getD s default).patchEntries := by
  simp only [initialBuilt, List.getD_eq_getElem?_getD, List.getElem?_map,
    List.getElem?_range hs, Option.map_some', Option.getD_some]
  simp only [List.getD_eq_getElem?_getD] at ha
  simp only [ha, if_true]

/-- C13 (amended): for a stage of a graphics pipeline request whose shader has the dynamic
memory view as its only binding (type Resource, `ilIndex` equal to the `shaderEntityIndex`
of a used `dynamicMemoryViewMapping`), and whose descriptor set mapping trees contain no
slot that matches that binding: descriptor resolution either stops on an assertion of the
tree walks or the merge, or it records `dynamicMappingUsed = true`, and the binding's patch
entry and `descriptorSetIndices` entry are the well-known (set, binding) pair, also when
the third stage loop reaches the stage and hands the entry to `patchShaderBindings`; every
pipeline that the call returns has `dynamicMappingUsed` set and holds the dynamic slot of
the first loop, which is the slot of this binding when no later stage has a dynamic
match. -/
theorem grCreateGraphicsPipeline_dynamic_view_only (env : CreateEnv) (Y : BlobLayout)
    (native : NativeApi) (grDevice : GrDevice)
    (pCreateInfo : GR_GRAPHICS_PIPELINE_CREATE_INFO)
    (s : Nat) (stage : Stage) (sh : GrShader) (b : IlcBinding)
    (hmax : 5 ≤ Y.MAX_STAGE_COUNT)
    (hs : (graphicsStages pCreateInfo)[s]? = some stage)
    (hsh : stage.shader.shader = some sh) (hb : sh.bindings = [b])
    (hdyn : dynamicMatches stage.shader.dynamicMemoryViewMapping b = true)
    (hno : ∀ i, i < Y.GR_MAX_DESCRIPTOR_SETS →
      matchedInMapping [b] [] 0 (stage.shader.descriptorSetMapping.getD i []) = []) :
    (∀ e, resolveStages env Y grDevice (graphicsStages pCreateInfo) = .error e →
      e = Fault.assertion) ∧
    (∀ prepared resolved,
      resolveStages env Y grDevice (graphicsStages pCreateInfo) = .ok (prepared, resolved) →
      prepared.dynamicMappingUsed = true ∧
      (resolved.buffers.getD s default).patchEntries =
        [{ id := b.id
           bindingIndex := dynamicViewBinding env grDevice.descriptorBufferSupported
           descriptorSetIndex := dynamicViewSet env grDevice.descriptorBufferSupported }] ∧
      (resolved.buffers.getD s default).specDescriptorIndices =
        [dynamicViewSet env grDevice.descriptorBufferSupported] ∧
      (∀ st, buildStages env native (graphicsStages pCreateInfo) 0
          ((graphicsStages pCreateInfo).take s) (initialBuilt env Y prepared resolved) =
            .next st →
        st.patchEntries.getD s none =
          some [{ id := b.id
                  bindingIndex := dynamicViewBinding env grDevice.descriptorBufferSupported
                  descriptorSetIndex :=
                    dynamicViewSet env grDevice.descriptorBufferSupported }]) ∧
      ((∀ stage1 ∈ (graphicsStages pCreateInfo).drop (s + 1), ∀ sh1,
          stage1.shader.shader = some sh1 →
          sh1.bindings.findIdx? (dynamicMatches stage1.shader.dynamicMemoryViewMapping) =
            none) →
        prepared.dynamicDescriptorSlot = dynamicSlot env.L b) ∧
      (∀ r p, grCreateGraphicsPipeline env Y native grDevice pCreateInfo = .ok r →
        r.pipeline = some p →
        p.dynamicMappingUsed = 1 ∧
          p.dynamicDescriptorSlot = prepared.dynamicDescriptorSlot)) := by
  have hlen : (graphicsStages pCreateInfo).length = 5 := rfl
  have hslt : s < 5 := by
    rcases Nat.lt_or_ge s 5 with h | h
    · exact h
    · rw [List.getElem?_eq_none (by rw [hlen]; exact h)] at hs
      cases hs
  refine ⟨fun e he => resolveStages_fault env Y grDevice _ e he, ?_⟩
  intro prepared resolved hr
  obtain ⟨h1, halloc, h2, h3, h4⟩ := resolveStages_dynamic_only env Y grDevice
    (graphicsStages pCreateInfo) s stage sh b (by rw [hlen]; exact hmax) hs hsh hb hdyn hno
    prepared resolved hr
  refine ⟨h1, h2, h3, ?_, h4, ?_⟩
  · intro st hst
    rw [buildStages_frame env native (graphicsStages pCreateInfo) s _ 0 _ st (Nat.le_refl _)
      (by simp only [List.length_take, hlen]; omega) hst,
      initialBuilt_patchEntries env Y prepared resolved s (by omega) halloc, h2]
  · intro r p hc hp
    have := grCreateGraphicsPipeline_dynamic_fields env Y native grDevice pCreateInfo prepared
      resolved hr r p hc hp
    rw [h1] at this
    exact this

theorem grCreateGraphicsPipeline_dynamic_view_only_witness :
    ∃ prepared resolved,
      resolveStages exampleEnv exampleLayout exampleDevice
        (graphicsStages (exampleDynamicRequest [])) = .ok (prepared, resolved) ∧
      prepared.dynamicMappingUsed = true ∧
      (resolved.buffers.getD 0 default).patchEntries =
        [{ id := (exampleBinding 7 0).id
           bindingIndex := dynamicViewBinding exampleEnv exampleDevice.descriptorBufferSupported
           descriptorSetIndex :=
             dynamicViewSet exampleEnv exampleDevice.descriptorBufferSupported }] :=
  ⟨_, _, rfl,
    ((grCreateGraphicsPipeline_dynamic_view_only exampleEnv exampleLayout exampleNative
      exampleDevice (exampleDynamicRequest []) 0
      { shader := exampleDynamicShader [], flags := VK_SHADER_STAGE_VERTEX_BIT }
      { bindings := [exampleBinding 7 0], code := [3, 2, 35, 7] } (exampleBinding 7 0)
      (by decide) rfl rfl rfl (by decide) (by decide)).2 _ _ rfl).1,
    ((grCreateGraphicsPipeline_dynamic_view_only exampleEnv exampleLayout exampleNative
      exampleDevice (exampleDynamicRequest []) 0
      { shader := exampleDynamicShader [], flags := VK_SHADER_STAGE_VERTEX_BIT }
      { bindings := [exampleBinding 7 0], code := [3, 2, 35, 7] } (exampleBinding 7 0)
      (by decide) rfl rfl rfl (by decide) (by decide)).2 _ _ rfl).2.1⟩

/-- C13 (as stated, refuted): the vertex shader's only binding is the dynamic memory view
(entity 0), and slot 0 of its descriptor set mapping 0 names the same entity. Creation
records `dynamicMappingUsed`, but generic resolution overwrites the binding's patch entry
and `descriptorSetIndices` entry: they hold set 2, the first resolved set, and not the
well-known set 0, and the pipeline is created with that value in its specialization
data. -/
theorem dynamic_view_entry_overwritten :
    ∃ prepared resolved p,
      resolveStages exampleEnv exampleLayout exampleDevice
        (graphicsStages (exampleDynamicRequest [.mk GR_SLOT_SHADER_RESOURCE 0 []])) =
        .ok (prepared, resolved) ∧
      prepared.dynamicMappingUsed = true ∧
      (resolved.buffers.getD 0 default).patchEntries =
        [{ id := 7, bindingIndex := 0, descriptorSetIndex := 2 }] ∧
      (resolved.buffers.getD 0 default).patchEntries ≠
        [{ id := 7, bindingIndex := dynamicViewBinding exampleEnv false
           descriptorSetIndex := dynamicViewSet exampleEnv false }] ∧
      (resolved.buffers.getD 0 default).specDescriptorIndices = [2] ∧
      (resolved.buffers.getD 0 default).specDescriptorIndices ≠
        [dynamicViewSet exampleEnv false] ∧
      grCreateGraphicsPipeline exampleEnv exampleLayout exampleNative exampleDevice
        (exampleDynamicRequest [.mk GR_SLOT_SHADER_RESOURCE 0 []]) =
        .ok { result := GR_SUCCESS, pipeline := some p } ∧
      p.dynamicMappingUsed = 1 ∧
      p.specData.getD 0 none = some [0, 0, 0, 0, 2, 0, 0, 0] := by
  refine ⟨_, _, _, rfl, ?_, ?_, ?_, ?_, ?_, rfl, ?_, ?_⟩ <;> decide

/-! ## Claim about the translation of native result codes -/

/-- C25 (as stated, refuted): `VK_NOT_READY` (1) is none of `VK_SUCCESS`,
`VK_ERROR_OUT_OF_HOST_MEMORY`, `VK_ERROR_OUT_OF_DEVICE_MEMORY`, `VK_ERROR_DEVICE_LOST`,
`VK_ERROR_MEMORY_MAP_FAILED`, yet `getGrResult` does not map it to `GR_ERROR_UNKNOWN`: it
returns `GR_NOT_READY`, which is none of the six results of the claim. -/
theorem getGrResult_not_ready_is_not_unknown :
    (1 : Int) ∉ [0, -1, -2, -4, -5] ∧ getGrResult 1 = GR_NOT_READY ∧
      getGrResult 1 ≠ GR_ERROR_UNKNOWN ∧
      getGrResult 1 ∉ [GR_SUCCESS, GR_ERROR_OUT_OF_MEMORY, GR_ERROR_OUT_OF_GPU_MEMORY,
        GR_ERROR_DEVICE_LOST, GR_ERROR_MEMORY_MAP_FAILED, GR_ERROR_UNKNOWN] := by
  decide

/-- C25 (amended): `getGrResult` maps `VK_SUCCESS` to `GR_SUCCESS`, the four status codes
`VK_NOT_READY`, `VK_TIMEOUT`, `VK_EVENT_SET`, `VK_EVENT_RESET` to `GR_NOT_READY`,
`GR_TIMEOUT`, `GR_EVENT_SET`, `GR_EVENT_RESET`, `VK_ERROR_OUT_OF_HOST_MEMORY` to
`GR_ERROR_OUT_OF_MEMORY`, `VK_ERROR_OUT_OF_DEVICE_MEMORY` to `GR_ERROR_OUT_OF_GPU_MEMORY`,
`VK_ERROR_DEVICE_LOST` to `GR_ERROR_DEVICE_LOST`, `VK_ERROR_MEMORY_MAP_FAILED` to
`GR_ERROR_MEMORY_MAP_FAILED`; every native code is one of these nine or is mapped to
`GR_ERROR_UNKNOWN`, so the result is always one of ten abstract results. -/
theorem getGrResult_table (result : Int) :
    getGrResult 0 = GR_SUCCESS ∧ getGrResult 1 = GR_NOT_READY ∧ getGrResult 2 = GR_TIMEOUT ∧
      getGrResult 3 = GR_EVENT_SET ∧ getGrResult 4 = GR_EVENT_RESET ∧
      getGrResult (-1) = GR_ERROR_OUT_OF_MEMORY ∧
      getGrResult (-2) = GR_ERROR_OUT_OF_GPU_MEMORY ∧
      getGrResult (-4) = GR_ERROR_DEVICE_LOST ∧
      getGrResult (-5) = GR_ERROR_MEMORY_MAP_FAILED ∧
      (result ∈ [0, 1, 2, 3, 4, -1, -2, -4, -5] ∨ getGrResult result = GR_ERROR_UNKNOWN) ∧
      getGrResult result ∈ [GR_SUCCESS, GR_NOT_READY, GR_TIMEOUT, GR_EVENT_SET, GR_EVENT_RESET,
        GR_ERROR_OUT_OF_MEMORY, GR_ERROR_OUT_OF_GPU_MEMORY, GR_ERROR_DEVICE_LOST,
        GR_ERROR_MEMORY_MAP_FAILED, GR_ERROR_UNKNOWN] := by
  have key : result ∈ [0, 1, 2, 3, 4, -1, -2, -4, -5] ∨
      getGrResult result = GR_ERROR_UNKNOWN := by
    by_cases h0 : result = 0
    · exact Or.inl (by simp [h0])
    by_cases h1 : result = 1
    · exact Or.inl (by simp [h1])
    by_cases h2 : result = 2
    · exact Or.inl (by simp [h2])
    by_cases h3 : result = 3
    · exact Or.inl (by simp [h3])
    by_cases h4 : result = 4
    · exact Or.inl (by simp [h4])
    by_cases h5 : result = -1
    · exact Or.inl (by simp [h5])
    by_cases h6 : result = -2
    · exact Or.inl (by simp [h6])
    by_cases h7 : result = -4
    · exact Or.inl (by simp [h7])
    by_cases h8 : result = -5
    · exact Or.inl (by simp [h8])
    refine Or.inr ?_
    unfold getGrResult
    rw [if_neg h0, if_neg h1, if_neg h2, if_neg h3, if_neg h4, if_neg h5, if_neg h6,
      if_neg h7, if_neg h8]
  refine ⟨rfl, rfl, rfl, rfl, rfl, rfl, rfl, rfl, rfl, key, ?_⟩
  rcases key with h | h
  · simp only [List.mem_cons, List.mem_singleton, List.not_mem_nil, or_false] at h
    rcases h with h | h | h | h | h | h | h | h | h <;> subst h <;> decide
  · rw [h]; decide

/-! ## Claims about the comparison function and the matching rule -/

/-- C29, the code at a failing input: the slot extracted at depth 1 under root slot 3 and
the slot extracted at depth 0 agree on the shared prefix of their paths (the shorter depth
is 0), yet `compareDescriptorSlots` returns 1 for them, because it compares
`slotA->pathDepth` entries; with the arguments exchanged it returns 0. -/
theorem compareDescriptorSlots_compares_first_depth :
    exampleNestedSlot.path.take (min exampleNestedSlot.pathDepth (exampleSlot 0).pathDepth) =
        (exampleSlot 0).path.take (min exampleNestedSlot.pathDepth (exampleSlot 0).pathDepth) ∧
      compareDescriptorSlots exampleNestedSlot (exampleSlot 0) = 1 ∧
      compareDescriptorSlots (exampleSlot 0) exampleNestedSlot = 0 := by
  decide

theorem bindingMatches_iff (t : GR_DESCRIPTOR_SET_SLOT_TYPE) (e : Nat)
    (next : List GR_DESCRIPTOR_SLOT_INFO) (binding : IlcBinding) :
    bindingMatches (.mk t e next) binding = true ↔ slotMatchesBinding t e binding := by
  simp [bindingMatches, slotMatchesBinding, GR_DESCRIPTOR_SLOT_INFO.shaderEntityIndex,
    GR_DESCRIPTOR_SLOT_INFO.slotObjectType]

/-- C27: for a bound mapping slot (neither unused nor a redirection), the test of the
"find matching binding" loop is the matching rule of the specification; when no binding
matches, `getDescriptorSlotsFromMapping` leaves the slot array and the offsets as they are;
when binding `j` matches and no binding before it does, the slot is appended for binding
`j` and `offsets[j]` is the one offset written. -/
theorem getDescriptorSlotsFromMapping_match_rule (L : Limits) (getDescriptorOffset : Nat → Nat)
    (bindings : List IlcBinding) (d i : Nat) (t : GR_DESCRIPTOR_SET_SLOT_TYPE) (e : Nat)
    (next : List GR_DESCRIPTOR_SLOT_INFO) (st : ExtractState)
    (h1 : t ≠ GR_SLOT_UNUSED) (h2 : t ≠ GR_SLOT_NEXT_DESCRIPTOR_SET) :
    (∀ binding, bindingMatches (.mk t e next) binding = true ↔
        slotMatchesBinding t e binding) ∧
      ((∀ (j : Nat) (binding : IlcBinding), bindings[j]? = some binding →
          ¬ slotMatchesBinding t e binding) →
        extractSlot L getDescriptorOffset bindings d i (.mk t e next) st = .ok st) ∧
      (∀ (j : Nat) (binding : IlcBinding), bindings[j]? = some binding →
        slotMatchesBinding t e binding →
        (∀ (k : Nat) (other : IlcBinding), k < j → bindings[k]? = some other →
          ¬ slotMatchesBinding t e other) →
        extractSlot L getDescriptorOffset bindings d i (.mk t e next) st =
          .ok { st with
                descriptorSlots := st.descriptorSlots ++ [extractedSlot L d st.path i binding]
                offsets := st.offsets.set j
                  ((i * L.DESCRIPTORS_PER_SLOT + getDescriptorOffset binding.descriptorType) %
                    2 ^ 32) }) := by
  refine ⟨bindingMatches_iff t e next, ?_, ?_⟩
  · intro hno
    have hf : findBinding bindings (.mk t e next) = none := by
      unfold findBinding
      rw [List.findIdx?_eq_none_iff]
      intro x hx
      obtain ⟨j, hj, hxj⟩ := List.getElem_of_mem hx
      have := hno j x (by rw [List.getElem?_eq_getElem hj, hxj])
      rw [← bindingMatches_iff t e next] at this
      simpa using this
    rw [extractSlot]
    simp only [h1, h2, if_false, hf]
  · intro j binding hj hm hfirst
    have hlt : j < bindings.length := by
      by_contra hge
      rw [List.getElem?_eq_none (by omega)] at hj
      cases hj
    have hb : bindings[j] = binding := by
      rw [List.getElem?_eq_getElem hlt] at hj
      exact Option.some.inj hj
    have hf : findBinding bindings (.mk t e next) = some j := by
      unfold findBinding
      rw [List.findIdx?_eq_some_iff_getElem]
      refine ⟨hlt, ?_, ?_⟩
      · rw [hb]
        exact (bindingMatches_iff t e next binding).mpr hm
      · intro k hk
        have := hfirst k (bindings[k]) hk (List.getElem?_eq_getElem _)
        rw [← bindingMatches_iff t e next] at this
        exact this
    have hget : bindings.getD j ⟨0, ILC_BINDING_SAMPLER, 0, 0, 0, 0, 0⟩ = binding := by
      rw [List.getD_eq_getElem?_getD, hj]
      rfl
    rw [extractSlot]
    simp only [h1, h2, if_false, hf, hget]

/-- Witness for C27: the second of two resource bindings is the first one for entity 1. -/
theorem getDescriptorSlotsFromMapping_match_rule_witness :
    extractSlot exampleLimits (fun _ => 0) [exampleBinding 10 0, exampleBinding 11 1] 0 5
        (.mk GR_SLOT_SHADER_RESOURCE 1 []) ⟨[], [0, 0], [0, 0, 0, 0, 0, 0, 0, 0]⟩ =
      .ok { descriptorSlots := [exampleSlot 0], offsets := [0, 40],
            path := [0, 0, 0, 0, 0, 0, 0, 0] } :=
  (getDescriptorSlotsFromMapping_match_rule exampleLimits (fun _ => 0)
    [exampleBinding 10 0, exampleBinding 11 1] 0 5 GR_SLOT_SHADER_RESOURCE 1 []
    ⟨[], [0, 0], [0, 0, 0, 0, 0, 0, 0, 0]⟩ (by decide) (by decide)).2.2 1 (exampleBinding 11 1)
    rfl (by unfold slotMatchesBinding; decide)
    (by
      intro k other hk ho
      have hk0 : k = 0 := by omega
      subst hk0
      cases ho
      unfold slotMatchesBinding
      decide)

/-! ## The extraction walk writes one offset and one slot per matched mapping slot -/

theorem extractedSlot_take (L : Limits) (d : Nat) (path : List Nat) (i : Nat)
    (binding : IlcBinding) (hd : d ≤ path.length) :
    extractedSlot L d path i binding =
      extractedSlot L (path.take d).length (path.take d) i binding := by
  unfold extractedSlot
  simp only [List.length_take, Nat.min_eq_left hd, List.take_take, Nat.min_self]

theorem extractSlot_writes (L : Limits) (getDescriptorOffset : Nat → Nat)
    (bindings : List IlcBinding)
    (t : GR_DESCRIPTOR_SET_SLOT_TYPE) (e : Nat) (next : List GR_DESCRIPTOR_SLOT_INFO)
    (ih : ExtractSlotsWrites L getDescriptorOffset bindings next) :
    ExtractSlotWrites L getDescriptorOffset bindings (.mk t e next) := by
  intro d i st st1 hlen hd h
  rw [extractSlot] at h
  rw [boundInSlot]
  by_cases h1 : t = GR_SLOT_UNUSED
  · simp only [h1, if_true] at h ⊢
    cases h
    exact ⟨hlen, rfl, rfl, by simp⟩
  · simp only [h1, if_false] at h ⊢
    by_cases h2 : t = GR_SLOT_NEXT_DESCRIPTOR_SET
    · simp only [h2, if_true] at h ⊢
      by_cases h3 : d ≥ L.MAX_PATH_DEPTH
      · simp only [h3, if_true] at h
        cases h
      · simp only [h3, if_false] at h
        have hd1 : d < st.path.length := by omega
        have ih1 := ih (d + 1) 0 { st with path := st.path.set d i } st1 (by simp [hlen])
          (by omega) h
        simp only [take_succ_set _ _ _ hd1] at ih1
        obtain ⟨hb, hc, ho, hs⟩ := ih1
        refine ⟨hb, ?_, ho, hs⟩
        have := congrArg (List.take d) hc
        rw [List.take_take, List.take_append_of_le_length (by simp; omega)] at this
        simpa [Nat.min_eq_left (Nat.le_succ d), List.take_take] using this
    · simp only [h2, if_false] at h ⊢
      cases hf : findBinding bindings (.mk t e next) with
      | none =>
        rw [hf] at h
        cases h
        exact ⟨hlen, rfl, rfl, by simp⟩
      | some j =>
        rw [hf] at h
        cases h
        refine ⟨hlen, rfl, rfl, ?_⟩
        simp only [List.map_cons, List.map_nil, bindingAt]
        rw [← extractedSlot_take L d st.path i _ (by omega)]

theorem extractSlots_writes_nil (L : Limits) (getDescriptorOffset : Nat → Nat)
    (bindings : List IlcBinding) : ExtractSlotsWrites L getDescriptorOffset bindings [] := by
  intro d i st st1 hlen hd h
  rw [extractSlots] at h
  cases h
  rw [boundInMapping]
  exact ⟨hlen, rfl, rfl, by simp⟩

theorem extractSlots_writes_step (L : Limits) (getDescriptorOffset : Nat → Nat)
    (bindings : List IlcBinding)
    (s : GR_DESCRIPTOR_SLOT_INFO) (rest : List GR_DESCRIPTOR_SLOT_INFO)
    (ih1 : ExtractSlotWrites L getDescriptorOffset bindings s)
    (ih2 : ExtractSlotsWrites L getDescriptorOffset bindings rest) :
    ExtractSlotsWrites L getDescriptorOffset bindings (s :: rest) := by
  intro d i st st1 hlen hd h
  rw [extractSlots] at h
  rw [boundInMapping]
  cases hs : extractSlot L getDescriptorOffset bindings d i s st with
  | error e =>
    rw [hs] at h
    cases h
  | ok st2 =>
    rw [hs] at h
    obtain ⟨hb, hc, ho, hsl⟩ := ih1 d i st st2 hlen hd hs
    obtain ⟨hb2, hc2, ho2, hsl2⟩ := ih2 d (i + 1) st2 st1 hb hd h
    rw [hc] at ho2 hsl2
    refine ⟨hb2, hc2.trans hc, ?_, ?_⟩
    · rw [ho2, ho, List.foldl_append]
    · rw [hsl2, hsl, List.map_append, List.append_assoc]

theorem extractSlots_writes (L : Limits) (getDescriptorOffset : Nat → Nat)
    (bindings : List IlcBinding) (m : List GR_DESCRIPTOR_SLOT_INFO) :
    ExtractSlotsWrites L getDescriptorOffset bindings m :=
  @GR_DESCRIPTOR_SLOT_INFO.rec_1
    (ExtractSlotWrites L getDescriptorOffset bindings)
    (ExtractSlotsWrites L getDescriptorOffset bindings)
    (extractSlot_writes L getDescriptorOffset bindings)
    (extractSlots_writes_nil L getDescriptorOffset bindings)
    (extractSlots_writes_step L getDescriptorOffset bindings) m

theorem stridePairs_extractedSlot (L : Limits) (hmax : 1 ≤ L.MAX_STRIDES)
    (bindings : List IlcBinding) (w : SlotMatch) :
    stridePairs (extractedSlot L w.route.length w.route w.slotIndex
        (bindingAt bindings w.bindingIndex)) = stridePairsOfMatch bindings w := by
  unfold extractedSlot stridePairsOfMatch stridePairs
  obtain ⟨n, hn⟩ : ∃ n, L.MAX_STRIDES = n + 1 := ⟨L.MAX_STRIDES - 1, by omega⟩
  by_cases h : 0 ≤ (bindingAt bindings w.bindingIndex).strideIndex
  · simp [h, hn, List.replicate_succ]
  · simp [h]

theorem extractedSlot_path (L : Limits) (route : List Nat) (i : Nat) (binding : IlcBinding) :
    (extractedSlot L route.length route i binding).pathDepth = route.length ∧
      (extractedSlot L route.length route i binding).path.take route.length = route := by
  unfold extractedSlot
  split <;> simp

/-- C28: when no redirection of the mapping tree is too deep, `getDescriptorSlotsFromMapping`
returns; the offsets array is the one before with the write
`offsets[j] = i * DESCRIPTORS_PER_SLOT + getDescriptorOffset(descriptorType of binding j)`
made for every matched mapping slot (index `i` in its node, binding `j`) in walk order; the
slot array has grown by exactly one slot per matched mapping slot, in walk order, and the
slot of a match has the depth and the path of the route to the node of the mapping slot,
and holds the one stride pair (`strideIndex * 4`, `i`) when the binding's `strideIndex` is
not negative and no stride pair otherwise. `MAX_STRIDES` is at least 1. -/
theorem getDescriptorSlotsFromMapping_writes (L : Limits) (getDescriptorOffset : Nat → Nat)
    (bindings : List IlcBinding) (mapping : GR_DESCRIPTOR_SET_MAPPING) (pathDepth : Nat)
    (st : ExtractState)
    (hlen : st.path.length = L.MAX_PATH_DEPTH) (hd : pathDepth ≤ L.MAX_PATH_DEPTH)
    (hmax : 1 ≤ L.MAX_STRIDES) (hdeep : redirectsTooDeepIn L pathDepth mapping = false) :
    ∃ st1 appended,
      getDescriptorSlotsFromMapping L getDescriptorOffset bindings mapping pathDepth st =
        .ok st1 ∧
      st1.offsets = (boundInMapping bindings (st.path.take pathDepth) 0 mapping).foldl
        (offsetWrite L getDescriptorOffset bindings) st.offsets ∧
      st1.descriptorSlots = st.descriptorSlots ++ appended ∧
      appended.length = (boundInMapping bindings (st.path.take pathDepth) 0 mapping).length ∧
      List.Forall₂
        (fun slot w => slot.pathDepth = w.route.length ∧
          slot.path.take slot.pathDepth = w.route ∧
          stridePairs slot = stridePairsOfMatch bindings w)
        appended (boundInMapping bindings (st.path.take pathDepth) 0 mapping) := by
  unfold getDescriptorSlotsFromMapping
  have hspec := extractSlots_spec L getDescriptorOffset bindings mapping pathDepth 0 st hlen hd
  cases hx : extractSlots L getDescriptorOffset bindings pathDepth 0 mapping st with
  | error e =>
    rw [hx] at hspec
    rw [hspec.2] at hdeep
    cases hdeep
  | ok st1 =>
    obtain ⟨_, _, ho, hs⟩ :=
      extractSlots_writes L getDescriptorOffset bindings mapping pathDepth 0 st st1 hlen hd hx
    refine ⟨st1, _, rfl, ho, hs, by simp, ?_⟩
    rw [List.forall₂_map_left_iff]
    apply List.forall₂_same.mpr
    intro w _
    have hp := extractedSlot_path L w.route w.slotIndex (bindingAt bindings w.bindingIndex)
    refine ⟨hp.1, ?_, stridePairs_extractedSlot L hmax bindings w⟩
    rw [hp.1]
    exact hp.2

/-- Witness for C28: the mapping with a redirection at root slot 0 to a nested set holding
resource 0, and resource 1 at root slot 1, walked for a shader binding both. -/
theorem getDescriptorSlotsFromMapping_writes_witness :
    ∃ st1 appended,
      getDescriptorSlotsFromMapping exampleLimits (fun _ => 0)
          [exampleBinding 10 0, exampleBinding 11 1] exampleMappingA 0
          ⟨[], [0, 0], [0, 0, 0, 0, 0, 0, 0, 0]⟩ = .ok st1 ∧
      st1.offsets = (boundInMapping [exampleBinding 10 0, exampleBinding 11 1]
          (([0, 0, 0, 0, 0, 0, 0, 0] : List Nat).take 0) 0 exampleMappingA).foldl
        (offsetWrite exampleLimits (fun _ => 0) [exampleBinding 10 0, exampleBinding 11 1])
        [0, 0] ∧
      st1.descriptorSlots = [] ++ appended ∧
      appended.length = (boundInMapping [exampleBinding 10 0, exampleBinding 11 1]
          (([0, 0, 0, 0, 0, 0, 0, 0] : List Nat).take 0) 0 exampleMappingA).length ∧
      List.Forall₂
        (fun slot w => slot.pathDepth = w.route.length ∧
          slot.path.take slot.pathDepth = w.route ∧
          stridePairs slot =
            stridePairsOfMatch [exampleBinding 10 0, exampleBinding 11 1] w)
        appended (boundInMapping [exampleBinding 10 0, exampleBinding 11 1]
          (([0, 0, 0, 0, 0, 0, 0, 0] : List Nat).take 0) 0 exampleMappingA) :=
  getDescriptorSlotsFromMapping_writes exampleLimits (fun _ => 0)
    [exampleBinding 10 0, exampleBinding 11 1] exampleMappingA 0
    ⟨[], [0, 0], [0, 0, 0, 0, 0, 0, 0, 0]⟩ (by decide) (by decide) (by decide) (by decide)

/-! ## What collapsing a run does to the stride pairs -/

theorem runsOf_head {α : Type} (same : α → α → Bool) (T : List α) :
    ∀ t, ∃ r rs, runsOf same (t :: T) = (t :: r) :: rs := by
  induction T with
  | nil => intro t; exact ⟨[], [], rfl⟩
  | cons u T ih =>
    intro t
    obtain ⟨r, rs, h⟩ := ih u
    rw [runsOf, h]
    by_cases hs : same t u = true
    · simp only [hs, if_true, attachRun]
      exact ⟨_, _, rfl⟩
    · simp only [hs]
      exact ⟨_, _, rfl⟩

theorem runsOf_flatten {α : Type} (same : α → α → Bool) (l : List α) :
    (runsOf same l).flatten = l := by
  induction l with
  | nil => rfl
  | cons s T ih =>
    cases T with
    | nil => rfl
    | cons t T =>
      obtain ⟨r, rs, h⟩ := runsOf_head same T t
      rw [runsOf]
      rw [h] at ih
      by_cases hs : same s t = true
      · simp only [hs, if_true, h, attachRun, List.flatten_cons] at ih ⊢
        rw [List.append_assoc, ih]
        rfl
      · simp only [hs, h, List.flatten_cons, Bool.false_eq_true, if_false] at ih ⊢
        rw [ih]
        rfl

theorem runsOf_key {α β : Type} [DecidableEq β] (f : α → β) (l : List α) :
    ∀ r ∈ runsOf (fun a b => decide (f a = f b)) l, ∀ x ∈ r, ∀ y ∈ r, f x = f y := by
  induction l with
  | nil => intro r hr; simp [runsOf] at hr
  | cons s T ih =>
    cases T with
    | nil =>
      intro r hr x hx y hy
      simp only [runsOf, List.mem_singleton] at hr
      subst hr
      simp only [List.mem_singleton] at hx hy
      rw [hx, hy]
    | cons t T =>
      intro r hr x hx y hy
      obtain ⟨r0, rs, h⟩ := runsOf_head (fun a b => decide (f a = f b)) T t
      rw [runsOf, h] at hr
      rw [h] at ih
      by_cases hs : f s = f t
      · simp only [hs, decide_True, if_true, attachRun, List.mem_cons] at hr
        rcases hr with hr | hr
        · subst hr
          have key : ∀ z ∈ [s] ++ t :: r0, f z = f t := by
            intro z hz
            simp only [List.singleton_append, List.mem_cons] at hz
            rcases hz with hz | hz | hz
            · rw [hz, hs]
            · rw [hz]
            · exact ih (t :: r0) (by simp) z (by simp [hz]) t (by simp)
          rw [key x hx, key y hy]
        · exact ih r (by simp [hr]) x hx y hy
      · simp only [hs, decide_False, Bool.false_eq_true, if_false, List.mem_cons] at hr
        rcases hr with hr | hr
        · subst hr
          simp only [List.mem_singleton] at hx hy
          rw [hx, hy]
        · exact ih r (by simpa using hr) x hx y hy

theorem stridePairs_one (x : PipelineDescriptorSlot) (h1 : x.strideCount = 1)
    (ho : 1 ≤ x.strideOffsets.length) (hi : 1 ≤ x.strideSlotIndexes.length) :
    stridePairs x = [(x.strideOffsets.getD 0 0, x.strideSlotIndexes.getD 0 0)] := by
  unfold stridePairs
  rw [h1]
  cases hA : x.strideOffsets with
  | nil => rw [hA] at ho; simp at ho
  | cons a A =>
    cases hB : x.strideSlotIndexes with
    | nil => rw [hB] at hi; simp at hi
    | cons b B => simp

theorem stridePairs_add (m : PipelineDescriptorSlot) (a b : Nat)
    (ho : m.strideCount < m.strideOffsets.length)
    (hi : m.strideCount < m.strideSlotIndexes.length) :
    stridePairs { m with
        strideCount := m.strideCount + 1
        strideOffsets := m.strideOffsets.set m.strideCount a
        strideSlotIndexes := m.strideSlotIndexes.set m.strideCount b } =
      stridePairs m ++ [(a, b)] := by
  unfold stridePairs
  simp only
  rw [take_succ_set _ _ _ ho, take_succ_set _ _ _ hi, List.zip_append]
  · rfl
  · simp only [List.length_take]
    omega

theorem collapseInto_pairs (L : Limits) (X : List PipelineDescriptorSlot) :
    ∀ m r : PipelineDescriptorSlot,
      L.MAX_STRIDES ≤ m.strideOffsets.length → L.MAX_STRIDES ≤ m.strideSlotIndexes.length →
      (∀ x ∈ X, x.strideCount ≤ 1 ∧ 1 ≤ x.strideOffsets.length ∧
        1 ≤ x.strideSlotIndexes.length) →
      collapseInto L m X = .ok r →
      r.pathDepth = m.pathDepth ∧ r.path = m.path ∧
        stridePairs r = stridePairs m ++ X.flatMap stridePairs := by
  induction X with
  | nil =>
    intro m r _ _ _ h
    rw [collapseInto] at h
    cases h
    simp
  | cons x X ih =>
    intro m r ho hi hX h
    obtain ⟨hx1, hxo, hxi⟩ := hX x (by simp)
    have hX1 : ∀ y ∈ X, y.strideCount ≤ 1 ∧ 1 ≤ y.strideOffsets.length ∧
        1 ≤ y.strideSlotIndexes.length := fun y hy => hX y (by simp [hy])
    rw [collapseInto, addStride] at h
    by_cases h1 : x.strideCount = 1
    · simp only [h1, if_true] at h
      by_cases h2 : m.strideCount ≥ L.MAX_STRIDES
      · simp only [h2, if_true] at h
        cases h
      · simp only [h2, if_false] at h
        obtain ⟨ha, hb, hc⟩ := ih _ r (by simp only [List.length_set]; exact ho)
          (by simp only [List.length_set]; exact hi) hX1 h
        refine ⟨ha, hb, ?_⟩
        rw [hc, stridePairs_add m _ _ (by omega) (by omega), List.flatMap_cons,
          stridePairs_one x h1 hxo hxi, List.append_assoc]
    · simp only [h1, if_false] at h
      obtain ⟨ha, hb, hc⟩ := ih m r ho hi hX1 h
      refine ⟨ha, hb, ?_⟩
      have h0 : stridePairs x = [] := by
        unfold stridePairs
        rw [show x.strideCount = 0 by omega]
        simp
      rw [hc, List.flatMap_cons, h0, List.nil_append]

theorem collapseRuns_pairs (L : Limits) (runs : List (List PipelineDescriptorSlot)) :
    ∀ ms, (∀ run ∈ runs, run ≠ [] ∧ ∀ x ∈ run, x.strideCount ≤ 1 ∧
        x.strideOffsets.length = L.MAX_STRIDES ∧ x.strideSlotIndexes.length = L.MAX_STRIDES) →
      1 ≤ L.MAX_STRIDES →
      collapseRuns L runs = .ok ms →
      List.Forall₂
        (fun (m : PipelineDescriptorSlot) (run : List PipelineDescriptorSlot) =>
          m.pathDepth = (run.headD default).pathDepth ∧ m.path = (run.headD default).path ∧
            stridePairs m = run.flatMap stridePairs)
        ms runs := by
  induction runs with
  | nil =>
    intro ms _ _ h
    rw [collapseRuns] at h
    cases h
    exact List.Forall₂.nil
  | cons run runs ih =>
    intro ms hall hmax h
    obtain ⟨hne, hrun⟩ := hall run (by simp)
    cases run with
    | nil => exact absurd rfl hne
    | cons s X =>
      rw [collapseRuns, collapseRun] at h
      cases hc : collapseInto L s X with
      | error e =>
        rw [hc] at h
        cases h
      | ok m =>
        rw [hc] at h
        cases hr : collapseRuns L runs with
        | error e =>
          rw [hr] at h
          cases h
        | ok ms1 =>
          rw [hr] at h
          cases h
          obtain ⟨hs1, hs2, hs3⟩ := hrun s (by simp)
          obtain ⟨ha, hb, hp⟩ := collapseInto_pairs L X s m (by omega) (by omega)
            (fun x hx => by
              obtain ⟨h1, h2, h3⟩ := hrun x (by simp [hx])
              exact ⟨h1, by omega, by omega⟩) hc
          refine List.Forall₂.cons ⟨ha, hb, ?_⟩
            (ih ms1 (fun r hr1 => hall r (by simp [hr1])) hmax hr)
          rw [hp, List.flatMap_cons]

theorem sum_strideTotal (runs : List (List PipelineDescriptorSlot)) :
    (runs.map strideTotal).sum = (runs.flatten.map (fun s => s.strideCount)).sum := by
  induction runs with
  | nil => rfl
  | cons r rs ih =>
    simp only [List.map_cons, List.sum_cons, List.flatten_cons, List.map_append,
      List.sum_append, ih, strideTotal]

theorem flatMap_of_forall₂ {α β γ : Type} (f : α → List γ) (g : β → List γ) :
    ∀ (as : List α) (bs : List β), List.Forall₂ (fun a b => f a = g b) as bs →
      as.flatMap f = bs.flatMap g := by
  intro as bs h
  induction h with
  | nil => rfl
  | cons hab _ ih => rw [List.flatMap_cons, List.flatMap_cons, hab, ih]

theorem forall₂_with_right {α β : Type} (R : α → β → Prop) (P : β → Prop) :
    ∀ (as : List α) (bs : List β), List.Forall₂ R as bs → (∀ b ∈ bs, P b) →
      List.Forall₂ (fun a b => P b ∧ R a b) as bs := by
  intro as bs h
  induction h with
  | nil => intro _; exact List.Forall₂.nil
  | cons hab _ ih =>
    intro hall
    exact List.Forall₂.cons ⟨hall _ (by simp), hab⟩ (ih (fun b hb => hall b (by simp [hb])))

theorem flatMap_flatten_runs {α γ : Type} (f : α → List γ) (runs : List (List α)) :
    runs.flatMap (fun run => run.flatMap f) = runs.flatten.flatMap f := by
  induction runs with
  | nil => rfl
  | cons r rs ih =>
    rw [List.flatMap_cons, List.flatten_cons, List.flatMap_append, ih]

/-! ## Claim about the stride pairs of merged slots -/

/-- C30: on extracted slots (each holds at most one stride pair in arrays of `MAX_STRIDES`
entries, paths are arrays of 32-bit values with at least `pathDepth` entries), with
`MAX_STRIDES` at least 1, a `qsort` that permutes its input, and no run of adjacent
equal-PathKey slots of the sorted array holding more than `MAX_STRIDES` stride pairs,
`mergeDescriptorSlots` returns one slot per run, in the order of the runs (which partition
the sorted array); the slot of a run has the PathKey of every slot of the run, the
`pathDepth` and the path array of the run's first slot, and as stride pairs the
concatenation, in sorted order, of the stride pairs of the run's slots; so the stride pairs
of the merged slots are those of the sorted slots, and the total number of stride pairs is
that of the slots given to the merge. -/
theorem mergeDescriptorSlots_concatenates_strides (L : Limits) (qsort : Qsort)
    (slots : List PipelineDescriptorSlot)
    (hmax : 1 ≤ L.MAX_STRIDES)
    (hq : (qsort compareDescriptorSlots slots).Perm slots)
    (hwf : WellFormedSlots slots)
    (hone : ∀ s ∈ slots, s.strideCount ≤ 1 ∧ s.strideOffsets.length = L.MAX_STRIDES ∧
      s.strideSlotIndexes.length = L.MAX_STRIDES)
    (hfit : ∀ run ∈ runsOf (fun a b => decide (pathKey a = pathKey b))
        (qsort compareDescriptorSlots slots), strideTotal run ≤ L.MAX_STRIDES) :
    ∃ merged, mergeDescriptorSlots L qsort slots = .ok merged ∧
      (runsOf (fun a b => decide (pathKey a = pathKey b))
        (qsort compareDescriptorSlots slots)).flatten = qsort compareDescriptorSlots slots ∧
      List.Forall₂
        (fun (m : PipelineDescriptorSlot) (run : List PipelineDescriptorSlot) =>
          (∀ s ∈ run, pathKey s = pathKey m) ∧
            m.pathDepth = (run.headD default).pathDepth ∧
            m.path = (run.headD default).path ∧
            stridePairs m = run.flatMap stridePairs)
        merged
        (runsOf (fun a b => decide (pathKey a = pathKey b))
          (qsort compareDescriptorSlots slots)) ∧
      merged.flatMap stridePairs = (qsort compareDescriptorSlots slots).flatMap stridePairs ∧
      (merged.map (fun s => s.strideCount)).sum = (slots.map (fun s => s.strideCount)).sum := by
  have hmem : ∀ s ∈ qsort compareDescriptorSlots slots, s ∈ slots := fun s hs => hq.subset hs
  have hwf1 : WellFormedSlots (qsort compareDescriptorSlots slots) :=
    fun s hs => hwf s (hmem s hs)
  rw [mergeDescriptorSlots_eq]
  rw [← runsOf_sameRun _ hwf1] at hfit ⊢
  have hkey := runsOf_key pathKey (qsort compareDescriptorSlots slots)
  rw [← runsOf_sameRun _ hwf1] at hkey
  have hruns : ∀ run ∈ runsOf sameRun (qsort compareDescriptorSlots slots),
      run ≠ [] ∧ ∀ x ∈ run, x.strideCount ≤ 1 ∧ x.strideOffsets.length = L.MAX_STRIDES ∧
        x.strideSlotIndexes.length = L.MAX_STRIDES :=
    fun run hr => ⟨(runsOf_mem sameRun _ run hr).1,
      fun x hx => hone x (hmem x ((runsOf_mem sameRun _ run hr).2 x hx))⟩
  have hspec := collapseRuns_spec L hmax (runsOf sameRun (qsort compareDescriptorSlots slots))
    (fun run hr => ⟨(hruns run hr).1, fun x hx => ((hruns run hr).2 x hx).1⟩)
  cases hc : collapseRuns L (runsOf sameRun (qsort compareDescriptorSlots slots)) with
  | error e =>
    rw [hc] at hspec
    obtain ⟨run, hr, hlt⟩ := hspec.2
    exact absurd (hfit run hr) (by omega)
  | ok ms =>
    rw [hc] at hspec
    have hpairs := collapseRuns_pairs L _ ms hruns hmax hc
    have hflat := runsOf_flatten sameRun (qsort compareDescriptorSlots slots)
    refine ⟨ms, rfl, hflat, ?_, ?_, ?_⟩
    · have hall : ∀ run ∈ runsOf sameRun (qsort compareDescriptorSlots slots),
          ∀ s ∈ run, pathKey s = pathKey (run.headD default) := by
        intro run hr s hs
        cases run with
        | nil => simp at hs
        | cons a A => exact hkey _ hr s hs a (by simp)
      refine (forall₂_with_right _ _ ms _ hpairs hall).imp ?_
      intro m run h
      refine ⟨?_, h.2.1, h.2.2.1, h.2.2.2⟩
      intro s hs
      rw [h.1 s hs]
      unfold pathKey
      rw [h.2.1, h.2.2.1]
    · have h1 := flatMap_of_forall₂ stridePairs (fun run => run.flatMap stridePairs) ms _
        (hpairs.imp (fun _ _ h => h.2.2))
      rw [h1, flatMap_flatten_runs, hflat]
    · rw [hspec.2.2.2, sum_strideTotal, hflat]
      exact (hq.map _).sum_eq

/-- Witness for C30: three extracted slots with one stride pair each, the first two with
the same PathKey. The merge returns two slots; the first has the stride pairs of the two
slots of its run, in order, the second its own. -/
theorem mergeDescriptorSlots_concatenates_strides_witness :
    (∃ merged, mergeDescriptorSlots exampleLimits stableQsort exampleStridedSlots =
        .ok merged ∧
      (runsOf (fun a b => decide (pathKey a = pathKey b))
        (stableQsort compareDescriptorSlots exampleStridedSlots)).flatten =
          stableQsort compareDescriptorSlots exampleStridedSlots ∧
      List.Forall₂
        (fun (m : PipelineDescriptorSlot) (run : List PipelineDescriptorSlot) =>
          (∀ s ∈ run, pathKey s = pathKey m) ∧
            m.pathDepth = (run.headD default).pathDepth ∧
            m.path = (run.headD default).path ∧
            stridePairs m = run.flatMap stridePairs)
        merged
        (runsOf (fun a b => decide (pathKey a = pathKey b))
          (stableQsort compareDescriptorSlots exampleStridedSlots)) ∧
      merged.flatMap stridePairs =
        (stableQsort compareDescriptorSlots exampleStridedSlots).flatMap stridePairs ∧
      (merged.map (fun s => s.strideCount)).sum =
        (exampleStridedSlots.map (fun s => s.strideCount)).sum) ∧
    (runsOf (fun a b => decide (pathKey a = pathKey b))
        (stableQsort compareDescriptorSlots exampleStridedSlots)).map List.length = [2, 1] ∧
    exampleStridedSlots.map stridePairs = [[(20, 0)], [(28, 2)], [(36, 1)]] ∧
    ∃ merged, mergeDescriptorSlots exampleLimits stableQsort exampleStridedSlots =
        .ok merged ∧
      merged.map stridePairs = [[(20, 0), (28, 2)], [(36, 1)]] :=
  ⟨mergeDescriptorSlots_concatenates_strides exampleLimits stableQsort exampleStridedSlots
      (by decide) (List.perm_insertionSort _ _) (by unfold WellFormedSlots; decide)
      (by decide) (by decide),
    by decide, by decide, ⟨_, rfl, by decide⟩⟩

/-! ## The first pass rejects at the first chunk that fails a check -/

/-- A chunk that the walk reaches and that fails a check of the first loop makes the first
loop return, at that chunk or at an earlier one. -/
theorem validateLoop_reject_reached (Y : BlobLayout) (dataSize : Nat)
    (blob : GrStoredPipelineBlob) (hw : NoWrap Y dataSize) :
    ∀ k, ChunkReached Y dataSize blob k →
      validateChunk Y dataSize (chunkPosition Y blob k).1 (chunkNumber Y blob k) ≠ none →
      validateLoop Y dataSize blob dataSize Y.sizeofGrStoredPipelineBlob
        Y.sizeofGrStoredPipelineBlob = .ok (some GR_ERROR_INVALID_MEMORY_SIZE) := by
  intro k
  induction k using Nat.strong_induction_on with
  | _ k ih =>
    intro hr hbad
    by_cases hv : ValidBefore Y dataSize blob k
    · cases hc : validateChunk Y dataSize (chunkPosition Y blob k).1 (chunkNumber Y blob k) with
      | none => exact absurd hc hbad
      | some r =>
        have hcode := validateChunk_code _ _ _ _ _ hc
        subst hcode
        exact validateLoop_reject Y dataSize blob hw k _ hr hv hc
    · unfold ValidBefore at hv
      push_neg at hv
      obtain ⟨j, hj, hjbad⟩ := hv
      exact ih j hj (fun i hi => hr i (by omega)) hjbad

theorem validateChunk_of_defect (Y : BlobLayout) (dataSize sz : Nat) (chunk : GrBaseBlobChunk)
    (hw : NoWrap Y dataSize) (hsz : sz < dataSize)
    (hfit : PayloadSumsFit Y chunk) (hbad : FirstPassDefect Y dataSize sz chunk) :
    validateChunk Y dataSize sz chunk ≠ none := by
  obtain ⟨f1, f2, f3, f4, f5⟩ := hfit
  have h32 := size32_lt chunk
  have hW := hw.2
  have htot : (List.range Y.GR_MAX_DESCRIPTOR_SETS).foldl
      (fun acc i => (acc + chunk.descriptorSlots.descriptorSetCounts.getD i 0) % 2 ^ 32) 0 =
        declaredSlotTotal Y chunk :=
    totalDescriptorSets_eq_sum Y chunk.descriptorSlots.descriptorSetCounts f4
  unfold validateChunk
  rw [Nat.mod_eq_of_lt (show sz + chunk.size32 + Y.sizeofGrBaseBlobChunk < 2 ^ Y.sizeBits by
    omega)]
  by_cases hover : sz + chunk.size32 + Y.sizeofGrBaseBlobChunk > dataSize
  · rw [if_pos hover]
    simp
  · rw [if_neg hover]
    rcases hbad with h | ⟨ht, h⟩ | ⟨ht, h⟩ | ⟨ht, h⟩ | ⟨ht, h⟩ | ⟨ht, h⟩ | ⟨ht, h⟩
    · exact absurd h hover
    · simp only [ht]
      rw [Nat.mod_eq_of_lt f1, if_pos h]
      simp
    · simp only [ht]
      rw [Nat.mod_eq_of_lt f2, if_pos h]
      simp
    · simp only [ht]
      rw [Nat.mod_eq_of_lt f3, if_pos h]
      simp
    · simp only [ht, htot]
      rw [Nat.mod_eq_of_lt f5, if_pos h]
      simp
    · simp only [ht]
      rw [if_pos h]
      simp
    · simp only [ht]
      rw [if_pos h]
      simp

/-! ## Claims about the checks of the two passes of `grLoadPipeline` -/

/-- C22: when the walk of the first pass reaches a `PIPELINE_INFO` chunk whose declared
size differs from `sizeof(GrPipelineInfoChunk)`, or a `GRAPHICS_PIPELINE_INFO` chunk whose
declared size differs from `sizeof(GrGraphicsPipelineInfoChunk)`, the first loop returns
`GR_ERROR_INVALID_MEMORY_SIZE` (at that chunk or at an earlier one), so `grLoadPipeline`
rejects the blob without having allocated or created anything. -/
theorem grLoadPipeline_rejects_wrong_info_size (Y : BlobLayout) (native : NativeApi)
    (grDevice : GrDevice) (dataSize : Nat) (blob : GrStoredPipelineBlob) (k : Nat)
    (hw : NoWrap Y dataSize) (hr : ChunkReached Y dataSize blob k)
    (hbad : ((chunkNumber Y blob k).type = PIPELINE_INFO ∧
        (chunkNumber Y blob k).size32 ≠ Y.sizeofGrPipelineInfoChunk) ∨
      ((chunkNumber Y blob k).type = GRAPHICS_PIPELINE_INFO ∧
        (chunkNumber Y blob k).size32 ≠ Y.sizeofGrGraphicsPipelineInfoChunk)) :
    validateLoop Y dataSize blob dataSize Y.sizeofGrStoredPipelineBlob
        Y.sizeofGrStoredPipelineBlob = .ok (some GR_ERROR_INVALID_MEMORY_SIZE) ∧
      grLoadPipeline Y native grDevice dataSize (some blob) =
        .ok { result := GR_ERROR_INVALID_MEMORY_SIZE, pipeline := none, allocations := 0 } := by
  have hv : validateLoop Y dataSize blob dataSize Y.sizeofGrStoredPipelineBlob
      Y.sizeofGrStoredPipelineBlob = .ok (some GR_ERROR_INVALID_MEMORY_SIZE) := by
    apply validateLoop_reject_reached Y dataSize blob hw k hr
    unfold validateChunk
    split
    · simp
    · rcases hbad with ⟨ht, h⟩ | ⟨ht, h⟩
      · simp only [ht]
        rw [if_pos h]
        simp
      · simp only [ht]
        rw [if_pos h]
        simp
  exact ⟨hv, grLoadPipeline_of_reject Y native grDevice dataSize blob hv⟩

/-- Witness for C22: the first chunk of `exampleBadInfoBlob` is a `PIPELINE_INFO` chunk of
declared size 100. -/
theorem grLoadPipeline_rejects_wrong_info_size_witness :
    validateLoop exampleLayout 148 exampleBadInfoBlob 148
        exampleLayout.sizeofGrStoredPipelineBlob exampleLayout.sizeofGrStoredPipelineBlob =
          .ok (some GR_ERROR_INVALID_MEMORY_SIZE) ∧
      grLoadPipeline exampleLayout exampleNative exampleDevice 148 (some exampleBadInfoBlob) =
        .ok { result := GR_ERROR_INVALID_MEMORY_SIZE, pipeline := none, allocations := 0 } :=
  grLoadPipeline_rejects_wrong_info_size exampleLayout exampleNative exampleDevice 148
    exampleBadInfoBlob 0 (by unfold NoWrap; decide)
    (by
      intro j hj
      match j, hj with
      | 0, _ => decide)
    (Or.inl (by decide))

/-- C23 (as stated, refuted): the second chunk of `exampleLooseSlotsBlob` is a
`DESCRIPTOR_SLOTS` chunk whose declared size (120) does not match
`sizeof(GrPipelineDescriptorChunk)` plus `sizeof(PipelineDescriptorSlot)` times the total
of its declared counts (8 + 104 * 1), and `grLoadPipeline` accepts the blob. -/
theorem grLoadPipeline_accepts_loose_descriptor_chunk :
    (chunkNumber exampleLayout exampleLooseSlotsBlob 1).type = DESCRIPTOR_SLOTS ∧
      ChunkReached exampleLayout 280 exampleLooseSlotsBlob 1 ∧
      (chunkNumber exampleLayout exampleLooseSlotsBlob 1).size32 ≠
        exampleLayout.sizeofGrPipelineDescriptorChunk +
          exampleLayout.sizeofPipelineDescriptorSlot *
            declaredSlotTotal exampleLayout (chunkNumber exampleLayout exampleLooseSlotsBlob 1) ∧
      grLoadPipeline exampleLayout exampleNative exampleDevice 280
          (some exampleLooseSlotsBlob) =
        .ok { result := GR_SUCCESS
              pipeline := some { exampleLoadedPipeline with
                descriptorSetCounts := [1, 0]
                descriptorSlots := [some [exampleSlot 0], none] }
              allocations := 6 } := by
  refine ⟨by decide, ?_, by decide, by decide⟩
  intro j hj
  match j, hj with
  | 0, _ => decide
  | 1, _ => decide

/-- C23 (amended): when the walk of the first pass reaches a `DESCRIPTOR_SLOTS` chunk
whose declared size is smaller than `sizeof(GrPipelineDescriptorChunk)` plus
`sizeof(PipelineDescriptorSlot)` times the total of its declared per-mapping-index counts
(sums that do not wrap), the first loop returns `GR_ERROR_INVALID_MEMORY_SIZE` (at that
chunk or at an earlier one), so `grLoadPipeline` rejects the blob without having allocated
or created anything. -/
theorem grLoadPipeline_rejects_small_descriptor_chunk (Y : BlobLayout) (native : NativeApi)
    (grDevice : GrDevice) (dataSize : Nat) (blob : GrStoredPipelineBlob) (k : Nat)
    (hw : NoWrap Y dataSize) (hr : ChunkReached Y dataSize blob k)
    (ht : (chunkNumber Y blob k).type = DESCRIPTOR_SLOTS)
    (hsum : declaredSlotTotal Y (chunkNumber Y blob k) < 2 ^ 32)
    (hfit : Y.sizeofGrPipelineDescriptorChunk +
      declaredSlotTotal Y (chunkNumber Y blob k) * Y.sizeofPipelineDescriptorSlot <
        2 ^ Y.sizeBits)
    (hbad : (chunkNumber Y blob k).size32 < Y.sizeofGrPipelineDescriptorChunk +
      Y.sizeofPipelineDescriptorSlot * declaredSlotTotal Y (chunkNumber Y blob k)) :
    validateLoop Y dataSize blob dataSize Y.sizeofGrStoredPipelineBlob
        Y.sizeofGrStoredPipelineBlob = .ok (some GR_ERROR_INVALID_MEMORY_SIZE) ∧
      grLoadPipeline Y native grDevice dataSize (some blob) =
        .ok { result := GR_ERROR_INVALID_MEMORY_SIZE, pipeline := none, allocations := 0 } := by
  have hv : validateLoop Y dataSize blob dataSize Y.sizeofGrStoredPipelineBlob
      Y.sizeofGrStoredPipelineBlob = .ok (some GR_ERROR_INVALID_MEMORY_SIZE) := by
    apply validateLoop_reject_reached Y dataSize blob hw k hr
    have htot : (List.range Y.GR_MAX_DESCRIPTOR_SETS).foldl
        (fun acc i => (acc +
          (chunkNumber Y blob k).descriptorSlots.descriptorSetCounts.getD i 0) % 2 ^ 32) 0 =
          declaredSlotTotal Y (chunkNumber Y blob k) :=
      totalDescriptorSets_eq_sum Y _ hsum
    unfold validateChunk
    split
    · simp
    · simp only [ht, htot]
      rw [Nat.mod_eq_of_lt hfit, if_pos (by rw [Nat.mul_comm]; exact hbad)]
      simp
  exact ⟨hv, grLoadPipeline_of_reject Y native grDevice dataSize blob hv⟩

/-- Witness for C23: `exampleLooseSlotsBlob` with the declared size of its
`DESCRIPTOR_SLOTS` chunk cut to 100 bytes. -/
theorem grLoadPipeline_rejects_small_descriptor_chunk_witness :
    validateLoop exampleLayout 280
        { exampleLooseSlotsBlob with
          chunkAt := fun o => if o = 128 then { exampleLooseSlotsChunk with size := 100 }
            else exampleLooseSlotsBlob.chunkAt o } 280
        exampleLayout.sizeofGrStoredPipelineBlob exampleLayout.sizeofGrStoredPipelineBlob =
          .ok (some GR_ERROR_INVALID_MEMORY_SIZE) ∧
      grLoadPipeline exampleLayout exampleNative exampleDevice 280
          (some { exampleLooseSlotsBlob with
            chunkAt := fun o => if o = 128 then { exampleLooseSlotsChunk with size := 100 }
              else exampleLooseSlotsBlob.chunkAt o }) =
        .ok { result := GR_ERROR_INVALID_MEMORY_SIZE, pipeline := none, allocations := 0 } :=
  grLoadPipeline_rejects_small_descriptor_chunk exampleLayout exampleNative exampleDevice 280
    { exampleLooseSlotsBlob with
      chunkAt := fun o => if o = 128 then { exampleLooseSlotsChunk with size := 100 }
        else exampleLooseSlotsBlob.chunkAt o } 1 (by unfold NoWrap; decide)
    (by
      intro j hj
      match j, hj with
      | 0, _ => decide
      | 1, _ => decide)
    (by decide) (by decide) (by decide) (by decide)

theorem loadChunk_of_defect (Y : BlobLayout) (chunk : GrBaseBlobChunk) (s : LoadState)
    (h : SecondPassDefect Y chunk s) : loadChunk Y chunk s = .bail s := by
  unfold loadChunk
  rcases h with ⟨ht, h⟩ | ⟨ht, h⟩ | ⟨ht, h⟩ | ⟨ht, h⟩
  · simp only [ht]
    rw [if_pos h]
  · simp only [ht]
    rw [if_pos h]
  · simp only [ht]
    rw [if_pos h]
  · simp only [ht]
    cases hc : s.createInfo with
    | none => rw [hc] at h; cases h
    | some c => rfl

/-- C21 (as stated, refuted): `exampleBadSpirvBlob` has a `SPIRV` chunk whose payload does
not fit its declared size, and `grLoadPipeline` returns `GR_ERROR_INVALID_MEMORY_SIZE` for
it, not `GR_ERROR_BAD_PIPELINE_DATA`; `exampleTwoGraphicsBlob` has two
`GRAPHICS_PIPELINE_INFO` chunks, and `grLoadPipeline` rejects it only after one buffer has
been allocated (for the first of them). -/
theorem grLoadPipeline_defect_code_and_allocation :
    (chunkNumber exampleLayout exampleBadSpirvBlob 1).type = SPIRV ∧
      (chunkNumber exampleLayout exampleBadSpirvBlob 1).spirv.codeSize +
          exampleLayout.sizeofGrSpirvBlobChunk >
        (chunkNumber exampleLayout exampleBadSpirvBlob 1).size32 ∧
      grLoadPipeline exampleLayout exampleNative exampleDevice 148
          (some exampleBadSpirvBlob) =
        .ok { result := GR_ERROR_INVALID_MEMORY_SIZE, pipeline := none, allocations := 0 } ∧
      GR_ERROR_INVALID_MEMORY_SIZE ≠ GR_ERROR_BAD_PIPELINE_DATA ∧
      (chunkNumber exampleLayout exampleTwoGraphicsBlob 1).type = GRAPHICS_PIPELINE_INFO ∧
      (chunkNumber exampleLayout exampleTwoGraphicsBlob 2).type = GRAPHICS_PIPELINE_INFO ∧
      grLoadPipeline exampleLayout exampleNative exampleDevice 336
          (some exampleTwoGraphicsBlob) =
        .ok { result := GR_ERROR_BAD_PIPELINE_DATA, pipeline := none, allocations := 1 } := by
  decide

/-- C21 (amended): for a buffer longer than the two headers, when the walk reaches a chunk
with a defect of the first pass (the chunk overruns the buffer, a
SPIRV/SPEC_INFO/SPEC_INFO_ENTRIES/DESCRIPTOR_SLOTS payload does not fit its chunk, a
fixed-size chunk has the wrong size; sums that do not wrap), `grLoadPipeline` returns
`GR_ERROR_INVALID_MEMORY_SIZE` before any buffer is allocated or native object created;
when the first pass accepts the blob and the second pass reaches a chunk with one of its
defects (a stage index that is not below `MAX_STAGE_COUNT`, a `SPIRV` chunk for a stage
that already has its flags, a second `GRAPHICS_PIPELINE_INFO` chunk), `grLoadPipeline`
returns `GR_ERROR_BAD_PIPELINE_DATA` and no pipeline, the allocations being those made for
the chunks before that one. -/
theorem grLoadPipeline_defect_codes (Y : BlobLayout) (native : NativeApi)
    (grDevice : GrDevice) (dataSize : Nat) (blob : GrStoredPipelineBlob)
    (hw : NoWrap Y dataSize)
    (hs : Y.sizeofGrStoredPipelineBlob + Y.sizeofGrBaseBlobChunk < dataSize) :
    (∀ k, ChunkReached Y dataSize blob k → PayloadSumsFit Y (chunkNumber Y blob k) →
        FirstPassDefect Y dataSize (chunkPosition Y blob k).1 (chunkNumber Y blob k) →
        grLoadPipeline Y native grDevice dataSize (some blob) =
          .ok { result := GR_ERROR_INVALID_MEMORY_SIZE, pipeline := none,
                allocations := 0 }) ∧
      (∀ k s, ChunkReached Y dataSize blob k →
        validateLoop Y dataSize blob dataSize Y.sizeofGrStoredPipelineBlob
          Y.sizeofGrStoredPipelineBlob = .ok none →
        loadedAfter Y blob k = .next s → SecondPassDefect Y (chunkNumber Y blob k) s →
        grLoadPipeline Y native grDevice dataSize (some blob) =
          .ok { result := GR_ERROR_BAD_PIPELINE_DATA, pipeline := none,
                allocations := s.allocations }) := by
  constructor
  · intro k hr hfit hbad
    apply grLoadPipeline_of_reject
    exact validateLoop_reject_reached Y dataSize blob hw k hr
      (validateChunk_of_defect Y dataSize _ _ hw (hr k (le_refl _)) hfit hbad)
  · intro k s hr hvalid hk hbad
    have hge := chunkPosition_ge Y dataSize blob hw k hr
    have hlt := hr k (le_refl _)
    obtain ⟨f, hf⟩ : ∃ f, dataSize = (f + 1) + k := ⟨dataSize - k - 1, by omega⟩
    have hloop := loadLoop_advance Y dataSize blob k (f + 1) (fun j hj => hr j (by omega))
    rw [← hf, hk] at hloop
    simp only at hloop
    rw [loadLoop] at hloop
    have hc := loadChunk_of_defect Y _ s hbad
    unfold chunkNumber at hc
    simp only [hlt, if_true, hc] at hloop
    unfold grLoadPipeline
    rw [if_neg (by omega)]
    simp only [hvalid, hloop]

/-- Witness for C21: a buffer of 148 bytes is longer than the 4 + 8 bytes of the two
headers; `exampleBadSpirvBlob` in it has a defect of the first pass. -/
theorem grLoadPipeline_defect_codes_witness :
    grLoadPipeline exampleLayout exampleNative exampleDevice 148 (some exampleBadSpirvBlob) =
      .ok { result := GR_ERROR_INVALID_MEMORY_SIZE, pipeline := none, allocations := 0 } :=
  (grLoadPipeline_defect_codes exampleLayout exampleNative exampleDevice 148
    exampleBadSpirvBlob (by unfold NoWrap; decide) (by decide)).1 1
    (by
      intro j hj
      match j, hj with
      | 0, _ => decide
      | 1, _ => decide)
    (by unfold PayloadSumsFit; decide)
    (Or.inr (Or.inl (by decide)))

/-! ## Claim about the resources of a failed pipeline creation -/

/-- C24, the code at a failing input: for a request with one vertex shader, when
`vkCreatePipelineLayout` fails, `grCreateGraphicsPipeline` returns
`GR_ERROR_OUT_OF_MEMORY` without writing `*pPipeline`, and the buffer
`pipelineCreateInfo`, allocated before the layout is requested, is still allocated: the
block at `bail` does not release it. When `vkCreateShaderModule` fails instead, nothing is
left allocated. -/
theorem grCreateGraphicsPipeline_layout_failure_leaks :
    grCreateGraphicsPipeline exampleEnv exampleLayout exampleNoLayoutNative exampleDevice
        (exampleDynamicRequest []) =
      .ok { result := GR_ERROR_OUT_OF_MEMORY, pipeline := none
            leaked := [CreateResource.pipelineCreateInfo] } ∧
    grCreateGraphicsPipeline exampleEnv exampleLayout exampleFailingNative exampleDevice
        (exampleDynamicRequest []) =
      .ok { result := GR_ERROR_OUT_OF_MEMORY, pipeline := none, leaked := [] } := by
  decide

/-! ## The third stage loop compacts the per-stage arrays -/

theorem getElem?_snoc {α : Type} (l : List α) (a w : α) (k : Nat)
    (h : (l ++ [a])[k]? = some w) :
    (k < l.length ∧ l[k]? = some w) ∨ (k = l.length ∧ w = a) := by
  rcases Nat.lt_trichotomy k l.length with hk | hk | hk
  · rw [List.getElem?_append_left hk] at h
    exact Or.inl ⟨hk, h⟩
  · subst hk
    rw [List.getElem?_append_right (le_refl _)] at h
    simp only [Nat.sub_self, List.getElem?_cons_zero, Option.some.injEq] at h
    exact Or.inr ⟨rfl, h.symm⟩
  · rw [List.getElem?_eq_none (by simp; omega)] at h
    cases h

theorem compacted_absent {α β : Type} (z : α) (A0 : List α) (done : List (Nat × β))
    (i : Nat) (A : List α) (h : Compacted z A0 done i A) (hz : A0.getD i z = z) :
    Compacted z A0 done (i + 1) A := by
  obtain ⟨hl, ha, hb, hc⟩ := h
  refine ⟨hl, ha, ?_, fun k hk => hc k (by omega)⟩
  intro k hk1 hk2
  rcases Nat.lt_or_ge k i with hlt | hge
  · exact hb k hk1 hlt
  · have hki : k = i := by omega
    subst hki
    rw [hc k (le_refl _), hz]

theorem compacted_stay {α β : Type} (z : α) (A0 : List α) (done : List (Nat × β))
    (i : Nat) (A : List α) (w0 : Nat × β) (h : Compacted z A0 done i A)
    (hw : w0.1 = i) (hsc : done.length = i) :
    Compacted z A0 (done ++ [w0]) (i + 1) A := by
  obtain ⟨hl, ha, hb, hc⟩ := h
  refine ⟨hl, ?_, ?_, fun k hk => hc k (by omega)⟩
  · intro k w hk
    rcases getElem?_snoc done w0 w k hk with ⟨_, h1⟩ | ⟨h1, h2⟩
    · exact ha k w h1
    · subst h2
      rw [h1, hsc, hw]
      exact hc i (le_refl _)
  · intro k hk1 hk2
    simp only [List.length_append, List.length_singleton] at hk1
    omega

theorem compacted_move {α β : Type} (z : α) (A0 : List α) (done : List (Nat × β))
    (i : Nat) (A : List α) (w0 : Nat × β) (h : Compacted z A0 done i A)
    (hw : w0.1 = i) (hsc : done.length < i) (hi : i < A0.length) :
    Compacted z A0 (done ++ [w0]) (i + 1)
      ((A.set done.length (A.getD i z)).set i z) := by
  obtain ⟨hl, ha, hb, hc⟩ := h
  refine ⟨by simp [hl], ?_, ?_, ?_⟩
  · intro k w hk
    rcases getElem?_snoc done w0 w k hk with ⟨h0, h1⟩ | ⟨h1, h2⟩
    · rw [getD_set_other _ _ _ _ _ (by omega), getD_set_other _ _ _ _ _ (by omega)]
      exact ha k w h1
    · subst h2
      subst h1
      rw [getD_set_other _ _ _ _ _ (by omega), getD_set_self _ _ _ _ (by omega), hw]
      exact hc i (le_refl _)
  · intro k hk1 hk2
    simp only [List.length_append, List.length_singleton] at hk1
    rcases Nat.lt_or_ge k i with hlt | hge
    · rw [getD_set_other _ _ _ _ _ (by omega), getD_set_other _ _ _ _ _ (by omega)]
      exact hb k (by omega) hlt
    · have hki : k = i := by omega
      subst hki
      rw [getD_set_self _ _ _ _ (by simp; omega)]
  · intro k hk
    rw [getD_set_other _ _ _ _ _ (by omega), getD_set_other _ _ _ _ _ (by omega)]
    exact hc k (by omega)

theorem filled_present {α β : Type} (z : α) (A0 : List α) (val : Nat × β → α)
    (done : List (Nat × β)) (A : List α) (w0 : Nat × β) (h : Filled z A0 val done A)
    (hsc : done.length < A0.length) :
    Filled z A0 val (done ++ [w0]) (A.set done.length (val w0)) := by
  obtain ⟨hl, ha, hb⟩ := h
  refine ⟨by simp [hl], ?_, ?_⟩
  · intro k w hk
    rcases getElem?_snoc done w0 w k hk with ⟨h0, h1⟩ | ⟨h1, h2⟩
    · rw [getD_set_other _ _ _ _ _ (by omega)]
      exact ha k w h1
    · subst h2
      subst h1
      rw [getD_set_self _ _ _ _ (by omega)]
  · intro k hk
    simp only [List.length_append, List.length_singleton] at hk
    rw [getD_set_other _ _ _ _ _ (by omega)]
    exact hb k (by omega)

theorem buildStage_absent (env : CreateEnv) (native : NativeApi) (stages : List Stage)
    (st0 : BuiltStages) (done : List (Nat × Stage)) (i : Nat) (stage : Stage)
    (st : BuiltStages) (hs : stage.shader.shader = none)
    (hz : st0.patchEntries.getD i none = none ∧ st0.mapEntries.getD i none = none ∧
      st0.specData.getD i none = none ∧ st0.specInfos.getD i ⟨0, 0⟩ = ⟨0, 0⟩)
    (hinv : BuiltUpTo env native stages st0 done i st) :
    buildStage env native stages i stage st = .next st ∧
      BuiltUpTo env native stages st0 done (i + 1) st := by
  obtain ⟨h1, h2, h3, h4, h5, h6, h7, h8, h9⟩ := hinv
  refine ⟨by unfold buildStage; simp only [hs], h1, by omega,
    compacted_absent _ _ _ _ _ h3 hz.1, compacted_absent _ _ _ _ _ h4 hz.2.1,
    compacted_absent _ _ _ _ _ h5 hz.2.2.1, compacted_absent _ _ _ _ _ h6 hz.2.2.2,
    h7, h8, h9⟩

theorem buildStage_present (env : CreateEnv) (native : NativeApi) (stages : List Stage)
    (st0 : BuiltStages) (done : List (Nat × Stage)) (i : Nat) (stage : Stage) (sh : GrShader)
    (st : BuiltStages)
    (hnat : ∀ code, (native.vkCreateShaderModule code).isSome = true)
    (hs : stage.shader.shader = some sh)
    (hlen : i < st0.patchEntries.length ∧ i < st0.mapEntries.length ∧
      i < st0.specData.length ∧ i < st0.specInfos.length ∧ i < st0.shaderModules.length ∧
      i < st0.shaderCode.length ∧ i < st0.shaderStageCreateInfo.length)
    (hinv : BuiltUpTo env native stages st0 done i st) :
    ∃ st1, buildStage env native stages i stage st = .next st1 ∧
      BuiltUpTo env native stages st0 (done ++ [(i, stage)]) (i + 1) st1 := by
  obtain ⟨h1, h2, h3, h4, h5, h6, h7, h8, h9⟩ := hinv
  obtain ⟨l1, l2, l3, l4, l5, l6, l7⟩ := hlen
  have hpe : st.patchEntries.getD i none = st0.patchEntries.getD i none :=
    h3.2.2.2 i (le_refl _)
  unfold buildStage
  simp only [hs]
  generalize hc : (Option.getD _ (env.patchShaderBindings sh.code (st.patchEntries.getD i none)
    sh.bindings.length)) = code
  have hcode : stageShaderCode env stages st0.patchEntries (i, stage) = code := by
    rw [← hc]
    unfold stageShaderCode
    simp only [hs, hpe]
  obtain ⟨m, hm⟩ := Option.isSome_iff_exists.mp (hnat code)
  rw [hm]
  simp only
  refine ⟨_, rfl, ?_⟩
  have f7 := filled_present none st0.shaderModules _ done st.shaderModules (i, stage) h7
    (by omega)
  have f8 := filled_present none st0.shaderCode _ done st.shaderCode (i, stage) h8 (by omega)
  simp only [hcode, hm] at f7 f8
  by_cases hne : st.stageCount = i
  · have f9 := filled_present default st0.shaderStageCreateInfo _ done
      st.shaderStageCreateInfo (i, stage) h9 (by omega)
    simp only [hcode, hm] at f9
    simp only [hne, ne_eq, not_true_eq_false, if_false]
    rw [h1] at hne
    subst hne
    exact ⟨by simp, by simp, compacted_stay _ _ _ _ _ (_, stage) h3 rfl rfl,
      compacted_stay _ _ _ _ _ (_, stage) h4 rfl rfl,
      compacted_stay _ _ _ _ _ (_, stage) h5 rfl rfl,
      compacted_stay _ _ _ _ _ (_, stage) h6 rfl rfl, f7, f8, f9⟩
  · have f9 := filled_present default st0.shaderStageCreateInfo _ done
      st.shaderStageCreateInfo (i, stage) h9 (by omega)
    simp only [hcode, hm] at f9
    simp only [hne, ne_eq, not_false_eq_true, if_true]
    rw [h1] at hne ⊢
    have hlt : done.length < i := by omega
    exact ⟨by simp, by simp; omega, compacted_move _ _ _ _ _ (i, stage) h3 rfl hlt l1,
      compacted_move _ _ _ _ _ (i, stage) h4 rfl hlt l2,
      compacted_move _ _ _ _ _ (i, stage) h5 rfl hlt l3,
      compacted_move _ _ _ _ _ (i, stage) h6 rfl hlt l4, f7, f8, f9⟩

theorem buildStages_compacts (env : CreateEnv) (native : NativeApi) (stages : List Stage)
    (st0 : BuiltStages) (M : Nat)
    (hnat : ∀ code, (native.vkCreateShaderModule code).isSome = true)
    (hM : st0.patchEntries.length = M ∧ st0.mapEntries.length = M ∧ st0.specData.length = M ∧
      st0.specInfos.length = M ∧ st0.shaderModules.length = M ∧ st0.shaderCode.length = M ∧
      st0.shaderStageCreateInfo.length = M)
    (rest : List Stage) :
    ∀ (i : Nat) (done : List (Nat × Stage)) (st : BuiltStages), i + rest.length ≤ M →
      (∀ (t : Nat) (stage : Stage), rest[t]? = some stage → stage.shader.shader = none →
        st0.patchEntries.getD (i + t) none = none ∧ st0.mapEntries.getD (i + t) none = none ∧
        st0.specData.getD (i + t) none = none ∧
        st0.specInfos.getD (i + t) ⟨0, 0⟩ = ⟨0, 0⟩) →
      BuiltUpTo env native stages st0 done i st →
      ∃ st1, buildStages env native stages i rest st = .next st1 ∧
        BuiltUpTo env native stages st0 (done ++ presentFrom i rest) (i + rest.length) st1 := by
  obtain ⟨m1, m2, m3, m4, m5, m6, m7⟩ := hM
  induction rest with
  | nil =>
    intro i done st _ _ hinv
    exact ⟨st, rfl, by simpa [presentFrom] using hinv⟩
  | cons stage rest ih =>
    intro i done st hlen hnull hinv
    simp only [List.length_cons] at hlen
    have hnull1 : ∀ (t : Nat) (stage1 : Stage), rest[t]? = some stage1 →
        stage1.shader.shader = none →
        st0.patchEntries.getD (i + 1 + t) none = none ∧
        st0.mapEntries.getD (i + 1 + t) none = none ∧
        st0.specData.getD (i + 1 + t) none = none ∧
        st0.specInfos.getD (i + 1 + t) ⟨0, 0⟩ = ⟨0, 0⟩ := by
      intro t stage1 h1 h2
      have := hnull (t + 1) stage1 (by simpa using h1) h2
      rw [show i + (t + 1) = i + 1 + t by omega] at this
      exact this
    rw [buildStages, presentFrom]
    cases hs : stage.shader.shader with
    | none =>
      obtain ⟨hb, hinv1⟩ := buildStage_absent env native stages st0 done i stage st hs
        (hnull 0 stage (by simp) hs) hinv
      obtain ⟨st1, h1, h2⟩ := ih (i + 1) done st (by omega) hnull1 hinv1
      refine ⟨st1, ?_, ?_⟩
      · rw [hb]
        exact h1
      · simp only [Option.isSome_none, Bool.false_eq_true, if_false, List.length_cons]
        rw [show i + (rest.length + 1) = i + 1 + rest.length by omega]
        exact h2
    | some sh =>
      obtain ⟨st2, hb, hinv1⟩ := buildStage_present env native stages st0 done i stage sh st
        hnat hs ⟨by omega, by omega, by omega, by omega, by omega, by omega, by omega⟩ hinv
      obtain ⟨st1, h1, h2⟩ := ih (i + 1) (done ++ [(i, stage)]) st2 (by omega) hnull1 hinv1
      refine ⟨st1, ?_, ?_⟩
      · rw [hb]
        exact h1
      · simp only [Option.isSome_some, if_true, List.length_cons]
        rw [show i + (rest.length + 1) = i + 1 + rest.length by omega]
        simpa [List.append_assoc] using h2

theorem presentFrom_length (rest : List Stage) :
    ∀ i, (presentFrom i rest).length = rest.countP (fun s => s.shader.shader.isSome) := by
  induction rest with
  | nil => intro i; rfl
  | cons stage rest ih =>
    intro i
    rw [presentFrom, List.countP_cons]
    cases stage.shader.shader with
    | none => simpa using ih (i + 1)
    | some sh => simpa using ih (i + 1)

theorem prepareStage_specInfos_frame (env : CreateEnv) (Y : BlobLayout) (grDevice : GrDevice)
    (i s : Nat) (stage : Stage) (st : PreparedStages) (h : i ≠ s) :
    (prepareStage env Y grDevice i stage st).specInfos.getD s ⟨0, 0⟩ =
      st.specInfos.getD s ⟨0, 0⟩ := by
  unfold prepareStage
  cases hsx : stage.shader.shader with
  | none => rfl
  | some sh =>
    simp only
    by_cases hb : sh.bindings.length = 0
    · simp only [hb, if_true]
    · simp only [hb, if_false]
      exact getD_set_other _ _ _ _ _ h

/-- The first stage loop leaves the entries of a null stage, and the entries behind the
stage array, as they were. -/
theorem prepareStages_null (env : CreateEnv) (Y : BlobLayout) (grDevice : GrDevice) (s : Nat)
    (rest : List Stage) :
    ∀ (i : Nat) (st : PreparedStages),
      (∀ (t : Nat) (stage : Stage), rest[t]? = some stage → i + t = s →
        stage.shader.shader = none) →
      (prepareStages env Y grDevice i rest st).mapEntries.getD s none =
          st.mapEntries.getD s none ∧
        (prepareStages env Y grDevice i rest st).specInfos.getD s ⟨0, 0⟩ =
          st.specInfos.getD s ⟨0, 0⟩ := by
  induction rest with
  | nil => intro i st _; exact ⟨rfl, rfl⟩
  | cons stage rest ih =>
    intro i st hnull
    rw [prepareStages]
    obtain ⟨h1, h2⟩ := ih (i + 1) (prepareStage env Y grDevice i stage st)
      (fun t stage1 ht hts => hnull (t + 1) stage1 (by simpa using ht) (by omega))
    rw [h1, h2]
    by_cases his : i = s
    · have hs := hnull 0 stage (by simp) (by omega)
      unfold prepareStage
      simp only [hs]
      exact ⟨trivial, trivial⟩
    · exact ⟨(prepareStage_mapEntries_frame env Y grDevice i s stage st his).1,
        prepareStage_specInfos_frame env Y grDevice i s stage st his⟩

theorem initialBuilt_null (env : CreateEnv) (Y : BlobLayout) (grDevice : GrDevice)
    (stages : List Stage) (prepared : PreparedStages) (resolved : ResolvedMappings)
    (hr : resolveStages env Y grDevice stages = .ok (prepared, resolved)) (s : Nat)
    (hs : ∀ stage, stages[s]? = some stage → stage.shader.shader = none) :
    (initialBuilt env Y prepared resolved).patchEntries.getD s none = none ∧
      (initialBuilt env Y prepared resolved).mapEntries.getD s none = none ∧
      (initialBuilt env Y prepared resolved).specData.getD s none = none ∧
      (initialBuilt env Y prepared resolved).specInfos.getD s ⟨0, 0⟩ = ⟨0, 0⟩ := by
  have hp : prepared = prepareStages env Y grDevice 0 stages (initialPrepared env Y) := by
    unfold resolveStages at hr
    simp only at hr
    split at hr
    · cases hr
    · cases hr
      rfl
  obtain ⟨h1, h2⟩ := prepareStages_null env Y grDevice s stages 0 (initialPrepared env Y)
    (fun t stage ht hts => hs stage (by rw [← hts, Nat.zero_add]; exact ht))
  rw [← hp] at h1 h2
  have hm : prepared.mapEntries.getD s none = none := by
    rw [h1]
    simp only [initialPrepared, List.getD_eq_getElem?_getD, List.getElem?_replicate]
    split <;> rfl
  have hi : prepared.specInfos.getD s ⟨0, 0⟩ = ⟨0, 0⟩ := by
    rw [h2]
    simp only [initialPrepared, List.getD_eq_getElem?_getD, List.getElem?_replicate]
    split <;> rfl
  refine ⟨?_, hm, ?_, hi⟩
  · simp only [initialBuilt, List.getD_eq_getElem?_getD, List.getElem?_map]
    simp only [List.getD_eq_getElem?_getD] at hm
    rcases Nat.lt_or_ge s Y.MAX_STAGE_COUNT with hlt | hge
    · simp [List.getElem?_range hlt, hm]
    · simp [List.getElem?_eq_none (show (List.range Y.MAX_STAGE_COUNT).length ≤ s by simpa)]
  · simp only [initialBuilt, List.getD_eq_getElem?_getD, List.getElem?_map]
    simp only [List.getD_eq_getElem?_getD] at hm
    rcases Nat.lt_or_ge s Y.MAX_STAGE_COUNT with hlt | hge
    · simp [List.getElem?_range hlt, hm]
    · simp [List.getElem?_eq_none (show (List.range Y.MAX_STAGE_COUNT).length ≤ s by simpa)]

theorem getD_memcpyInto_behind {α : Type} (M : Nat) (copied : List α) (k : Nat) (d : α)
    (h : copied.length ≤ k) :
    (memcpyInto (List.replicate M d) copied).getD k d = d := by
  unfold memcpyInto
  rw [List.getD_eq_getElem?_getD, List.getElem?_append_right h, List.getElem?_drop,
    List.getElem?_replicate]
  split <;> rfl

theorem getD_map_option {α β : Type} (l : List (Option α)) (f : α → β) (k : Nat) :
    (l.map (fun d => d.map f)).getD k none = (l.getD k none).map f := by
  simp only [List.getD_eq_getElem?_getD, List.getElem?_map]
  cases l[k]? <;> rfl

theorem prepareStages_lengths (env : CreateEnv) (Y : BlobLayout) (grDevice : GrDevice)
    (rest : List Stage) :
    ∀ (i : Nat) (st : PreparedStages),
      (prepareStages env Y grDevice i rest st).mapEntries.length = st.mapEntries.length ∧
        (prepareStages env Y grDevice i rest st).specInfos.length = st.specInfos.length := by
  induction rest with
  | nil => intro i st; exact ⟨rfl, rfl⟩
  | cons stage rest ih =>
    intro i st
    rw [prepareStages]
    obtain ⟨h1, h2⟩ := ih (i + 1) (prepareStage env Y grDevice i stage st)
    rw [h1, h2]
    unfold prepareStage
    cases stage.shader.shader with
    | none => exact ⟨rfl, rfl⟩
    | some sh =>
      simp only
      split
      · exact ⟨rfl, rfl⟩
      · simp

theorem getD_replicate_self {α : Type} (M k : Nat) (d : α) :
    (List.replicate M d).getD k d = d := by
  rw [List.getD_eq_getElem?_getD, List.getElem?_replicate]
  split <;> rfl

theorem initialBuilt_lengths (env : CreateEnv) (Y : BlobLayout) (grDevice : GrDevice)
    (stages : List Stage) (prepared : PreparedStages) (resolved : ResolvedMappings)
    (hr : resolveStages env Y grDevice stages = .ok (prepared, resolved)) :
    (initialBuilt env Y prepared resolved).patchEntries.length = Y.MAX_STAGE_COUNT ∧
      (initialBuilt env Y prepared resolved).mapEntries.length = Y.MAX_STAGE_COUNT ∧
      (initialBuilt env Y prepared resolved).specData.length = Y.MAX_STAGE_COUNT ∧
      (initialBuilt env Y prepared resolved).specInfos.length = Y.MAX_STAGE_COUNT ∧
      (initialBuilt env Y prepared resolved).shaderModules.length = Y.MAX_STAGE_COUNT ∧
      (initialBuilt env Y prepared resolved).shaderCode.length = Y.MAX_STAGE_COUNT ∧
      (initialBuilt env Y prepared resolved).shaderStageCreateInfo.length =
        Y.MAX_STAGE_COUNT := by
  have hp : prepared = prepareStages env Y grDevice 0 stages (initialPrepared env Y) := by
    unfold resolveStages at hr
    simp only at hr
    split at hr
    · cases hr
    · cases hr
      rfl
  obtain ⟨h1, h2⟩ := prepareStages_lengths env Y grDevice stages 0 (initialPrepared env Y)
  rw [← hp] at h1 h2
  refine ⟨by simp [initialBuilt], ?_, by simp [initialBuilt], ?_, by simp [initialBuilt],
    by simp [initialBuilt], by simp [initialBuilt]⟩
  · show prepared.mapEntries.length = _
    rw [h1]
    simp [initialPrepared]
  · show prepared.specInfos.length = _
    rw [h2]
    simp [initialPrepared]

/-! ## Claim about the compaction of the stage arrays -/

/-- C26: for every `grCreateGraphicsPipeline` request without rect-list topology, when every
native call succeeds (descriptor resolution having returned, with at most 30 descriptor
sets), a pipeline is created whose `stageCount` is the number of non-null stage shaders;
entry `k` of its per-stage arrays (shader module, stage flag and module of the stage
create info, shader code, specialization info, map entries, specialization data) is the
entry of the `k`-th non-null stage in the order vertex, hull, domain, geometry, fragment;
and every entry of these arrays at an index from `stageCount` on is null or zero. -/
theorem grCreateGraphicsPipeline_compacts_stages (env : CreateEnv) (Y : BlobLayout)
    (native : NativeApi) (grDevice : GrDevice)
    (pCreateInfo : GR_GRAPHICS_PIPELINE_CREATE_INFO)
    (htopo : pCreateInfo.topology ≠ env.GR_TOPOLOGY_RECT_LIST)
    (hnat : NativeSucceeds native) (hmax : 5 ≤ Y.MAX_STAGE_COUNT) :
    ∀ prepared resolved,
      resolveStages env Y grDevice (graphicsStages pCreateInfo) = .ok (prepared, resolved) →
      totalDescriptorSets Y resolved.descriptorSetCounts + 2 ≤ 32 →
      ∃ p ci,
        grCreateGraphicsPipeline env Y native grDevice pCreateInfo =
          .ok { result := GR_SUCCESS, pipeline := some p } ∧
        p.createInfo = some ci ∧
        p.stageCount =
          (graphicsStages pCreateInfo).countP (fun s => s.shader.shader.isSome) ∧
        p.stageCount = (presentStages (graphicsStages pCreateInfo)).length ∧
        (∀ (k : Nat) (w : Nat × Stage),
          (presentStages (graphicsStages pCreateInfo))[k]? = some w →
          p.shaderModules.getD k none =
            native.vkCreateShaderModule (stageShaderCode env (graphicsStages pCreateInfo)
              (initialBuilt env Y prepared resolved).patchEntries w) ∧
          ci.stageCreateInfos.getD k default =
            { stage := w.2.flags
              module := native.vkCreateShaderModule
                (stageShaderCode env (graphicsStages pCreateInfo)
                  (initialBuilt env Y prepared resolved).patchEntries w) } ∧
          p.shaderCode.getD k none =
            some (stageShaderCode env (graphicsStages pCreateInfo)
              (initialBuilt env Y prepared resolved).patchEntries w) ∧
          p.specInfos.getD k ⟨0, 0⟩ = prepared.specInfos.getD w.1 ⟨0, 0⟩ ∧
          p.mapEntries.getD k none = prepared.mapEntries.getD w.1 none ∧
          p.specData.getD k none =
            ((initialBuilt env Y prepared resolved).specData.getD w.1 none).map
              (fun words => words.flatMap bytesOfUnsigned)) ∧
        (∀ k, p.stageCount ≤ k →
          p.shaderModules.getD k none = none ∧
          ci.stageCreateInfos.getD k default = ⟨0, none⟩ ∧
          p.shaderCode.getD k none = none ∧
          p.specInfos.getD k ⟨0, 0⟩ = ⟨0, 0⟩ ∧
          p.mapEntries.getD k none = none ∧
          p.specData.getD k none = none) := by
  intro prepared resolved hr hsets
  have hlen : (graphicsStages pCreateInfo).length = 5 := rfl
  have hnull := initialBuilt_null env Y grDevice (graphicsStages pCreateInfo) prepared resolved hr
  have hinit : BuiltUpTo env native (graphicsStages pCreateInfo)
      (initialBuilt env Y prepared resolved) [] 0 (initialBuilt env Y prepared resolved) := by
    refine ⟨rfl, le_refl _, ?_, ?_, ?_, ?_, ?_, ?_, ?_⟩ <;>
      first
      | exact ⟨rfl, fun k w h => by simp at h, fun k _ h => by omega, fun k _ => rfl⟩
      | exact ⟨rfl, fun k w h => by simp at h, fun k _ => rfl⟩
  obtain ⟨built, hb, hcount, _, _, c2, c3, c4, f1, f2, f3⟩ :=
    buildStages_compacts env native (graphicsStages pCreateInfo)
      (initialBuilt env Y prepared resolved) Y.MAX_STAGE_COUNT hnat.1
      (initialBuilt_lengths env Y grDevice _ prepared resolved hr)
      (graphicsStages pCreateInfo) 0 [] _ (by rw [hlen]; omega)
      (fun t stage ht hs => by
        rw [Nat.zero_add]
        exact hnull t (fun stage1 h1 => by
          rw [ht] at h1
          cases h1
          exact hs))
      hinit
  simp only [List.nil_append, Nat.zero_add, hlen] at hcount c2 c3 c4 f1 f2 f3
  change built.stageCount = (presentStages (graphicsStages pCreateInfo)).length at hcount
  change Compacted none _ (presentStages (graphicsStages pCreateInfo)) 5 _ at c2 c3
  change Compacted _ _ (presentStages (graphicsStages pCreateInfo)) 5 _ at c4
  change Filled _ _ _ (presentStages (graphicsStages pCreateInfo)) _ at f1 f2 f3
  have hrect : rectangleStage env native pCreateInfo built = .ok (.next built) := by
    unfold rectangleStage
    rw [if_neg htopo]
  obtain ⟨layout, hl⟩ := getVkPipelineLayout_ok Y native grDevice hnat.2.1
    (totalDescriptorSets Y resolved.descriptorSetCounts) VK_PIPELINE_BIND_POINT_GRAPHICS hsets
  have hres : ∃ p, grCreateGraphicsPipeline env Y native grDevice pCreateInfo =
        .ok { result := GR_SUCCESS, pipeline := some p } ∧
      p.createInfo = some (graphicsCreateInfo env Y pCreateInfo built) ∧
      p.stageCount = built.stageCount ∧ p.shaderModules = built.shaderModules ∧
      p.shaderCode = built.shaderCode ∧ p.specInfos = built.specInfos ∧
      p.mapEntries = built.mapEntries ∧
      p.specData = built.specData.map
        (fun d => d.map (fun words => words.flatMap bytesOfUnsigned)) := by
    unfold grCreateGraphicsPipeline
    simp only [hr, hb, hrect, hl]
    exact ⟨_, rfl, rfl, rfl, rfl, rfl, rfl, rfl, rfl⟩
  obtain ⟨p, hp, e1, e2, e3, e4, e5, e6, e7⟩ := hres
  have hbehind : ∀ k, 5 ≤ k → ∀ stage, (graphicsStages pCreateInfo)[k]? = some stage →
      stage.shader.shader = none := by
    intro k hk stage h
    rw [List.getElem?_eq_none (by rw [hlen]; exact hk)] at h
    cases h
  refine ⟨p, _, hp, e1, ?_, e2.trans hcount, ?_, ?_⟩
  · rw [e2, hcount]
    exact presentFrom_length _ 0
  · intro k w hk
    have hklt : k < built.stageCount := by
      rw [hcount]
      by_contra hge
      rw [List.getElem?_eq_none (by omega)] at hk
      cases hk
    rw [e3, e4, e5, e6, e7]
    refine ⟨f1.2.1 k w hk, ?_, f2.2.1 k w hk, c4.2.1 k w hk, c2.2.1 k w hk, ?_⟩
    · simp only [graphicsCreateInfo]
      rw [getD_memcpyInto _ _ _ _ (by rw [memcpyRead_length]; exact hklt),
        memcpyRead_zero_getD _ _ _ _ hklt]
      exact f3.2.1 k w hk
    · rw [getD_map_option, c3.2.1 k w hk]
  · intro k hk
    rw [e2] at hk
    have hk1 := hk
    rw [hcount] at hk1
    have hmoved : ∀ {α : Type} (z : α) (A0 A : List α),
        Compacted z A0 (presentStages (graphicsStages pCreateInfo)) 5 A →
        (5 ≤ k → A0.getD k z = z) → A.getD k z = z := by
      intro α z A0 A hc hz
      rcases Nat.lt_or_ge k 5 with hlt | hge
      · exact hc.2.2.1 k hk1 hlt
      · rw [hc.2.2.2 k hge, hz hge]
    rw [e3, e4, e5, e6, e7]
    refine ⟨?_, ?_, ?_, ?_, ?_, ?_⟩
    · rw [f1.2.2 k hk1]
      exact getD_replicate_self _ _ _
    · simp only [graphicsCreateInfo]
      exact getD_memcpyInto_behind _ _ _ _ (by rw [memcpyRead_length]; exact hk)
    · rw [f2.2.2 k hk1]
      exact getD_replicate_self _ _ _
    · exact hmoved _ _ _ c4 (fun hge => (hnull k (hbehind k hge)).2.2.2)
    · exact hmoved _ _ _ c2 (fun hge => (hnull k (hbehind k hge)).2.1)
    · rw [getD_map_option, hmoved _ _ _ c3 (fun hge => (hnull k (hbehind k hge)).2.2.1)]
      rfl

/-- Witness for C26: a request with a hull shader (one binding) and a pixel shader. -/
theorem grCreateGraphicsPipeline_compacts_stages_witness :
    ∃ prepared resolved p ci,
      resolveStages exampleEnv exampleLayout exampleDevice
        (graphicsStages exampleSparseRequest) = .ok (prepared, resolved) ∧
      grCreateGraphicsPipeline exampleEnv exampleLayout exampleNative exampleDevice
          exampleSparseRequest = .ok { result := GR_SUCCESS, pipeline := some p } ∧
      p.createInfo = some ci ∧ p.stageCount = 2 ∧
      p.specInfos.getD 0 ⟨0, 0⟩ = prepared.specInfos.getD 1 ⟨0, 0⟩ ∧
      p.specInfos.getD 1 ⟨0, 0⟩ = prepared.specInfos.getD 4 ⟨0, 0⟩ ∧
      ci.stageCreateInfos.getD 2 default = ⟨0, none⟩ := by
  obtain ⟨p, ci, h1, h2, h3, _, h5, h6⟩ :=
    grCreateGraphicsPipeline_compacts_stages exampleEnv exampleLayout exampleNative
      exampleDevice exampleSparseRequest (by decide)
      ⟨fun _ => rfl, fun _ => rfl, fun _ _ _ => rfl⟩ (by decide) _ _ rfl (by decide)
  exact ⟨_, _, p, ci, rfl, h1, h2, h3,
    (h5 0 (1, { shader := exampleDynamicShader [],
                flags := VK_SHADER_STAGE_TESSELLATION_CONTROL_BIT }) rfl).2.2.2.1,
    (h5 1 (4, { shader := examplePlainShader, flags := VK_SHADER_STAGE_FRAGMENT_BIT })
      rfl).2.2.2.1,
    (h6 2 (by rw [h3]; decide)).2.1⟩

theorem dynamicMatches_iff (dynamicMapping : GR_DYNAMIC_MEMORY_VIEW_SLOT_INFO)
    (binding : IlcBinding) :
    dynamicMatches dynamicMapping binding = true ↔
      dynamicMapping.slotObjectType ≠ GR_SLOT_UNUSED ∧
        binding.ilIndex = dynamicMapping.shaderEntityIndex ∧
        binding.type = ILC_BINDING_RESOURCE := by
  unfold dynamicMatches
  simp only [Bool.and_eq_true, decide_eq_true_eq, and_assoc]

theorem findIdx?_first {α : Type} (p : α → Bool) :
    ∀ (l : List α) (i : Nat) (a : α), l[i]? = some a → p a = true →
      (∀ (j : Nat) (b : α), j < i → l[j]? = some b → p b = false) → l.findIdx? p = some i := by
  intro l i a ha hp hfirst
  have hi : i < l.length := by
    rcases Nat.lt_or_ge i l.length with h | h
    · exact h
    · rw [List.getElem?_eq_none h] at ha; cases ha
  rw [List.findIdx?_eq_some_iff_getElem]
  refine ⟨hi, ?_, ?_⟩
  · rw [List.getElem?_eq_getElem hi] at ha
    cases ha
    exact hp
  · intro j hj
    have hj2 : j < l.length := by omega
    have := hfirst j l[j] hj (List.getElem?_eq_getElem hj2)
    simp [this]

theorem stridePairs_dynamicSlot (L : Limits) (hmax : 1 ≤ L.MAX_STRIDES) (binding : IlcBinding) :
    (dynamicSlot L binding).pathDepth = 0 ∧
      stridePairs (dynamicSlot L binding) =
        if 0 ≤ binding.strideIndex then [((binding.strideIndex * 4).toNat % 2 ^ 32, 0)]
        else [] := by
  obtain ⟨n, hn⟩ : ∃ n, L.MAX_STRIDES = n + 1 := ⟨L.MAX_STRIDES - 1, by omega⟩
  unfold dynamicSlot stridePairs
  by_cases h : 0 ≤ binding.strideIndex
  · simp [h, hn, List.replicate_succ]
  · simp [h]

/-- C31: `handleDynamicDescriptorSlots` returns true exactly when the dynamic mapping is
used and some binding is a resource with the mapping's entity index; for the first such
binding `i`, and only at index `i`, it sets the offset to 0, the set index and the patch
entry (binding id, set index and binding index chosen by `descriptorBufferUsed`), and it
writes a slot of depth 0 whose stride pairs are the one pair (`strideIndex * 4`, 0) when
the stride index is not negative and none otherwise; when it returns false every output
is the input. -/
theorem handleDynamicDescriptorSlots_rule (env : CreateEnv)
    (descriptorSlot : PipelineDescriptorSlot)
    (dynamicMapping : GR_DYNAMIC_MEMORY_VIEW_SLOT_INFO) (descriptorBufferUsed : Bool)
    (bindings : List IlcBinding) (offsets descriptorSetIndices : List Nat)
    (patchEntries : List IlcBindingPatchEntry) (hmax : 1 ≤ env.L.MAX_STRIDES) :
    ((handleDynamicDescriptorSlots env descriptorSlot dynamicMapping descriptorBufferUsed
        bindings offsets descriptorSetIndices patchEntries).matched = true ↔
      dynamicMapping.slotObjectType ≠ GR_SLOT_UNUSED ∧
        ∃ binding ∈ bindings, binding.ilIndex = dynamicMapping.shaderEntityIndex ∧
          binding.type = ILC_BINDING_RESOURCE) ∧
    (∀ (i : Nat) (binding : IlcBinding), bindings[i]? = some binding →
      dynamicMapping.slotObjectType ≠ GR_SLOT_UNUSED →
      binding.ilIndex = dynamicMapping.shaderEntityIndex →
      binding.type = ILC_BINDING_RESOURCE →
      (∀ (j : Nat) (other : IlcBinding), j < i → bindings[j]? = some other →
        ¬ (other.ilIndex = dynamicMapping.shaderEntityIndex ∧
          other.type = ILC_BINDING_RESOURCE)) →
      handleDynamicDescriptorSlots env descriptorSlot dynamicMapping descriptorBufferUsed
          bindings offsets descriptorSetIndices patchEntries =
        { matched := true
          descriptorSlot := dynamicSlot env.L binding
          offsets := offsets.set i 0
          descriptorSetIndices := descriptorSetIndices.set i
            (if descriptorBufferUsed then env.DESCRIPTOR_BUFFERS_PUSH_DESCRIPTOR_SET_ID
              else env.DYNAMIC_MEMORY_VIEW_DESCRIPTOR_SET_ID)
          patchEntries := patchEntries.set i
            { id := binding.id
              bindingIndex :=
                if descriptorBufferUsed then env.DESCRIPTOR_BUFFERS_DYNAMIC_MAPPING_BINDING_ID
                else env.DYNAMIC_MEMORY_VIEW_BINDING_ID
              descriptorSetIndex :=
                if descriptorBufferUsed then env.DESCRIPTOR_BUFFERS_PUSH_DESCRIPTOR_SET_ID
                else env.DYNAMIC_MEMORY_VIEW_DESCRIPTOR_SET_ID } } ∧
        (dynamicSlot env.L binding).pathDepth = 0 ∧
        stridePairs (dynamicSlot env.L binding) =
          if 0 ≤ binding.strideIndex then [((binding.strideIndex * 4).toNat % 2 ^ 32, 0)]
          else []) ∧
    ((handleDynamicDescriptorSlots env descriptorSlot dynamicMapping descriptorBufferUsed
        bindings offsets descriptorSetIndices patchEntries).matched = false →
      handleDynamicDescriptorSlots env descriptorSlot dynamicMapping descriptorBufferUsed
          bindings offsets descriptorSetIndices patchEntries =
        { matched := false, descriptorSlot := descriptorSlot, offsets := offsets
          descriptorSetIndices := descriptorSetIndices, patchEntries := patchEntries }) := by
  refine ⟨?_, ?_, ?_⟩
  · unfold handleDynamicDescriptorSlots
    cases hf : bindings.findIdx? (dynamicMatches dynamicMapping) with
    | none =>
      simp only [Bool.false_eq_true, false_iff, not_and, not_exists]
      intro hu binding hb hil ht
      rw [List.findIdx?_eq_none_iff] at hf
      have := hf binding hb
      rw [(dynamicMatches_iff dynamicMapping binding).2 ⟨hu, hil, ht⟩] at this
      cases this
    | some i =>
      simp only [true_iff]
      rw [List.findIdx?_eq_some_iff_getElem] at hf
      obtain ⟨hi, hp, _⟩ := hf
      have := (dynamicMatches_iff dynamicMapping _).1 hp
      exact ⟨this.1, bindings[i], List.getElem_mem _, this.2⟩
  · intro i binding hb hu hil ht hfirst
    have hf : bindings.findIdx? (dynamicMatches dynamicMapping) = some i := by
      refine findIdx?_first _ bindings i binding hb
        ((dynamicMatches_iff dynamicMapping binding).2 ⟨hu, hil, ht⟩) ?_
      intro j other hj ho
      have := hfirst j other hj ho
      cases hd : dynamicMatches dynamicMapping other with
      | false => rfl
      | true => exact absurd ((dynamicMatches_iff dynamicMapping other).1 hd).2 this
    have hg : bindings.getD i ⟨0, ILC_BINDING_SAMPLER, 0, 0, 0, 0, 0⟩ = binding := by
      rw [List.getD_eq_getElem?_getD, hb]; rfl
    refine ⟨?_, stridePairs_dynamicSlot env.L hmax binding⟩
    unfold handleDynamicDescriptorSlots
    simp only [hf, hg]
  · intro hm
    unfold handleDynamicDescriptorSlots at hm ⊢
    cases hf : bindings.findIdx? (dynamicMatches dynamicMapping) with
    | none => rfl
    | some i => rw [hf] at hm; cases hm

theorem handleDynamicDescriptorSlots_rule_witness :
    1 ≤ exampleEnv.L.MAX_STRIDES ∧
    ((handleDynamicDescriptorSlots exampleEnv default ⟨GR_SLOT_SHADER_RESOURCE, 3⟩ false
        [exampleBinding 7 3] [9] [9] [default]).matched = true ↔
      GR_SLOT_SHADER_RESOURCE ≠ GR_SLOT_UNUSED ∧
        ∃ binding ∈ [exampleBinding 7 3], binding.ilIndex = 3 ∧
          binding.type = ILC_BINDING_RESOURCE) :=
  ⟨by decide, (handleDynamicDescriptorSlots_rule exampleEnv default
    ⟨GR_SLOT_SHADER_RESOURCE, 3⟩ false [exampleBinding 7 3] [9] [9] [default]
    (by decide)).1⟩

/-! ## The dynamic slot of a graphics pipeline is that of the last matching stage -/

theorem handleDynamicDescriptorSlots_matched (env : CreateEnv)
    (slot : PipelineDescriptorSlot) (dynamicMapping : GR_DYNAMIC_MEMORY_VIEW_SLOT_INFO)
    (used : Bool) (bindings : List IlcBinding) (offsets descriptorSetIndices : List Nat)
    (patchEntries : List IlcBindingPatchEntry) :
    (handleDynamicDescriptorSlots env slot dynamicMapping used bindings offsets
        descriptorSetIndices patchEntries).matched =
      (bindings.findIdx? (dynamicMatches dynamicMapping)).isSome ∧
    (handleDynamicDescriptorSlots env slot dynamicMapping used bindings offsets
        descriptorSetIndices patchEntries).descriptorSlot =
      match bindings.findIdx? (dynamicMatches dynamicMapping) with
      | some i => dynamicSlot env.L (bindings.getD i ⟨0, ILC_BINDING_SAMPLER, 0, 0, 0, 0, 0⟩)
      | none => slot := by
  unfold handleDynamicDescriptorSlots
  cases bindings.findIdx? (dynamicMatches dynamicMapping) with
  | none => exact ⟨rfl, rfl⟩
  | some i => exact ⟨rfl, rfl⟩

theorem dynamicStageMatch_iff (env : CreateEnv) (grDevice : GrDevice) (stage : Stage) :
    DynamicStageMatch env grDevice stage ↔
      ∃ sh, stage.shader.shader = some sh ∧
        (sh.bindings.findIdx? (dynamicMatches stage.shader.dynamicMemoryViewMapping)).isSome =
          true := by
  constructor
  · rintro ⟨sh, hsh, _, h⟩
    refine ⟨sh, hsh, ?_⟩
    have := h default [] [] []
    rwa [(handleDynamicDescriptorSlots_matched _ _ _ _ _ _ _ _).1] at this
  · rintro ⟨sh, hsh, h⟩
    refine ⟨sh, hsh, ?_, ?_⟩
    · cases hb : sh.bindings with
      | nil => rw [hb] at h; cases h
      | cons b bs => simp
    · intro slot o d e
      rw [(handleDynamicDescriptorSlots_matched _ _ _ _ _ _ _ _).1]
      exact h

theorem prepareStage_dynamic_fields (env : CreateEnv) (Y : BlobLayout) (grDevice : GrDevice)
    (i : Nat) (stage : Stage) (st : PreparedStages) :
    ((prepareStage env Y grDevice i stage st).dynamicMappingUsed = true ↔
      st.dynamicMappingUsed = true ∨ DynamicStageMatch env grDevice stage) ∧
    (¬ DynamicStageMatch env grDevice stage →
      (prepareStage env Y grDevice i stage st).dynamicDescriptorSlot =
        st.dynamicDescriptorSlot) ∧
    (∀ sh, stage.shader.shader = some sh → DynamicStageMatch env grDevice stage →
      ∀ (slot : PipelineDescriptorSlot) (offsets descriptorSetIndices : List Nat)
        (patchEntries : List IlcBindingPatchEntry),
        (prepareStage env Y grDevice i stage st).dynamicDescriptorSlot =
          (handleDynamicDescriptorSlots env slot stage.shader.dynamicMemoryViewMapping
            grDevice.descriptorBufferSupported sh.bindings offsets descriptorSetIndices
            patchEntries).descriptorSlot) := by
  rw [dynamicStageMatch_iff]
  unfold prepareStage
  cases hsx : stage.shader.shader with
  | none => simp
  | some sh =>
    by_cases hb : sh.bindings.length = 0
    · have hnil : sh.bindings = [] := List.length_eq_zero.1 hb
      simp [hb, hnil]
    · simp only [hb, if_false, Bool.or_eq_true, Option.some.injEq, exists_eq_left',
        (handleDynamicDescriptorSlots_matched _ _ _ _ _ _ _ _).1,
        (handleDynamicDescriptorSlots_matched _ _ _ _ _ _ _ _).2, true_and]
      refine ⟨?_, ?_⟩
      · intro hn
        cases hf : sh.bindings.findIdx? (dynamicMatches stage.shader.dynamicMemoryViewMapping)
          with
        | none => rfl
        | some k => rw [hf] at hn; exact absurd rfl hn
      · intro sh1 hsh1 hm slot o d e
        subst hsh1
        cases hf : sh.bindings.findIdx? (dynamicMatches stage.shader.dynamicMemoryViewMapping)
          with
        | none => rw [hf] at hm; cases hm
        | some k => rfl

theorem prepareStages_used (env : CreateEnv) (Y : BlobLayout) (grDevice : GrDevice)
    (stages : List Stage) :
    ∀ (i : Nat) (st : PreparedStages),
      ((prepareStages env Y grDevice i stages st).dynamicMappingUsed = true ↔
        st.dynamicMappingUsed = true ∨
          ∃ stage ∈ stages, DynamicStageMatch env grDevice stage) := by
  induction stages with
  | nil => intro i st; simp [prepareStages]
  | cons stage rest ih =>
    intro i st
    rw [prepareStages, ih, (prepareStage_dynamic_fields env Y grDevice i stage st).1]
    simp only [List.mem_cons, exists_eq_or_imp, or_assoc]

theorem prepareStages_slot_unmatched (env : CreateEnv) (Y : BlobLayout) (grDevice : GrDevice)
    (stages : List Stage) :
    ∀ (i : Nat) (st : PreparedStages),
      (∀ stage ∈ stages, ¬ DynamicStageMatch env grDevice stage) →
      (prepareStages env Y grDevice i stages st).dynamicDescriptorSlot =
        st.dynamicDescriptorSlot := by
  induction stages with
  | nil => intro i st _; rfl
  | cons stage rest ih =>
    intro i st h
    rw [prepareStages, ih _ _ (fun s hs => h s (by simp [hs])),
      (prepareStage_dynamic_fields env Y grDevice i stage st).2.1 (h stage (by simp))]

theorem prepareStages_strideCount (env : CreateEnv) (Y : BlobLayout) (grDevice : GrDevice)
    (stages : List Stage) :
    ∀ (i : Nat) (st : PreparedStages), st.dynamicDescriptorSlot.strideCount ≤ 1 →
      (prepareStages env Y grDevice i stages st).dynamicDescriptorSlot.strideCount ≤ 1 := by
  induction stages with
  | nil => intro i st h; exact h
  | cons stage rest ih =>
    intro i st h
    rw [prepareStages]
    apply ih
    unfold prepareStage
    cases hsx : stage.shader.shader with
    | none => exact h
    | some sh =>
      simp only
      split
      · exact h
      · simp only [(handleDynamicDescriptorSlots_matched _ _ _ _ _ _ _ _).2]
        split
        · unfold dynamicSlot
          split <;> simp
        · exact h

/-- C40: in a pipeline that `grCreateGraphicsPipeline` produces, `dynamicMappingUsed` is
set exactly when `handleDynamicDescriptorSlots` matched for at least one stage that has a
shader with bindings; the pipeline's dynamic slot is the slot that the call for the last
matching stage (in the order vertex, hull, domain, geometry, pixel) produces, whatever
slot content that call started from, so it holds at most one stride pair and nothing of
earlier matching stages. -/
theorem grCreateGraphicsPipeline_dynamic_slot_last (env : CreateEnv) (Y : BlobLayout)
    (native : NativeApi) (grDevice : GrDevice)
    (pCreateInfo : GR_GRAPHICS_PIPELINE_CREATE_INFO) (r : CreateResult) (p : GrPipeline)
    (h : grCreateGraphicsPipeline env Y native grDevice pCreateInfo = .ok r)
    (hp : r.pipeline = some p) :
    (p.dynamicMappingUsed = 1 ↔
      ∃ stage ∈ graphicsStages pCreateInfo, DynamicStageMatch env grDevice stage) ∧
    (p.dynamicMappingUsed = 1 ∨ p.dynamicMappingUsed = 0) ∧
    (∀ (pre post : List Stage) (stage : Stage) (sh : GrShader),
      graphicsStages pCreateInfo = pre ++ stage :: post →
      stage.shader.shader = some sh → DynamicStageMatch env grDevice stage →
      (∀ later ∈ post, ¬ DynamicStageMatch env grDevice later) →
      ∀ (slot : PipelineDescriptorSlot) (offsets descriptorSetIndices : List Nat)
        (patchEntries : List IlcBindingPatchEntry),
        p.dynamicDescriptorSlot =
          (handleDynamicDescriptorSlots env slot stage.shader.dynamicMemoryViewMapping
            grDevice.descriptorBufferSupported sh.bindings offsets descriptorSetIndices
            patchEntries).descriptorSlot) ∧
    p.dynamicDescriptorSlot.strideCount ≤ 1 := by
  cases hr : resolveStages env Y grDevice (graphicsStages pCreateInfo) with
  | error e =>
    unfold grCreateGraphicsPipeline at h
    simp only [hr] at h
    cases h
  | ok pr =>
    obtain ⟨prepared, resolved⟩ := pr
    obtain ⟨hused, hslot⟩ := grCreateGraphicsPipeline_dynamic_fields env Y native grDevice
      pCreateInfo prepared resolved hr r p h hp
    have hprep : prepared = prepareStages env Y grDevice 0 (graphicsStages pCreateInfo)
        (initialPrepared env Y) := by
      unfold resolveStages at hr
      simp only at hr
      split at hr
      · cases hr
      · cases hr; rfl
    have hu := prepareStages_used env Y grDevice (graphicsStages pCreateInfo) 0
      (initialPrepared env Y)
    rw [← hprep] at hu
    refine ⟨?_, ?_, ?_, ?_⟩
    · have hinit : (initialPrepared env Y).dynamicMappingUsed = false := rfl
      rw [hinit] at hu
      simp only [Bool.false_eq_true, false_or] at hu
      rw [hused, ← hu]
      cases prepared.dynamicMappingUsed <;> simp
    · rw [hused]
      cases prepared.dynamicMappingUsed <;> simp
    · intro pre post stage sh hsplit hsh hm hlater slot o d e
      rw [hslot, hprep, hsplit, prepareStages_append, prepareStages,
        prepareStages_slot_unmatched env Y grDevice post _ _ hlater]
      exact (prepareStage_dynamic_fields env Y grDevice _ stage _).2.2 sh hsh hm slot o d e
    · rw [hslot, hprep]
      exact prepareStages_strideCount env Y grDevice _ _ _ (by simp [initialPrepared])

/-- Witness for C40: the vertex shader's matching binding has a stride index, the pixel
shader's has none; the pipeline's dynamic slot is the pixel shader's, without a stride
pair. -/
theorem grCreateGraphicsPipeline_dynamic_slot_last_witness :
    ∃ r p,
      grCreateGraphicsPipeline exampleEnv exampleLayout exampleNative exampleDevice
        exampleTwoDynamicRequest = .ok r ∧ r.pipeline = some p ∧
      p.dynamicMappingUsed = 1 ∧
      p.dynamicDescriptorSlot = dynamicSlot exampleEnv.L (exampleBinding 7 0) ∧
      stridePairs p.dynamicDescriptorSlot = [] := by
  have hc : ∃ r p, grCreateGraphicsPipeline exampleEnv exampleLayout exampleNative
      exampleDevice exampleTwoDynamicRequest = .ok r ∧ r.pipeline = some p :=
    ⟨_, _, rfl, rfl⟩
  obtain ⟨r, p, h, hp⟩ := hc
  have hlast : DynamicStageMatch exampleEnv exampleDevice
      { shader := exampleDynamicShader [], flags := VK_SHADER_STAGE_FRAGMENT_BIT } :=
    ⟨_, rfl, by decide, fun _ _ _ _ => rfl⟩
  have ht := grCreateGraphicsPipeline_dynamic_slot_last exampleEnv exampleLayout
    exampleNative exampleDevice exampleTwoDynamicRequest r p h hp
  have hs := ht.2.2.1 ((graphicsStages exampleTwoDynamicRequest).take 4) []
    { shader := exampleDynamicShader [], flags := VK_SHADER_STAGE_FRAGMENT_BIT } _
    rfl rfl hlast (fun _ hmem => by cases hmem) default [] [] []
  refine ⟨r, p, h, hp, ht.1.2 ⟨_, by simp [graphicsStages, exampleTwoDynamicRequest], hlast⟩, hs, ?_⟩
  rw [hs]
  rfl

/-! ## Generic resolution leaves the entries of unreferenced bindings alone -/

theorem boundInMapping_matched (bindings : List IlcBinding)
    (m : List GR_DESCRIPTOR_SLOT_INFO) :
    ∀ (route : List Nat) (i : Nat),
      (boundInMapping bindings route i m).map (fun w => (w.route, w.bindingIndex)) =
        matchedInMapping bindings route i m :=
  @GR_DESCRIPTOR_SLOT_INFO.rec_1
    (fun s => ∀ (route : List Nat) (i : Nat),
      (boundInSlot bindings route i s).map (fun w => (w.route, w.bindingIndex)) =
        matchedInSlot bindings route i s)
    (fun m => ∀ (route : List Nat) (i : Nat),
      (boundInMapping bindings route i m).map (fun w => (w.route, w.bindingIndex)) =
        matchedInMapping bindings route i m)
    (by
      intro t e next ih route i
      rw [boundInSlot, matchedInSlot]
      by_cases h1 : t = GR_SLOT_UNUSED
      · simp [h1]
      · simp only [h1, if_false]
        by_cases h2 : t = GR_SLOT_NEXT_DESCRIPTOR_SET
        · simp only [h2, if_true]
          exact ih _ _
        · simp only [h2, if_false]
          cases findBinding bindings (.mk t e next) with
          | none => rfl
          | some j => rfl)
    (by
      intro route i
      rw [boundInMapping, matchedInMapping]
      rfl)
    (by
      intro s rest ih1 ih2 route i
      rw [boundInMapping, matchedInMapping, List.map_append, ih1, ih2]) m

theorem foldl_offsetWrite_frame (L : Limits) (gdo : Nat → Nat) (bindings : List IlcBinding)
    (j : Nat) (ws : List SlotMatch) :
    ∀ acc : List Nat, (∀ w ∈ ws, w.bindingIndex ≠ j) →
      (ws.foldl (offsetWrite L gdo bindings) acc).length = acc.length ∧
      (ws.foldl (offsetWrite L gdo bindings) acc)[j]? = acc[j]? := by
  induction ws with
  | nil => intro acc _; exact ⟨rfl, rfl⟩
  | cons w ws ih =>
    intro acc h
    simp only [List.foldl_cons]
    obtain ⟨h1, h2⟩ := ih (offsetWrite L gdo bindings acc w) (fun x hx => h x (by simp [hx]))
    rw [h1, h2]
    refine ⟨?_, ?_⟩
    · simp only [offsetWrite, List.length_set]
    · simp only [offsetWrite]
      exact List.getElem?_set_ne (h w (by simp))

theorem foldl_setupWrite_frame (slots : List PipelineDescriptorSlot)
    (bindings : List IlcBinding) (off : Nat) (j : Nat) (ws : List (List Nat × Nat)) :
    ∀ acc : List IlcBindingPatchEntry × List Nat, (∀ w ∈ ws, w.2 ≠ j) →
      (ws.foldl (setupWrite slots bindings off) acc).1[j]? = acc.1[j]? ∧
      (ws.foldl (setupWrite slots bindings off) acc).2[j]? = acc.2[j]? := by
  induction ws with
  | nil => intro acc _; exact ⟨rfl, rfl⟩
  | cons w ws ih =>
    intro acc h
    simp only [List.foldl_cons]
    obtain ⟨h1, h2⟩ := ih (setupWrite slots bindings off acc w) (fun x hx => h x (by simp [hx]))
    rw [h1, h2]
    simp only [setupWrite]
    exact ⟨List.getElem?_set_ne (h w (by simp)), List.getElem?_set_ne (h w (by simp))⟩

theorem getDescriptorSlotsFromMapping_frame (L : Limits) (gdo : Nat → Nat)
    (bindings : List IlcBinding) (mapping : GR_DESCRIPTOR_SET_MAPPING) (d j : Nat)
    (st st1 : ExtractState) (hd : d ≤ L.MAX_PATH_DEPTH)
    (hlen : st.path.length = L.MAX_PATH_DEPTH)
    (h : getDescriptorSlotsFromMapping L gdo bindings mapping d st = .ok st1)
    (hj : Unreferenced bindings (st.path.take d) mapping j) :
    st1.offsets.length = st.offsets.length ∧ st1.offsets[j]? = st.offsets[j]? := by
  obtain ⟨_, _, ho, _⟩ := extractSlots_writes L gdo bindings mapping d 0 st st1 hlen hd h
  rw [ho]
  exact foldl_offsetWrite_frame L gdo bindings j _ _ hj

theorem setupDescriptorSetIndices_frame (L : Limits) (slots : List PipelineDescriptorSlot)
    (bindings : List IlcBinding) (off : Nat) (mapping : GR_DESCRIPTOR_SET_MAPPING) (d j : Nat)
    (st st1 : SetupState) (hd : d ≤ L.MAX_PATH_DEPTH)
    (hlen : st.path.length = L.MAX_PATH_DEPTH)
    (h : setupDescriptorSetIndices L slots bindings off mapping d st = .ok st1)
    (hj : Unreferenced bindings (st.path.take d) mapping j) :
    st1.patchEntries[j]? = st.patchEntries[j]? ∧
      st1.descriptorSetIndices[j]? = st.descriptorSetIndices[j]? := by
  obtain ⟨_, _, hw⟩ := setupSlots_spec L slots bindings off mapping d 0 st st1 hlen hd h
  have hm : ∀ w ∈ matchedInMapping bindings (st.path.take d) 0 mapping, w.2 ≠ j := by
    intro w hw1
    rw [← boundInMapping_matched] at hw1
    obtain ⟨x, hx, rfl⟩ := List.mem_map.1 hw1
    exact hj x hx
  have := foldl_setupWrite_frame slots bindings off j _ (st.patchEntries, st.descriptorSetIndices)
    hm
  rw [← hw] at this
  exact this

theorem getD_set_cases (bufs : List StageBuffers) (i t : Nat) (x : StageBuffers) :
    (bufs.set i x).getD t default =
      if t = i ∧ i < bufs.length then x else bufs.getD t default := by
  simp only [List.getD_eq_getElem?_getD]
  by_cases h : t = i
  · subst h
    by_cases hl : t < bufs.length
    · simp [hl]
    · rw [List.getElem?_eq_none (by simp; omega), List.getElem?_eq_none (by omega)]
      simp [hl]
  · rw [List.getElem?_set_ne (fun e => h e.symm)]
    simp [h]

theorem sameEntries_refl (j : Nat) (b : StageBuffers) : SameEntries j b b := ⟨rfl, rfl, rfl⟩

theorem sameEntries_trans (j : Nat) (a b c : StageBuffers) (h1 : SameEntries j a b)
    (h2 : SameEntries j b c) : SameEntries j a c :=
  ⟨h1.1.trans h2.1, h1.2.1.trans h2.2.1, h1.2.2.trans h2.2.2⟩

theorem extractStages_entries (L : Limits) (gdo : Nat → Nat) (uninit : Nat → Nat) (mi j : Nat)
    (stages : List Stage) :
    ∀ (i : Nat) (slots : List PipelineDescriptorSlot) (bufs : List StageBuffers)
      (slots1 : List PipelineDescriptorSlot) (bufs1 : List StageBuffers),
      extractStages L gdo uninit mi i stages (slots, bufs) = .ok (slots1, bufs1) →
      ∀ t, (∀ (k : Nat) (stage : Stage) (sh : GrShader), t = i + k →
          stages[k]? = some stage → stage.shader.shader = some sh →
          Unreferenced sh.bindings [] (stage.shader.descriptorSetMapping.getD mi []) j) →
        SameEntries j (bufs1.getD t default) (bufs.getD t default) := by
  induction stages with
  | nil =>
    intro i slots bufs slots1 bufs1 h t _
    simp only [extractStages, Except.ok.injEq, Prod.mk.injEq] at h
    obtain ⟨_, rfl⟩ := h
    exact sameEntries_refl _ _
  | cons stage rest ih =>
    intro i slots bufs slots1 bufs1 h t hu
    have hrest : ∀ (k : Nat) (stage1 : Stage) (sh : GrShader), t = i + 1 + k →
        rest[k]? = some stage1 → stage1.shader.shader = some sh →
        Unreferenced sh.bindings [] (stage1.shader.descriptorSetMapping.getD mi []) j := by
      intro k stage1 sh ht hk hsh
      exact hu (k + 1) stage1 sh (by omega) (by simpa using hk) hsh
    rw [extractStages] at h
    cases hs : stage.shader.shader with
    | none =>
      simp only [hs] at h
      exact ih _ _ _ _ _ h t hrest
    | some sh =>
      simp only [hs] at h
      split at h
      · cases h
      · rename_i st hst
        refine sameEntries_trans j _ _ _ (ih _ _ _ _ _ h t hrest) ?_
        rw [getD_set_cases]
        split
        · rename_i hti
          obtain ⟨rfl, _⟩ := hti
          have hf := getDescriptorSlotsFromMapping_frame L gdo sh.bindings
            (stage.shader.descriptorSetMapping.getD mi []) 0 j _ st (Nat.zero_le _)
            (localPath_length L uninit) hst
            (by simpa using hu 0 stage sh rfl (by simp) hs)
          exact ⟨rfl, hf.2, rfl⟩
        · exact sameEntries_refl _ _

theorem setupStages_entries (L : Limits) (uninit : Nat → Nat) (mi j : Nat)
    (slots : List PipelineDescriptorSlot) (off : Nat) (stages : List Stage) :
    ∀ (i : Nat) (bufs bufs1 : List StageBuffers),
      setupStages L uninit mi slots off i stages bufs = .ok bufs1 →
      ∀ t, (∀ (k : Nat) (stage : Stage) (sh : GrShader), t = i + k →
          stages[k]? = some stage → stage.shader.shader = some sh →
          Unreferenced sh.bindings [] (stage.shader.descriptorSetMapping.getD mi []) j) →
        SameEntries j (bufs1.getD t default) (bufs.getD t default) := by
  induction stages with
  | nil =>
    intro i bufs bufs1 h t _
    simp only [setupStages, Except.ok.injEq] at h
    subst h
    exact sameEntries_refl _ _
  | cons stage rest ih =>
    intro i bufs bufs1 h t hu
    have hrest : ∀ (k : Nat) (stage1 : Stage) (sh : GrShader), t = i + 1 + k →
        rest[k]? = some stage1 → stage1.shader.shader = some sh →
        Unreferenced sh.bindings [] (stage1.shader.descriptorSetMapping.getD mi []) j := by
      intro k stage1 sh ht hk hsh
      exact hu (k + 1) stage1 sh (by omega) (by simpa using hk) hsh
    rw [setupStages] at h
    cases hs : stage.shader.shader with
    | none =>
      simp only [hs] at h
      exact ih _ _ _ h t hrest
    | some sh =>
      simp only [hs] at h
      split at h
      · cases h
      · rename_i st hst
        refine sameEntries_trans j _ _ _ (ih _ _ _ h t hrest) ?_
        rw [getD_set_cases]
        split
        · rename_i hti
          obtain ⟨rfl, _⟩ := hti
          have hf := setupDescriptorSetIndices_frame L slots sh.bindings off
            (stage.shader.descriptorSetMapping.getD mi []) 0 j _ st (Nat.zero_le _)
            (localPath_length L uninit) hst
            (by simpa using hu 0 stage sh rfl (by simp) hs)
          exact ⟨hf.1, rfl, hf.2⟩
        · exact sameEntries_refl _ _

theorem getDescriptorSlotMappings_entries (L : Limits) (gdo : Nat → Nat) (qsort : Qsort)
    (uninit : Nat → Nat) (slots0 : List PipelineDescriptorSlot) (stages : List Stage)
    (buffers : List StageBuffers) (mi off j : Nat)
    (merged : List PipelineDescriptorSlot) (out : List StageBuffers)
    (h : getDescriptorSlotMappings L gdo qsort uninit slots0 stages buffers mi off =
      .ok (merged, out))
    (s : Nat)
    (hu : ∀ (stage : Stage) (sh : GrShader), stages[s]? = some stage →
      stage.shader.shader = some sh →
      Unreferenced sh.bindings [] (stage.shader.descriptorSetMapping.getD mi []) j) :
    SameEntries j (out.getD s default) (buffers.getD s default) := by
  unfold getDescriptorSlotMappings at h
  split at h
  · cases h
  · rename_i extracted buffers1 hex
    split at h
    · cases h
    · rename_i merged1 hm
      split at h
      · cases h
      · rename_i buffers2 hset
        simp only [Except.ok.injEq, Prod.mk.injEq] at h
        obtain ⟨rfl, rfl⟩ := h
        have hu1 : ∀ (k : Nat) (stage : Stage) (sh : GrShader), s = 0 + k →
            stages[k]? = some stage → stage.shader.shader = some sh →
            Unreferenced sh.bindings [] (stage.shader.descriptorSetMapping.getD mi []) j := by
          intro k stage sh hk hst hsh
          have : k = s := by omega
          subst this
          exact hu stage sh hst hsh
        exact sameEntries_trans j _ _ _
          (setupStages_entries L uninit mi j _ off stages 0 _ _ hset s hu1)
          (extractStages_entries L gdo uninit mi j stages 0 _ _ _ _ hex s hu1)

theorem resolveMappings_entries (env : CreateEnv) (grDevice : GrDevice)
    (stages : List Stage) (s j : Nat) (is : List Nat) :
    ∀ (r out : ResolvedMappings),
      (∀ i ∈ is, ∀ (stage : Stage) (sh : GrShader), stages[s]? = some stage →
        stage.shader.shader = some sh →
        Unreferenced sh.bindings [] (stage.shader.descriptorSetMapping.getD i []) j) →
      resolveMappings env grDevice stages is r = .ok out →
      SameEntries j (out.buffers.getD s default) (r.buffers.getD s default) := by
  induction is with
  | nil =>
    intro r out _ h
    simp only [resolveMappings, Except.ok.injEq] at h
    subst h
    exact sameEntries_refl _ _
  | cons i rest ih =>
    intro r out hno h
    rw [resolveMappings] at h
    split at h
    · cases h
    · rename_i merged buffers hg
      exact sameEntries_trans j _ _ _
        (ih _ out (fun k hk => hno k (by simp [hk])) h)
        (getDescriptorSlotMappings_entries _ _ _ _ _ _ _ _ _ _ _ _ hg s (hno i (by simp)))

/-- C34: frame property of generic resolution. When no mapping slot of the walked tree
matches binding `j`, `getDescriptorSlotsFromMapping` leaves `offsets[j]` as it was and
`setupDescriptorSetIndices` leaves `patchEntries[j]` and `descriptorSetIndices[j]` as they
were (each function does not receive, or never writes, the other arrays, and takes the
bindings and the mapping tree as read-only inputs); over the whole loop of mapping indices
of pipeline creation, the three entries of such a binding are those that the first stage
loop, with `handleDynamicDescriptorSlots`, left behind. -/
theorem generic_resolution_frame (L : Limits) (getDescriptorOffset : Nat → Nat)
    (slots : List PipelineDescriptorSlot) (bindings : List IlcBinding) (off : Nat)
    (mapping : GR_DESCRIPTOR_SET_MAPPING) (d j : Nat) (hd : d ≤ L.MAX_PATH_DEPTH) :
    (∀ st st1 : ExtractState, st.path.length = L.MAX_PATH_DEPTH →
      getDescriptorSlotsFromMapping L getDescriptorOffset bindings mapping d st = .ok st1 →
      Unreferenced bindings (st.path.take d) mapping j →
      st1.offsets.length = st.offsets.length ∧ st1.offsets[j]? = st.offsets[j]?) ∧
    (∀ st st1 : SetupState, st.path.length = L.MAX_PATH_DEPTH →
      setupDescriptorSetIndices L slots bindings off mapping d st = .ok st1 →
      Unreferenced bindings (st.path.take d) mapping j →
      st1.patchEntries[j]? = st.patchEntries[j]? ∧
        st1.descriptorSetIndices[j]? = st.descriptorSetIndices[j]?) ∧
    (∀ (env : CreateEnv) (Y : BlobLayout) (grDevice : GrDevice) (stages : List Stage)
      (prepared : PreparedStages) (resolved : ResolvedMappings) (s : Nat),
      resolveStages env Y grDevice stages = .ok (prepared, resolved) →
      (∀ mi, mi < Y.GR_MAX_DESCRIPTOR_SETS → ∀ (stage : Stage) (sh : GrShader),
        stages[s]? = some stage → stage.shader.shader = some sh →
        Unreferenced sh.bindings [] (stage.shader.descriptorSetMapping.getD mi []) j) →
      SameEntries j (resolved.buffers.getD s default) (prepared.buffers.getD s default)) := by
  refine ⟨?_, ?_, ?_⟩
  · intro st st1 hlen h hj
    exact getDescriptorSlotsFromMapping_frame L getDescriptorOffset bindings mapping d j st st1
      hd hlen h hj
  · intro st st1 hlen h hj
    exact setupDescriptorSetIndices_frame L slots bindings off mapping d j st st1 hd hlen h hj
  · intro env Y grDevice stages prepared resolved s hr hu
    unfold resolveStages at hr
    simp only at hr
    split at hr
    · cases hr
    · rename_i out hout
      simp only [Except.ok.injEq, Prod.mk.injEq] at hr
      obtain ⟨rfl, rfl⟩ := hr
      exact resolveMappings_entries env grDevice stages s j _ _ _
        (fun i hi => hu i (List.mem_range.1 hi)) hout

/-- Witness for C34: a vertex shader whose binding 0 is the dynamic memory view and whose
binding 1 is named by a mapping slot; after resolution, the patch entry of binding 0 is
the one of the dynamic memory view. -/
theorem generic_resolution_frame_witness :
    ∃ prepared resolved,
      resolveStages exampleEnv exampleLayout exampleDevice
        [{ shader := exampleMixedShader, flags := VK_SHADER_STAGE_VERTEX_BIT }] =
          .ok (prepared, resolved) ∧
      SameEntries 0 (resolved.buffers.getD 0 default) (prepared.buffers.getD 0 default) ∧
      (resolved.buffers.getD 0 default).patchEntries =
        [{ id := 7, bindingIndex := dynamicViewBinding exampleEnv false,
           descriptorSetIndex := dynamicViewSet exampleEnv false },
         { id := 8, bindingIndex := 0, descriptorSetIndex := 2 }] :=
  ⟨_, _, rfl,
    (generic_resolution_frame exampleLimits (fun _ => 0) [] [] 0 [] 0 0 (by decide)).2.2
      exampleEnv exampleLayout exampleDevice
      [{ shader := exampleMixedShader, flags := VK_SHADER_STAGE_VERTEX_BIT }] _ _ 0 rfl
      (by
        intro mi hmi stage sh hs hsh w hw
        have h2 : mi = 0 ∨ mi = 1 := by
          have : mi < 2 := hmi
          omega
        simp only [List.getElem?_cons_zero, Option.some.injEq] at hs
        subst hs
        cases hsh
        rcases h2 with rfl | rfl
        · have hb : boundInMapping [exampleBinding 7 0, exampleBinding 8 1] [] 0
              [.mk GR_SLOT_SHADER_RESOURCE 1 []] = [⟨[], 0, 1⟩] := by
            simp [boundInMapping, boundInSlot, findBinding, bindingMatches, exampleBinding,
              List.findIdx?_cons, GR_DESCRIPTOR_SLOT_INFO.shaderEntityIndex,
              GR_DESCRIPTOR_SLOT_INFO.slotObjectType]
          have hw1 : w ∈ ([⟨[], 0, 1⟩] : List SlotMatch) := by
            rw [← hb]; exact hw
          simp only [List.mem_singleton] at hw1
          subst hw1
          decide
        · have hb : boundInMapping [exampleBinding 7 0, exampleBinding 8 1] [] 0 [] = [] := by
            simp [boundInMapping]
          have hw1 : w ∈ ([] : List SlotMatch) := by
            rw [← hb]; exact hw
          cases hw1),
    rfl⟩

/-! ## Entries of a binding that nothing references keep the contents of `malloc` -/

/-- C32 (the code at a failing input): the vertex shader has one binding that neither the
dynamic memory view mapping nor a mapping slot names. Whatever the memory from `malloc`
holds (`u` for `patchEntries[0]`, `v` for `specData[0]`), creation succeeds, the patch
entry handed to `patchShaderBindings` is that content (the patcher of the example appends
the fields of the entries it is handed to the code), and the two specialization data words
stored in the pipeline are that content. -/
theorem grCreateGraphicsPipeline_unassigned_entries
    (u : Nat → Nat → IlcBindingPatchEntry) (v : Nat → Nat → Nat) :
    ∃ prepared resolved p,
      resolveStages (exampleUninitEnv u v) exampleLayout exampleDevice
        (graphicsStages exampleUnboundRequest) = .ok (prepared, resolved) ∧
      (resolved.buffers.getD 0 default).patchEntries = [u 0 0] ∧
      (resolved.buffers.getD 0 default).specOffsets = [v 0 0] ∧
      (resolved.buffers.getD 0 default).specDescriptorIndices = [v 0 1] ∧
      grCreateGraphicsPipeline (exampleUninitEnv u v) exampleLayout exampleNative
        exampleDevice exampleUnboundRequest = .ok { result := GR_SUCCESS, pipeline := some p } ∧
      p.specData.getD 0 none = some (bytesOfUnsigned (v 0 0) ++ bytesOfUnsigned (v 0 1)) ∧
      p.shaderCode.getD 0 none =
        some [3, 2, 35, 7, (u 0 0).id, (u 0 0).bindingIndex, (u 0 0).descriptorSetIndex] :=
  ⟨_, _, _, rfl, rfl, rfl, rfl, rfl, rfl, rfl⟩

/-! ## Blobs that `grLoadPipeline` does not reject -/

/-- C35 (the code at a failing input): a graphics blob whose `PIPELINE_INFO` chunk declares
six stages, with `SPIRV` chunks for all five stages. Both passes over the chunks go
through, the stage count taken from the chunk is 6 with `MAX_STAGE_COUNT` 5, and the loop
that checks the stages reads `shaderCode[5]`, outside the per-stage arrays: nothing
compares the stage count with `MAX_STAGE_COUNT`. -/
theorem grLoadPipeline_reads_past_stage_arrays :
    exampleLayout.MAX_STAGE_COUNT = 5 ∧
    validateLoop exampleLayout 352 exampleSixStageBlob 352 4 4 = .ok none ∧
    (∃ st, loadLoop exampleLayout 352 exampleSixStageBlob 352 4 4
        (initialLoadState exampleLayout) = .ok (.next st) ∧
      st.stageCount = 6 ∧ st.createInfo.isSome = true ∧
      checkGraphicsStages exampleLayout st 0 5 = .ok true ∧
      checkGraphicsStages exampleLayout st 0 st.stageCount = .error Fault.outOfBounds) ∧
    grLoadPipeline exampleLayout exampleNative exampleDevice 352 (some exampleSixStageBlob) =
      .error Fault.outOfBounds :=
  ⟨rfl, by decide, ⟨_, rfl, rfl, rfl, by decide, by decide⟩, by decide⟩

/-- C36 (the code at a failing input): a blob whose only chunk is a
`GRAPHICS_PIPELINE_INFO` chunk holds no `PIPELINE_INFO` chunk, and `grLoadPipeline`
accepts it: it returns `GR_SUCCESS` with a graphics pipeline of zero stages. -/
theorem grLoadPipeline_accepts_without_pipeline_info :
    (∀ o, (exampleGraphicsOnlyBlob.chunkAt o).type ≠ PIPELINE_INFO) ∧
    ∃ p allocations,
      grLoadPipeline exampleLayout exampleNative exampleDevice 108
        (some exampleGraphicsOnlyBlob) =
          .ok { result := GR_SUCCESS, pipeline := some p, allocations := allocations } ∧
      p.stageCount = 0 ∧ p.createInfo.isSome = true := by
  refine ⟨?_, _, _, rfl, rfl, rfl⟩
  intro o
  unfold exampleGraphicsOnlyBlob
  simp only
  split
  · decide
  · decide

/-- C39 (the code at a failing input): a `DESCRIPTOR_SLOTS` chunk of 8 bytes declares
`2 ^ 31` slots for each of the two mapping indices. The first pass adds the counts as
`unsigned` values, gets 0 and lets the blob through, the true sum of the counts is
`2 ^ 32`, so the slots do not lie inside the chunk, and the second pass copies `2 ^ 31`
slots for each mapping index from behind the chunk. -/
theorem grLoadPipeline_wrapped_slot_total_passes :
    validateLoop exampleLayout 168 exampleWrapSlotsBlob 168 4 4 = .ok none ∧
    exampleWrapSlotsBlob.chunkAt 128 = exampleWrapSlotsChunk ∧
    exampleWrapSlotsChunk.descriptorSlots.descriptorSetCounts = [2 ^ 31, 2 ^ 31] ∧
    ¬ (exampleLayout.sizeofGrPipelineDescriptorChunk +
        exampleLayout.sizeofPipelineDescriptorSlot * (2 ^ 31 + 2 ^ 31) ≤
      exampleWrapSlotsChunk.size32) ∧
    ∃ st, loadChunk exampleLayout exampleWrapSlotsChunk (initialLoadState exampleLayout) =
        .next st ∧
      st.descriptorSlots =
        [some (memcpyRead exampleWrapSlotsChunk.descriptorSlots.data 0 (2 ^ 31) default),
         some (memcpyRead exampleWrapSlotsChunk.descriptorSlots.data (2 ^ 31) (2 ^ 31)
           default)] :=
  ⟨by decide, rfl, rfl, by decide, _, rfl, rfl⟩

/-! ## What a graphics pipeline loses on the way through the cache -/

/-- C37 (the code at a failing input): a graphics pipeline with a vertex shader is created,
stored and loaded on one device, with a native API whose `vkCreatePipelineLayout` returns
the stage flags of the push-constant range it is asked for. Creation asks for the range
with `VK_SHADER_STAGE_ALL_GRAPHICS`; loading the stored form asks for the range with
`VK_SHADER_STAGE_COMPUTE_BIT`, because `grLoadPipeline` passes
`VK_PIPELINE_BIND_POINT_COMPUTE` to `getVkPipelineLayout` for every pipeline. The set
layouts of the two requests are the same. -/
theorem grLoadPipeline_layout_request_differs :
    grCreateGraphicsPipeline exampleEnv exampleLayout exampleRecordingNative
        exampleBufferDevice (exampleDynamicRequest []) =
      .ok { result := GR_SUCCESS, pipeline := some exampleBufferPipeline } ∧
    exampleBufferPipeline.pipelineLayout = some VK_SHADER_STAGE_ALL_GRAPHICS ∧
    (grStorePipeline exampleLayout exampleBufferPipeline (some 0) none).dataSize = some 328 ∧
    (∃ p1 allocations,
      grLoadPipeline exampleLayout exampleRecordingNative exampleBufferDevice 328
          (grStorePipeline exampleLayout exampleBufferPipeline (some 328)
            (some ⟨0, fun _ => zeroChunk⟩)).data =
        .ok { result := GR_SUCCESS, pipeline := some p1, allocations := allocations } ∧
      p1.createInfo = exampleBufferPipeline.createInfo ∧
      p1.pipelineLayout = some VK_SHADER_STAGE_COMPUTE_BIT) ∧
    (layoutCreateInfo exampleLayout exampleBufferDevice 0
        VK_PIPELINE_BIND_POINT_GRAPHICS).pPushConstantRanges ≠
      (layoutCreateInfo exampleLayout exampleBufferDevice 0
        VK_PIPELINE_BIND_POINT_COMPUTE).pPushConstantRanges ∧
    (layoutCreateInfo exampleLayout exampleBufferDevice 0
        VK_PIPELINE_BIND_POINT_GRAPHICS).pSetLayouts =
      (layoutCreateInfo exampleLayout exampleBufferDevice 0
        VK_PIPELINE_BIND_POINT_COMPUTE).pSetLayouts :=
  ⟨rfl, rfl, by decide, ⟨_, _, rfl, rfl, rfl⟩, by decide, rfl⟩

/-- C38 (the code at a failing input): a graphics pipeline created on a device with
descriptor buffers has `VK_PIPELINE_CREATE_DESCRIPTOR_BUFFER_BIT_EXT` in `createFlags`;
`grStorePipeline` stores the flags without that bit, and the pipeline that
`grLoadPipeline` builds from the stored form on the same device has `createFlags` 0: the
bit is not put back. -/
theorem grLoadPipeline_drops_descriptor_buffer_bit :
    exampleBufferDevice.descriptorBufferSupported = true ∧
    grCreateGraphicsPipeline exampleEnv exampleLayout exampleRecordingNative
        exampleBufferDevice (exampleDynamicRequest []) =
      .ok { result := GR_SUCCESS, pipeline := some exampleBufferPipeline } ∧
    exampleBufferPipeline.createFlags = VK_PIPELINE_CREATE_DESCRIPTOR_BUFFER_BIT_EXT ∧
    (grStorePipeline exampleLayout exampleBufferPipeline (some 0) none).dataSize = some 328 ∧
    ∃ p1 allocations,
      grLoadPipeline exampleLayout exampleRecordingNative exampleBufferDevice 328
          (grStorePipeline exampleLayout exampleBufferPipeline (some 328)
            (some ⟨0, fun _ => zeroChunk⟩)).data =
        .ok { result := GR_SUCCESS, pipeline := some p1, allocations := allocations } ∧
      p1.createInfo = exampleBufferPipeline.createInfo ∧
      p1.createFlags = 0 :=
  ⟨rfl, rfl, rfl, by decide, _, _, rfl, rfl, rfl⟩

/-! ## Every extracted PathKey is found among the merged slots -/

theorem addStride_key (L : Limits) (m s r : PipelineDescriptorSlot)
    (h : addStride L m s = .ok r) : r.pathDepth = m.pathDepth ∧ r.path = m.path := by
  unfold addStride at h
  split at h
  · split at h
    · cases h
    · cases h
      exact ⟨rfl, rfl⟩
  · cases h
    exact ⟨rfl, rfl⟩

theorem collapseInto_key (L : Limits) (X : List PipelineDescriptorSlot) :
    ∀ m r : PipelineDescriptorSlot, collapseInto L m X = .ok r →
      r.pathDepth = m.pathDepth ∧ r.path = m.path := by
  induction X with
  | nil =>
    intro m r h
    rw [collapseInto] at h
    cases h
    exact ⟨rfl, rfl⟩
  | cons x X ih =>
    intro m r h
    rw [collapseInto] at h
    cases ha : addStride L m x with
    | error e => rw [ha] at h; cases h
    | ok m1 =>
      rw [ha] at h
      obtain ⟨h1, h2⟩ := ih m1 r h
      obtain ⟨h3, h4⟩ := addStride_key L m x m1 ha
      exact ⟨h1.trans h3, h2.trans h4⟩

theorem collapseRuns_heads (L : Limits) (runs : List (List PipelineDescriptorSlot)) :
    ∀ ms, collapseRuns L runs = .ok ms →
      List.Forall₂ (fun m run => m.pathDepth = (run.headD default).pathDepth ∧
        m.path = (run.headD default).path) ms runs := by
  induction runs with
  | nil =>
    intro ms h
    rw [collapseRuns] at h
    cases h
    exact List.Forall₂.nil
  | cons run runs ih =>
    intro ms h
    rw [collapseRuns] at h
    cases hr : collapseRun L run with
    | error e => rw [hr] at h; cases h
    | ok m =>
      rw [hr] at h
      cases hrs : collapseRuns L runs with
      | error e => rw [hrs] at h; cases h
      | ok ms1 =>
        rw [hrs] at h
        cases h
        refine List.Forall₂.cons ?_ (ih ms1 hrs)
        cases run with
        | nil =>
          rw [collapseRun] at hr
          cases hr
          exact ⟨rfl, rfl⟩
        | cons s rest =>
          rw [collapseRun] at hr
          exact collapseInto_key L rest s m hr

theorem forall₂_left_mem {α β : Type} (R : α → β → Prop) :
    ∀ (l1 : List α) (l2 : List β), List.Forall₂ R l1 l2 →
      (∀ a ∈ l1, ∃ b ∈ l2, R a b) ∧ (∀ b ∈ l2, ∃ a ∈ l1, R a b) := by
  intro l1 l2 h
  induction h with
  | nil => exact ⟨fun a ha => (by cases ha), fun b hb => (by cases hb)⟩
  | @cons a b l1 l2 hab _ ih =>
    refine ⟨?_, ?_⟩
    · intro x hx
      rcases List.mem_cons.1 hx with rfl | hx
      · exact ⟨b, by simp, hab⟩
      · obtain ⟨y, hy, hxy⟩ := ih.1 x hx
        exact ⟨y, by simp [hy], hxy⟩
    · intro y hy
      rcases List.mem_cons.1 hy with rfl | hy
      · exact ⟨a, by simp, hab⟩
      · obtain ⟨x, hx, hxy⟩ := ih.2 y hy
        exact ⟨x, by simp [hx], hxy⟩

/-- The merge keeps every PathKey: when `qsort` permutes its input and the slots are well
formed, the merged slots are well formed and every slot handed to the merge has a merged
slot with its PathKey. -/
theorem mergeDescriptorSlots_keeps_keys (L : Limits) (qsort : Qsort)
    (slots merged : List PipelineDescriptorSlot)
    (hq : (qsort compareDescriptorSlots slots).Perm slots)
    (hwf : WellFormedSlots slots)
    (h : mergeDescriptorSlots L qsort slots = .ok merged) :
    WellFormedSlots merged ∧ ∀ x ∈ slots, ∃ m ∈ merged, pathKey m = pathKey x := by
  rw [mergeDescriptorSlots_eq] at h
  have hwfs : WellFormedSlots (qsort compareDescriptorSlots slots) :=
    fun s hs => hwf s (hq.mem_iff.1 hs)
  obtain ⟨hl, hr⟩ := forall₂_left_mem _ _ _ (collapseRuns_heads L _ merged h)
  have hrun : ∀ run ∈ runsOf sameRun (qsort compareDescriptorSlots slots),
      run.headD default ∈ run := by
    intro run hrun
    obtain ⟨hne, _⟩ := runsOf_mem sameRun _ run hrun
    cases run with
    | nil => exact absurd rfl hne
    | cons s rest => simp
  refine ⟨?_, ?_⟩
  · intro m hm
    obtain ⟨run, hrun1, hd, hp⟩ := hl m hm
    have hmem := (runsOf_mem sameRun _ run hrun1).2 _ (hrun run hrun1)
    rw [hd, hp]
    exact hwfs _ hmem
  · intro x hx
    have hx1 : x ∈ (runsOf sameRun (qsort compareDescriptorSlots slots)).flatten := by
      rw [runsOf_flatten]
      exact hq.mem_iff.2 hx
    obtain ⟨run, hrun1, hxr⟩ := List.mem_flatten.1 hx1
    obtain ⟨m, hm, hd, hp⟩ := hr run hrun1
    refine ⟨m, hm, ?_⟩
    have hkey : pathKey (run.headD default) = pathKey x := by
      have hrun2 := hrun1
      rw [runsOf_sameRun _ hwfs] at hrun2
      exact runsOf_key pathKey _ run hrun2 _ (hrun run hrun1) x hxr
    rw [← hkey]
    unfold pathKey
    rw [hd, hp]

theorem routeSlotPath_key (L : Limits) (w : List Nat × Nat) (x : PipelineDescriptorSlot)
    (hx : (x.pathDepth, x.path) = routeSlotPath L w) :
    pathKey x = (w.1.length, w.1) := by
  unfold routeSlotPath at hx
  simp only [Prod.mk.injEq] at hx
  obtain ⟨h1, h2⟩ := hx
  unfold pathKey
  rw [h1, h2, List.take_left']
  rfl

theorem routeSlotPath_wf (L : Limits) (w : List Nat × Nat) (x : PipelineDescriptorSlot)
    (hx : (x.pathDepth, x.path) = routeSlotPath L w) (h32 : ∀ y ∈ w.1, y < 2 ^ 32) :
    x.pathDepth ≤ x.path.length ∧ ∀ y ∈ x.path, y < 2 ^ 32 := by
  unfold routeSlotPath at hx
  simp only [Prod.mk.injEq] at hx
  obtain ⟨h1, h2⟩ := hx
  rw [h1, h2]
  refine ⟨by simp, ?_⟩
  intro y hy
  rcases List.mem_append.1 hy with h | h
  · exact h32 y h
  · rw [List.mem_replicate] at h
    rw [h.2]
    decide

/-- The slots that the extraction loop over the stages leaves: those it started from, and
for every match of every stage with a shader a slot with the route of the match as its
path. -/
theorem extractStages_slots (L : Limits) (gdo : Nat → Nat) (uninit : Nat → Nat) (mi : Nat)
    (stages : List Stage) :
    ∀ (i : Nat) (slots : List PipelineDescriptorSlot) (bufs : List StageBuffers)
      (slots1 : List PipelineDescriptorSlot) (bufs1 : List StageBuffers),
      extractStages L gdo uninit mi i stages (slots, bufs) = .ok (slots1, bufs1) →
      (∀ x ∈ slots, x ∈ slots1) ∧
      (∀ (k : Nat) (stage : Stage) (sh : GrShader), stages[k]? = some stage →
        stage.shader.shader = some sh →
        ∀ w ∈ matchedInMapping sh.bindings [] 0 (stage.shader.descriptorSetMapping.getD mi []),
          ∃ x ∈ slots1, (x.pathDepth, x.path) = routeSlotPath L w) ∧
      (∀ x ∈ slots1, x ∈ slots ∨
        ∃ (k : Nat) (stage : Stage) (sh : GrShader) (w : List Nat × Nat),
          stages[k]? = some stage ∧ stage.shader.shader = some sh ∧
          w ∈ matchedInMapping sh.bindings [] 0
            (stage.shader.descriptorSetMapping.getD mi []) ∧
          (x.pathDepth, x.path) = routeSlotPath L w) := by
  induction stages with
  | nil =>
    intro i slots bufs slots1 bufs1 h
    simp only [extractStages, Except.ok.injEq, Prod.mk.injEq] at h
    obtain ⟨rfl, rfl⟩ := h
    exact ⟨fun x hx => hx, fun k stage sh hk => by simp at hk, fun x hx => Or.inl hx⟩
  | cons stage rest ih =>
    intro i slots bufs slots1 bufs1 h
    rw [extractStages] at h
    cases hs : stage.shader.shader with
    | none =>
      simp only [hs] at h
      obtain ⟨h1, h2, h3⟩ := ih _ _ _ _ _ h
      refine ⟨h1, ?_, ?_⟩
      · intro k stage1 sh hk hsh w hw
        cases k with
        | zero =>
          simp only [List.getElem?_cons_zero, Option.some.injEq] at hk
          subst hk
          rw [hs] at hsh
          cases hsh
        | succ k =>
          simp only [List.getElem?_cons_succ] at hk
          exact h2 k stage1 sh hk hsh w hw
      · intro x hx
        rcases h3 x hx with hin | ⟨k, stage1, sh, w, hk, hsh, hw, hxw⟩
        · exact Or.inl hin
        · exact Or.inr ⟨k + 1, stage1, sh, w, by simpa using hk, hsh, hw, hxw⟩
    | some sh0 =>
      simp only [hs] at h
      split at h
      · cases h
      · rename_i st hst
        obtain ⟨h1, h2, h3⟩ := ih _ _ _ _ _ h
        have spec := extractSlots_spec L gdo sh0.bindings
          (stage.shader.descriptorSetMapping.getD mi []) 0 0
          { descriptorSlots := slots, offsets := (bufs.getD i default).specOffsets,
            path := localPath L uninit } (localPath_length L uninit) (Nat.zero_le _)
        unfold getDescriptorSlotsFromMapping at hst
        rw [hst] at spec
        simp only [List.take_zero] at spec
        obtain ⟨_, _, _, _, appended, happ, hmap⟩ := spec
        refine ⟨?_, ?_, ?_⟩
        · intro x hx
          apply h1
          rw [happ]
          exact List.mem_append_left _ hx
        · intro k stage1 sh hk hsh w hw
          cases k with
          | zero =>
            simp only [List.getElem?_cons_zero, Option.some.injEq] at hk
            subst hk
            rw [hs] at hsh
            cases hsh
            have hw1 : routeSlotPath L w ∈
                appended.map (fun x => (x.pathDepth, x.path)) := by
              rw [hmap]
              exact List.mem_map_of_mem _ hw
            obtain ⟨x, hx, hxw⟩ := List.mem_map.1 hw1
            refine ⟨x, ?_, hxw⟩
            apply h1
            rw [happ]
            exact List.mem_append_right _ hx
          | succ k =>
            simp only [List.getElem?_cons_succ] at hk
            exact h2 k stage1 sh hk hsh w hw
        · intro x hx
          rcases h3 x hx with hin | ⟨k, stage1, sh, w, hk, hsh, hw, hxw⟩
          · rw [happ] at hin
            rcases List.mem_append.1 hin with hin | hin
            · exact Or.inl hin
            · have hx1 : (x.pathDepth, x.path) ∈
                  appended.map (fun x => (x.pathDepth, x.path)) :=
                List.mem_map_of_mem _ hin
              rw [hmap] at hx1
              obtain ⟨w, hw, hxw⟩ := List.mem_map.1 hx1
              exact Or.inr ⟨0, stage, sh0, w, by simp, hs, hw, hxw.symm⟩
          · exact Or.inr ⟨k + 1, stage1, sh, w, by simpa using hk, hsh, hw, hxw⟩

theorem positionOfPathKey_found (slots : List PipelineDescriptorSlot) (route : List Nat)
    (h : ∃ m ∈ slots, pathKey m = (route.length, route)) :
    ∃ p, positionOfPathKey slots route = some p ∧ p < slots.length := by
  unfold positionOfPathKey
  cases hf : slots.findIdx? (fun slot => decide (pathKey slot = (route.length, route))) with
  | none =>
    rw [List.findIdx?_eq_none_iff] at hf
    obtain ⟨m, hm, hk⟩ := h
    have := hf m hm
    simp [hk] at this
  | some p =>
    rw [List.findIdx?_eq_some_iff_getElem] at hf
    exact ⟨p, rfl, hf.1⟩

/-- In a call of `getDescriptorSlotMappings` that starts from an empty slot array, the
lookup of index assignment succeeds for every match: the merged slot of the match's route
is found at a position below the number of merged slots. -/
theorem getDescriptorSlotMappings_lookup (L : Limits) (gdo : Nat → Nat) (qsort : Qsort)
    (uninit : Nat → Nat) (stages : List Stage) (buffers : List StageBuffers) (mi off : Nat)
    (merged : List PipelineDescriptorSlot) (out : List StageBuffers)
    (h : getDescriptorSlotMappings L gdo qsort uninit [] stages buffers mi off =
      .ok (merged, out))
    (hq : ∀ l, (qsort compareDescriptorSlots l).Perm l)
    (h32 : ∀ (s : Nat) (stage : Stage) (sh : GrShader), stages[s]? = some stage →
      stage.shader.shader = some sh →
      ∀ w ∈ matchedInMapping sh.bindings [] 0 (stage.shader.descriptorSetMapping.getD mi []),
        ∀ x ∈ w.1, x < 2 ^ 32)
    (s : Nat) (stage : Stage) (sh : GrShader) (hs : stages[s]? = some stage)
    (hsh : stage.shader.shader = some sh) (w : List Nat × Nat)
    (hw : w ∈ matchedInMapping sh.bindings [] 0
      (stage.shader.descriptorSetMapping.getD mi [])) :
    ∃ p, p < merged.length ∧ lookupDescriptorSetIndex merged w.1.length w.1 = p ∧
      setIndexOfRoute merged off w.1 = (off + p) % 2 ^ 32 := by
  unfold getDescriptorSlotMappings at h
  split at h
  · cases h
  · rename_i extracted buffers1 hex
    split at h
    · cases h
    · rename_i merged1 hm
      split at h
      · cases h
      · rename_i buffers2 hset
        simp only [Except.ok.injEq, Prod.mk.injEq] at h
        obtain ⟨rfl, rfl⟩ := h
        obtain ⟨_, h2, h3⟩ := extractStages_slots L gdo uninit mi stages 0 [] buffers
          extracted buffers1 hex
        have hwf : WellFormedSlots extracted := by
          intro x hx
          rcases h3 x hx with hin | ⟨k, stage1, sh1, w1, hk, hsh1, hw1, hxw⟩
          · cases hin
          · exact routeSlotPath_wf L w1 x hxw (h32 k stage1 sh1 hk hsh1 w1 hw1)
        obtain ⟨hwfm, hkeys⟩ := mergeDescriptorSlots_keeps_keys L qsort extracted merged1
          (hq extracted) hwf hm
        obtain ⟨x, hx, hxw⟩ := h2 s stage sh hs hsh w hw
        obtain ⟨m, hmm, hmk⟩ := hkeys x hx
        rw [routeSlotPath_key L w x hxw] at hmk
        obtain ⟨p, hp, hlt⟩ := positionOfPathKey_found merged1 w.1 ⟨m, hmm, hmk⟩
        have hl := lookup_eq_position merged1 w.1 hwfm (h32 s stage sh hs hsh w hw)
        rw [hp] at hl
        refine ⟨p, hlt, hl, ?_⟩
        unfold setIndexOfRoute
        rw [hl]
        rfl

/-! ## The loop over the mapping indices hands out consecutive ranges of set indices -/

theorem resolveMappings_counts_frame (env : CreateEnv) (grDevice : GrDevice)
    (stages : List Stage) (is : List Nat) :
    ∀ (r out : ResolvedMappings), resolveMappings env grDevice stages is r = .ok out →
      out.descriptorSetCounts.length = r.descriptorSetCounts.length ∧
      out.pipelineDescriptorSlots.length = r.pipelineDescriptorSlots.length ∧
      ∀ m, m ∉ is →
        out.descriptorSetCounts.getD m 0 = r.descriptorSetCounts.getD m 0 ∧
        out.pipelineDescriptorSlots.getD m none = r.pipelineDescriptorSlots.getD m none := by
  induction is with
  | nil =>
    intro r out h
    simp only [resolveMappings, Except.ok.injEq] at h
    subst h
    exact ⟨rfl, rfl, fun m _ => ⟨rfl, rfl⟩⟩
  | cons i rest ih =>
    intro r out h
    rw [resolveMappings] at h
    split at h
    · cases h
    · rename_i merged buffers hg
      obtain ⟨h1, h2, h3⟩ := ih _ out h
      simp only [List.length_set] at h1 h2
      refine ⟨h1, h2, ?_⟩
      intro m hm
      have hmi : i ≠ m := fun e => hm (by simp [e])
      obtain ⟨h4, h5⟩ := h3 m (fun hmem => hm (by simp [hmem]))
      rw [h4, h5]
      simp only [List.getD_eq_getElem?_getD]
      rw [List.getElem?_set_ne hmi, List.getElem?_set_ne hmi]
      exact ⟨rfl, rfl⟩

theorem resolveMappings_call (env : CreateEnv) (grDevice : GrDevice)
    (stages : List Stage) (is : List Nat) :
    ∀ (r out : ResolvedMappings), is.Nodup →
      (∀ i ∈ is, i < r.descriptorSetCounts.length ∧ i < r.pipelineDescriptorSlots.length) →
      resolveMappings env grDevice stages is r = .ok out →
      ∀ (t k : Nat), is[t]? = some k →
        ∃ buffers merged buffers1,
          getDescriptorSlotMappings env.L env.getDescriptorOffset env.qsort env.uninitPath []
            stages buffers k
            ((r.descriptorSetCount +
              ((is.take t).map (fun m => out.descriptorSetCounts.getD m 0)).sum +
              reservedBase env grDevice) % 2 ^ 32) = .ok (merged, buffers1) ∧
          merged.length = out.descriptorSetCounts.getD k 0 ∧
          out.pipelineDescriptorSlots.getD k none =
            (if merged = [] then none else some merged) := by
  induction is with
  | nil => intro r out _ _ _ t k hk; simp at hk
  | cons i rest ih =>
    intro r out hnd hlt h t k hk
    rw [resolveMappings] at h
    split at h
    · cases h
    · rename_i merged buffers hg
      have hi : i ∉ rest := (List.nodup_cons.1 hnd).1
      obtain ⟨hil, hil2⟩ := hlt i (by simp)
      obtain ⟨_, _, hfr⟩ := resolveMappings_counts_frame env grDevice stages rest _ out h
      obtain ⟨hc, hsl⟩ := hfr i hi
      have hci : out.descriptorSetCounts.getD i 0 = merged.length := by
        rw [hc]
        simp only [List.getD_eq_getElem?_getD]
        rw [List.getElem?_set_self hil]
        rfl
      have hsi : out.pipelineDescriptorSlots.getD i none =
          (if merged = [] then none else some merged) := by
        rw [hsl]
        simp only [List.getD_eq_getElem?_getD]
        rw [List.getElem?_set_self hil2]
        rfl
      cases t with
      | zero =>
        simp only [List.getElem?_cons_zero, Option.some.injEq] at hk
        subst hk
        refine ⟨r.buffers, merged, buffers, ?_, hci.symm, hsi⟩
        simp only [List.take_zero, List.map_nil, List.sum_nil, Nat.add_zero]
        exact hg
      | succ t =>
        simp only [List.getElem?_cons_succ] at hk
        obtain ⟨b, mg, b1, hcall, hlen, hslots⟩ := ih _ out (List.nodup_cons.1 hnd).2
          (fun j hj => by
            simp only [List.length_set]
            exact hlt j (by simp [hj])) h t k hk
        refine ⟨b, mg, b1, ?_, hlen, hslots⟩
        have hoff : ((r.descriptorSetCount + merged.length) % 2 ^ 32 +
              ((rest.take t).map (fun m => out.descriptorSetCounts.getD m 0)).sum +
              reservedBase env grDevice) % 2 ^ 32 =
            (r.descriptorSetCount +
              (((i :: rest).take (t + 1)).map
                (fun m => out.descriptorSetCounts.getD m 0)).sum +
              reservedBase env grDevice) % 2 ^ 32 := by
          simp only [List.take_succ_cons, List.map_cons, List.sum_cons, hci]
          omega
        rw [← hoff]
        exact hcall

theorem sum_range_succ_map (f : Nat → Nat) (n : Nat) :
    ((List.range (n + 1)).map f).sum = ((List.range n).map f).sum + f n := by
  rw [List.range_succ, List.map_append, List.sum_append]
  simp

theorem setRangeStart_succ (base : Nat) (counts : List Nat) (k : Nat) :
    setRangeStart base counts (k + 1) = setRangeStart base counts k + counts.getD k 0 := by
  unfold setRangeStart
  rw [sum_range_succ_map]
  omega

theorem setRangeStart_mono (base : Nat) (counts : List Nat) (k1 : Nat) :
    ∀ k2, k1 ≤ k2 → setRangeStart base counts k1 ≤ setRangeStart base counts k2 := by
  intro k2 h
  induction k2 with
  | zero =>
    have : k1 = 0 := by omega
    rw [this]
  | succ n ih =>
    rcases Nat.lt_or_ge k1 (n + 1) with hlt | hge
    · have := ih (by omega)
      rw [setRangeStart_succ]
      omega
    · have : k1 = n + 1 := by omega
      rw [this]

/-- C33: in the loop over the mapping indices of pipeline creation, with `B` the reserved
base set id and `c_m` the merged slot count of mapping index `m`, `qsort` permuting its
input, slot indices on routes being 32-bit values and `B` plus all counts staying below
`2 ^ 32`: the call of `getDescriptorSlotMappings` for mapping index `k` is made with the
offset `B + c_0 + ... + c_(k-1)` and returns `c_k` merged slots; for every match of every
stage under `k` the lookup of the merged slot finds a position `p` below `c_k` (never the
not-found value), and the set index that index assignment writes for the match is
`B + c_0 + ... + c_(k-1) + p`, inside the range of `k`; every write of
`setupDescriptorSetIndices` is such a write; the ranges of different mapping indices do
not overlap; and when `B` is 2 the range ends at or below the `setLayoutCount` of the
pipeline layout request. -/
theorem resolveStages_set_index_range (env : CreateEnv) (Y : BlobLayout)
    (grDevice : GrDevice) (stages : List Stage) (prepared : PreparedStages)
    (resolved : ResolvedMappings)
    (hr : resolveStages env Y grDevice stages = .ok (prepared, resolved))
    (hq : ∀ l, (env.qsort compareDescriptorSlots l).Perm l)
    (h32 : ∀ (mi s : Nat) (stage : Stage) (sh : GrShader), mi < Y.GR_MAX_DESCRIPTOR_SETS →
      stages[s]? = some stage → stage.shader.shader = some sh →
      ∀ w ∈ matchedInMapping sh.bindings [] 0 (stage.shader.descriptorSetMapping.getD mi []),
        ∀ x ∈ w.1, x < 2 ^ 32)
    (hfit : setRangeStart (reservedBase env grDevice) resolved.descriptorSetCounts
      Y.GR_MAX_DESCRIPTOR_SETS < 2 ^ 32)
    (k : Nat) (hk : k < Y.GR_MAX_DESCRIPTOR_SETS) :
    ∃ buffers merged out,
      getDescriptorSlotMappings env.L env.getDescriptorOffset env.qsort env.uninitPath []
          stages buffers k
          (setRangeStart (reservedBase env grDevice) resolved.descriptorSetCounts k) =
        .ok (merged, out) ∧
      merged.length = resolved.descriptorSetCounts.getD k 0 ∧
      resolved.pipelineDescriptorSlots.getD k none =
        (if merged = [] then none else some merged) ∧
      (∀ (s : Nat) (stage : Stage) (sh : GrShader), stages[s]? = some stage →
        stage.shader.shader = some sh →
        ∀ w ∈ matchedInMapping sh.bindings [] 0
            (stage.shader.descriptorSetMapping.getD k []),
          ∃ p, p < resolved.descriptorSetCounts.getD k 0 ∧
            lookupDescriptorSetIndex merged w.1.length w.1 = p ∧
            setIndexOfRoute merged
                (setRangeStart (reservedBase env grDevice) resolved.descriptorSetCounts k)
                w.1 =
              setRangeStart (reservedBase env grDevice) resolved.descriptorSetCounts k + p ∧
            setIndexOfRoute merged
                (setRangeStart (reservedBase env grDevice) resolved.descriptorSetCounts k)
                w.1 <
              setRangeStart (reservedBase env grDevice) resolved.descriptorSetCounts
                (k + 1)) ∧
      (∀ (bindings : List IlcBinding) (mapping : GR_DESCRIPTOR_SET_MAPPING)
        (st st1 : SetupState), st.path.length = env.L.MAX_PATH_DEPTH →
        setupDescriptorSetIndices env.L merged bindings
            (setRangeStart (reservedBase env grDevice) resolved.descriptorSetCounts k)
            mapping 0 st = .ok st1 →
        (st1.patchEntries, st1.descriptorSetIndices) =
          (matchedInMapping bindings [] 0 mapping).foldl
            (setupWrite merged bindings
              (setRangeStart (reservedBase env grDevice) resolved.descriptorSetCounts k))
            (st.patchEntries, st.descriptorSetIndices)) ∧
      (∀ k2, k < k2 →
        setRangeStart (reservedBase env grDevice) resolved.descriptorSetCounts (k + 1) ≤
          setRangeStart (reservedBase env grDevice) resolved.descriptorSetCounts k2) ∧
      (reservedBase env grDevice = 2 →
        setRangeStart (reservedBase env grDevice) resolved.descriptorSetCounts (k + 1) ≤
          (layoutCreateInfo Y grDevice (totalDescriptorSets Y resolved.descriptorSetCounts)
            VK_PIPELINE_BIND_POINT_GRAPHICS).setLayoutCount) := by
  unfold resolveStages at hr
  simp only at hr
  split at hr
  · cases hr
  · rename_i res hres
    simp only [Except.ok.injEq, Prod.mk.injEq] at hr
    obtain ⟨_, rfl⟩ := hr
    obtain ⟨buffers, merged, out, hcall, hlen, hslots⟩ :=
      resolveMappings_call env grDevice stages (List.range Y.GR_MAX_DESCRIPTOR_SETS) _ res
        (List.nodup_range _)
        (fun i hi => by
          simp only [List.length_replicate]
          exact ⟨List.mem_range.1 hi, List.mem_range.1 hi⟩)
        hres k k (by simp [List.getElem?_range hk])
    have hle := setRangeStart_mono (reservedBase env grDevice) res.descriptorSetCounts
      (k + 1) Y.GR_MAX_DESCRIPTOR_SETS (by omega)
    have hsucc := setRangeStart_succ (reservedBase env grDevice) res.descriptorSetCounts k
    have hoff : (0 + ((List.take k (List.range Y.GR_MAX_DESCRIPTOR_SETS)).map
          (fun m => res.descriptorSetCounts.getD m 0)).sum + reservedBase env grDevice) %
        2 ^ 32 = setRangeStart (reservedBase env grDevice) res.descriptorSetCounts k := by
      rw [List.take_range, Nat.min_eq_left (by omega)]
      have hfit1 := hfit
      unfold setRangeStart at hle hsucc hfit1 ⊢
      rw [Nat.mod_eq_of_lt (by omega)]
      omega
    simp only at hcall
    rw [hoff] at hcall
    refine ⟨buffers, merged, out, hcall, hlen, hslots, ?_, ?_, ?_, ?_⟩
    · intro s stage sh hs hsh w hw
      obtain ⟨p, hp, hl, hv⟩ := getDescriptorSlotMappings_lookup env.L env.getDescriptorOffset
        env.qsort env.uninitPath stages buffers k _ merged out hcall hq
        (fun s1 stage1 sh1 h1 h2 => h32 k s1 stage1 sh1 hk h1 h2) s stage sh hs hsh w hw
      rw [hlen] at hp
      have hv2 : setIndexOfRoute merged
          (setRangeStart (reservedBase env grDevice) res.descriptorSetCounts k) w.1 =
          setRangeStart (reservedBase env grDevice) res.descriptorSetCounts k + p := by
        rw [hv, Nat.mod_eq_of_lt (by omega)]
      exact ⟨p, hp, hl, hv2, by rw [hv2]; omega⟩
    · intro bindings mapping st st1 hpath h
      have := (setupSlots_spec env.L merged bindings _ mapping 0 0 st st1 hpath
        (Nat.zero_le _) h).2.2
      simpa using this
    · intro k2 hk2
      exact setRangeStart_mono _ _ _ _ (by omega)
    · intro hB
      unfold layoutCreateInfo
      simp only
      have hsum : ((List.range Y.GR_MAX_DESCRIPTOR_SETS).map
          (fun i => res.descriptorSetCounts.getD i 0)).sum < 2 ^ 32 := by
        unfold setRangeStart at hfit
        omega
      rw [totalDescriptorSets_eq_sum Y _ hsum]
      unfold setRangeStart at hle hfit ⊢
      rw [hB] at hle hfit ⊢
      rw [Nat.mod_eq_of_lt (by omega)]
      omega

/-- Witness for C33: a vertex shader with one binding named by slot 0 of mapping 0; mapping
index 0 has one merged slot, the call is made with offset 2, and the range of mapping
index 0 ends at 3. -/
theorem resolveStages_set_index_range_witness :
    ∃ prepared resolved buffers merged out,
      resolveStages exampleEnv exampleLayout exampleDevice
          [{ shader := exampleMixedShader, flags := VK_SHADER_STAGE_VERTEX_BIT }] =
        .ok (prepared, resolved) ∧
      getDescriptorSlotMappings exampleEnv.L exampleEnv.getDescriptorOffset exampleEnv.qsort
          exampleEnv.uninitPath []
          [{ shader := exampleMixedShader, flags := VK_SHADER_STAGE_VERTEX_BIT }] buffers 0
          (setRangeStart (reservedBase exampleEnv exampleDevice)
            resolved.descriptorSetCounts 0) = .ok (merged, out) ∧
      merged.length = resolved.descriptorSetCounts.getD 0 0 ∧
      setRangeStart (reservedBase exampleEnv exampleDevice) resolved.descriptorSetCounts 0 =
        2 ∧
      setRangeStart (reservedBase exampleEnv exampleDevice) resolved.descriptorSetCounts 1 =
        3 := by
  have h := resolveStages_set_index_range exampleEnv exampleLayout exampleDevice
    [{ shader := exampleMixedShader, flags := VK_SHADER_STAGE_VERTEX_BIT }] _ _ rfl
    (fun l => List.perm_insertionSort _ l)
    (by
      intro mi s stage sh hmi hs hsh
      have hs2 : s < 1 := by
        by_contra hge
        rw [List.getElem?_eq_none (by simp; omega)] at hs
        cases hs
      have hmi2 : mi < 2 := hmi
      interval_cases mi <;> interval_cases s <;>
        (simp only [List.getElem?_cons_zero, Option.some.injEq] at hs
         subst hs
         cases hsh
         decide))
    (by decide) 0 (by decide)
  obtain ⟨buffers, merged, out, h1, h2, _⟩ := h
  exact ⟨_, _, buffers, merged, out, rfl, h1, h2, by decide, by decide⟩

/-! ## A run of the model that accepts a blob stays inside the per-stage arrays -/

theorem createStageModules_bound (Y : BlobLayout) (native : NativeApi) :
    ∀ (n i : Nat) (st st1 : LoadState), i ≤ Y.MAX_STAGE_COUNT →
      createStageModules Y native i n st = .ok (.next st1) → i + n ≤ Y.MAX_STAGE_COUNT := by
  intro n
  induction n with
  | zero => intro i st st1 hi h; omega
  | succ n ih =>
    intro i st st1 _ h
    rw [createStageModules] at h
    split at h
    · cases h
    · rename_i hi
      split at h
      · cases h
      · split at h
        · cases h
        · split at h
          · cases h
          · have := ih (i + 1) _ st1 (by omega) h
            omega

/-- When the model of `grLoadPipeline` accepts a blob without a fault, the stage count that
the second pass left is at most `MAX_STAGE_COUNT`: an access outside a per-stage array is a
fault of the model. -/
theorem finishLoad_stageCount_le (Y : BlobLayout) (native : NativeApi) (grDevice : GrDevice)
    (st : LoadState) (p : GrPipeline) (a : Nat)
    (h : finishLoad Y native grDevice st = .ok ⟨GR_SUCCESS, some p, a⟩) :
    st.stageCount ≤ Y.MAX_STAGE_COUNT := by
  unfold finishLoad at h
  simp only at h
  split at h
  · cases h
  · cases h
  · split at h
    · cases h
    · cases h
    · rename_i st1 hc
      have := createStageModules_bound Y native _ _ _ _ (Nat.zero_le _) hc
      omega

/-! ## The create flags and the layout request of a loaded pipeline -/

theorem createStageModules_head (Y : BlobLayout) (native : NativeApi) :
    ∀ (n i : Nat) (st st1 : LoadState),
      createStageModules Y native i n st = .ok (.next st1) →
      st1.pipelineCreateFlags = st.pipelineCreateFlags ∧
        st1.descriptorSetCounts = st.descriptorSetCounts := by
  intro n
  induction n with
  | zero =>
    intro i st st1 h
    rw [createStageModules] at h
    cases h
    exact ⟨rfl, rfl⟩
  | succ n ih =>
    intro i st st1 h
    rw [createStageModules] at h
    split at h
    · cases h
    · split at h
      · cases h
      · split at h
        · cases h
        · split at h
          · cases h
          · obtain ⟨h1, h2⟩ := ih (i + 1) _ st1 h
            rw [h1, h2]
            cases st.createInfo <;> exact ⟨rfl, rfl⟩

/-- The pipeline that `grLoadPipeline` returns takes its `createFlags` from the
`PIPELINE_INFO` chunk as they are, and its layout from a request for the compute bind
point. -/
theorem finishLoad_fields (Y : BlobLayout) (native : NativeApi) (grDevice : GrDevice)
    (st : LoadState) (p : GrPipeline) (a : Nat)
    (h : finishLoad Y native grDevice st = .ok ⟨GR_SUCCESS, some p, a⟩) :
    p.createFlags = st.pipelineCreateFlags ∧
      p.pipelineLayout = native.vkCreatePipelineLayout
        (layoutCreateInfo Y grDevice (totalDescriptorSets Y st.descriptorSetCounts)
          VK_PIPELINE_BIND_POINT_COMPUTE) := by
  unfold finishLoad at h
  simp only at h
  split at h
  · cases h
  · cases h
  · split at h
    · cases h
    · cases h
    · rename_i st1 hc
      obtain ⟨h1, h2⟩ := createStageModules_head Y native _ _ _ _ hc
      split at h
      · cases h
      · cases h
      · rename_i layout hl
        have hreq : native.vkCreatePipelineLayout
            (layoutCreateInfo Y grDevice (totalDescriptorSets Y st.descriptorSetCounts)
              VK_PIPELINE_BIND_POINT_COMPUTE) = some layout := by
          rw [← h2]
          unfold getVkPipelineLayout at hl
          simp only at hl
          split at hl
          · cases hl
          · simp only [Except.ok.injEq] at hl
            rw [← hl]
            rfl
        split at h
        · cases h
        · simp only [Except.ok.injEq, LoadResult.mk.injEq, Option.some.injEq, true_and] at h
          obtain ⟨hp, _⟩ := h
          rw [← hp]
          exact ⟨h1, hreq.symm⟩

/-- The pipeline loaded from the stored form of a created pipeline `p` has the create
flags of `p` without `VK_PIPELINE_CREATE_DESCRIPTOR_BUFFER_BIT_EXT`, on every device. -/
theorem grLoadPipeline_stored_createFlags (Y : BlobLayout) (native : NativeApi)
    (grDevice : GrDevice) (p : GrPipeline)
    (hB : 0 < Y.sizeofGrBaseBlobChunk) (hInfo : 0 < Y.sizeofGrPipelineInfoChunk)
    (hwide : 32 ≤ Y.sizeBits)
    (hc : CreatedPipeline Y p) (hnat : NativeSucceeds native)
    (hsmall : idealSize Y (storedChunks Y p) + 3 < 2 ^ 32) :
    ∃ p1 a, p1.createFlags = p.createFlags &&& 0xDFFFFFFF ∧
      ∀ buf : GrStoredPipelineBlob,
        grLoadPipeline Y native grDevice (idealSize Y (storedChunks Y p))
            (some (emitAll Y (storedChunks Y p)
              ({ buf with version := 0 }, Y.sizeofGrStoredPipelineBlob)).1) =
          .ok ⟨GR_SUCCESS, some p1, a⟩ := by
  have hcap : ((List.range Y.GR_MAX_DESCRIPTOR_SETS).map
      (fun i => p.descriptorSetCounts.getD i 0)).sum < 2 ^ 32 := by
    have := hc.2.2.2.2
    omega
  have hge := idealSize_storedChunks_ge Y p
  obtain ⟨st, e, hh, hs⟩ := load_storedChunks Y p hcap (codeSize_small Y p hsmall)
  obtain ⟨p1, a, e1, _⟩ := finishLoad_stored Y native grDevice p st hc hnat hh hs
  refine ⟨p1, a, ?_, fun buf => ?_⟩
  · rw [(finishLoad_fields Y native grDevice st p1 a e1).1]
    exact hh.2.2.2.1
  · obtain ⟨v, l⟩ := loops_emitted Y { buf with version := 0 } (storedChunks Y p) hB hwide
      hsmall (storedChunks_sound Y p hcap)
    unfold grLoadPipeline
    rw [if_neg (by omega)]
    simp only [v, l, e]
    exact e1

end Grvk
